import Mathlib

/-!
Chassis grouping of libibnetdisc (`src/libibnetdisc/src/chassis.c`):
a shallow embedding of `chassis.c` and a verification of its specification.

Layout of the embedding.  The C code works on three kinds of heap records
(`ibnd_node_t`, `ibnd_port_t`, `ibnd_chassis_t`) that point at each other.
Records are addressed here by natural-number identifiers; a C pointer that may
be `NULL` is an `Option`.

* `Graph` holds every field that `chassis.c` only reads (the discovered
  topology): node guid, type, number of ports, the `info` fields obtained with
  `mad_get_field` / `mad_get_field64`, the `ports` array, the port number, the
  remote port, the owner of a port, and the per-distance node lists.
* `St` holds every field that `chassis.c` writes: the chassis classification
  of a node, the external port number of a port, and the list of chassis.

Fatal exits (`IBPANIC`), a dereference of a `NULL` pointer and a read outside a
static table are values of `Err`; a function that can take one of them returns
`Except Err _`.
-/

namespace Ibnd

/-! ## Errors, constants and records -/

/-- Ways in which a run of the code ends without returning. `unexpectedNode` and
`internalError` are the two `IBPANIC` messages of the file; `nullDeref` is a read
through a `NULL` pointer; `outOfBounds` is a read outside an array; `outOfFuel`
is not a behaviour of the code: it marks that the step budget given to the one
unbounded loop of the model was used up. -/
inductive Err where
  | unexpectedNode
  | internalError
  | nullDeref
  | outOfBounds
  | outOfFuel
deriving DecidableEq, Repr

abbrev NodeId := Nat
abbrev PortId := Nat
abbrev ChassisId := Nat

/-- Constants that `chassis.c` takes from headers that are not part of the
source tree (`chassis.h`, `internal.h`, `infiniband/mad.h`).  Every function of
the embedding that uses one of them takes the record as its first argument. -/
structure Config where
  VTR_VENDOR_ID : Nat
  TS_VENDOR_ID : Nat
  SS_VENDOR_ID : Nat
  XS_VENDOR_ID : Nat
  VTR_DEVID_IB_FC_ROUTER : Nat
  VTR_DEVID_IB_IP_ROUTER : Nat
  VTR_DEVID_SFB4 : Nat
  VTR_DEVID_SFB4_DDR : Nat
  VTR_DEVID_SFB12 : Nat
  VTR_DEVID_SFB12_DDR : Nat
  VTR_DEVID_SFB2004 : Nat
  VTR_DEVID_SFB2012 : Nat
  VTR_DEVID_SLB24 : Nat
  VTR_DEVID_SLB24_DDR : Nat
  VTR_DEVID_SRB2004 : Nat
  VTR_DEVID_SLB8 : Nat
  VTR_DEVID_SLB2024 : Nat
  IB_NODE_SWITCH : Nat
  LINES_MAX_NUM : Nat
  SPINES_MAX_NUM : Nat
  MAXHOPS : Nat

/-- The values the constants have in the upstream headers; used for the concrete
runs only, no general theorem depends on them. -/
def stdConfig : Config where
  VTR_VENDOR_ID := 0x8f1
  TS_VENDOR_ID := 0x5ad
  SS_VENDOR_ID := 0x66a
  XS_VENDOR_ID := 0x1397
  VTR_DEVID_IB_FC_ROUTER := 0x5a00
  VTR_DEVID_IB_IP_ROUTER := 0x5a01
  VTR_DEVID_SFB4 := 0x5a0b
  VTR_DEVID_SFB4_DDR := 0x5a33
  VTR_DEVID_SFB12 := 0x5a08
  VTR_DEVID_SFB12_DDR := 0x5a32
  VTR_DEVID_SFB2004 := 0x5a40
  VTR_DEVID_SFB2012 := 0x5a37
  VTR_DEVID_SLB24 := 0x5a09
  VTR_DEVID_SLB24_DDR := 0x5a34
  VTR_DEVID_SRB2004 := 0x5a42
  VTR_DEVID_SLB8 := 0x5a0d
  VTR_DEVID_SLB2024 := 0x5a38
  IB_NODE_SWITCH := 2
  LINES_MAX_NUM := 36
  SPINES_MAX_NUM := 12
  MAXHOPS := 63

/-! The two enumerations.  Their order is fixed by the string tables
`ChassisTypeStr = { "", "ISR9288", "ISR9096", "ISR2012", "ISR2004" }` and
`ChassisSlotTypeStr = { "", "Line", "Spine", "SRBD" }` that they index. -/

def UNRESOLVED_CT : Nat := 0
def ISR9288_CT : Nat := 1
def ISR9096_CT : Nat := 2
def ISR2012_CT : Nat := 3
def ISR2004_CT : Nat := 4

def UNRESOLVED_CS : Nat := 0
def LINE_CS : Nat := 1
def SPINE_CS : Nat := 2
def SRBD_CS : Nat := 3

/-- Modelled from the spec: `ibnd_node_t` is declared in a header that is not in
the source tree; the fields are the ones `chassis.c` reads and the data model
lists.  This is the read-only part of the record.  `vendid`, `devid` and `sysimgguid` are
what `mad_get_field(node->info, 0, IB_NODE_VENDORID_F)`,
`mad_get_field(.., IB_NODE_DEVID_F)` and
`mad_get_field64(.., IB_NODE_SYSTEM_GUID_F)` return.  `ports` is the pointer to
the array of port pointers, indexed by port number. -/
structure NodeInfo where
  guid : Nat
  type : Nat
  numports : Nat
  vendid : Nat
  devid : Nat
  sysimgguid : Nat
  ports : Option (Nat → Option PortId)

/-- Modelled from the spec: `ibnd_port_t` is declared in a header that is not in
the source tree.  This is its read-only part: owning node, port number and the port
at the other end of the link. -/
structure PortInfo where
  node : NodeId
  portnum : Nat
  remoteport : Option PortId

/-- The discovered fabric as `chassis.c` reads it.  `nodesdist d` is the linked
list `fabric->nodesdist[d]` chained by `dnext`. -/
structure Graph where
  node : NodeId → NodeInfo
  port : PortId → PortInfo
  nodesdist : Nat → List NodeId
  maxhops_discovered : Nat

/-- Modelled from the spec: the part of a node record (`ibnd_node_t` and the
internal `struct ibnd_node`, both declared in headers that are not in the source
tree) that `chassis.c` writes.  `ch_found` is the processed flag, which the code
only sets to 1 and tests for zero. -/
structure NodeSt where
  chassis : Option ChassisId
  next_chassis_node : Option NodeId
  ch_type : Nat
  ch_anafanum : Nat
  ch_slotnum : Nat
  ch_slot : Nat
  ch_found : Bool

/-- Modelled from the spec: `ibnd_chassis_t` is declared in a header that is
not in the source tree.  The fields are the ones `chassis.c` uses; the chassis
number and the node count are counters without a storage width, as the data
model describes them.  `spinenode` and `linenode` are the two slot arrays and
`nodes` is the head of the membership list chained by `next_chassis_node`. -/
structure Chassis where
  chassisguid : Nat
  chassisnum : Nat
  nodecount : Nat
  nodes : Option NodeId
  spinenode : Nat → Option NodeId
  linenode : Nat → Option NodeId

/-- What `calloc` returns for a chassis. -/
def Chassis.zero : Chassis where
  chassisguid := 0
  chassisnum := 0
  nodecount := 0
  nodes := none
  spinenode := fun _ => none
  linenode := fun _ => none

/-- The mutable state.  The chassis list `first_chassis → next → ...` is
`chassis 0, ..., chassis (nchassis - 1)`; `current_chassis` and `last_chassis`
are its last element. -/
structure St where
  node : NodeId → NodeSt
  ext_portnum : PortId → Nat
  chassis : ChassisId → Chassis
  nchassis : Nat

/-- A node as the discovery leaves it: zeroed chassis fields. -/
def NodeSt.zero : NodeSt where
  chassis := none
  next_chassis_node := none
  ch_type := 0
  ch_anafanum := 0
  ch_slotnum := 0
  ch_slot := 0
  ch_found := false

/-- The state before the first grouping run. -/
def St.init : St where
  node := fun _ => NodeSt.zero
  ext_portnum := fun _ => 0
  chassis := fun _ => Chassis.zero
  nchassis := 0

/-- Pointwise update of a table of records. -/
def upd {α : Type} (f : Nat → α) (a : Nat) (v : α) : Nat → α :=
  fun x => if x = a then v else f x

def St.modNode (s : St) (n : NodeId) (f : NodeSt → NodeSt) : St :=
  { s with node := upd s.node n (f (s.node n)) }

def St.modChassis (s : St) (c : ChassisId) (f : Chassis → Chassis) : St :=
  { s with chassis := upd s.chassis c (f (s.chassis c)) }

/-- A loop over a finite sequence whose body may fail. -/
def loopE {σ α : Type} (f : σ → α → Except Err σ) : List α → σ → Except Err σ
  | [], s => .ok s
  | a :: as, s =>
    match f s a with
    | .ok s1 => loopE f as s1
    | .error e => .error e

/-- The port numbers `1, ..., n` of `for (p = 1; p <= n; p++)`. -/
def upto (n : Nat) : List Nat := List.range' 1 n

/-- The value of `node->ports[p]`; reading through a `NULL` array is a fault. -/
def port_at (g : Graph) (node : NodeId) (p : Nat) : Except Err (Option PortId) :=
  match (g.node node).ports with
  | none => .error .nullDeref
  | some ps => .ok (ps p)

/-- A read `t[i]` of a static table. -/
def tbl (t : List Nat) (i : Nat) : Except Err Nat :=
  match t[i]? with
  | some v => .ok v
  | none => .error .outOfBounds

/-! ## Chassis identity (lines 87-225) -/

def find_chassisnum (s : St) (chassisnum : Nat) : Option ChassisId :=
  (List.range s.nchassis).find? (fun c => (s.chassis c).chassisnum == chassisnum)

def topspin_chassisguid (guid : Nat) : Nat :=
  guid &&& 0xffffffff00ffffff

def ibnd_is_xsigo_guid (guid : Nat) : Bool :=
  (guid &&& 0xffffff0000000000) == 0x0013970000000000

def is_xsigo_leafone (guid : Nat) : Bool :=
  (guid &&& 0xffffffffff000000) == 0x0013970102000000

def ibnd_is_xsigo_hca (guid : Nat) : Bool :=
  (guid &&& 0xffffffff00000000) == 0x0013970200000000

def ibnd_is_xsigo_tca (guid : Nat) : Bool :=
  (guid &&& 0xffffffff00000000) == 0x0013970300000000

def is_xsigo_ca (guid : Nat) : Bool :=
  ibnd_is_xsigo_hca guid || ibnd_is_xsigo_tca guid

def is_xsigo_switch (guid : Nat) : Bool :=
  (guid &&& 0xffffffff00000000) == 0x0013970100000000

def xsigo_chassisguid (g : Graph) (node : NodeId) : Nat :=
  let sysimgguid := (g.node node).sysimgguid
  if !is_xsigo_ca sysimgguid then
    if is_xsigo_switch sysimgguid then sysimgguid &&& 0xffffffff00ffffff
    else sysimgguid
  else
    match (g.node node).ports with
    | none => 0
    | some ports =>
      match ports 1 with
      | none => 0
      | some p1 =>
        match (g.port p1).remoteport with
        | none => sysimgguid
        | some rp =>
          let remote_sysimgguid := (g.node (g.port rp).node).sysimgguid
          if is_xsigo_leafone remote_sysimgguid then
            remote_sysimgguid &&& 0xffffffff00ffffff
          else sysimgguid

def get_chassisguid (K : Config) (g : Graph) (node : NodeId) : Nat :=
  let vendid := (g.node node).vendid
  let sysimgguid := (g.node node).sysimgguid
  if vendid = K.TS_VENDOR_ID ∨ vendid = K.SS_VENDOR_ID then
    topspin_chassisguid sysimgguid
  else if vendid = K.XS_VENDOR_ID ∨ ibnd_is_xsigo_guid sysimgguid = true then
    xsigo_chassisguid g node
  else sysimgguid

def find_chassisguid (K : Config) (g : Graph) (s : St) (node : NodeId) : Option ChassisId :=
  let chguid := get_chassisguid K g node
  (List.range s.nchassis).find? (fun c => (s.chassis c).chassisguid == chguid)

def ibnd_get_chassis_guid (s : St) (chassisnum : Nat) : Nat :=
  match find_chassisnum s chassisnum with
  | some c => (s.chassis c).chassisguid
  | none => 0

/-! ## Classification by device id (lines 227-294) -/

def is_router (K : Config) (g : Graph) (n : NodeId) : Bool :=
  let devid := (g.node n).devid
  devid == K.VTR_DEVID_IB_FC_ROUTER || devid == K.VTR_DEVID_IB_IP_ROUTER

def is_spine_9096 (K : Config) (g : Graph) (n : NodeId) : Bool :=
  let devid := (g.node n).devid
  devid == K.VTR_DEVID_SFB4 || devid == K.VTR_DEVID_SFB4_DDR

def is_spine_9288 (K : Config) (g : Graph) (n : NodeId) : Bool :=
  let devid := (g.node n).devid
  devid == K.VTR_DEVID_SFB12 || devid == K.VTR_DEVID_SFB12_DDR

def is_spine_2004 (K : Config) (g : Graph) (n : NodeId) : Bool :=
  (g.node n).devid == K.VTR_DEVID_SFB2004

def is_spine_2012 (K : Config) (g : Graph) (n : NodeId) : Bool :=
  (g.node n).devid == K.VTR_DEVID_SFB2012

def is_spine (K : Config) (g : Graph) (n : NodeId) : Bool :=
  is_spine_9096 K g n || is_spine_9288 K g n || is_spine_2004 K g n || is_spine_2012 K g n

def is_line_24 (K : Config) (g : Graph) (n : NodeId) : Bool :=
  let devid := (g.node n).devid
  devid == K.VTR_DEVID_SLB24 || devid == K.VTR_DEVID_SLB24_DDR || devid == K.VTR_DEVID_SRB2004

def is_line_8 (K : Config) (g : Graph) (n : NodeId) : Bool :=
  (g.node n).devid == K.VTR_DEVID_SLB8

def is_line_2024 (K : Config) (g : Graph) (n : NodeId) : Bool :=
  (g.node n).devid == K.VTR_DEVID_SLB2024

def is_line (K : Config) (g : Graph) (n : NodeId) : Bool :=
  is_line_24 K g n || is_line_8 K g n || is_line_2024 K g n

def is_chassis_switch (K : Config) (g : Graph) (n : NodeId) : Bool :=
  is_spine K g n || is_line K g n

/-! ## Wiring tables (lines 296-310) -/

def line_slot_2_sfb4 : List Nat :=
  [0, 1, 1, 1, 1, 1, 1, 2, 2, 2, 2, 2, 2, 3, 3, 3, 3, 3, 3, 4, 4, 4, 4, 4, 4]
def anafa_line_slot_2_sfb4 : List Nat :=
  [0, 1, 1, 1, 2, 2, 2, 1, 1, 1, 2, 2, 2, 1, 1, 1, 2, 2, 2, 1, 1, 1, 2, 2, 2]
def line_slot_2_sfb12 : List Nat :=
  [0, 1, 1, 2, 2, 3, 3, 4, 4, 5, 5, 6, 6] ++ [7, 7, 8, 8, 9, 9, 10, 10, 11, 11, 12, 12]
def anafa_line_slot_2_sfb12 : List Nat :=
  [0, 1, 2, 1, 2, 1, 2, 1, 2, 1, 2, 1, 2, 1, 2, 1, 2, 1, 2, 1, 2, 1, 2, 1, 2]

def ipr_slot_2_sfb4_port : List Nat :=
  [0, 3, 2, 1, 3, 2, 1, 3, 2, 1, 3, 2, 1, 3, 2, 1, 3, 2, 1, 3, 2, 1, 3, 2, 1]

def spine12_slot_2_slb : List Nat :=
  [0, 1, 1, 1, 2, 2, 2, 3, 3, 3, 4, 4, 4, 0, 0, 0, 0, 0, 0, 0, 0, 0, 0, 0, 0]
def anafa_spine12_slot_2_slb : List Nat :=
  [0, 1, 2, 3, 1, 2, 3, 1, 2, 3, 1, 2, 3, 0, 0, 0, 0, 0, 0, 0, 0, 0, 0, 0, 0]
def spine4_slot_2_slb : List Nat :=
  [0, 1, 1, 1, 2, 2, 2, 3, 3, 3, 4, 4, 4, 0, 0, 0, 0, 0, 0, 0, 0, 0, 0, 0, 0]
def anafa_spine4_slot_2_slb : List Nat :=
  [0, 1, 1, 1, 1, 1, 1, 1, 1, 1, 1, 1, 1, 0, 0, 0, 0, 0, 0, 0, 0, 0, 0, 0, 0]

/-! ## Slot tagging (lines 312-402) -/

/-- The four assignments `ch_slot`, `ch_type`, `ch_slotnum`, `ch_anafanum` that
each branch of the three `get_*_slot` functions makes. -/
def St.tag (s : St) (n : NodeId) (slot type slotnum anafanum : Nat) : St :=
  s.modNode n fun r =>
    { r with ch_slot := slot, ch_type := type, ch_slotnum := slotnum, ch_anafanum := anafanum }

def get_sfb_slot (K : Config) (g : Graph) (s : St) (node : NodeId) (lineport : PortId) :
    Except Err St :=
  let portnum := (g.port lineport).portnum
  if is_spine_9096 K g node then
    match tbl spine4_slot_2_slb portnum, tbl anafa_spine4_slot_2_slb portnum with
    | .ok sl, .ok an => .ok (s.tag node SPINE_CS ISR9096_CT sl an)
    | _, _ => .error .outOfBounds
  else if is_spine_9288 K g node then
    match tbl spine12_slot_2_slb portnum, tbl anafa_spine12_slot_2_slb portnum with
    | .ok sl, .ok an => .ok (s.tag node SPINE_CS ISR9288_CT sl an)
    | _, _ => .error .outOfBounds
  else if is_spine_2012 K g node then
    match tbl spine12_slot_2_slb portnum, tbl anafa_spine12_slot_2_slb portnum with
    | .ok sl, .ok an => .ok (s.tag node SPINE_CS ISR2012_CT sl an)
    | _, _ => .error .outOfBounds
  else if is_spine_2004 K g node then
    match tbl spine4_slot_2_slb portnum, tbl anafa_spine4_slot_2_slb portnum with
    | .ok sl, .ok an => .ok (s.tag node SPINE_CS ISR2004_CT sl an)
    | _, _ => .error .outOfBounds
  else .error .unexpectedNode

/-- The sub-chip guess `(guessnum == 3 ? 1 : (guessnum == 1 ? 3 : 2))` with
`guessnum = spineport->node->guid % 4`. -/
def guess_anafa (guid : Nat) : Nat :=
  let guessnum := guid % 4
  if guessnum = 3 then 1 else if guessnum = 1 then 3 else 2

def get_router_slot (K : Config) (g : Graph) (s : St) (node : NodeId) (spineport : PortId) :
    Except Err St :=
  let s := s.modNode node fun r => { r with ch_found := true }
  let portnum := (g.port spineport).portnum
  let spine := (g.port spineport).node
  if is_spine_9096 K g spine then
    match tbl line_slot_2_sfb4 portnum, tbl ipr_slot_2_sfb4_port portnum with
    | .ok sl, .ok an => .ok (s.tag node SRBD_CS ISR9096_CT sl an)
    | _, _ => .error .outOfBounds
  else if is_spine_9288 K g spine then
    match tbl line_slot_2_sfb12 portnum with
    | .ok sl => .ok (s.tag node SRBD_CS ISR9288_CT sl (guess_anafa (g.node spine).guid))
    | .error e => .error e
  else if is_spine_2012 K g spine then
    match tbl line_slot_2_sfb12 portnum with
    | .ok sl => .ok (s.tag node SRBD_CS ISR2012_CT sl (guess_anafa (g.node spine).guid))
    | .error e => .error e
  else if is_spine_2004 K g spine then
    match tbl line_slot_2_sfb4 portnum, tbl ipr_slot_2_sfb4_port portnum with
    | .ok sl, .ok an => .ok (s.tag node SRBD_CS ISR2004_CT sl an)
    | _, _ => .error .outOfBounds
  else .error .unexpectedNode

def get_slb_slot (K : Config) (g : Graph) (s : St) (n : NodeId) (spineport : PortId) :
    Except Err St :=
  let portnum := (g.port spineport).portnum
  let spine := (g.port spineport).node
  if is_spine_9096 K g spine then
    match tbl line_slot_2_sfb4 portnum, tbl anafa_line_slot_2_sfb4 portnum with
    | .ok sl, .ok an => .ok (s.tag n LINE_CS ISR9096_CT sl an)
    | _, _ => .error .outOfBounds
  else if is_spine_9288 K g spine then
    match tbl line_slot_2_sfb12 portnum, tbl anafa_line_slot_2_sfb12 portnum with
    | .ok sl, .ok an => .ok (s.tag n LINE_CS ISR9288_CT sl an)
    | _, _ => .error .outOfBounds
  else if is_spine_2012 K g spine then
    match tbl line_slot_2_sfb12 portnum, tbl anafa_line_slot_2_sfb12 portnum with
    | .ok sl, .ok an => .ok (s.tag n LINE_CS ISR2012_CT sl an)
    | _, _ => .error .outOfBounds
  else if is_spine_2004 K g spine then
    match tbl line_slot_2_sfb4 portnum, tbl anafa_line_slot_2_sfb4 portnum with
    | .ok sl, .ok an => .ok (s.tag n LINE_CS ISR2004_CT sl an)
    | _, _ => .error .outOfBounds
  else .error .unexpectedNode

/-! ## Internal to external port mapping (lines 670-711) -/

def int2ext_map_slb24 : List (List Nat) :=
  [[0, 0, 0, 0, 0, 0, 0, 0, 0, 0, 0, 0, 0, 6, 5, 4, 18, 17, 16, 1, 2, 3, 13, 14, 15],
   [0, 0, 0, 0, 0, 0, 0, 0, 0, 0, 0, 0, 0, 12, 11, 10, 24, 23, 22, 7, 8, 9, 19, 20, 21]]
def int2ext_map_slb8 : List (List Nat) :=
  [[0, 0, 0, 0, 0, 0, 0, 0, 0, 0, 0, 0, 0, 2, 2, 2, 6, 6, 6, 1, 1, 1, 5, 5, 5],
   [0, 0, 0, 0, 0, 0, 0, 0, 0, 0, 0, 0, 0, 4, 4, 4, 8, 8, 8, 3, 3, 3, 7, 7, 7]]
def int2ext_map_slb2024 : List (List Nat) :=
  [[0, 0, 0, 0, 0, 0, 0, 0, 0, 0, 0, 0, 0, 13, 14, 15, 16, 17, 18, 19, 20, 21, 22, 23, 24],
   [0, 0, 0, 0, 0, 0, 0, 0, 0, 0, 0, 0, 0, 1, 2, 3, 4, 5, 6, 7, 8, 9, 10, 11, 12]]

/-- The read `t[chipnum][portnum]` of a port map.  `voltaire_portmap` reaches
it with `chipnum` in `0..1` and `portnum` in `13..24` only, which lie inside the
table, so the default is never returned there. -/
def tbl2 (t : List (List Nat)) (chipnum portnum : Nat) : Nat :=
  (t.getD chipnum []).getD portnum 0

def St.set_ext_portnum (s : St) (port : PortId) (v : Nat) : St :=
  { s with ext_portnum := upd s.ext_portnum port v }

def voltaire_portmap (K : Config) (g : Graph) (s : St) (port : PortId) : St :=
  let node := (g.port port).node
  let portnum := (g.port port).portnum
  if !(s.node node).ch_found || !is_line K g node || (portnum < 13 || portnum > 24) then
    s.set_ext_portnum port 0
  else if (s.node node).ch_anafanum < 1 || (s.node node).ch_anafanum > 2 then
    s.set_ext_portnum port 0
  else
    let chipnum := (s.node node).ch_anafanum - 1
    if is_line_24 K g node then
      s.set_ext_portnum port (tbl2 int2ext_map_slb24 chipnum portnum)
    else if is_line_2024 K g node then
      s.set_ext_portnum port (tbl2 int2ext_map_slb2024 chipnum portnum)
    else
      s.set_ext_portnum port (tbl2 int2ext_map_slb8 chipnum portnum)

/-! ## Tagging of one Voltaire node (lines 411-470) -/

/-- One turn of the loop of the router branch:
`if (port && is_spine(port->remoteport->node)) get_router_slot(node, port->remoteport)`.
The remote port is read without a test. -/
def fill_router_step (K : Config) (g : Graph) (node : NodeId) (s : St) (p : Nat) :
    Except Err St :=
  match port_at g node p with
  | .error e => .error e
  | .ok none => .ok s
  | .ok (some port) =>
    match (g.port port).remoteport with
    | none => .error .nullDeref
    | some rp =>
      if is_spine K g (g.port rp).node then get_router_slot K g s node rp
      else .ok s

/-- One turn of the loop of the spine branch. -/
def fill_spine_step (K : Config) (g : Graph) (node : NodeId) (s : St) (p : Nat) :
    Except Err St :=
  match port_at g node p with
  | .error e => .error e
  | .ok none => .ok s
  | .ok (some port) =>
    match (g.port port).remoteport with
    | none => .ok s
    | some rp =>
      let remnode := (g.port rp).node
      if (g.node remnode).type ≠ K.IB_NODE_SWITCH then
        if !(s.node remnode).ch_found then get_router_slot K g s remnode port
        else .ok s
      else if (s.node node).ch_type = 0 then get_sfb_slot K g s node rp
      else .ok s

/-- The loop of the line branch, which ends at the first port it does not
skip (`break`). -/
def fill_line_loop (K : Config) (g : Graph) (node : NodeId) (s : St) : List Nat → Except Err St
  | [] => .ok s
  | p :: ps =>
    match port_at g node p with
    | .error e => .error e
    | .ok none => fill_line_loop K g node s ps
    | .ok (some port) =>
      match (g.port port).remoteport with
      | none => fill_line_loop K g node s ps
      | some rp =>
        if (g.port port).portnum > 12 then fill_line_loop K g node s ps
        else get_slb_slot K g s node rp

/-- One turn of the closing loop: `if (!port) continue; voltaire_portmap(port)`. -/
def fill_portmap_step (K : Config) (g : Graph) (node : NodeId) (s : St) (p : Nat) :
    Except Err St :=
  match port_at g node p with
  | .error e => .error e
  | .ok none => .ok s
  | .ok (some port) => .ok (voltaire_portmap K g s port)

def fill_voltaire_chassis_record (K : Config) (g : Graph) (s : St) (node : NodeId) :
    Except Err St :=
  if (s.node node).ch_found then .ok s
  else
    let s := s.modNode node fun r => { r with ch_found := true }
    let ps := upto (g.node node).numports
    let tagged :=
      if is_router K g node then loopE (fill_router_step K g node) ps s
      else if is_spine K g node then loopE (fill_spine_step K g node) ps s
      else if is_line K g node then fill_line_loop K g node s ps
      else .ok s
    match tagged with
    | .error e => .error e
    | .ok s1 => loopE (fill_portmap_step K g node) ps s1

/-! ## Slot indices and insertion (lines 472-515) -/

def get_line_index (K : Config) (s : St) (node : NodeId) : Except Err Nat :=
  let retval : Int := 3 * (((s.node node).ch_slotnum : Int) - 1) + ((s.node node).ch_anafanum : Int)
  if retval > (K.LINES_MAX_NUM : Int) ∨ retval < 1 then .error .internalError
  else .ok retval.toNat

def get_spine_index (K : Config) (g : Graph) (s : St) (node : NodeId) : Except Err Nat :=
  let retval : Int :=
    if is_spine_9288 K g node || is_spine_2012 K g node then
      3 * (((s.node node).ch_slotnum : Int) - 1) + ((s.node node).ch_anafanum : Int)
    else ((s.node node).ch_slotnum : Int)
  if retval > (K.SPINES_MAX_NUM : Int) ∨ retval < 1 then .error .internalError
  else .ok retval.toNat

def insert_line_router (K : Config) (s : St) (node : NodeId) (chassis : ChassisId) :
    Except Err St :=
  match get_line_index K s node with
  | .error e => .error e
  | .ok i =>
    if ((s.chassis chassis).linenode i).isSome then .ok s
    else
      let s1 := s.modChassis chassis fun c => { c with linenode := upd c.linenode i (some node) }
      .ok (s1.modNode node fun r => { r with chassis := some chassis })

def insert_spine (K : Config) (g : Graph) (s : St) (node : NodeId) (chassis : ChassisId) :
    Except Err St :=
  match get_spine_index K g s node with
  | .error e => .error e
  | .ok i =>
    if ((s.chassis chassis).spinenode i).isSome then .ok s
    else
      let s1 := s.modChassis chassis fun c => { c with spinenode := upd c.spinenode i (some node) }
      .ok (s1.modNode node fun r => { r with chassis := some chassis })

/-! ## Propagation passes and the chassis builder (lines 517-624) -/

/-- The body of the inner loop of `pass_on_lines_catch_spines`. -/
def lines_port_step (K : Config) (g : Graph) (chassis : ChassisId) (node : NodeId) (s : St)
    (p : Nat) : Except Err St :=
  match port_at g node p with
  | .error e => .error e
  | .ok none => .ok s
  | .ok (some port) =>
    match (g.port port).remoteport with
    | none => .ok s
    | some rp =>
      if (g.port port).portnum > 12 then .ok s
      else
        let remnode := (g.port rp).node
        if !(s.node remnode).ch_found then .ok s
        else insert_spine K g s remnode chassis

/-- The body of the outer loop of `pass_on_lines_catch_spines`. -/
def lines_slot_step (K : Config) (g : Graph) (chassis : ChassisId) (s : St) (i : Nat) :
    Except Err St :=
  match (s.chassis chassis).linenode i with
  | none => .ok s
  | some node =>
    if !is_line K g node then .ok s
    else loopE (lines_port_step K g chassis node) (upto (g.node node).numports) s

def pass_on_lines_catch_spines (K : Config) (g : Graph) (s : St) (chassis : ChassisId) :
    Except Err St :=
  loopE (lines_slot_step K g chassis) (upto K.LINES_MAX_NUM) s

/-- The body of the inner loop of `pass_on_spines_catch_lines`; the same code
is the loop body of `build_chassis`. -/
def spines_port_step (K : Config) (g : Graph) (chassis : ChassisId) (node : NodeId) (s : St)
    (p : Nat) : Except Err St :=
  match port_at g node p with
  | .error e => .error e
  | .ok none => .ok s
  | .ok (some port) =>
    match (g.port port).remoteport with
    | none => .ok s
    | some rp =>
      let remnode := (g.port rp).node
      if !(s.node remnode).ch_found then .ok s
      else insert_line_router K s remnode chassis

/-- The body of the outer loop of `pass_on_spines_catch_lines`. -/
def spines_slot_step (K : Config) (g : Graph) (chassis : ChassisId) (s : St) (i : Nat) :
    Except Err St :=
  match (s.chassis chassis).spinenode i with
  | none => .ok s
  | some node => loopE (spines_port_step K g chassis node) (upto (g.node node).numports) s

def pass_on_spines_catch_lines (K : Config) (g : Graph) (s : St) (chassis : ChassisId) :
    Except Err St :=
  loopE (spines_slot_step K g chassis) (upto K.SPINES_MAX_NUM) s

/-- Subtraction of `uint64_t` values. -/
def sub64 (a b : Nat) : Nat := (a + 2 ^ 64 - b) % 2 ^ 64

/-- The loop of `pass_on_spines_interpolate_chguid`, which ends at the first
occupied slot (`break`). -/
def interpolate_loop (g : Graph) (s : St) (chassis : ChassisId) : List Nat → St
  | [] => s
  | i :: is =>
    match (s.chassis chassis).spinenode i with
    | none => interpolate_loop g s chassis is
    | some node =>
      s.modChassis chassis fun c => { c with chassisguid := sub64 (g.node node).guid 1 }

def pass_on_spines_interpolate_chguid (K : Config) (g : Graph) (s : St) (chassis : ChassisId) :
    St :=
  interpolate_loop g s chassis (upto K.SPINES_MAX_NUM)

/-- One round of propagation: `pass_on_lines_catch_spines` followed by
`pass_on_spines_catch_lines`. -/
def propagate (K : Config) (g : Graph) (s : St) (chassis : ChassisId) : Except Err St :=
  match pass_on_lines_catch_spines K g s chassis with
  | .error e => .error e
  | .ok s1 => pass_on_spines_catch_lines K g s1 chassis

def build_chassis (K : Config) (g : Graph) (s : St) (node : NodeId) (chassis : ChassisId) :
    Except Err St :=
  match insert_spine K g s node chassis with
  | .error e => .error e
  | .ok s1 =>
    match loopE (spines_port_step K g chassis node) (upto (g.node node).numports) s1 with
    | .error e => .error e
    | .ok s2 =>
      match propagate K g s2 chassis with
      | .error e => .error e
      | .ok s3 =>
        match propagate K g s3 chassis with
        | .error e => .error e
        | .ok s4 => .ok (pass_on_spines_interpolate_chguid K g s4 chassis)

/-! ## The grouping driver (lines 713-832) -/

/-- Appends a zeroed record to the chassis list and makes it the current
chassis.  (The failure of `calloc` is not modelled.) -/
def add_chassis (s : St) : St :=
  { s with chassis := upd s.chassis s.nchassis Chassis.zero, nchassis := s.nchassis + 1 }

/-- The chassis `fabric->current_chassis` after a call of `add_chassis`. -/
def current_chassis (s : St) : ChassisId := s.nchassis - 1

def add_node_to_chassis (s : St) (chassis : ChassisId) (node : NodeId) : St :=
  (s.modNode node fun r =>
    { r with chassis := some chassis, next_chassis_node := (s.chassis chassis).nodes }).modChassis
    chassis fun c => { c with nodes := some node }

/-- The array read `fabric->nodesdist[dist]`; the array has `MAXHOPS + 1`
entries. -/
def bucket (K : Config) (g : Graph) (dist : Nat) : Except Err (List NodeId) :=
  if dist ≤ K.MAXHOPS then .ok (g.nodesdist dist) else .error .outOfBounds

/-- The loop nest `for (dist = 0; dist <= maxhops_discovered; dist++)`,
`for (node = nodesdist[dist]; node; node = node->dnext)` shared by the first
three passes. -/
def for_nodes {σ : Type} (K : Config) (g : Graph) (f : σ → NodeId → Except Err σ) (s : σ) :
    Except Err σ :=
  loopE
    (fun s dist =>
      match bucket K g dist with
      | .error e => .error e
      | .ok b => loopE f b s)
    (List.range' 0 (g.maxhops_discovered + 1)) s

/-- Body of the first pass. -/
def tag_step (K : Config) (g : Graph) (s : St) (node : NodeId) : Except Err St :=
  if (g.node node).vendid = K.VTR_VENDOR_ID then fill_voltaire_chassis_record K g s node
  else .ok s

/-- The test `node->node.chassis && node->node.chassis->chassisnum`. -/
def has_numbered_chassis (s : St) (node : NodeId) : Bool :=
  match (s.node node).chassis with
  | none => false
  | some c => (s.chassis c).chassisnum != 0

/-- Body of the second pass; the second component of the state is the local
variable `chassisnum`. -/
def build_step (K : Config) (g : Graph) (sc : St × Nat) (node : NodeId) : Except Err (St × Nat) :=
  if (g.node node).vendid ≠ K.VTR_VENDOR_ID then .ok sc
  else if !(sc.1.node node).ch_found || has_numbered_chassis sc.1 node || !is_spine K g node then
    .ok sc
  else
    let s1 := add_chassis sc.1
    let chassisnum := sc.2 + 1
    let s2 := s1.modChassis (current_chassis s1) fun c => { c with chassisnum := chassisnum }
    match build_chassis K g s2 node (current_chassis s2) with
    | .error e => .error e
    | .ok s3 => .ok (s3, chassisnum)

/-- Body of the third pass (counting by system image guid). -/
def count_step (K : Config) (g : Graph) (s : St) (node : NodeId) : Except Err St :=
  if (g.node node).vendid = K.VTR_VENDOR_ID then .ok s
  else if (g.node node).sysimgguid ≠ 0 then
    match find_chassisguid K g s node with
    | some c => .ok (s.modChassis c fun r => { r with nodecount := r.nodecount + 1 })
    | none =>
      let s1 := add_chassis s
      .ok (s1.modChassis (current_chassis s1) fun r =>
        { r with chassisguid := get_chassisguid K g node, nodecount := 1 })
  else .ok s

/-- The statement `if (!chassis->chassisnum) chassis->chassisnum = ++chassisnum;`
of the fourth pass. -/
def number_chassis (sc : St × Nat) (chassis : ChassisId) : St × Nat :=
  if (sc.1.chassis chassis).chassisnum = 0 then
    (sc.1.modChassis chassis fun r => { r with chassisnum := sc.2 + 1 }, sc.2 + 1)
  else sc

/-- The statement
`if (!node->ch_found) { node->ch_found = 1; add_node_to_chassis(chassis, node); }`
of the fourth pass. -/
def join_chassis (sc : St × Nat) (chassis : ChassisId) (node : NodeId) : St × Nat :=
  if !(sc.1.node node).ch_found then
    (add_node_to_chassis (sc.1.modNode node fun r => { r with ch_found := true }) chassis node,
      sc.2)
  else sc

/-- Body of the fourth pass (promotion of chassis with more than one node). -/
def promote_step (K : Config) (g : Graph) (sc : St × Nat) (node : NodeId) :
    Except Err (St × Nat) :=
  if (g.node node).vendid = K.VTR_VENDOR_ID then .ok sc
  else if (g.node node).sysimgguid ≠ 0 then
    match find_chassisguid K g sc.1 node with
    | none => .ok sc
    | some c =>
      if (sc.1.chassis c).nodecount > 1 then
        .ok (join_chassis (number_chassis sc c) c node)
      else .ok sc
  else .ok sc

/-- The fourth loop, `for (dist = 0; dist <= MAXHOPS; )`, which moves `dist` to
`MAXHOPS` when it equals `maxhops_discovered` and to `dist + 1` otherwise.  It
is the one loop of the file without a bound that is visible in its header, so
it runs on a step budget. -/
def promote_loop (K : Config) (g : Graph) : Nat → Nat → St × Nat → Except Err (St × Nat)
  | 0, dist, sc => if dist ≤ K.MAXHOPS then .error .outOfFuel else .ok sc
  | fuel + 1, dist, sc =>
    if dist ≤ K.MAXHOPS then
      match loopE (promote_step K g) (g.nodesdist dist) sc with
      | .error e => .error e
      | .ok sc1 =>
        if dist = g.maxhops_discovered then promote_loop K g fuel K.MAXHOPS sc1
        else promote_loop K g fuel (dist + 1) sc1
    else .ok sc

/-- The first two passes, which handle the Voltaire nodes.  They return the
state and the value of the local variable `chassisnum`. -/
def voltaire_passes (K : Config) (g : Graph) (s : St) : Except Err (St × Nat) :=
  match for_nodes K g (tag_step K g) { s with nchassis := 0 } with
  | .error e => .error e
  | .ok s1 => for_nodes K g (build_step K g) (s1, 0)

/-- The last two passes, which group the other nodes by system image guid. -/
def guid_passes (K : Config) (g : Graph) (fuel : Nat) (sc : St × Nat) : Except Err St :=
  match for_nodes K g (count_step K g) sc.1 with
  | .error e => .error e
  | .ok s3 =>
    match promote_loop K g fuel 0 (s3, sc.2) with
    | .error e => .error e
    | .ok sc4 => .ok sc4.1

/-- The main grouping function.  The chassis list it returns is
`chassis 0, ..., chassis (nchassis - 1)` of the final state. -/
def group_nodes (K : Config) (g : Graph) (fuel : Nat) (s : St) : Except Err St :=
  match voltaire_passes K g s with
  | .error e => .error e
  | .ok sc => guid_passes K g fuel sc

/-! ## Specification-side definitions and concrete fabrics -/

instance decEqExcept {ε α : Type} [DecidableEq ε] [DecidableEq α] : DecidableEq (Except ε α)
  | .ok a, .ok b =>
    if h : a = b then isTrue (congrArg Except.ok h) else isFalse (fun h1 => h (Except.ok.inj h1))
  | .error a, .error b =>
    if h : a = b then isTrue (congrArg Except.error h)
    else isFalse (fun h1 => h (Except.error.inj h1))
  | .ok _, .error _ => isFalse (fun h => Except.noConfusion h)
  | .error _, .ok _ => isFalse (fun h => Except.noConfusion h)

/-- The reading of "`r` is `g` with the bits `lo..hi` cleared and every other
bit unchanged". -/
def ClearedBits (lo hi g r : Nat) : Prop :=
  ∀ i, r.testBit i = (g.testBit i && !(decide (lo ≤ i ∧ i ≤ hi)))

/-- A fabric of one node (number 0, in bucket 0) of vendor `vendid` with system
image guid `sysimgguid` and no ports. -/
def single_node (vendid sysimgguid : Nat) : Graph where
  node := fun _ =>
    { guid := 1, type := 2, numports := 0, vendid := vendid, devid := 0,
      sysimgguid := sysimgguid, ports := none }
  port := fun _ => { node := 0, portnum := 0, remoteport := none }
  nodesdist := fun d => if d = 0 then [0] else []
  maxhops_discovered := 0

/-- The channel-adapter case of family C as the specification words it: the
remote node of the port with number 2 decides, and a missing port or link gives
the own identifier. -/
def spec_xsigo_ca_chassisguid (g : Graph) (node : NodeId) : Nat :=
  let own := (g.node node).sysimgguid
  match (g.node node).ports with
  | none => own
  | some ports =>
    match ports 2 with
    | none => own
    | some p2 =>
      match (g.port p2).remoteport with
      | none => own
      | some rp =>
        let remote := (g.node (g.port rp).node).sysimgguid
        if is_xsigo_leafone remote then remote &&& 0xffffffff00ffffff else own

/-- Two nodes: node 0 is a Xsigo host channel adapter with system image guid
`0x0013970200000007`, node 1 a Xsigo leaf-one switch with guid
`0x0013970102000009`.  `ports0` is the port array of node 0; port `q` of the arena
belongs to node `q / 10` and has number `q % 10`; port 1 of node 0 (arena 1) is
linked with port 1 of node 1 (arena 11) when `linked`. -/
def xsigo_pair (ports0 : Option (Nat → Option PortId)) (linked : Bool) : Graph where
  node := fun n =>
    if n = 0 then
      { guid := 1, type := 1, numports := 2, vendid := stdConfig.XS_VENDOR_ID, devid := 0,
        sysimgguid := 0x0013970200000007, ports := ports0 }
    else
      { guid := 2, type := 2, numports := 24, vendid := stdConfig.XS_VENDOR_ID, devid := 0,
        sysimgguid := 0x0013970102000009, ports := some fun p => if p = 1 then some 11 else none }
  port := fun q =>
    { node := q / 10, portnum := q % 10,
      remoteport :=
        if linked then (if q = 1 then some 11 else if q = 11 then some 1 else none) else none }
  nodesdist := fun d => if d = 0 then [1] else if d = 63 then [0] else []
  maxhops_discovered := 0

/-- The port array of node 0 of `xsigo_pair` with the ports 1 and 2. -/
def xsigo_ports0 : Nat → Option PortId :=
  fun p => if p = 1 then some 1 else if p = 2 then some 2 else none

/-- A state in which node 5 carries slot number 2 and sub-chip number 1 and
slot `occupied` of both arrays of every chassis holds node 9. -/
def slot_state (occupied : Nat) : St where
  node := fun n =>
    if n = 5 then { NodeSt.zero with ch_slotnum := 2, ch_anafanum := 1, ch_found := true }
    else NodeSt.zero
  ext_portnum := fun _ => 0
  chassis := fun _ =>
    { Chassis.zero with
      linenode := fun i => if i = occupied then some 9 else none,
      spinenode := fun i => if i = occupied then some 9 else none }
  nchassis := 1

/-- The port-map table that `voltaire_portmap` reads for a line board. -/
def model_table (K : Config) (g : Graph) (node : NodeId) : List (List Nat) :=
  if is_line_24 K g node then int2ext_map_slb24
  else if is_line_2024 K g node then int2ext_map_slb2024
  else int2ext_map_slb8

/-- A fabric of one sLB-24 line board (node 0) whose port `q` of the arena has
number `q`. -/
def line_board : Graph where
  node := fun _ =>
    { guid := 1, type := 2, numports := 24, vendid := stdConfig.VTR_VENDOR_ID,
      devid := stdConfig.VTR_DEVID_SLB24, sysimgguid := 0, ports := some fun p => some p }
  port := fun q => { node := 0, portnum := q, remoteport := none }
  nodesdist := fun d => if d = 0 then [0] else []
  maxhops_discovered := 0

/-- A state in which node 0 is processed and has sub-chip number `anafanum`. -/
def chip_state (anafanum : Nat) : St :=
  St.init.modNode 0 fun r => { r with ch_found := true, ch_anafanum := anafanum }

/-- Every occupied slot of the two arrays of chassis `c` in `s` holds the same
node in `t`. -/
def SlotsKept (c : ChassisId) (s t : St) : Prop :=
  (∀ i n, (s.chassis c).spinenode i = some n → (t.chassis c).spinenode i = some n) ∧
  (∀ i n, (s.chassis c).linenode i = some n → (t.chassis c).linenode i = some n)


/-- The value of a run that returns, and the initial state for one that does not. -/
def run (x : Except Err St) : St :=
  match x with
  | .ok s => s
  | .error _ => St.init

/-- A fabric given by its links.  A node `n < 10` is a Voltaire switch: an sFB-12
spine when `n` is even and an sLB-24 line board when it is odd, with guid
`1000 + n`, system image guid 0 and four ports.  A node `n ≥ 10` is of another
vendor, with system image guid `fguid`; node 10 is a channel adapter, the others
are switches.  Port `q` of the arena is port `q % 100` of node `q / 100` and
exists when it occurs in `links`, which lists each link in both directions.
The nodes `nodes` are in bucket 0. -/
def voltaire_fabric (links : List (Nat × Nat)) (nodes : List NodeId) (fguid : Nat) : Graph where
  node := fun n =>
    { guid := 1000 + n,
      type := if n = 10 then 1 else stdConfig.IB_NODE_SWITCH,
      numports := 4,
      vendid := if n < 10 then stdConfig.VTR_VENDOR_ID else 0x2c9,
      devid :=
        if n < 10 then
          (if n % 2 = 0 then stdConfig.VTR_DEVID_SFB12 else stdConfig.VTR_DEVID_SLB24)
        else 0,
      sysimgguid := if n < 10 then 0 else fguid,
      ports := some fun p =>
        if (links.lookup (100 * n + p)).isSome then some (100 * n + p) else none }
  port := fun q => { node := q / 100, portnum := q % 100, remoteport := links.lookup q }
  nodesdist := fun d => if d = 0 then nodes else []
  maxhops_discovered := 0

/-- Spine 0 - line 1 - spine 2 - line 3 - spine 4 - line 5 - spine 6: a chain of
six links. -/
def chain_links : List (Nat × Nat) :=
  [(1, 101), (101, 1), (102, 201), (201, 102), (202, 301), (301, 202),
   (303, 401), (401, 303), (403, 501), (501, 403), (504, 601), (601, 504)]

def chain_fabric : Graph := voltaire_fabric chain_links [0, 1, 2, 3, 4, 5, 6] 0

/-- Spine 0 - line 1 - spine 2: the first two links of the chain. -/
def short_fabric : Graph := voltaire_fabric (chain_links.take 4) [0, 1, 2] 0

/-- The state in which the second pass of `group_nodes` calls `build_chassis`
for the first chassis: all nodes tagged by the first pass, one new chassis with
number 1. -/
def tagged (g : Graph) : St :=
  (add_chassis (run (for_nodes stdConfig g (tag_step stdConfig g) St.init))).modChassis 0
    fun c => { c with chassisnum := 1 }

/-- The tagging pass returns on `g`. -/
def tagging_returns (g : Graph) : Bool :=
  match for_nodes stdConfig g (tag_step stdConfig g) St.init with
  | .ok _ => true
  | .error _ => false

/-- The state after `build_chassis` for the seed spine 0 and chassis 0. -/
def built (g : Graph) : St := run (build_chassis stdConfig g (tagged g) 0 0)

/-- What the two Voltaire passes may change between `s` and `t`: chassis are only
appended, and a new chassis has an empty membership list and node count 0; the
membership list and the node count of an old chassis stay; a processed node stays
processed; a node that is not processed in `t` has the chassis reference it had
in `s`; and the processed flag of a switch of another vendor stays. -/
def Eff (K : Config) (g : Graph) (s t : St) : Prop :=
  s.nchassis ≤ t.nchassis ∧
  (∀ c, c < s.nchassis →
    (t.chassis c).nodes = (s.chassis c).nodes ∧
    (t.chassis c).nodecount = (s.chassis c).nodecount) ∧
  (∀ c, s.nchassis ≤ c → c < t.nchassis →
    (t.chassis c).nodes = none ∧ (t.chassis c).nodecount = 0) ∧
  (∀ x, (s.node x).ch_found = true → (t.node x).ch_found = true) ∧
  (∀ x, (t.node x).ch_found = false → (t.node x).chassis = (s.node x).chassis) ∧
  (∀ x, (g.node x).vendid ≠ K.VTR_VENDOR_ID → (g.node x).type = K.IB_NODE_SWITCH →
    (t.node x).ch_found = (s.node x).ch_found)

/-- The nodes of the buckets `dist, ..., dist + n - 1`, in the order of the lists. -/
def nodes_from (g : Graph) (dist : Nat) : Nat → List NodeId
  | 0 => []
  | n + 1 => g.nodesdist dist ++ nodes_from g (dist + 1) n

/-- The nodes that the first three passes visit: those of the buckets
`0, ..., maxhops_discovered`. -/
def counted_nodes (g : Graph) : List NodeId :=
  nodes_from g 0 (g.maxhops_discovered + 1)

/-- The first chassis of the list with chassis guid `x`: the search of
`find_chassisguid`. -/
def find_guid (s : St) (x : Nat) : Option ChassisId :=
  (List.range s.nchassis).find? (fun c => (s.chassis c).chassisguid == x)

/-- The test of the third and fourth pass for a node: not Voltaire, and a
non-zero system image guid. -/
def keyed (K : Config) (g : Graph) (n : NodeId) : Bool :=
  decide ((g.node n).vendid ≠ K.VTR_VENDOR_ID) && decide ((g.node n).sysimgguid ≠ 0)

/-- Node `n` is on the membership list that starts at `head` and is chained by
`next_chassis_node`. -/
inductive OnList (s : St) : Option NodeId → NodeId → Prop where
  | head (n : NodeId) : OnList s (some n) n
  | next (m n : NodeId) : OnList s (s.node m).next_chassis_node n → OnList s (some m) n


/-- The number of nodes of `l` that the counting pass counts for the chassis
guid `x`. -/
def counted_for (K : Config) (g : Graph) (x : Nat) (l : List NodeId) : Nat :=
  l.countP fun n => keyed K g n && decide (get_chassisguid K g n = x)

/-- Every node on the membership list of a chassis of the list is processed. -/
def HeadsFound (s : St) : Prop :=
  ∀ c, c < s.nchassis → ∀ m, OnList s (s.chassis c).nodes m → (s.node m).ch_found = true

/-- What the fourth pass keeps of the state `s3` it starts from: the length of
the chassis list, the guid and the node count of every chassis, and that the
nodes on the membership lists are processed. -/
def PromInv (s3 s : St) : Prop :=
  s.nchassis = s3.nchassis ∧
  (∀ c, (s.chassis c).chassisguid = (s3.chassis c).chassisguid ∧
    (s.chassis c).nodecount = (s3.chassis c).nodecount) ∧
  HeadsFound s

/-- Node `a` has been promoted into chassis `c`: it is processed, refers to `c`,
is on the membership list of `c`, and `c` has a chassis number. -/
def Promoted (s : St) (a : NodeId) (c : ChassisId) : Prop :=
  (s.node a).chassis = some c ∧ (s.node a).ch_found = true ∧
  OnList s (s.chassis c).nodes a ∧ 1 ≤ (s.chassis c).chassisnum

/-- A fabric of two nodes 0 and 1 without ports, of node type `type` and vendor
`vendid`, with system image guids `guid0` and `guid1`, both in bucket `dist`
(bucket 63 is the one of the channel adapters); `maxhops_discovered` is 0. -/
def two_nodes (type vendid guid0 guid1 dist : Nat) : Graph where
  node := fun n =>
    { guid := 100 + n, type := type, numports := 0, vendid := vendid, devid := 0,
      sysimgguid := if n = 0 then guid0 else guid1, ports := none }
  port := fun _ => { node := 0, portnum := 0, remoteport := none }
  nodesdist := fun d => if d = dist then [0, 1] else []
  maxhops_discovered := 0

/-- Two switches of vendor `0x5ad` in bucket 0 whose system image guids differ in
the masked byte only. -/
def masked_pair : Graph := two_nodes 2 0x5ad 0x0005ad0001000abc 0x0005ad0002000abc 0

/-- Two switches of vendor `0x2c9` in bucket 0 with the system image guids 7 and 8. -/
def distinct_pair : Graph := two_nodes 2 0x2c9 7 8 0

/-- Two channel adapters of vendor `0x2c9` in bucket 63 with the system image
guids 7 and 8. -/
def lone_adapters : Graph := two_nodes 1 0x2c9 7 8 63

/-- Spine 0 with line board 1 on its port 1 and the channel adapter 10 of another
vendor on its port 2; the switch 11 of that vendor has the same system image
guid as node 10. -/
def adapter_fabric : Graph :=
  voltaire_fabric [(1, 101), (101, 1), (2, 1001), (1001, 2)] [0, 1, 10, 11] 5

/-- Spine 0 with line board 1, and the switch 11 of another vendor whose system
image guid 999 is the guid that the Voltaire chassis gets (guid of spine 0 minus
one). -/
def clash_fabric : Graph :=
  voltaire_fabric [(1, 101), (101, 1)] [0, 1, 11] 999

/-- Spine 0 with line board 1 on its port 1 and the channel adapter 10 of another
vendor on its port 2, the only node with its system image guid. -/
def lone_adapter_fabric : Graph :=
  voltaire_fabric [(1, 101), (101, 1), (2, 1001), (1001, 2)] [0, 1, 10] 5

/-- The result of `group_nodes` on a fresh fabric, with a step budget of 2 (enough
when `maxhops_discovered` is 0). -/
def grouped (g : Graph) : St := run (group_nodes stdConfig g 2 St.init)

/-- The device ids of the spine generations that take the slot number as flat
index (9096, 2004) differ from those of the generations that take
`3 * (slotnum - 1) + anafanum` (9288, 2012). -/
def spines_apart (K : Config) : Prop :=
  (K.VTR_DEVID_SFB4 ≠ K.VTR_DEVID_SFB12 ∧ K.VTR_DEVID_SFB4 ≠ K.VTR_DEVID_SFB12_DDR ∧
    K.VTR_DEVID_SFB4 ≠ K.VTR_DEVID_SFB2012) ∧
  (K.VTR_DEVID_SFB4_DDR ≠ K.VTR_DEVID_SFB12 ∧ K.VTR_DEVID_SFB4_DDR ≠ K.VTR_DEVID_SFB12_DDR ∧
    K.VTR_DEVID_SFB4_DDR ≠ K.VTR_DEVID_SFB2012) ∧
  (K.VTR_DEVID_SFB2004 ≠ K.VTR_DEVID_SFB12 ∧ K.VTR_DEVID_SFB2004 ≠ K.VTR_DEVID_SFB12_DDR ∧
    K.VTR_DEVID_SFB2004 ≠ K.VTR_DEVID_SFB2012)

instance (K : Config) : Decidable (spines_apart K) := by
  unfold spines_apart; infer_instance

/-- The fabric `single_node` with the device id `devid` and port `q` of the arena
numbered `q`. -/
def spine_node (devid : Nat) : Graph where
  node := fun _ =>
    { guid := 1, type := 2, numports := 24, vendid := stdConfig.VTR_VENDOR_ID, devid := devid,
      sysimgguid := 0, ports := none }
  port := fun q => { node := 0, portnum := q, remoteport := none }
  nodesdist := fun d => if d = 0 then [0] else []
  maxhops_discovered := 0

/-- The run returns. -/
def returns {α : Type} (x : Except Err α) : Bool :=
  match x with
  | .ok _ => true
  | .error _ => false

/-- A chain of 64 switches of vendor `0x2c9` without system image guid, switch `d`
at distance `d` from the start of the discovery: `maxhops_discovered` is 63, the
value of `MAXHOPS`. -/
def deep_chain : Graph where
  node := fun n =>
    { guid := 100 + n, type := 2, numports := 0, vendid := 0x2c9, devid := 0,
      sysimgguid := 0, ports := none }
  port := fun _ => { node := 0, portnum := 0, remoteport := none }
  nodesdist := fun d => if d ≤ 63 then [d] else []
  maxhops_discovered := 63

/-- A fabric of one Voltaire node (number 0, in bucket 0) with device id `devid`
and one port, number 1, that has no link: its `remoteport` is `NULL`. -/
def unlinked_node (type devid : Nat) : Graph where
  node := fun _ =>
    { guid := 1, type := type, numports := 1, vendid := stdConfig.VTR_VENDOR_ID,
      devid := devid, sysimgguid := 0, ports := some fun p => if p = 1 then some 1 else none }
  port := fun _ => { node := 0, portnum := 1, remoteport := none }
  nodesdist := fun d => if d = 0 then [0] else []
  maxhops_discovered := 0

/-- The slot number `sl` and the sub-chip number `an` lie within the ranges of the
tables that the `get_*_slot` functions read for the slot kind `k` in a chassis of the
type `ty`, the hardware model that they record with the slot.  With a spine of the
9096 or 2004 generation these are `line_slot_2_sfb4` (1..4) with
`anafa_line_slot_2_sfb4` (1..2) for a line board, `spine4_slot_2_slb` (1..4) with
`anafa_spine4_slot_2_slb` (1) for a spine, and `line_slot_2_sfb4` (1..4) with
`ipr_slot_2_sfb4_port` (1..3) for a router blade; with a spine of the 9288 or 2012
generation they are `line_slot_2_sfb12` (1..12) with `anafa_line_slot_2_sfb12` (1..2),
`spine12_slot_2_slb` (1..4) with `anafa_spine12_slot_2_slb` (1..3), and
`line_slot_2_sfb12` (1..12) with the guess of `get_router_slot` (1..3). -/
def InTables (k ty sl an : Nat) : Prop :=
  ((ty = ISR9096_CT ∨ ty = ISR2004_CT) ∧
    ((k = LINE_CS ∧ sl ≤ 4 ∧ an ≤ 2) ∨ (k = SPINE_CS ∧ sl ≤ 4 ∧ an ≤ 1) ∨
      (k = SRBD_CS ∧ sl ≤ 4 ∧ an ≤ 3))) ∨
  ((ty = ISR9288_CT ∨ ty = ISR2012_CT) ∧
    ((k = LINE_CS ∧ sl ≤ 12 ∧ an ≤ 2) ∨ (k = SPINE_CS ∧ sl ≤ 4 ∧ an ≤ 3) ∨
      (k = SRBD_CS ∧ sl ≤ 12 ∧ an ≤ 3)))

/-- The values that the three `get_*_slot` functions can write: slot kind `k`,
chassis type `ty`, slot number `sl` and sub-chip number `an` within the ranges of the
tables that are read for the kind and the type, and a sub-chip number of at least 1
when the slot number is. -/
def TagVals (k ty sl an : Nat) : Prop :=
  InTables k ty sl an ∧ (1 ≤ sl → 1 ≤ an)

/-- The property `P` of states is kept by the three kinds of writes of the first
pass: marking a node as processed, tagging a processed node, and setting the
external number of a port. -/
def TagClosed (P : St → Prop) : Prop :=
  (∀ s n, P s → P (s.modNode n fun r => { r with ch_found := true })) ∧
  (∀ s n k ty sl an, P s → (s.node n).ch_found = true → TagVals k ty sl an →
    P (s.tag n k ty sl an)) ∧
  (∀ s p v, P s → P (s.set_ext_portnum p v))

/-- The property `P` of the state and the counter `chassisnum` is kept by the four
kinds of writes of the second pass: appending a chassis with the next number,
putting a processed node into an empty slot of the line array or of the spine
array of the last chassis at the index that `get_line_index` resp.
`get_spine_index` returns for it, and setting the guid of the last chassis. -/
def BuildClosed (K : Config) (g : Graph) (P : St × Nat → Prop) : Prop :=
  (∀ s k, P (s, k) →
    P ((add_chassis s).modChassis (current_chassis (add_chassis s))
        (fun c => { c with chassisnum := k + 1 }), k + 1)) ∧
  (∀ s k c node i, P (s, k) → c + 1 = s.nchassis → (s.node node).ch_found = true →
    get_line_index K s node = .ok i → (s.chassis c).linenode i = none →
    P ((s.modChassis c fun r => { r with linenode := upd r.linenode i (some node) }).modNode
        node fun r => { r with chassis := some c }, k)) ∧
  (∀ s k c node i, P (s, k) → c + 1 = s.nchassis → (s.node node).ch_found = true →
    get_spine_index K g s node = .ok i → (s.chassis c).spinenode i = none →
    P ((s.modChassis c fun r => { r with spinenode := upd r.spinenode i (some node) }).modNode
        node fun r => { r with chassis := some c }, k)) ∧
  (∀ s k c v, P (s, k) → c + 1 = s.nchassis →
    P (s.modChassis c fun r => { r with chassisguid := v }, k))

/-- The property `P` of states is kept by the two kinds of writes of the third
pass: counting a node for the chassis found with its guid, and appending a chassis
with the guid of a node for which none is found, with node count 1. -/
def CountClosed (K : Config) (g : Graph) (P : St → Prop) : Prop :=
  (∀ s c n, P s → keyed K g n = true → find_guid s (get_chassisguid K g n) = some c →
    P (s.modChassis c fun r => { r with nodecount := r.nodecount + 1 })) ∧
  (∀ s n, P s → keyed K g n = true → find_guid s (get_chassisguid K g n) = none →
    P ((add_chassis s).modChassis (current_chassis (add_chassis s)) fun r =>
        { r with chassisguid := get_chassisguid K g n, nodecount := 1 }))

/-- The property `P` of the state and the counter `chassisnum` is kept by the two
kinds of writes of the fourth pass, both for a node `n` and the chassis `c` found
with its guid, of node count above 1: giving `c` the next number when it has none,
and putting `n`, not processed so far, on the membership list of the numbered `c`. -/
def PromoteClosed (K : Config) (g : Graph) (P : St × Nat → Prop) : Prop :=
  (∀ s k c n, P (s, k) → keyed K g n = true →
    find_guid s (get_chassisguid K g n) = some c → 1 < (s.chassis c).nodecount →
    (s.chassis c).chassisnum = 0 →
    P (s.modChassis c fun r => { r with chassisnum := k + 1 }, k + 1)) ∧
  (∀ s k c n, P (s, k) → keyed K g n = true →
    find_guid s (get_chassisguid K g n) = some c → 1 < (s.chassis c).nodecount →
    1 ≤ (s.chassis c).chassisnum → (s.node n).ch_found = false →
    P (add_node_to_chassis (s.modNode n fun r => { r with ch_found := true }) c n, k))

/-- Every occupied slot of the two arrays of every chassis of the list holds a node
for which `get_line_index` resp. `get_spine_index` returns the index of the slot. -/
def SlotsOK (K : Config) (g : Graph) (s : St) : Prop :=
  ∀ c, c < s.nchassis →
    (∀ i x, (s.chassis c).linenode i = some x → get_line_index K s x = .ok i) ∧
    (∀ j x, (s.chassis c).spinenode j = some x → get_spine_index K g s x = .ok j)

/-- The chassis fields of a node that no `get_*_slot` function has written. -/
def Untagged (r : NodeSt) : Prop :=
  r.ch_slot = UNRESOLVED_CS ∧ r.ch_slotnum = 0 ∧ r.ch_anafanum = 0

/-- The chassis fields of a classified node: the slot kind is `LINE_CS`, `SPINE_CS`
or `SRBD_CS`, the chassis type is one of the four hardware models, the slot number
and the sub-chip number are at least 1, and both are within the ranges of the tables
of the kind for that hardware model (`InTables`). -/
def Classified (r : NodeSt) : Prop :=
  InTables r.ch_slot r.ch_type r.ch_slotnum r.ch_anafanum ∧
  1 ≤ r.ch_slotnum ∧ 1 ≤ r.ch_anafanum

/-- The state of the chassis fields of all nodes during the first pass: no node
refers to a chassis, the fields are unwritten or hold values of the tables, and
they are unwritten in a node that is not processed. -/
def TagInv (s : St) : Prop :=
  ∀ x, (s.node x).chassis = none ∧
    (Untagged (s.node x) ∨
      TagVals (s.node x).ch_slot (s.node x).ch_type (s.node x).ch_slotnum
        (s.node x).ch_anafanum) ∧
    ((s.node x).ch_found = false → Untagged (s.node x))

/-- The state of the chassis fields of all nodes during the second and third pass:
a node that refers to a chassis is classified. -/
def BuildInv (s : St) : Prop :=
  ∀ x, (Untagged (s.node x) ∨
      TagVals (s.node x).ch_slot (s.node x).ch_type (s.node x).ch_slotnum
        (s.node x).ch_anafanum) ∧
    ((s.node x).ch_found = false → Untagged (s.node x) ∧ (s.node x).chassis = none) ∧
    ((s.node x).chassis ≠ none → Classified (s.node x))

/-- The state of the chassis fields of all nodes during the fourth pass: a node
that refers to a chassis is processed, and it is classified or it is a node of
another vendor than Voltaire, with a system image guid, whose fields are unwritten. -/
def PromoteInv (K : Config) (g : Graph) (s : St) : Prop :=
  ∀ x, ((s.node x).ch_found = false → Untagged (s.node x) ∧ (s.node x).chassis = none) ∧
    ((s.node x).chassis ≠ none →
      Classified (s.node x) ∨
      ((g.node x).vendid ≠ K.VTR_VENDOR_ID ∧ (g.node x).sysimgguid ≠ 0 ∧
        Untagged (s.node x)))

/-- Some node of `A` is counted for the chassis guid `x` by the third pass. -/
def SeenIn (K : Config) (g : Graph) (A : List NodeId) (x : Nat) : Prop :=
  ∃ n, n ∈ A ∧ keyed K g n = true ∧ get_chassisguid K g n = x

/-- The chassis that the third pass appends, those from index `m` on, after it ran
over the nodes `L`: each has the guid of a node of `L`, is the chassis found with
that guid and has no number; and they stand in the list in the order in which
their guids first occur in `L`. -/
def CountOrd (K : Config) (g : Graph) (m : Nat) (t : St) (L : List NodeId) : Prop :=
  (∀ c, m ≤ c → c < t.nchassis →
    SeenIn K g L (t.chassis c).chassisguid ∧
    find_guid t (t.chassis c).chassisguid = some c ∧ (t.chassis c).chassisnum = 0) ∧
  (∀ c d, m ≤ c → c < d → d < t.nchassis → ∀ A B, L = A ++ B →
    SeenIn K g A (t.chassis d).chassisguid → SeenIn K g A (t.chassis c).chassisguid)

/-- The state of the chassis numbers during the fourth pass, which started in the
state `s3` with the chassis from index `m` on appended by the third pass, after it
visited the nodes `A`: the list, the guids and the node counts are those of `s3`;
the numbers in use are exactly `1, ..., chassisnum` and they increase along the list;
an appended chassis has a number only if a node with its guid was visited, and has
one if such a node was visited and its node count is above 1; and the chassis
before index `m` all have a number. -/
def NumInv (K : Config) (g : Graph) (m : Nat) (s3 : St) (A : List NodeId) (sc : St × Nat) :
    Prop :=
  sc.1.nchassis = s3.nchassis ∧
  (∀ c, (sc.1.chassis c).chassisguid = (s3.chassis c).chassisguid ∧
    (sc.1.chassis c).nodecount = (s3.chassis c).nodecount) ∧
  (∀ c, c < s3.nchassis → (sc.1.chassis c).chassisnum ≤ sc.2) ∧
  (∀ j, 1 ≤ j → j ≤ sc.2 → ∃ c, c < s3.nchassis ∧ (sc.1.chassis c).chassisnum = j) ∧
  (∀ c d, c < d → d < s3.nchassis → (sc.1.chassis c).chassisnum ≠ 0 →
    (sc.1.chassis d).chassisnum ≠ 0 →
    (sc.1.chassis c).chassisnum < (sc.1.chassis d).chassisnum) ∧
  (∀ c, m ≤ c → c < s3.nchassis → (sc.1.chassis c).chassisnum ≠ 0 →
    SeenIn K g A (s3.chassis c).chassisguid) ∧
  (∀ c, m ≤ c → c < s3.nchassis → SeenIn K g A (s3.chassis c).chassisguid →
    1 < (s3.chassis c).nodecount → (sc.1.chassis c).chassisnum ≠ 0) ∧
  (∀ c, c < m → (sc.1.chassis c).chassisnum ≠ 0)

/-- The chassis numbers of `s` are sequential up to `k`: every number of the list is
at most `k`, every number `1, ..., k` is the number of a chassis of the list, and
the non-zero numbers increase along the list. -/
def Sequential (s : St) (k : Nat) : Prop :=
  (∀ c, c < s.nchassis → (s.chassis c).chassisnum ≤ k) ∧
  (∀ j, 1 ≤ j → j ≤ k → ∃ c, c < s.nchassis ∧ (s.chassis c).chassisnum = j) ∧
  (∀ c d, c < d → d < s.nchassis → (s.chassis c).chassisnum ≠ 0 →
    (s.chassis d).chassisnum ≠ 0 → (s.chassis c).chassisnum < (s.chassis d).chassisnum)

/-- The flat line index `3 * (slot - 1) + subchip` that the tables
`line_slot_2_sfb4` and `anafa_line_slot_2_sfb4` give for the spine port `a`. -/
def line_flat (a : Nat) : Nat :=
  3 * (line_slot_2_sfb4.getD a 0 - 1) + anafa_line_slot_2_sfb4.getD a 0

/-- The wiring of the generation-D scenario: the spine ports `p 1`, `p 2`, `p 3` are
port numbers of the spine (1..24) with pairwise distinct flat line indices, and the
line-board ports `q 1`, `q 2`, `q 3` are spine-facing ports (1..12). -/
def genD_wired (p q : Nat → Nat) : Prop :=
  (1 ≤ p 1 ∧ p 1 ≤ 24 ∧ 1 ≤ p 2 ∧ p 2 ≤ 24 ∧ 1 ≤ p 3 ∧ p 3 ≤ 24) ∧
  (1 ≤ q 1 ∧ q 1 ≤ 12 ∧ 1 ≤ q 2 ∧ q 2 ≤ 12 ∧ 1 ≤ q 3 ∧ q 3 ≤ 12) ∧
  line_flat (p 1) ≠ line_flat (p 2) ∧ line_flat (p 1) ≠ line_flat (p 3) ∧
  line_flat (p 2) ≠ line_flat (p 3)

instance (p q : Nat → Nat) : Decidable (genD_wired p q) := by
  unfold genD_wired; infer_instance

/-- The generation-D scenario: four Voltaire switches in bucket 0.  Node 0 is an
sFB-2004 spine with 24 ports, the nodes 1, 2, 3 are sLB-2024 line boards.  Port `a`
of the spine is port `a` of the arena, port `a` of line board `n` is port
`100 * n + a`.  The spine has the ports `p 1`, `p 2`, `p 3`, line board `n` has the
port `q n`, and port `p n` of the spine is linked with port `q n` of line board `n`,
in both directions. -/
def genD (p q : Nat → Nat) : Graph where
  node := fun n =>
    if n = 0 then
      { guid := 1000, type := stdConfig.IB_NODE_SWITCH, numports := 24,
        vendid := stdConfig.VTR_VENDOR_ID, devid := stdConfig.VTR_DEVID_SFB2004,
        sysimgguid := 0,
        ports := some fun a => if a = p 1 ∨ a = p 2 ∨ a = p 3 then some a else none }
    else
      { guid := 1000 + n, type := stdConfig.IB_NODE_SWITCH, numports := 24,
        vendid := stdConfig.VTR_VENDOR_ID, devid := stdConfig.VTR_DEVID_SLB2024,
        sysimgguid := 0,
        ports := some fun a => if a = q n then some (100 * n + a) else none }
  port := fun a =>
    if a < 100 then
      { node := 0, portnum := a,
        remoteport :=
          if a = p 1 then some (100 + q 1) else if a = p 2 then some (200 + q 2)
          else if a = p 3 then some (300 + q 3) else none }
    else
      { node := a / 100, portnum := a % 100,
        remoteport :=
          if a = 100 + q 1 then some (p 1) else if a = 200 + q 2 then some (p 2)
          else if a = 300 + q 3 then some (p 3) else none }
  nodesdist := fun d => if d = 0 then [0, 1, 2, 3] else []
  maxhops_discovered := 0

/-- The state of the scenario while its chassis is built: one chassis, with number
1; the spine (node 0), tagged with slot number `sl`, is the one occupant of the spine
array, in slot `sl`; the three line boards are tagged with the entries of the line
tables for their spine ports; and every occupant of the line array is one of the
three line boards, in the slot with its flat line index. -/
def GenDState (p : Nat → Nat) (sl : Nat) (s : St) : Prop :=
  s.nchassis = 1 ∧ (s.chassis 0).chassisnum = 1 ∧
  (∀ j, (s.chassis 0).spinenode j = if j = sl then some 0 else none) ∧
  (s.node 0).ch_slotnum = sl ∧ (s.node 0).ch_found = true ∧
  (∀ x, (x = 1 ∨ x = 2 ∨ x = 3) →
    (s.node x).ch_slotnum = line_slot_2_sfb4.getD (p x) 0 ∧
    (s.node x).ch_anafanum = anafa_line_slot_2_sfb4.getD (p x) 0 ∧
    (s.node x).ch_found = true) ∧
  (∀ j y, (s.chassis 0).linenode j = some y → (y = 1 ∨ y = 2 ∨ y = 3) ∧ j = line_flat (p y))

/-- Each of the three line boards of the scenario is in the line array. -/
def GenDFull (p : Nat → Nat) (s : St) : Prop :=
  ∀ i, (i = 1 ∨ i = 2 ∨ i = 3) → (s.chassis 0).linenode (line_flat (p i)) = some i

/-- One block of a table of the comment "INTERNAL TO EXTERNAL PORT MAPPING": a row
`ext port` over a row `int port` for the sub-chip `anafa`; a `-` of the row of
external ports is `none`.  The block lists the triples (sub-chip, internal port,
external port) of its columns that have an external port. -/
def doc_block (anafa : Nat) (ext : List (Option Nat)) (int : List Nat) : List (Nat × Nat × Nat) :=
  (List.zip int ext).filterMap fun ie => ie.2.map fun e => (anafa, ie.1, e)

/-- The table "Module : sLB-24" of the comment. -/
def doc_slb24 : List (Nat × Nat × Nat) :=
  doc_block 1 [some 13, some 14, some 15, some 16, some 17, some 18] [22, 23, 24, 18, 17, 16] ++
  doc_block 2 [some 19, some 20, some 21, some 22, some 23, some 24] [22, 23, 24, 18, 17, 16] ++
  doc_block 1 [some 1, some 2, some 3, some 4, some 5, some 6] [19, 20, 21, 15, 14, 13] ++
  doc_block 2 [some 7, some 8, some 9, some 10, some 11, some 12] [19, 20, 21, 15, 14, 13]

/-- The second, reduced table "Module : sLB-8" of the comment (after the arrow),
with the external ports 1..8. -/
def doc_slb8 : List (Nat × Nat × Nat) :=
  doc_block 1 [none, none, some 5, none, none, some 6] [24, 23, 22, 18, 17, 16] ++
  doc_block 2 [none, none, some 7, none, none, some 8] [24, 23, 22, 18, 17, 16] ++
  doc_block 1 [none, none, some 1, none, none, some 2] [21, 20, 19, 15, 14, 13] ++
  doc_block 2 [none, none, some 3, none, none, some 4] [21, 20, 19, 15, 14, 13]

/-- The table "Module : sLB-2024" of the comment: the rows `A1 int port` and
`A2 int port` under their rows of external ports. -/
def doc_slb2024 : List (Nat × Nat × Nat) :=
  doc_block 1 ((List.range' 13 12).map some) (List.range' 13 12) ++
  doc_block 2 ((List.range' 1 12).map some) (List.range' 13 12)

/-- The pairs (chip, internal port) with chip in `0..1` and port in `13..24`: the
index pairs at which `voltaire_portmap` reads a port map. -/
def chip_ports : List (Nat × Nat) :=
  (List.range 2).flatMap fun c => (List.range' 13 12).map fun p => (c, p)

/-- Node `u` has no link to a switch: no port `1..numports` of its port array has a
remote port on a node of type switch. -/
def no_switch_link (K : Config) (g : Graph) (u : NodeId) : Prop :=
  ∀ a port rp, 1 ≤ a → a ≤ (g.node u).numports → port_at g u a = .ok (some port) →
    (g.port port).remoteport = some rp → (g.node (g.port rp).node).type ≠ K.IB_NODE_SWITCH

/-- Node `u` is a Voltaire switch of a spine model, not of a router model, without a
link to a switch. -/
def untagged_spine (K : Config) (g : Graph) (u : NodeId) : Prop :=
  (g.node u).vendid = K.VTR_VENDOR_ID ∧ (g.node u).type = K.IB_NODE_SWITCH ∧
  is_router K g u = false ∧ is_spine K g u = true ∧ no_switch_link K g u

/-- The chassis fields of node `u` on which its slot indices and its membership
depend are as the discovery leaves them: slot number 0, sub-chip number 0, no
chassis. -/
def Blank (s : St) (u : NodeId) : Prop :=
  (s.node u).ch_slotnum = 0 ∧ (s.node u).ch_anafanum = 0 ∧ (s.node u).chassis = none

/-- The state in which the second pass calls `build_chassis` for a seed found in the
state `s` with the counter `k`: one chassis appended, with the number `k + 1`. -/
def seeded (s : St) (k : Nat) : St :=
  (add_chassis s).modChassis (current_chassis (add_chassis s)) fun c =>
    { c with chassisnum := k + 1 }

/-- Spine 0 without a port, and line board 1 whose port 1 is linked with port 1 of
node 11, a switch of another vendor. -/
def stray_line_fabric : Graph := voltaire_fabric [(101, 1101), (1101, 101)] [0, 1, 11] 0

/-- The generation-D scenario with its nodes laid out in the buckets `nd` of a
discovery of depth `mh`: the fabric `genD p q` with another bucket array. -/
def genD_laid (p q : Nat → Nat) (nd : Nat → List NodeId) (mh : Nat) : Graph :=
  { genD p q with nodesdist := nd, maxhops_discovered := mh }

/-- The buckets `0..maxhops_discovered` of `g` hold the four nodes 0, 1, 2, 3 of the
scenario, each once and in any order, and `maxhops_discovered` is below `MAXHOPS`. -/
def genD_layout (g : Graph) : Prop :=
  g.maxhops_discovered < stdConfig.MAXHOPS ∧ (counted_nodes g).Perm [0, 1, 2, 3]

instance (g : Graph) : Decidable (genD_layout g) := by
  unfold genD_layout; infer_instance

/-! # Verification -/

/-! ## Basic lemmas -/

@[simp] theorem upd_same {α : Type} (f : Nat → α) (a : Nat) (v : α) : upd f a v a = v := by
  simp [upd]

@[simp] theorem upd_other {α : Type} (f : Nat → α) (a b : Nat) (v : α) (h : b ≠ a) :
    upd f a v b = f b := by
  simp [upd, h]

/-! ## Chassis identity (C3, C4, C5) -/

theorem mask_testBit (i : Nat) :
    (0xffffffff00ffffff : Nat).testBit i = decide (i < 64 ∧ ¬ (24 ≤ i ∧ i ≤ 31)) := by
  by_cases h : i < 64
  · interval_cases i <;> rfl
  · have h1 : (0xffffffff00ffffff : Nat) < 2 ^ i :=
      lt_of_lt_of_le (by norm_num) (Nat.pow_le_pow_right (by norm_num) (not_lt.mp h))
    rw [Nat.testBit_lt_two_pow h1]
    simp [h]

theorem topspin_cleared (g : Nat) (hg : g < 2 ^ 64) :
    ClearedBits 24 31 g (topspin_chassisguid g) := by
  intro i
  unfold topspin_chassisguid
  rw [Nat.testBit_land, mask_testBit]
  by_cases h : i < 64
  · by_cases h2 : 24 ≤ i ∧ i ≤ 31 <;> simp [h, h2]
  · have h1 : g < 2 ^ i := lt_of_lt_of_le hg (Nat.pow_le_pow_right (by norm_num) (not_lt.mp h))
    rw [Nat.testBit_lt_two_pow h1]
    simp

/-- C3 (as amended). Family B resolver: for a node whose vendor id is `TS_VENDOR_ID` or
`SS_VENDOR_ID` and whose system image guid `g` is a 64-bit value, `get_chassisguid`
returns `g & 0xffffffff00ffffff`, that is `g` with exactly the bits 24-31 cleared and
every other bit unchanged. -/
theorem get_chassisguid_familyB (K : Config) (g : Graph) (node : NodeId)
    (hv : (g.node node).vendid = K.TS_VENDOR_ID ∨ (g.node node).vendid = K.SS_VENDOR_ID)
    (h64 : (g.node node).sysimgguid < 2 ^ 64) :
    get_chassisguid K g node = (g.node node).sysimgguid &&& 0xffffffff00ffffff ∧
    ClearedBits 24 31 (g.node node).sysimgguid (get_chassisguid K g node) := by
  have h : get_chassisguid K g node = topspin_chassisguid (g.node node).sysimgguid := by
    simp [get_chassisguid, hv]
  rw [h]
  exact ⟨rfl, topspin_cleared _ h64⟩

theorem get_chassisguid_familyB_witness :
    ((single_node stdConfig.TS_VENDOR_ID 0x10001000000).node 0).sysimgguid < 2 ^ 64 ∧
    get_chassisguid stdConfig (single_node stdConfig.TS_VENDOR_ID 0x10001000000) 0 =
      0x10001000000 &&& 0xffffffff00ffffff ∧
    ClearedBits 24 31 0x10001000000
      (get_chassisguid stdConfig (single_node stdConfig.TS_VENDOR_ID 0x10001000000) 0) :=
  ⟨by decide,
   get_chassisguid_familyB stdConfig (single_node stdConfig.TS_VENDOR_ID 0x10001000000) 0
    (Or.inl rfl) (by decide)⟩

/-- C3 as stated fails: for the Family B node with system image guid `0x10001000000`
(bits 24 and 40 set) `get_chassisguid` returns `0x10000000000`: bit 24 is cleared
and bit 40 is kept, so the result is not the guid with the bits 40-47 cleared. -/
theorem get_chassisguid_familyB_not_bits_40_47 :
    get_chassisguid stdConfig (single_node stdConfig.TS_VENDOR_ID 0x10001000000) 0 =
      0x10000000000 ∧
    ¬ ClearedBits 40 47 0x10001000000
        (get_chassisguid stdConfig (single_node stdConfig.TS_VENDOR_ID 0x10001000000) 0) := by
  refine ⟨by decide, fun h => ?_⟩
  have h24 := h 24
  revert h24
  decide

/-- C4 (as amended). Family C resolver, channel-adapter case: for a node that reaches the
family C branch (vendor id neither `TS_VENDOR_ID` nor `SS_VENDOR_ID`, and vendor id
`XS_VENDOR_ID` or a Xsigo system image guid) and whose guid has a channel-adapter subtype,
`get_chassisguid` looks at `ports[1]`, the port with number 1: it returns 0 when the port
array or that port is absent, the own guid when that port has no link, the remote node's
guid with the slot byte masked when the remote node matches the leaf-one pattern, and the
own guid when it does not. -/
theorem xsigo_ca_guid (K : Config) (g : Graph) (node : NodeId)
    (hB : ¬ ((g.node node).vendid = K.TS_VENDOR_ID ∨ (g.node node).vendid = K.SS_VENDOR_ID))
    (hC : (g.node node).vendid = K.XS_VENDOR_ID ∨
      ibnd_is_xsigo_guid (g.node node).sysimgguid = true)
    (hca : is_xsigo_ca (g.node node).sysimgguid = true) :
    ((g.node node).ports = none → get_chassisguid K g node = 0) ∧
    (∀ ports, (g.node node).ports = some ports → ports 1 = none →
      get_chassisguid K g node = 0) ∧
    (∀ ports p1, (g.node node).ports = some ports → ports 1 = some p1 →
      (g.port p1).remoteport = none → get_chassisguid K g node = (g.node node).sysimgguid) ∧
    (∀ ports p1 rp, (g.node node).ports = some ports → ports 1 = some p1 →
      (g.port p1).remoteport = some rp →
      get_chassisguid K g node =
        if is_xsigo_leafone (g.node (g.port rp).node).sysimgguid = true then
          (g.node (g.port rp).node).sysimgguid &&& 0xffffffff00ffffff
        else (g.node node).sysimgguid) := by
  have h : get_chassisguid K g node = xsigo_chassisguid g node := by
    simp only [get_chassisguid, if_neg hB, if_pos hC]
  rw [h]
  refine ⟨?_, ?_, ?_, ?_⟩
  · intro h1
    simp [xsigo_chassisguid, hca, h1]
  · intro ports h1 h2
    simp [xsigo_chassisguid, hca, h1, h2]
  · intro ports p1 h1 h2 h3
    simp [xsigo_chassisguid, hca, h1, h2, h3]
  · intro ports p1 rp h1 h2 h3
    simp [xsigo_chassisguid, hca, h1, h2, h3]

theorem xsigo_ca_guid_witness :
    is_xsigo_ca ((xsigo_pair (some xsigo_ports0) true).node 0).sysimgguid = true ∧
    get_chassisguid stdConfig (xsigo_pair (some xsigo_ports0) true) 0 =
      0x0013970102000009 &&& 0xffffffff00ffffff :=
  ⟨by decide,
   ((xsigo_ca_guid stdConfig (xsigo_pair (some xsigo_ports0) true) 0 (by decide) (by decide)
    (by decide)).2.2.2 xsigo_ports0 1 11 rfl rfl rfl).trans (by decide)⟩

/-- C4 as stated fails twice.  With the port array absent the code returns 0, not the
own guid `0x0013970200000007`.  With port 1 linked to a leaf-one switch and port 2
without a link the code returns the remote guid masked, `0x0013970100000009`, where
the reading "second port, number 2" gives the own guid. -/
theorem xsigo_ca_guid_not_second_port :
    get_chassisguid stdConfig (xsigo_pair none false) 0 = 0 ∧
    spec_xsigo_ca_chassisguid (xsigo_pair none false) 0 = 0x0013970200000007 ∧
    get_chassisguid stdConfig (xsigo_pair (some xsigo_ports0) true) 0 = 0x0013970100000009 ∧
    spec_xsigo_ca_chassisguid (xsigo_pair (some xsigo_ports0) true) 0 = 0x0013970200000007 := by
  decide

/-- C5 (as amended). Family C resolver, other nodes: for a node whose vendor id is neither
`TS_VENDOR_ID` nor `SS_VENDOR_ID`, that has vendor id `XS_VENDOR_ID` or a system image
guid `g` passing `ibnd_is_xsigo_guid`, and whose guid has neither channel-adapter subtype,
`get_chassisguid` returns `g & 0xffffffff00ffffff` when `g` is of the switch subtype and
`g` unchanged otherwise. -/
theorem xsigo_non_ca_guid (K : Config) (g : Graph) (node : NodeId)
    (hB : ¬ ((g.node node).vendid = K.TS_VENDOR_ID ∨ (g.node node).vendid = K.SS_VENDOR_ID))
    (hC : (g.node node).vendid = K.XS_VENDOR_ID ∨
      ibnd_is_xsigo_guid (g.node node).sysimgguid = true)
    (hhca : ibnd_is_xsigo_hca (g.node node).sysimgguid = false)
    (htca : ibnd_is_xsigo_tca (g.node node).sysimgguid = false) :
    get_chassisguid K g node =
      if is_xsigo_switch (g.node node).sysimgguid = true then
        (g.node node).sysimgguid &&& 0xffffffff00ffffff
      else (g.node node).sysimgguid := by
  simp [get_chassisguid, if_neg hB, if_pos hC, xsigo_chassisguid, is_xsigo_ca, hhca, htca]

theorem xsigo_non_ca_guid_witness :
    is_xsigo_switch 0x0013970105000003 = true ∧
    get_chassisguid stdConfig (single_node stdConfig.XS_VENDOR_ID 0x0013970105000003) 0 =
      0x0013970100000003 :=
  ⟨by decide,
   (xsigo_non_ca_guid stdConfig (single_node stdConfig.XS_VENDOR_ID 0x0013970105000003) 0
    (by decide) (by decide) (by decide) (by decide)).trans (by decide)⟩

/-- C5 as stated fails: the guid `0x0013970401000000` passes `ibnd_is_xsigo_guid` and
has neither a channel-adapter nor the switch subtype, but on a node of vendor
`TS_VENDOR_ID` the Family B branch is taken first and `get_chassisguid` returns
`0x0013970400000000`, not the guid unchanged. -/
theorem xsigo_non_ca_guid_fails_for_familyB :
    ibnd_is_xsigo_guid 0x0013970401000000 = true ∧
    ibnd_is_xsigo_hca 0x0013970401000000 = false ∧
    ibnd_is_xsigo_tca 0x0013970401000000 = false ∧
    is_xsigo_switch 0x0013970401000000 = false ∧
    get_chassisguid stdConfig (single_node stdConfig.TS_VENDOR_ID 0x0013970401000000) 0 =
      0x0013970400000000 := by
  decide

/-! ## Slot insertion (C6) -/

theorem insert_line_router_occupied (K : Config) (s : St) (node : NodeId) (c : ChassisId)
    (i : Nat) (hi : get_line_index K s node = .ok i)
    (ho : ((s.chassis c).linenode i).isSome = true) :
    insert_line_router K s node c = .ok s := by
  simp [insert_line_router, hi, ho]

theorem insert_line_router_empty (K : Config) (s : St) (node : NodeId) (c : ChassisId) (i : Nat)
    (hi : get_line_index K s node = .ok i) (ho : (s.chassis c).linenode i = none) :
    ∃ s1, insert_line_router K s node c = .ok s1 ∧
      (s1.chassis c).linenode i = some node ∧ (s1.node node).chassis = some c ∧
      (∀ j, j ≠ i → (s1.chassis c).linenode j = (s.chassis c).linenode j) ∧
      (∀ j, (s1.chassis c).spinenode j = (s.chassis c).spinenode j) ∧
      (∀ d, d ≠ c → s1.chassis d = s.chassis d) ∧
      (∀ m, m ≠ node → s1.node m = s.node m) := by
  refine ⟨_, by simp [insert_line_router, hi, ho]; rfl, ?_⟩
  simp +contextual [St.modNode, St.modChassis]

theorem insert_spine_occupied (K : Config) (g : Graph) (s : St) (node : NodeId) (c : ChassisId)
    (i : Nat) (hi : get_spine_index K g s node = .ok i)
    (ho : ((s.chassis c).spinenode i).isSome = true) :
    insert_spine K g s node c = .ok s := by
  simp [insert_spine, hi, ho]

theorem insert_spine_empty (K : Config) (g : Graph) (s : St) (node : NodeId) (c : ChassisId)
    (i : Nat) (hi : get_spine_index K g s node = .ok i) (ho : (s.chassis c).spinenode i = none) :
    ∃ s1, insert_spine K g s node c = .ok s1 ∧
      (s1.chassis c).spinenode i = some node ∧ (s1.node node).chassis = some c ∧
      (∀ j, j ≠ i → (s1.chassis c).spinenode j = (s.chassis c).spinenode j) ∧
      (∀ j, (s1.chassis c).linenode j = (s.chassis c).linenode j) ∧
      (∀ d, d ≠ c → s1.chassis d = s.chassis d) ∧
      (∀ m, m ≠ node → s1.node m = s.node m) := by
  refine ⟨_, by simp [insert_spine, hi, ho]; rfl, ?_⟩
  simp +contextual [St.modNode, St.modChassis]

/-- C6. First writer wins: when the node's flat index exists (the index function returns
`i`), `insert_line_router` and `insert_spine` return the state unchanged if slot `i` is
occupied; if it is empty they set exactly that slot to the node and the node's chassis
reference to this chassis, and change no other slot of either array, no other chassis
and no other node. -/
theorem insert_first_writer_wins (K : Config) (g : Graph) (s : St) (node : NodeId)
    (c : ChassisId) (i : Nat) :
    (get_line_index K s node = .ok i →
      (((s.chassis c).linenode i).isSome = true → insert_line_router K s node c = .ok s) ∧
      ((s.chassis c).linenode i = none →
        ∃ s1, insert_line_router K s node c = .ok s1 ∧
          (s1.chassis c).linenode i = some node ∧ (s1.node node).chassis = some c ∧
          (∀ j, j ≠ i → (s1.chassis c).linenode j = (s.chassis c).linenode j) ∧
          (∀ j, (s1.chassis c).spinenode j = (s.chassis c).spinenode j) ∧
          (∀ d, d ≠ c → s1.chassis d = s.chassis d) ∧
          (∀ m, m ≠ node → s1.node m = s.node m))) ∧
    (get_spine_index K g s node = .ok i →
      (((s.chassis c).spinenode i).isSome = true → insert_spine K g s node c = .ok s) ∧
      ((s.chassis c).spinenode i = none →
        ∃ s1, insert_spine K g s node c = .ok s1 ∧
          (s1.chassis c).spinenode i = some node ∧ (s1.node node).chassis = some c ∧
          (∀ j, j ≠ i → (s1.chassis c).spinenode j = (s.chassis c).spinenode j) ∧
          (∀ j, (s1.chassis c).linenode j = (s.chassis c).linenode j) ∧
          (∀ d, d ≠ c → s1.chassis d = s.chassis d) ∧
          (∀ m, m ≠ node → s1.node m = s.node m))) :=
  ⟨fun hi =>
    ⟨insert_line_router_occupied K s node c i hi, insert_line_router_empty K s node c i hi⟩,
   fun hi => ⟨insert_spine_occupied K g s node c i hi, insert_spine_empty K g s node c i hi⟩⟩

theorem insert_first_writer_wins_witness :
    get_line_index stdConfig (slot_state 4) 5 = .ok 4 ∧
    ((slot_state 4).chassis 0).linenode 4 = some 9 ∧
    insert_line_router stdConfig (slot_state 4) 5 0 = .ok (slot_state 4) ∧
    get_spine_index stdConfig (single_node 0 0) (slot_state 4) 5 = .ok 2 ∧
    ((slot_state 4).chassis 0).spinenode 2 = none ∧
    (∃ s1, insert_spine stdConfig (single_node 0 0) (slot_state 4) 5 0 = .ok s1 ∧
      (s1.chassis 0).spinenode 2 = some 5 ∧ (s1.node 5).chassis = some 0) := by
  have h := insert_first_writer_wins stdConfig (single_node 0 0) (slot_state 4) 5 0
  have hl : get_line_index stdConfig (slot_state 4) 5 = .ok 4 := by decide
  have hs : get_spine_index stdConfig (single_node 0 0) (slot_state 4) 5 = .ok 2 := by decide
  refine ⟨hl, by decide, ((h 4).1 hl).1 (by decide), hs, by decide, ?_⟩
  obtain ⟨s1, h1, h2, h3, _⟩ := ((h 2).2 hs).2 (by decide)
  exact ⟨s1, h1, h2, h3⟩

/-! ## External port mapping (C9, C10) -/

theorem tbl2_range (t : List (List Nat))
    (ht : t = int2ext_map_slb24 ∨ t = int2ext_map_slb2024 ∨ t = int2ext_map_slb8)
    (c p : Nat) (hc : c < 2) (hp1 : 13 ≤ p) (hp2 : p ≤ 24) :
    1 ≤ tbl2 t c p ∧ tbl2 t c p ≤ 24 := by
  rcases ht with rfl | rfl | rfl <;> interval_cases c <;> interval_cases p <;> decide

theorem model_table_cases (K : Config) (g : Graph) (node : NodeId) :
    model_table K g node = int2ext_map_slb24 ∨ model_table K g node = int2ext_map_slb2024 ∨
      model_table K g node = int2ext_map_slb8 := by
  unfold model_table
  split
  · exact Or.inl rfl
  · split
    · exact Or.inr (Or.inl rfl)
    · exact Or.inr (Or.inr rfl)

/-- C9. Port mapping range: for a processed line board with sub-chip number 1 or 2 and a
port of it with port number in 13..24, `voltaire_portmap` sets the external port number
to the entry `[subchip-1][portnum]` of the board's model table (sLB-24, else sLB-2024, else
sLB-8), and that value lies in 1..24. -/
theorem voltaire_portmap_range (K : Config) (g : Graph) (s : St) (port : PortId)
    (hf : (s.node (g.port port).node).ch_found = true)
    (hl : is_line K g (g.port port).node = true)
    (hp1 : 13 ≤ (g.port port).portnum) (hp2 : (g.port port).portnum ≤ 24)
    (ha : (s.node (g.port port).node).ch_anafanum = 1 ∨
      (s.node (g.port port).node).ch_anafanum = 2) :
    (voltaire_portmap K g s port).ext_portnum port =
      tbl2 (model_table K g (g.port port).node) ((s.node (g.port port).node).ch_anafanum - 1)
        (g.port port).portnum ∧
    (is_line_24 K g (g.port port).node = true →
      model_table K g (g.port port).node = int2ext_map_slb24) ∧
    (is_line_24 K g (g.port port).node = false → is_line_2024 K g (g.port port).node = true →
      model_table K g (g.port port).node = int2ext_map_slb2024) ∧
    (is_line_24 K g (g.port port).node = false → is_line_2024 K g (g.port port).node = false →
      is_line_8 K g (g.port port).node = true ∧
      model_table K g (g.port port).node = int2ext_map_slb8) ∧
    1 ≤ (voltaire_portmap K g s port).ext_portnum port ∧
    (voltaire_portmap K g s port).ext_portnum port ≤ 24 := by
  have hc : (s.node (g.port port).node).ch_anafanum - 1 < 2 := by omega
  have hg1 : ¬ ((s.node (g.port port).node).ch_anafanum < 1) := by omega
  have hg2 : ¬ ((s.node (g.port port).node).ch_anafanum > 2) := by omega
  have hg3 : ¬ ((g.port port).portnum < 13) := by omega
  have hg4 : ¬ ((g.port port).portnum > 24) := by omega
  have hv : (voltaire_portmap K g s port).ext_portnum port =
      tbl2 (model_table K g (g.port port).node) ((s.node (g.port port).node).ch_anafanum - 1)
        (g.port port).portnum := by
    unfold voltaire_portmap model_table
    simp only [hf, hl, hg1, hg2, hg3, hg4, Bool.not_true, Bool.or_self, decide_False,
      Bool.false_eq_true, if_false]
    split
    · simp [St.set_ext_portnum]
    · split <;> simp [St.set_ext_portnum]
  have hr := tbl2_range _ (model_table_cases K g (g.port port).node) _ _ hc hp1 hp2
  refine ⟨hv, ?_, ?_, ?_, by rw [hv]; exact hr.1, by rw [hv]; exact hr.2⟩
  · intro h; simp [model_table, h]
  · intro h1 h2; simp [model_table, h1, h2]
  · intro h1 h2
    refine ⟨?_, by simp [model_table, h1, h2]⟩
    simpa [is_line, h1, h2] using hl

theorem voltaire_portmap_range_witness :
    (voltaire_portmap stdConfig line_board (chip_state 2) 16).ext_portnum 16 = 24 :=
  ((voltaire_portmap_range stdConfig line_board (chip_state 2) 16 (by decide) (by decide)
    (by decide) (by decide) (by decide)).1).trans (by decide)

/-- The shape of every result of `voltaire_portmap`: one write of the external port number
of the port. -/
theorem voltaire_portmap_shape (K : Config) (g : Graph) (s : St) (port : PortId) :
    ∃ v, voltaire_portmap K g s port = s.set_ext_portnum port v := by
  unfold voltaire_portmap
  simp only []
  split
  · exact ⟨_, rfl⟩
  · split
    · exact ⟨_, rfl⟩
    · split
      · exact ⟨_, rfl⟩
      · split <;> exact ⟨_, rfl⟩

/-- What `voltaire_portmap` leaves alone: the node records, the chassis, and the external
port number of every other port. -/
theorem voltaire_portmap_frame (K : Config) (g : Graph) (s : St) (port : PortId) :
    (voltaire_portmap K g s port).node = s.node ∧
    (voltaire_portmap K g s port).chassis = s.chassis ∧
    (voltaire_portmap K g s port).nchassis = s.nchassis ∧
    (∀ q, q ≠ port → (voltaire_portmap K g s port).ext_portnum q = s.ext_portnum q) := by
  obtain ⟨v, hv⟩ := voltaire_portmap_shape K g s port
  refine ⟨by rw [hv]; rfl, by rw [hv]; rfl, by rw [hv]; rfl, fun q hq => ?_⟩
  rw [hv]
  simp [St.set_ext_portnum, hq]

/-- C10. Port mapping default: if the port's node is not processed, or is not a line
board, or the port number is outside 13..24, or the sub-chip number is not 1 or 2, then
`voltaire_portmap` sets the external port number of the port to 0; in every case it
changes nothing but the external port number of that port (the node records, the chassis
and the external port numbers of the other ports are the same). -/
theorem voltaire_portmap_default (K : Config) (g : Graph) (s : St) (port : PortId) :
    (((s.node (g.port port).node).ch_found = false ∨ is_line K g (g.port port).node = false ∨
        (g.port port).portnum < 13 ∨ 24 < (g.port port).portnum ∨
        (s.node (g.port port).node).ch_anafanum < 1 ∨
        2 < (s.node (g.port port).node).ch_anafanum) →
      (voltaire_portmap K g s port).ext_portnum port = 0) ∧
    (voltaire_portmap K g s port).node = s.node ∧
    (voltaire_portmap K g s port).chassis = s.chassis ∧
    (voltaire_portmap K g s port).nchassis = s.nchassis ∧
    (∀ q, q ≠ port → (voltaire_portmap K g s port).ext_portnum q = s.ext_portnum q) := by
  refine ⟨fun h => ?_, voltaire_portmap_frame K g s port⟩
  unfold voltaire_portmap
  simp only []
  split
  · simp [St.set_ext_portnum]
  · rename_i h1
    split
    · simp [St.set_ext_portnum]
    · rename_i h2
      exfalso
      simp only [Bool.or_eq_true, Bool.not_eq_true', decide_eq_true_eq, not_or, not_lt,
        Bool.not_eq_false] at h1 h2
      rcases h with h | h | h | h | h | h
      · rw [h] at h1; exact absurd h1.1.1 (by decide)
      · rw [h] at h1; exact absurd h1.1.2 (by decide)
      all_goals omega

theorem voltaire_portmap_default_witness :
    (voltaire_portmap stdConfig line_board (chip_state 3) 16).ext_portnum 16 = 0 :=
  (voltaire_portmap_default stdConfig line_board (chip_state 3) 16).1
    (Or.inr (Or.inr (Or.inr (Or.inr (Or.inr (by decide))))))

/-! ## Loops -/

theorem loopE_inv {σ α : Type} (P : σ → Prop) (f : σ → α → Except Err σ) :
    ∀ (l : List α), (∀ s a t, a ∈ l → P s → f s a = .ok t → P t) →
      ∀ s t, P s → loopE f l s = .ok t → P t := by
  intro l
  induction l with
  | nil =>
    intro _ s t hs h
    simp only [loopE, Except.ok.injEq] at h
    exact h ▸ hs
  | cons a as ih =>
    intro hstep s t hs h
    simp only [loopE] at h
    cases hfa : f s a with
    | error e => rw [hfa] at h; exact absurd h (by simp)
    | ok s1 =>
      rw [hfa] at h
      exact ih (fun s a t ha => hstep s a t (List.mem_cons_of_mem _ ha)) s1 t
        (hstep s a s1 (List.mem_cons_self _ _) hs hfa) h

theorem loopE_fix {σ α : Type} (f : σ → α → Except Err σ) (s : σ) :
    ∀ (l : List α), (∀ a, a ∈ l → f s a = .ok s) → loopE f l s = .ok s := by
  intro l
  induction l with
  | nil => intro _; rfl
  | cons a as ih =>
    intro h
    simp only [loopE, h a (List.mem_cons_self _ _)]
    exact ih fun b hb => h b (List.mem_cons_of_mem _ hb)

theorem mem_upto {n p : Nat} : p ∈ upto n ↔ 1 ≤ p ∧ p ≤ n := by
  rw [upto, List.mem_range'_1]
  omega

/-! ## Occupied slots are kept (C8) -/

theorem SlotsKept.kept_refl (c : ChassisId) (s : St) : SlotsKept c s s :=
  ⟨fun _ _ h => h, fun _ _ h => h⟩

theorem SlotsKept.kept_trans {c : ChassisId} {s t u : St} (h1 : SlotsKept c s t)
    (h2 : SlotsKept c t u) : SlotsKept c s u :=
  ⟨fun i n h => h2.1 i n (h1.1 i n h), fun i n h => h2.2 i n (h1.2 i n h)⟩

theorem get_spine_index_range {K : Config} {g : Graph} {s : St} {node : NodeId} {i : Nat}
    (h : get_spine_index K g s node = .ok i) : 1 ≤ i ∧ i ≤ K.SPINES_MAX_NUM := by
  unfold get_spine_index at h
  simp only [] at h
  split_ifs at h <;> simp only [Except.ok.injEq] at h <;> omega

theorem get_line_index_range {K : Config} {s : St} {node : NodeId} {i : Nat}
    (h : get_line_index K s node = .ok i) : 1 ≤ i ∧ i ≤ K.LINES_MAX_NUM := by
  unfold get_line_index at h
  simp only [] at h
  split_ifs at h
  simp only [Except.ok.injEq] at h
  omega

theorem insert_spine_kept {K : Config} {g : Graph} {s t : St} {node : NodeId} {c : ChassisId}
    (d : ChassisId) (h : insert_spine K g s node c = .ok t) : SlotsKept d s t := by
  unfold insert_spine at h
  cases hi : get_spine_index K g s node with
  | error e => rw [hi] at h; exact absurd h (by simp)
  | ok i =>
    rw [hi] at h
    simp only [] at h
    split at h
    · simp only [Except.ok.injEq] at h
      exact h ▸ SlotsKept.kept_refl d s
    · rename_i ho
      simp only [Except.ok.injEq] at h
      subst h
      replace ho : ∀ n, (s.chassis c).spinenode i ≠ some n := by
        intro n hn; rw [hn] at ho; exact ho rfl
      constructor
      · intro j n hj
        by_cases hd : d = c
        · subst hd
          have hji : j ≠ i := by
            intro hji; subst hji; exact ho n hj
          simpa [St.modNode, St.modChassis, hji] using hj
        · simpa [St.modNode, St.modChassis, hd] using hj
      · intro j n hj
        by_cases hd : d = c
        · subst hd
          simpa [St.modNode, St.modChassis] using hj
        · simpa [St.modNode, St.modChassis, hd] using hj

theorem insert_line_router_kept {K : Config} {s t : St} {node : NodeId} {c : ChassisId}
    (d : ChassisId) (h : insert_line_router K s node c = .ok t) : SlotsKept d s t := by
  unfold insert_line_router at h
  cases hi : get_line_index K s node with
  | error e => rw [hi] at h; exact absurd h (by simp)
  | ok i =>
    rw [hi] at h
    simp only [] at h
    split at h
    · simp only [Except.ok.injEq] at h
      exact h ▸ SlotsKept.kept_refl d s
    · rename_i ho
      simp only [Except.ok.injEq] at h
      subst h
      replace ho : ∀ n, (s.chassis c).linenode i ≠ some n := by
        intro n hn; rw [hn] at ho; exact ho rfl
      constructor
      · intro j n hj
        by_cases hd : d = c
        · subst hd
          simpa [St.modNode, St.modChassis] using hj
        · simpa [St.modNode, St.modChassis, hd] using hj
      · intro j n hj
        by_cases hd : d = c
        · subst hd
          have hji : j ≠ i := by
            intro hji; subst hji; exact ho n hj
          simpa [St.modNode, St.modChassis, hji] using hj
        · simpa [St.modNode, St.modChassis, hd] using hj


theorem lines_port_step_kept {K : Config} {g : Graph} {c : ChassisId} {node : NodeId} {s t : St}
    {p : Nat} (d : ChassisId) (h : lines_port_step K g c node s p = .ok t) : SlotsKept d s t := by
  unfold lines_port_step at h
  split at h
  · exact absurd h (by simp)
  · simp only [Except.ok.injEq] at h; exact h ▸ SlotsKept.kept_refl d s
  · split at h
    · simp only [Except.ok.injEq] at h; exact h ▸ SlotsKept.kept_refl d s
    · split at h
      · simp only [Except.ok.injEq] at h; exact h ▸ SlotsKept.kept_refl d s
      · simp only [] at h
        split at h
        · simp only [Except.ok.injEq] at h; exact h ▸ SlotsKept.kept_refl d s
        · exact insert_spine_kept d h

theorem spines_port_step_kept {K : Config} {g : Graph} {c : ChassisId} {node : NodeId}
    {s t : St} {p : Nat} (d : ChassisId) (h : spines_port_step K g c node s p = .ok t) :
    SlotsKept d s t := by
  unfold spines_port_step at h
  split at h
  · exact absurd h (by simp)
  · simp only [Except.ok.injEq] at h; exact h ▸ SlotsKept.kept_refl d s
  · split at h
    · simp only [Except.ok.injEq] at h; exact h ▸ SlotsKept.kept_refl d s
    · simp only [] at h
      split at h
      · simp only [Except.ok.injEq] at h; exact h ▸ SlotsKept.kept_refl d s
      · exact insert_line_router_kept d h

/-- A loop whose every turn keeps the occupied slots keeps them. -/
theorem loopE_kept {α : Type} (d : ChassisId) (f : St → α → Except Err St) (l : List α)
    (hf : ∀ s a t, f s a = .ok t → SlotsKept d s t) (s t : St) (h : loopE f l s = .ok t) :
    SlotsKept d s t :=
  loopE_inv (fun u => SlotsKept d s u) f l
    (fun u a v _ hu hv => hu.kept_trans (hf u a v hv)) s t (SlotsKept.kept_refl d s) h

theorem lines_slot_step_kept {K : Config} {g : Graph} {c : ChassisId} {s t : St} {i : Nat}
    (d : ChassisId) (h : lines_slot_step K g c s i = .ok t) : SlotsKept d s t := by
  unfold lines_slot_step at h
  split at h
  · simp only [Except.ok.injEq] at h; exact h ▸ SlotsKept.kept_refl d s
  · split at h
    · simp only [Except.ok.injEq] at h; exact h ▸ SlotsKept.kept_refl d s
    · exact loopE_kept d _ _ (fun _ _ _ hu => lines_port_step_kept d hu) s t h

theorem spines_slot_step_kept {K : Config} {g : Graph} {c : ChassisId} {s t : St} {i : Nat}
    (d : ChassisId) (h : spines_slot_step K g c s i = .ok t) : SlotsKept d s t := by
  unfold spines_slot_step at h
  split at h
  · simp only [Except.ok.injEq] at h; exact h ▸ SlotsKept.kept_refl d s
  · exact loopE_kept d _ _ (fun _ _ _ hu => spines_port_step_kept d hu) s t h

theorem pass_on_lines_kept {K : Config} {g : Graph} {c : ChassisId} {s t : St}
    (d : ChassisId) (h : pass_on_lines_catch_spines K g s c = .ok t) : SlotsKept d s t :=
  loopE_kept d _ _ (fun _ _ _ hu => lines_slot_step_kept d hu) s t h

theorem pass_on_spines_kept {K : Config} {g : Graph} {c : ChassisId} {s t : St}
    (d : ChassisId) (h : pass_on_spines_catch_lines K g s c = .ok t) : SlotsKept d s t :=
  loopE_kept d _ _ (fun _ _ _ hu => spines_slot_step_kept d hu) s t h

theorem propagate_kept {K : Config} {g : Graph} {c : ChassisId} {s t : St}
    (d : ChassisId) (h : propagate K g s c = .ok t) : SlotsKept d s t := by
  unfold propagate at h
  cases h1 : pass_on_lines_catch_spines K g s c with
  | error e => rw [h1] at h; exact absurd h (by simp)
  | ok s1 =>
    rw [h1] at h
    exact (pass_on_lines_kept d h1).kept_trans (pass_on_spines_kept d h)

/-! ## Interpolation of the chassis guid (C8) -/

/-- The loop of `pass_on_spines_interpolate_chguid` over the slots `a, ..., a + n - 1`:
either all of them are empty and nothing is written, or the guid is taken from the
occupant of the first occupied one. -/
theorem interpolate_loop_range (g : Graph) (s : St) (c : ChassisId) (n : Nat) :
    ∀ a, ((∀ j, a ≤ j → j < a + n → (s.chassis c).spinenode j = none) ∧
        interpolate_loop g s c (List.range' a n) = s) ∨
      ∃ i node, a ≤ i ∧ i < a + n ∧ (s.chassis c).spinenode i = some node ∧
        (∀ j, a ≤ j → j < i → (s.chassis c).spinenode j = none) ∧
        interpolate_loop g s c (List.range' a n) =
          s.modChassis c fun r => { r with chassisguid := sub64 (g.node node).guid 1 } := by
  induction n with
  | zero =>
    intro a
    exact Or.inl ⟨fun j h1 h2 => absurd h2 (by omega), rfl⟩
  | succ n ih =>
    intro a
    rw [List.range'_succ]
    cases ha : (s.chassis c).spinenode a with
    | some node =>
      refine Or.inr ⟨a, node, le_refl a, by omega, ha, fun j h1 h2 => absurd h2 (by omega), ?_⟩
      simp only [interpolate_loop, ha]
    | none =>
      have hstep : interpolate_loop g s c (a :: List.range' (a + 1) n) =
          interpolate_loop g s c (List.range' (a + 1) n) := by
        simp only [interpolate_loop, ha]
      rw [hstep]
      rcases ih (a + 1) with ⟨h1, h2⟩ | ⟨i, node, h1, h2, h3, h4, h5⟩
      · refine Or.inl ⟨fun j hj1 hj2 => ?_, h2⟩
        by_cases hja : j = a
        · rw [hja]; exact ha
        · exact h1 j (by omega) (by omega)
      · refine Or.inr ⟨i, node, by omega, by omega, h3, fun j hj1 hj2 => ?_, h5⟩
        by_cases hja : j = a
        · rw [hja]; exact ha
        · exact h4 j (by omega) hj2

/-- C8. Chassis identifier interpolation: whenever `build_chassis` returns (for every seed
node and every chassis, in particular a freshly allocated one), some spine slot of the
chassis is occupied, and the chassis guid equals the node guid of the occupant of the
lowest-index occupied spine slot minus one, computed modulo 2^64. -/
theorem build_chassis_chassisguid (K : Config) (g : Graph) (s t : St) (node : NodeId)
    (c : ChassisId) (h : build_chassis K g s node c = .ok t) :
    ∃ i n, 1 ≤ i ∧ i ≤ K.SPINES_MAX_NUM ∧ (t.chassis c).spinenode i = some n ∧
      (∀ j, 1 ≤ j → j < i → (t.chassis c).spinenode j = none) ∧
      (t.chassis c).chassisguid = ((g.node n).guid + 2 ^ 64 - 1) % 2 ^ 64 := by
  unfold build_chassis at h
  cases h1 : insert_spine K g s node c with
  | error e => rw [h1] at h; exact absurd h (by simp)
  | ok s1 =>
  rw [h1] at h; simp only [] at h
  cases h2 : loopE (spines_port_step K g c node) (upto (g.node node).numports) s1 with
  | error e => rw [h2] at h; exact absurd h (by simp)
  | ok s2 =>
  rw [h2] at h; simp only [] at h
  cases h3 : propagate K g s2 c with
  | error e => rw [h3] at h; exact absurd h (by simp)
  | ok s3 =>
  rw [h3] at h; simp only [] at h
  cases h4 : propagate K g s3 c with
  | error e => rw [h4] at h; exact absurd h (by simp)
  | ok s4 =>
  rw [h4] at h
  simp only [Except.ok.injEq] at h
  -- the seed's slot is occupied after the insertion
  have hseed : ∃ i0 n0, 1 ≤ i0 ∧ i0 ≤ K.SPINES_MAX_NUM ∧
      (s1.chassis c).spinenode i0 = some n0 := by
    cases hi : get_spine_index K g s node with
    | error e => simp [insert_spine, hi] at h1
    | ok i0 =>
      have hr := get_spine_index_range hi
      cases ho : (s.chassis c).spinenode i0 with
      | some n0 =>
        have := insert_spine_occupied K g s node c i0 hi (by simp [ho])
        rw [this] at h1
        simp only [Except.ok.injEq] at h1
        exact ⟨i0, n0, hr.1, hr.2, h1 ▸ ho⟩
      | none =>
        obtain ⟨u, hu1, hu2, _⟩ := insert_spine_empty K g s node c i0 hi ho
        rw [hu1] at h1
        simp only [Except.ok.injEq] at h1
        exact ⟨i0, node, hr.1, hr.2, h1 ▸ hu2⟩
  obtain ⟨i0, n0, hi1, hi2, hocc⟩ := hseed
  have hk : SlotsKept c s1 s4 :=
    ((loopE_kept c _ _ (fun _ _ _ hu => spines_port_step_kept c hu) s1 s2 h2).kept_trans
      (propagate_kept c h3)).kept_trans (propagate_kept c h4)
  have hocc4 := hk.1 i0 n0 hocc
  have hupto : upto K.SPINES_MAX_NUM = List.range' 1 K.SPINES_MAX_NUM := rfl
  rcases interpolate_loop_range g s4 c K.SPINES_MAX_NUM 1 with
    ⟨hnone, _⟩ | ⟨i, n, hi3, hi4, hi5, hi6, hi7⟩
  · have := hnone i0 hi1 (by omega)
    rw [this] at hocc4
    exact absurd hocc4 (by simp)
  · refine ⟨i, n, hi3, by omega, ?_, ?_, ?_⟩
    · rw [← h, pass_on_spines_interpolate_chguid, hupto, hi7]
      simpa [St.modChassis] using hi5
    · intro j hj1 hj2
      rw [← h, pass_on_spines_interpolate_chguid, hupto, hi7]
      simpa [St.modChassis] using hi6 j hj1 hj2
    · rw [← h, pass_on_spines_interpolate_chguid, hupto, hi7]
      simp [St.modChassis, sub64]


/-! ## The rounds of `build_chassis` on a chain (C7) -/

/-- C7. The propagation of `build_chassis` does not reach a fixpoint on the chain
spine 0 - line 1 - spine 2 - line 3 - spine 4 - line 5 - spine 6, tagged by the first
pass of `group_nodes`.  `build_chassis` seeded at spine 0 returns with line board 5
in line slot 4 but without spine 6, a processed node at the far end of port 4 of line
board 5: spine slot 4 is empty and node 6 refers to no chassis.  One more round,
`pass_on_lines_catch_spines` followed by `pass_on_spines_catch_lines`, puts spine 6
into spine slot 4 and sets its chassis reference.  In `group_nodes` the second pass
seeds a second chassis at spine 6, and that chassis takes spine 4 and line board 5
again: they stand in the slot arrays of both chassis and refer to the second. -/
theorem build_chassis_stops_short :
    tagging_returns chain_fabric = true ∧
    build_chassis stdConfig chain_fabric (tagged chain_fabric) 0 0 =
      .ok (built chain_fabric) ∧
    (((built chain_fabric).chassis 0).linenode 4 = some 5 ∧
      port_at chain_fabric 5 4 = .ok (some 504) ∧ (chain_fabric.port 504).portnum = 4 ∧
      (chain_fabric.port 504).remoteport = some 601 ∧ (chain_fabric.port 601).node = 6 ∧
      ((built chain_fabric).node 6).ch_found = true) ∧
    (((built chain_fabric).chassis 0).spinenode 4 = none ∧
      ((built chain_fabric).node 6).chassis = none) ∧
    (∃ t, propagate stdConfig chain_fabric (built chain_fabric) 0 = .ok t ∧
      (t.chassis 0).spinenode 4 = some 6 ∧ (t.node 6).chassis = some 0) ∧
    group_nodes stdConfig chain_fabric 2 St.init = .ok (grouped chain_fabric) ∧
    (grouped chain_fabric).nchassis = 2 ∧
    ((grouped chain_fabric).chassis 0).spinenode 4 = none ∧
    ((grouped chain_fabric).chassis 1).spinenode 4 = some 6 ∧
    (((grouped chain_fabric).chassis 0).linenode 4 = some 5 ∧
      ((grouped chain_fabric).chassis 1).linenode 4 = some 5 ∧
      ((grouped chain_fabric).node 5).chassis = some 1) ∧
    (((grouped chain_fabric).chassis 0).spinenode 3 = some 4 ∧
      ((grouped chain_fabric).chassis 1).spinenode 3 = some 4 ∧
      ((grouped chain_fabric).node 4).chassis = some 1) :=
  ⟨by decide, by rfl, ⟨by decide, by decide, by decide, by decide, by decide, by decide⟩,
    ⟨by decide, by decide⟩,
    ⟨run (propagate stdConfig chain_fabric (built chain_fabric) 0), by rfl, by decide,
      by decide⟩,
    by rfl, by decide, by decide, by decide, ⟨by decide, by decide, by decide⟩,
    ⟨by decide, by decide, by decide⟩⟩

theorem build_chassis_chassisguid_witness :
    build_chassis stdConfig chain_fabric (tagged chain_fabric) 0 0 = .ok (built chain_fabric) ∧
    ∃ i n, 1 ≤ i ∧ i ≤ stdConfig.SPINES_MAX_NUM ∧
      ((built chain_fabric).chassis 0).spinenode i = some n ∧
      (∀ j, 1 ≤ j → j < i → ((built chain_fabric).chassis 0).spinenode j = none) ∧
      ((built chain_fabric).chassis 0).chassisguid =
        ((chain_fabric.node n).guid + 2 ^ 64 - 1) % 2 ^ 64 :=
  have hb : build_chassis stdConfig chain_fabric (tagged chain_fabric) 0 0 =
      .ok (built chain_fabric) := by rfl
  ⟨hb, build_chassis_chassisguid stdConfig chain_fabric (tagged chain_fabric) (built chain_fabric)
    0 0 hb⟩

/-! ## Effect of the Voltaire passes -/

theorem Eff.eff_refl (K : Config) (g : Graph) (s : St) : Eff K g s s :=
  ⟨le_refl _, fun _ _ => ⟨rfl, rfl⟩, fun _ h1 h2 => absurd h2 (by omega), fun _ h => h,
    fun _ _ => rfl, fun _ _ _ => rfl⟩

theorem Eff.eff_trans {K : Config} {g : Graph} {s t u : St} (h1 : Eff K g s t) (h2 : Eff K g t u) :
    Eff K g s u := by
  obtain ⟨a1, a2, a3, a4, a5, a6⟩ := h1
  obtain ⟨b1, b2, b3, b4, b5, b6⟩ := h2
  refine ⟨le_trans a1 b1, ?_, ?_, fun x h => b4 x (a4 x h), ?_, ?_⟩
  · intro c hc
    have := b2 c (by omega)
    have := a2 c hc
    constructor
    · rw [(b2 c (by omega)).1, (a2 c hc).1]
    · rw [(b2 c (by omega)).2, (a2 c hc).2]
  · intro c hc1 hc2
    by_cases hct : c < t.nchassis
    · have := a3 c hc1 hct
      constructor
      · rw [(b2 c hct).1, this.1]
      · rw [(b2 c hct).2, this.2]
    · exact b3 c (by omega) hc2
  · intro x hx
    have hxt : (t.node x).ch_found = false := by
      cases h : (t.node x).ch_found with
      | false => rfl
      | true => rw [b4 x h] at hx; exact absurd hx (by simp)
    rw [b5 x hx, a5 x hxt]
  · intro x hv ht
    rw [b6 x hv ht, a6 x hv ht]

/-- A change of node records only. -/
theorem Eff.of_nodes (K : Config) (g : Graph) (s t : St) (hc : t.chassis = s.chassis)
    (hn : t.nchassis = s.nchassis)
    (h4 : ∀ x, (s.node x).ch_found = true → (t.node x).ch_found = true)
    (h5 : ∀ x, (t.node x).ch_found = false → (t.node x).chassis = (s.node x).chassis)
    (h6 : ∀ x, (g.node x).vendid ≠ K.VTR_VENDOR_ID → (g.node x).type = K.IB_NODE_SWITCH →
      (t.node x).ch_found = (s.node x).ch_found) : Eff K g s t :=
  ⟨by omega, fun c _ => by rw [hc]; exact ⟨rfl, rfl⟩, fun c h1 h2 => absurd h2 (by omega),
    h4, h5, h6⟩

theorem Eff.tag (K : Config) (g : Graph) (s : St) (n : NodeId) (a b c d : Nat) :
    Eff K g s (s.tag n a b c d) := by
  refine Eff.of_nodes K g s _ rfl rfl ?_ ?_ ?_ <;> intro x <;> by_cases hx : x = n <;>
    simp [St.tag, St.modNode, hx]

theorem Eff.found (K : Config) (g : Graph) (s : St) (n : NodeId)
    (h : (g.node n).vendid = K.VTR_VENDOR_ID ∨ (g.node n).type ≠ K.IB_NODE_SWITCH) :
    Eff K g s (s.modNode n fun r => { r with ch_found := true }) := by
  refine Eff.of_nodes K g s _ rfl rfl ?_ ?_ ?_
  · intro x; by_cases hx : x = n <;> simp [St.modNode, hx]
  · intro x; by_cases hx : x = n <;> simp [St.modNode, hx]
  · intro x hv ht
    have hx : x ≠ n := by
      intro hx; subst hx
      rcases h with h | h
      · exact hv h
      · exact h ht
    simp [St.modNode, hx]

theorem get_sfb_slot_eq {K : Config} {g : Graph} {s t : St} {node : NodeId} {lp : PortId}
    (h : get_sfb_slot K g s node lp = .ok t) : ∃ a b c d, t = s.tag node a b c d := by
  unfold get_sfb_slot at h
  simp only [] at h
  split_ifs at h <;> split at h <;>
    first
    | (simp only [Except.ok.injEq] at h; exact ⟨_, _, _, _, h.symm⟩)
    | exact absurd h (by simp)

theorem get_slb_slot_eq {K : Config} {g : Graph} {s t : St} {node : NodeId} {sp : PortId}
    (h : get_slb_slot K g s node sp = .ok t) : ∃ a b c d, t = s.tag node a b c d := by
  unfold get_slb_slot at h
  simp only [] at h
  split_ifs at h <;> split at h <;>
    first
    | (simp only [Except.ok.injEq] at h; exact ⟨_, _, _, _, h.symm⟩)
    | exact absurd h (by simp)

theorem get_router_slot_eq {K : Config} {g : Graph} {s t : St} {node : NodeId} {sp : PortId}
    (h : get_router_slot K g s node sp = .ok t) :
    ∃ a b c d, t = (s.modNode node fun r => { r with ch_found := true }).tag node a b c d := by
  unfold get_router_slot at h
  simp only [] at h
  split_ifs at h <;> split at h <;>
    first
    | (simp only [Except.ok.injEq] at h; exact ⟨_, _, _, _, h.symm⟩)
    | exact absurd h (by simp)

theorem get_sfb_slot_eff {K : Config} {g : Graph} {s t : St} {node : NodeId} {lp : PortId}
    (h : get_sfb_slot K g s node lp = .ok t) : Eff K g s t := by
  obtain ⟨a, b, c, d, rfl⟩ := get_sfb_slot_eq h
  exact Eff.tag K g s node a b c d

theorem get_slb_slot_eff {K : Config} {g : Graph} {s t : St} {node : NodeId} {sp : PortId}
    (h : get_slb_slot K g s node sp = .ok t) : Eff K g s t := by
  obtain ⟨a, b, c, d, rfl⟩ := get_slb_slot_eq h
  exact Eff.tag K g s node a b c d

theorem get_router_slot_eff {K : Config} {g : Graph} {s t : St} {node : NodeId} {sp : PortId}
    (hn : (g.node node).vendid = K.VTR_VENDOR_ID ∨ (g.node node).type ≠ K.IB_NODE_SWITCH)
    (h : get_router_slot K g s node sp = .ok t) : Eff K g s t := by
  obtain ⟨a, b, c, d, rfl⟩ := get_router_slot_eq h
  exact (Eff.found K g s node hn).eff_trans (Eff.tag K g _ node a b c d)

theorem voltaire_portmap_eff (K : Config) (g : Graph) (s : St) (port : PortId) :
    Eff K g s (voltaire_portmap K g s port) := by
  obtain ⟨h1, h2, h3, _⟩ := voltaire_portmap_frame K g s port
  exact Eff.of_nodes K g s _ h2 h3 (fun x h => by rw [h1]; exact h) (fun x _ => by rw [h1])
    (fun x _ _ => by rw [h1])

/-- A loop whose every turn has the effect `Eff` has that effect. -/
theorem loopE_eff {K : Config} {g : Graph} {α : Type} (f : St → α → Except Err St)
    (l : List α) (hf : ∀ s a t, f s a = .ok t → Eff K g s t) (s t : St)
    (h : loopE f l s = .ok t) : Eff K g s t :=
  loopE_inv (fun u => Eff K g s u) f l
    (fun u a v _ hu hv => hu.eff_trans (hf u a v hv)) s t (Eff.eff_refl K g s) h


theorem fill_router_step_eff {K : Config} {g : Graph} {node : NodeId} {s t : St} {p : Nat}
    (hv : (g.node node).vendid = K.VTR_VENDOR_ID)
    (h : fill_router_step K g node s p = .ok t) : Eff K g s t := by
  unfold fill_router_step at h
  split at h
  · exact absurd h (by simp)
  · simp only [Except.ok.injEq] at h; exact h ▸ Eff.eff_refl K g s
  · split at h
    · exact absurd h (by simp)
    · split at h
      · exact get_router_slot_eff (Or.inl hv) h
      · simp only [Except.ok.injEq] at h; exact h ▸ Eff.eff_refl K g s

theorem fill_spine_step_eff {K : Config} {g : Graph} {node : NodeId} {s t : St} {p : Nat}
    (h : fill_spine_step K g node s p = .ok t) : Eff K g s t := by
  unfold fill_spine_step at h
  split at h
  · exact absurd h (by simp)
  · simp only [Except.ok.injEq] at h; exact h ▸ Eff.eff_refl K g s
  · split at h
    · simp only [Except.ok.injEq] at h; exact h ▸ Eff.eff_refl K g s
    · simp only [] at h
      split at h
      · rename_i hty
        split at h
        · exact get_router_slot_eff (Or.inr hty) h
        · simp only [Except.ok.injEq] at h; exact h ▸ Eff.eff_refl K g s
      · split at h
        · exact get_sfb_slot_eff h
        · simp only [Except.ok.injEq] at h; exact h ▸ Eff.eff_refl K g s

theorem fill_line_loop_eff {K : Config} {g : Graph} {node : NodeId} {s t : St} :
    ∀ (ps : List Nat), fill_line_loop K g node s ps = .ok t → Eff K g s t := by
  intro ps
  induction ps with
  | nil =>
    intro h
    simp only [fill_line_loop, Except.ok.injEq] at h
    exact h ▸ Eff.eff_refl K g s
  | cons p ps ih =>
    intro h
    unfold fill_line_loop at h
    split at h
    · exact absurd h (by simp)
    · exact ih h
    · split at h
      · exact ih h
      · split at h
        · exact ih h
        · exact get_slb_slot_eff h

theorem fill_portmap_step_eff {K : Config} {g : Graph} {node : NodeId} {s t : St} {p : Nat}
    (h : fill_portmap_step K g node s p = .ok t) : Eff K g s t := by
  unfold fill_portmap_step at h
  split at h
  · exact absurd h (by simp)
  · simp only [Except.ok.injEq] at h; exact h ▸ Eff.eff_refl K g s
  · simp only [Except.ok.injEq] at h; exact h ▸ voltaire_portmap_eff K g s _

theorem fill_voltaire_chassis_record_eff {K : Config} {g : Graph} {node : NodeId} {s t : St}
    (hv : (g.node node).vendid = K.VTR_VENDOR_ID)
    (h : fill_voltaire_chassis_record K g s node = .ok t) : Eff K g s t := by
  unfold fill_voltaire_chassis_record at h
  split at h
  · simp only [Except.ok.injEq] at h; exact h ▸ Eff.eff_refl K g s
  · simp only [] at h
    have h0 := Eff.found K g s node (Or.inl hv)
    split at h
    · exact absurd h (by simp)
    · rename_i s1 htag
      refine (h0.eff_trans ?_).eff_trans
        (loopE_eff _ _ (fun _ _ _ hu => fill_portmap_step_eff hu) _ _ h)
      split at htag
      · exact loopE_eff _ _ (fun _ _ _ hu => fill_router_step_eff hv hu) _ _ htag
      · split at htag
        · exact loopE_eff _ _ (fun _ _ _ hu => fill_spine_step_eff hu) _ _ htag
        · split at htag
          · exact fill_line_loop_eff _ htag
          · simp only [Except.ok.injEq] at htag; exact htag ▸ Eff.eff_refl K g _

theorem tag_step_eff {K : Config} {g : Graph} {s t : St} {node : NodeId}
    (h : tag_step K g s node = .ok t) : Eff K g s t := by
  unfold tag_step at h
  split at h
  · rename_i hv
    exact fill_voltaire_chassis_record_eff hv h
  · simp only [Except.ok.injEq] at h; exact h ▸ Eff.eff_refl K g s

theorem insert_spine_eff {K : Config} {g : Graph} {s t : St} {node : NodeId} {c : ChassisId}
    (hf : (s.node node).ch_found = true) (h : insert_spine K g s node c = .ok t) :
    Eff K g s t := by
  unfold insert_spine at h
  split at h
  · exact absurd h (by simp)
  · split at h
    · simp only [Except.ok.injEq] at h; exact h ▸ Eff.eff_refl K g s
    · simp only [Except.ok.injEq] at h
      subst h
      refine ⟨le_refl _, ?_,
        fun _ h1 h2 => absurd h2 (by simp [St.modNode, St.modChassis]; omega), ?_, ?_, ?_⟩
      · intro d _
        by_cases hd : d = c <;> simp [St.modNode, St.modChassis, hd]
      · intro x; by_cases hx : x = node <;> simp [St.modNode, St.modChassis, hx]
      · intro x; by_cases hx : x = node <;> simp [St.modNode, St.modChassis, hx, hf]
      · intro x _ _; by_cases hx : x = node <;> simp [St.modNode, St.modChassis, hx]

theorem insert_line_router_eff {K : Config} {g : Graph} {s t : St} {node : NodeId}
    {c : ChassisId} (hf : (s.node node).ch_found = true)
    (h : insert_line_router K s node c = .ok t) : Eff K g s t := by
  unfold insert_line_router at h
  split at h
  · exact absurd h (by simp)
  · split at h
    · simp only [Except.ok.injEq] at h; exact h ▸ Eff.eff_refl K g s
    · simp only [Except.ok.injEq] at h
      subst h
      refine ⟨le_refl _, ?_,
        fun _ h1 h2 => absurd h2 (by simp [St.modNode, St.modChassis]; omega), ?_, ?_, ?_⟩
      · intro d _
        by_cases hd : d = c <;> simp [St.modNode, St.modChassis, hd]
      · intro x; by_cases hx : x = node <;> simp [St.modNode, St.modChassis, hx]
      · intro x; by_cases hx : x = node <;> simp [St.modNode, St.modChassis, hx, hf]
      · intro x _ _; by_cases hx : x = node <;> simp [St.modNode, St.modChassis, hx]

theorem lines_port_step_eff {K : Config} {g : Graph} {c : ChassisId} {node : NodeId} {s t : St}
    {p : Nat} (h : lines_port_step K g c node s p = .ok t) : Eff K g s t := by
  unfold lines_port_step at h
  split at h
  · exact absurd h (by simp)
  · simp only [Except.ok.injEq] at h; exact h ▸ Eff.eff_refl K g s
  · split at h
    · simp only [Except.ok.injEq] at h; exact h ▸ Eff.eff_refl K g s
    · split at h
      · simp only [Except.ok.injEq] at h; exact h ▸ Eff.eff_refl K g s
      · simp only [] at h
        split at h
        · simp only [Except.ok.injEq] at h; exact h ▸ Eff.eff_refl K g s
        · rename_i hf
          exact insert_spine_eff (by simpa using hf) h

theorem spines_port_step_eff {K : Config} {g : Graph} {c : ChassisId} {node : NodeId}
    {s t : St} {p : Nat} (h : spines_port_step K g c node s p = .ok t) : Eff K g s t := by
  unfold spines_port_step at h
  split at h
  · exact absurd h (by simp)
  · simp only [Except.ok.injEq] at h; exact h ▸ Eff.eff_refl K g s
  · split at h
    · simp only [Except.ok.injEq] at h; exact h ▸ Eff.eff_refl K g s
    · simp only [] at h
      split at h
      · simp only [Except.ok.injEq] at h; exact h ▸ Eff.eff_refl K g s
      · rename_i hf
        exact insert_line_router_eff (by simpa using hf) h

theorem propagate_eff {K : Config} {g : Graph} {c : ChassisId} {s t : St}
    (h : propagate K g s c = .ok t) : Eff K g s t := by
  unfold propagate at h
  split at h
  · exact absurd h (by simp)
  · rename_i s1 h1
    refine (loopE_eff _ _ (fun u i v hu => ?_) _ _ h1).eff_trans
      (loopE_eff _ _ (fun u i v hu => ?_) _ _ h)
    · unfold lines_slot_step at hu
      split at hu
      · simp only [Except.ok.injEq] at hu; exact hu ▸ Eff.eff_refl K g u
      · split at hu
        · simp only [Except.ok.injEq] at hu; exact hu ▸ Eff.eff_refl K g u
        · exact loopE_eff _ _ (fun _ _ _ hw => lines_port_step_eff hw) _ _ hu
    · unfold spines_slot_step at hu
      split at hu
      · simp only [Except.ok.injEq] at hu; exact hu ▸ Eff.eff_refl K g u
      · exact loopE_eff _ _ (fun _ _ _ hw => spines_port_step_eff hw) _ _ hu

theorem interpolate_eff (K : Config) (g : Graph) (s : St) (c : ChassisId) :
    Eff K g s (pass_on_spines_interpolate_chguid K g s c) := by
  rcases interpolate_loop_range g s c K.SPINES_MAX_NUM 1 with ⟨_, h⟩ | ⟨i, n, _, _, _, _, h⟩
  · rw [pass_on_spines_interpolate_chguid, upto, h]; exact Eff.eff_refl K g s
  · rw [pass_on_spines_interpolate_chguid, upto, h]
    refine ⟨le_refl _, ?_, fun _ h1 h2 => absurd h2 (by simp [St.modChassis]; omega),
      fun _ hx => hx, fun _ _ => rfl, fun _ _ _ => rfl⟩
    intro d _
    by_cases hd : d = c <;> simp [St.modChassis, hd]

theorem build_chassis_eff {K : Config} {g : Graph} {s t : St} {node : NodeId} {c : ChassisId}
    (hf : (s.node node).ch_found = true) (h : build_chassis K g s node c = .ok t) :
    Eff K g s t := by
  unfold build_chassis at h
  split at h
  · exact absurd h (by simp)
  · rename_i s1 h1
    split at h
    · exact absurd h (by simp)
    · rename_i s2 h2
      split at h
      · exact absurd h (by simp)
      · rename_i s3 h3
        split at h
        · exact absurd h (by simp)
        · rename_i s4 h4
          simp only [Except.ok.injEq] at h
          subst h
          exact ((((insert_spine_eff hf h1).eff_trans
            (loopE_eff _ _ (fun _ _ _ hw => spines_port_step_eff hw) _ _ h2)).eff_trans
            (propagate_eff h3)).eff_trans (propagate_eff h4)).eff_trans (interpolate_eff K g s4 c)

theorem build_step_eff {K : Config} {g : Graph} {sc tc : St × Nat} {node : NodeId}
    (h : build_step K g sc node = .ok tc) : Eff K g sc.1 tc.1 := by
  unfold build_step at h
  split at h
  · simp only [Except.ok.injEq] at h; exact h ▸ Eff.eff_refl K g _
  · split at h
    · simp only [Except.ok.injEq] at h; exact h ▸ Eff.eff_refl K g _
    · rename_i hg
      simp only [] at h
      split at h
      · exact absurd h (by simp)
      · rename_i s3 hb
        simp only [Except.ok.injEq] at h
        subst h
        have hfound : (sc.1.node node).ch_found = true := by
          cases hcf : (sc.1.node node).ch_found with
          | true => rfl
          | false => simp [hcf] at hg
        have hadd : Eff K g sc.1
            ((add_chassis sc.1).modChassis (current_chassis (add_chassis sc.1))
              fun c => { c with chassisnum := sc.2 + 1 }) := by
          refine ⟨by simp [St.modChassis, add_chassis], ?_, ?_, fun _ hx => hx, fun _ _ => rfl,
            fun _ _ _ => rfl⟩
          · intro d hd
            have h1 : d ≠ sc.1.nchassis := by omega
            simp [St.modChassis, add_chassis, current_chassis, h1]
          · intro d hd1 hd2
            have h1 : d = sc.1.nchassis := by
              simp [St.modChassis, add_chassis] at hd2; omega
            subst h1
            simp [St.modChassis, add_chassis, current_chassis, Chassis.zero]
        exact hadd.eff_trans
          (build_chassis_eff (by simpa [St.modChassis, add_chassis] using hfound) hb)

/-! ## The node loops of the driver -/

theorem loopE_append {σ α : Type} (f : σ → α → Except Err σ) (l1 l2 : List α) (s : σ) :
    loopE f (l1 ++ l2) s =
      match loopE f l1 s with
      | .ok s1 => loopE f l2 s1
      | .error e => .error e := by
  induction l1 generalizing s with
  | nil => rfl
  | cons a as ih =>
    simp only [List.cons_append, loopE]
    cases f s a with
    | error e => rfl
    | ok s1 => exact ih s1

/-- The loop nest over the buckets is a loop over the flattened node list. -/
theorem for_buckets_flat {σ : Type} (K : Config) (g : Graph) (f : σ → NodeId → Except Err σ)
    (n : Nat) : ∀ (d : Nat) (s t : σ),
      loopE (fun s dist =>
          match bucket K g dist with
          | .error e => .error e
          | .ok b => loopE f b s) (List.range' d n) s = .ok t →
      loopE f (nodes_from g d n) s = .ok t ∧ (0 < n → d + n ≤ K.MAXHOPS + 1) := by
  induction n with
  | zero =>
    intro d s t h
    exact ⟨h, fun h0 => absurd h0 (by omega)⟩
  | succ n ih =>
    intro d s t h
    rw [List.range'_succ] at h
    simp only [loopE] at h
    unfold bucket at h
    by_cases hd : d ≤ K.MAXHOPS
    · simp only [hd, if_true] at h
      cases h1 : loopE f (g.nodesdist d) s with
      | error e => rw [h1] at h; exact absurd h (by simp)
      | ok s1 =>
        rw [h1] at h
        have := ih (d + 1) s1 t h
        refine ⟨?_, fun _ => ?_⟩
        · rw [nodes_from, loopE_append, h1]
          exact this.1
        · by_cases hn : 0 < n
          · have := this.2 hn
            omega
          · omega
    · simp only [hd, if_false] at h
      exact absurd h (by simp)

theorem for_nodes_flat {σ : Type} {K : Config} {g : Graph} {f : σ → NodeId → Except Err σ}
    {s t : σ} (h : for_nodes K g f s = .ok t) :
    loopE f (counted_nodes g) s = .ok t ∧ g.maxhops_discovered ≤ K.MAXHOPS := by
  have := for_buckets_flat K g f (g.maxhops_discovered + 1) 0 s t h
  exact ⟨this.1, by have := this.2 (by omega); omega⟩

/-- Every run of the fourth loop that returns is a loop over a list of nodes. -/
theorem promote_loop_list (K : Config) (g : Graph) (fuel : Nat) :
    ∀ (dist : Nat) (sc tc : St × Nat), promote_loop K g fuel dist sc = .ok tc →
      ∃ l, loopE (promote_step K g) l sc = .ok tc := by
  induction fuel with
  | zero =>
    intro dist sc tc h
    unfold promote_loop at h
    split at h
    · exact absurd h (by simp)
    · exact ⟨[], h⟩
  | succ fuel ih =>
    intro dist sc tc h
    unfold promote_loop at h
    split at h
    · split at h
      · exact absurd h (by simp)
      · rename_i sc1 h1
        have hex : ∃ l, loopE (promote_step K g) l sc1 = .ok tc := by
          split at h
          · exact ih _ _ _ h
          · exact ih _ _ _ h
        obtain ⟨l, hl⟩ := hex
        exact ⟨g.nodesdist dist ++ l, by rw [loopE_append, h1]; exact hl⟩
    · exact ⟨[], h⟩

/-- A run of the fourth loop that returns visits, from `dist` on, the nodes of the
buckets `dist, ..., maxhops_discovered` first. -/
theorem promote_loop_visits (K : Config) (g : Graph) (hm : g.maxhops_discovered ≤ K.MAXHOPS)
    (fuel : Nat) : ∀ (dist : Nat) (sc tc : St × Nat), dist ≤ g.maxhops_discovered →
      promote_loop K g fuel dist sc = .ok tc →
      ∃ l, loopE (promote_step K g)
        (nodes_from g dist (g.maxhops_discovered + 1 - dist) ++ l) sc = .ok tc := by
  induction fuel with
  | zero =>
    intro dist sc tc hd h
    unfold promote_loop at h
    rw [if_pos (by omega)] at h
    exact absurd h (by simp)
  | succ fuel ih =>
    intro dist sc tc hd h
    unfold promote_loop at h
    rw [if_pos (by omega)] at h
    split at h
    · exact absurd h (by simp)
    · rename_i sc1 h1
      by_cases heq : dist = g.maxhops_discovered
      · rw [if_pos heq] at h
        obtain ⟨l, hl⟩ := promote_loop_list K g fuel _ _ _ h
        refine ⟨l, ?_⟩
        have h2 : g.maxhops_discovered + 1 - dist = 1 := by omega
        rw [h2, nodes_from, nodes_from, List.append_nil, loopE_append, h1]
        exact hl
      · rw [if_neg heq] at h
        obtain ⟨l, hl⟩ := ih (dist + 1) sc1 tc (by omega) h
        refine ⟨l, ?_⟩
        have h2 : g.maxhops_discovered + 1 - dist =
            (g.maxhops_discovered + 1 - (dist + 1)) + 1 := by omega
        rw [h2, nodes_from, List.append_assoc, loopE_append, h1]
        exact hl

theorem voltaire_passes_eff {K : Config} {g : Graph} {s : St} {sc : St × Nat}
    (h : voltaire_passes K g s = .ok sc) :
    Eff K g { s with nchassis := 0 } sc.1 ∧ g.maxhops_discovered ≤ K.MAXHOPS := by
  unfold voltaire_passes at h
  split at h
  · exact absurd h (by simp)
  · rename_i s1 h1
    have f1 := for_nodes_flat h1
    have f2 := for_nodes_flat h
    refine ⟨(loopE_eff _ _ (fun _ _ _ hu => tag_step_eff hu) _ _ f1.1).eff_trans ?_, f1.2⟩
    exact loopE_inv (fun u : St × Nat => Eff K g s1 u.1) _ _
      (fun u a v _ hu hv => hu.eff_trans (build_step_eff hv)) (s1, 0) sc (Eff.eff_refl K g s1) f2.1


/-! ## The search by chassis guid -/

theorem find_chassisguid_eq (K : Config) (g : Graph) (s : St) (node : NodeId) :
    find_chassisguid K g s node = find_guid s (get_chassisguid K g node) := rfl

theorem find_guid_some {s : St} {x : Nat} {c : Nat} (h : find_guid s x = some c) :
    c < s.nchassis ∧ (s.chassis c).chassisguid = x := by
  unfold find_guid at h
  have h1 := List.mem_of_find?_eq_some h
  have h2 := List.find?_some h
  exact ⟨List.mem_range.mp h1, by simpa using h2⟩

theorem find_range_congr (p q : Nat → Bool) (n : Nat) (h : ∀ c, c < n → p c = q c) :
    (List.range n).find? p = (List.range n).find? q := by
  induction n with
  | zero => rfl
  | succ n ih =>
    rw [List.range_succ, List.find?_append, List.find?_append,
      ih (fun c hc => h c (by omega))]
    simp only [List.find?_cons, List.find?_nil, h n (by omega)]

theorem find_guid_congr (s t : St) (x : Nat) (hn : t.nchassis = s.nchassis)
    (hg : ∀ c, c < s.nchassis → (t.chassis c).chassisguid = (s.chassis c).chassisguid) :
    find_guid t x = find_guid s x := by
  unfold find_guid
  rw [hn]
  exact find_range_congr _ _ _ fun c hc => by rw [hg c hc]

theorem find_guid_add (s t : St) (x : Nat) (hn : t.nchassis = s.nchassis + 1)
    (hg : ∀ c, c < s.nchassis → (t.chassis c).chassisguid = (s.chassis c).chassisguid) :
    find_guid t x =
      (find_guid s x).or
        (if (t.chassis s.nchassis).chassisguid = x then some s.nchassis else none) := by
  unfold find_guid
  rw [hn, List.range_succ, List.find?_append,
    find_range_congr _ (fun c => (s.chassis c).chassisguid == x) _ fun c hc => by rw [hg c hc]]
  congr 1
  by_cases h : (t.chassis s.nchassis).chassisguid = x <;> simp [List.find?_cons, h]

/-! ## The counting pass -/

/-- The number of nodes of `l` that the counting pass counts for the guid `x`. -/
theorem count_step_spec (K : Config) (g : Graph) (x : Nat) (s : St) (n : NodeId) :
    ∃ t, count_step K g s n = .ok t ∧ t.node = s.node ∧ s.nchassis ≤ t.nchassis ∧
      (∀ c, c < s.nchassis →
        (t.chassis c).nodes = (s.chassis c).nodes ∧
        (t.chassis c).chassisnum = (s.chassis c).chassisnum ∧
        (t.chassis c).chassisguid = (s.chassis c).chassisguid) ∧
      (∀ c, s.nchassis ≤ c → c < t.nchassis →
        (t.chassis c).nodes = none ∧ (t.chassis c).chassisnum = 0) ∧
      (∀ c : Nat, find_guid s x = some c →
        find_guid t x = some c ∧
        (t.chassis c).nodecount = (s.chassis c).nodecount +
          if (keyed K g n && decide (get_chassisguid K g n = x)) = true then 1 else 0) ∧
      (find_guid s x = none →
        if (keyed K g n && decide (get_chassisguid K g n = x)) = true then
          find_guid t x = some s.nchassis ∧ (t.chassis s.nchassis).nodecount = 1 ∧
          s.nchassis < t.nchassis
        else find_guid t x = none) := by
  unfold count_step
  by_cases hv : (g.node n).vendid = K.VTR_VENDOR_ID
  · refine ⟨s, by simp [hv], rfl, le_refl _, fun _ _ => ⟨rfl, rfl, rfl⟩,
      fun _ h1 h2 => absurd h2 (by omega), fun c hc => ⟨hc, by simp [keyed, hv]⟩, fun h => ?_⟩
    simp [keyed, hv, h]
  by_cases hz : (g.node n).sysimgguid = 0
  · refine ⟨s, by simp [hv, hz], rfl, le_refl _, fun _ _ => ⟨rfl, rfl, rfl⟩,
      fun _ h1 h2 => absurd h2 (by omega), fun c hc => ⟨hc, by simp [keyed, hz]⟩, fun h => ?_⟩
    simp [keyed, hz, h]
  have hk : keyed K g n = true := by simp [keyed, hv, hz]
  simp only [hv, if_false, ne_eq, hz, not_false_eq_true, if_true, hk, Bool.true_and,
    decide_eq_true_eq, find_chassisguid_eq]
  cases hf : find_guid s (get_chassisguid K g n) with
  | some d =>
    have hd := find_guid_some hf
    have hsame : ∀ y,
        find_guid (s.modChassis d fun r => { r with nodecount := r.nodecount + 1 }) y =
          find_guid s y := by
      intro y
      refine find_guid_congr s _ y rfl ?_
      intro c _
      by_cases hcd : c = d <;> simp [St.modChassis, hcd]
    refine ⟨_, rfl, rfl, le_refl _, ?_, fun _ h1 h2 => absurd h2 (by simp [St.modChassis]; omega),
      ?_, ?_⟩
    · intro c _
      by_cases hcd : c = d <;> simp [St.modChassis, hcd]
    · intro c hc
      refine ⟨by rw [hsame]; exact hc, ?_⟩
      by_cases hid : get_chassisguid K g n = x
      · have : c = d := by
          rw [hid] at hf; rw [hf] at hc; exact (Option.some.inj hc).symm
        simp [St.modChassis, this, hid]
      · have : c ≠ d := by
          intro hcd
          have := (find_guid_some hc).2
          rw [hcd, hd.2] at this
          exact hid this
        simp [St.modChassis, this, hid]
    · intro hx
      have hid : get_chassisguid K g n ≠ x := by
        intro hid; rw [hid, hx] at hf; exact absurd hf (by simp)
      simp only [hid, if_false]
      rw [hsame]; exact hx
  | none =>
    have hfind : ∀ y, find_guid ((add_chassis s).modChassis (current_chassis (add_chassis s))
        fun r => { r with chassisguid := get_chassisguid K g n, nodecount := 1 }) y =
        (find_guid s y).or (if get_chassisguid K g n = y then some s.nchassis else none) := by
      intro y
      rw [find_guid_add s _ y (by simp [St.modChassis, add_chassis])]
      · simp [St.modChassis, add_chassis, current_chassis]
      · intro c hc
        have : c ≠ s.nchassis := by omega
        simp [St.modChassis, add_chassis, current_chassis, this]
    refine ⟨_, rfl, rfl, by simp [St.modChassis, add_chassis], ?_, ?_, ?_, ?_⟩
    · intro c hc
      have : c ≠ s.nchassis := by omega
      simp [St.modChassis, add_chassis, current_chassis, this]
    · intro c hc1 hc2
      have hc3 : c < s.nchassis + 1 := hc2
      have : c = s.nchassis := by omega
      subst this
      simp [St.modChassis, add_chassis, current_chassis, Chassis.zero]
    · intro c hc
      have hid : get_chassisguid K g n ≠ x := by
        intro hid; rw [hid, hc] at hf; exact absurd hf (by simp)
      have hcn : c ≠ s.nchassis := by
        have := (find_guid_some hc).1; omega
      refine ⟨by rw [hfind, hc]; rfl, ?_⟩
      simp [St.modChassis, add_chassis, current_chassis, hcn, hid]
    · intro hx
      by_cases hid : get_chassisguid K g n = x
      · subst hid
        simp only [if_true]
        refine ⟨by rw [hfind, hx]; simp, ?_, ?_⟩
        · simp [St.modChassis, add_chassis, current_chassis]
        · simp [St.modChassis, add_chassis]
      · simp only [hid, if_false]
        rw [hfind, hx]; simp [hid]


theorem counted_for_cons (K : Config) (g : Graph) (x : Nat) (n : NodeId) (l : List NodeId) :
    counted_for K g x (n :: l) = counted_for K g x l +
      if (keyed K g n && decide (get_chassisguid K g n = x)) = true then 1 else 0 := by
  simp only [counted_for, List.countP_cons]

/-- The counting pass over a list of nodes, seen from one chassis guid `x`. -/
theorem count_pass_spec (K : Config) (g : Graph) (x : Nat) (l : List NodeId) :
    ∀ s, ∃ t, loopE (count_step K g) l s = .ok t ∧ t.node = s.node ∧
      s.nchassis ≤ t.nchassis ∧
      (∀ c, c < s.nchassis →
        (t.chassis c).nodes = (s.chassis c).nodes ∧
        (t.chassis c).chassisnum = (s.chassis c).chassisnum ∧
        (t.chassis c).chassisguid = (s.chassis c).chassisguid) ∧
      (∀ c, s.nchassis ≤ c → c < t.nchassis →
        (t.chassis c).nodes = none ∧ (t.chassis c).chassisnum = 0) ∧
      (∀ c : Nat, find_guid s x = some c →
        find_guid t x = some c ∧
        (t.chassis c).nodecount = (s.chassis c).nodecount + counted_for K g x l) ∧
      (find_guid s x = none →
        if counted_for K g x l = 0 then find_guid t x = none
        else ∃ c : Nat, find_guid t x = some c ∧ s.nchassis ≤ c ∧
          (t.chassis c).nodecount = counted_for K g x l) := by
  induction l with
  | nil =>
    intro s
    exact ⟨s, rfl, rfl, le_refl _, fun _ _ => ⟨rfl, rfl, rfl⟩,
      fun _ h1 h2 => absurd h2 (by omega), fun c hc => ⟨hc, by simp [counted_for]⟩,
      fun h => by simpa [counted_for] using h⟩
  | cons n l ih =>
    intro s
    obtain ⟨s1, a0, a1, a2, a3, a4, a5, a6⟩ := count_step_spec K g x s n
    obtain ⟨t, b0, b1, b2, b3, b4, b5, b6⟩ := ih s1
    refine ⟨t, by simp only [loopE, a0]; exact b0, by rw [b1, a1], by omega, ?_, ?_, ?_, ?_⟩
    · intro c hc
      have h1 := a3 c hc
      have h2 := b3 c (by omega)
      exact ⟨by rw [h2.1, h1.1], by rw [h2.2.1, h1.2.1], by rw [h2.2.2, h1.2.2]⟩
    · intro c hc1 hc2
      by_cases hc : c < s1.nchassis
      · have h1 := a4 c hc1 hc
        have h2 := b3 c hc
        exact ⟨by rw [h2.1, h1.1], by rw [h2.2.1, h1.2]⟩
      · exact b4 c (by omega) hc2
    · intro c hc
      have h1 := a5 c hc
      have h2 := b5 c h1.1
      refine ⟨h2.1, ?_⟩
      rw [h2.2, h1.2, counted_for_cons]
      omega
    · intro hx
      have h1 := a6 hx
      rw [counted_for_cons]
      by_cases hk : (keyed K g n && decide (get_chassisguid K g n = x)) = true
      · rw [if_pos hk] at h1 ⊢
        have h2 := b5 _ h1.1
        rw [if_neg (by omega)]
        exact ⟨s.nchassis, h2.1, le_refl _, by rw [h2.2, h1.2.1]; omega⟩
      · rw [if_neg hk] at h1 ⊢
        have h2 := b6 h1
        simp only [Nat.add_zero]
        by_cases hz : counted_for K g x l = 0
        · rw [if_pos hz] at h2 ⊢
          exact h2
        · rw [if_neg hz] at h2 ⊢
          obtain ⟨c, c1, c2, c3⟩ := h2
          exact ⟨c, c1, by omega, c3⟩

/-! ## Membership lists -/

theorem OnList.congr {s t : St}
    (h : ∀ m, (t.node m).next_chassis_node = (s.node m).next_chassis_node)
    {head : Option NodeId} {n : NodeId} (hl : OnList s head n) : OnList t head n := by
  induction hl with
  | head n => exact OnList.head n
  | next m n _ ih => exact OnList.next m n (by rw [h m]; exact ih)

/-- A list that does not reach `m` is not touched by a change of the record of `m`. -/
theorem OnList.frame {s t : St} {m : NodeId} (h : ∀ x, x ≠ m → t.node x = s.node x)
    {head : Option NodeId} {n : NodeId} (hl : OnList s head n)
    (hm : ∀ x, OnList s head x → x ≠ m) : OnList t head n := by
  induction hl with
  | head n => exact OnList.head n
  | next k n hk ih =>
    have hkm : k ≠ m := hm k (OnList.head k)
    refine OnList.next k n ?_
    rw [h k hkm]
    exact ih fun x hx => hm x (OnList.next k x hx)

theorem OnList.frame_back {s t : St} {m : NodeId} (h : ∀ x, x ≠ m → t.node x = s.node x)
    {head : Option NodeId} {n : NodeId} (hl : OnList t head n)
    (hm : ∀ x, OnList s head x → x ≠ m) : OnList s head n := by
  induction hl with
  | head n => exact OnList.head n
  | next k n hk ih =>
    have hkm : k ≠ m := hm k (OnList.head k)
    refine OnList.next k n ?_
    rw [h k hkm] at ih
    exact ih fun x hx => hm x (OnList.next k x hx)

/-! ## The promotion pass -/

theorem promote_step_shape {K : Config} {g : Graph} {sc tc : St × Nat} {n : NodeId}
    (h : promote_step K g sc n = .ok tc) :
    (¬ (keyed K g n = true ∧ ∃ c : Nat, find_guid sc.1 (get_chassisguid K g n) = some c ∧
        1 < (sc.1.chassis c).nodecount) ∧ tc = sc) ∨
    ∃ c : Nat, keyed K g n = true ∧ find_guid sc.1 (get_chassisguid K g n) = some c ∧
      1 < (sc.1.chassis c).nodecount ∧ tc = join_chassis (number_chassis sc c) c n := by
  unfold promote_step at h
  rw [find_chassisguid_eq] at h
  split at h
  · rename_i hv
    simp only [Except.ok.injEq] at h
    exact Or.inl ⟨by simp [keyed, hv], h.symm⟩
  · rename_i hv
    split at h
    · rename_i hz
      have hk : keyed K g n = true := by simp [keyed, hv, hz]
      split at h
      · rename_i hf
        simp only [Except.ok.injEq] at h
        exact Or.inl ⟨by simp [hf], h.symm⟩
      · rename_i c hf
        split at h
        · rename_i hc
          simp only [Except.ok.injEq] at h
          exact Or.inr ⟨c, hk, hf, hc, h.symm⟩
        · rename_i hc
          simp only [Except.ok.injEq] at h
          refine Or.inl ⟨?_, h.symm⟩
          rintro ⟨_, d, hd1, hd2⟩
          rw [hf] at hd1
          have : c = d := Option.some.inj hd1
          subst this
          exact hc hd2
    · rename_i hz
      simp only [Except.ok.injEq] at h
      exact Or.inl ⟨by simp [keyed, hz], h.symm⟩

theorem number_chassis_spec (sc : St × Nat) (c : ChassisId) :
    (number_chassis sc c).1.node = sc.1.node ∧
    (number_chassis sc c).1.nchassis = sc.1.nchassis ∧
    (∀ d, ((number_chassis sc c).1.chassis d).chassisguid = (sc.1.chassis d).chassisguid ∧
      ((number_chassis sc c).1.chassis d).nodecount = (sc.1.chassis d).nodecount ∧
      ((number_chassis sc c).1.chassis d).nodes = (sc.1.chassis d).nodes) ∧
    1 ≤ ((number_chassis sc c).1.chassis c).chassisnum ∧
    (∀ d, 1 ≤ (sc.1.chassis d).chassisnum →
      ((number_chassis sc c).1.chassis d).chassisnum = (sc.1.chassis d).chassisnum) ∧
    (∀ d, d ≠ c → (number_chassis sc c).1.chassis d = sc.1.chassis d) := by
  unfold number_chassis
  by_cases h0 : (sc.1.chassis c).chassisnum = 0
  · rw [if_pos h0]
    refine ⟨rfl, rfl, ?_, by simp [St.modChassis], ?_, ?_⟩
    · intro d; by_cases hd : d = c <;> simp [St.modChassis, hd]
    · intro d hd1
      have hd : d ≠ c := by intro hd; subst hd; omega
      simp [St.modChassis, hd]
    · intro d hd; simp [St.modChassis, hd]
  · rw [if_neg h0]
    exact ⟨rfl, rfl, fun _ => ⟨rfl, rfl, rfl⟩, by omega, fun _ _ => rfl, fun _ _ => rfl⟩

theorem join_chassis_found {sc : St × Nat} {c : ChassisId} {n : NodeId}
    (h : (sc.1.node n).ch_found = true) : join_chassis sc c n = sc := by
  simp [join_chassis, h]

theorem join_chassis_spec {sc : St × Nat} {c : ChassisId} {n : NodeId}
    (h : (sc.1.node n).ch_found = false) :
    (join_chassis sc c n).1.nchassis = sc.1.nchassis ∧
    (∀ d, ((join_chassis sc c n).1.chassis d).chassisguid = (sc.1.chassis d).chassisguid ∧
      ((join_chassis sc c n).1.chassis d).nodecount = (sc.1.chassis d).nodecount ∧
      ((join_chassis sc c n).1.chassis d).chassisnum = (sc.1.chassis d).chassisnum) ∧
    (∀ x, x ≠ n → (join_chassis sc c n).1.node x = sc.1.node x) ∧
    ((join_chassis sc c n).1.node n).chassis = some c ∧
    ((join_chassis sc c n).1.node n).ch_found = true ∧
    ((join_chassis sc c n).1.node n).next_chassis_node = (sc.1.chassis c).nodes ∧
    ((join_chassis sc c n).1.chassis c).nodes = some n ∧
    (∀ d, d ≠ c → (join_chassis sc c n).1.chassis d = sc.1.chassis d) := by
  simp only [join_chassis, h, Bool.not_false, if_true]
  refine ⟨rfl, ?_, ?_, by simp [add_node_to_chassis, St.modNode, St.modChassis],
    by simp [add_node_to_chassis, St.modNode, St.modChassis],
    by simp [add_node_to_chassis, St.modNode, St.modChassis],
    by simp [add_node_to_chassis, St.modNode, St.modChassis], ?_⟩
  · intro d; by_cases hd : d = c <;> simp [add_node_to_chassis, St.modNode, St.modChassis, hd]
  · intro x hx; simp [add_node_to_chassis, St.modNode, St.modChassis, hx]
  · intro d hd; simp [add_node_to_chassis, St.modNode, St.modChassis, hd]


/-- The effect of joining node `n` to chassis `c` on the membership lists, when `n` is
on none of them. -/
theorem join_chassis_lists {sc : St × Nat} {c : ChassisId} {n : NodeId}
    (hf : (sc.1.node n).ch_found = false) (hc : c < sc.1.nchassis) (hh : HeadsFound sc.1) :
    HeadsFound (join_chassis sc c n).1 ∧
    (∀ d, d < sc.1.nchassis → ∀ a, OnList sc.1 (sc.1.chassis d).nodes a →
      OnList (join_chassis sc c n).1 ((join_chassis sc c n).1.chassis d).nodes a) ∧
    OnList (join_chassis sc c n).1 ((join_chassis sc c n).1.chassis c).nodes n := by
  obtain ⟨j1, j2, j3, j4, j5, j6, j7, j8⟩ := join_chassis_spec (c := c) hf
  have hfree : ∀ d, d < sc.1.nchassis →
      ∀ x, OnList sc.1 (sc.1.chassis d).nodes x → x ≠ n := by
    intro d hd x hx hxn
    have := hh d hd x hx
    rw [hxn, hf] at this
    exact absurd this (by simp)
  refine ⟨?_, ?_, ?_⟩
  · intro d hd m hm
    rw [j1] at hd
    have hback : OnList sc.1 (sc.1.chassis d).nodes m →
        ((join_chassis sc c n).1.node m).ch_found = true := by
      intro h
      rw [j3 m (hfree d hd m h)]
      exact hh d hd m h
    by_cases hdc : d = c
    · subst hdc
      rw [j7] at hm
      cases hm with
      | head => exact j5
      | next _ _ h =>
        rw [j6] at h
        exact hback (OnList.frame_back j3 h (hfree d hd))
    · rw [j8 d hdc] at hm
      exact hback (OnList.frame_back j3 hm (hfree d hd))
  · intro d hd a ha
    by_cases hdc : d = c
    · subst hdc
      rw [j7]
      refine OnList.next n a ?_
      rw [j6]
      exact OnList.frame j3 ha (hfree d hd)
    · rw [j8 d hdc]
      exact OnList.frame j3 ha (hfree d hd)
  · rw [j7]
    exact OnList.head n

theorem HeadsFound.number {sc : St × Nat} (c : ChassisId) (hh : HeadsFound sc.1) :
    HeadsFound (number_chassis sc c).1 ∧
    (∀ d a, OnList sc.1 (sc.1.chassis d).nodes a →
      OnList (number_chassis sc c).1 ((number_chassis sc c).1.chassis d).nodes a) := by
  obtain ⟨n1, n2, n3, _, _, _⟩ := number_chassis_spec sc c
  constructor
  · intro d hd m hm
    rw [n2] at hd
    rw [(n3 d).2.2] at hm
    rw [n1]
    exact hh d hd m (OnList.congr (fun x => by rw [n1]) hm)
  · intro d a ha
    rw [(n3 d).2.2]
    exact OnList.congr (fun x => by rw [n1]) ha

/-- One turn of the promotion pass. -/
theorem promote_step_inv {K : Config} {g : Graph} {s3 : St} {sc tc : St × Nat} {n : NodeId}
    (h : promote_step K g sc n = .ok tc) (hinv : PromInv s3 sc.1) :
    PromInv s3 tc.1 ∧
    (∀ x, x ≠ n → tc.1.node x = sc.1.node x) ∧
    (∀ x, (sc.1.node x).ch_found = true → tc.1.node x = sc.1.node x) ∧
    (∀ c, 1 ≤ (sc.1.chassis c).chassisnum → 1 ≤ (tc.1.chassis c).chassisnum) ∧
    (∀ c, c < sc.1.nchassis → ∀ a, OnList sc.1 (sc.1.chassis c).nodes a →
      OnList tc.1 (tc.1.chassis c).nodes a) ∧
    (∀ c, (sc.1.chassis c).nodecount ≤ 1 → tc.1.chassis c = sc.1.chassis c) ∧
    (∀ c : Nat, keyed K g n = true → find_guid sc.1 (get_chassisguid K g n) = some c →
      1 < (sc.1.chassis c).nodecount → (sc.1.node n).ch_found = false → Promoted tc.1 n c) ∧
    (¬ (keyed K g n = true ∧ ∃ c : Nat, find_guid sc.1 (get_chassisguid K g n) = some c ∧
        1 < (sc.1.chassis c).nodecount) → tc = sc) := by
  rcases promote_step_shape h with ⟨hno, rfl⟩ | ⟨c, hk, hfind, hcnt, rfl⟩
  · exact ⟨hinv, fun _ _ => rfl, fun _ _ => rfl, fun _ hc => hc, fun _ _ _ ha => ha,
      fun _ _ => rfl, fun c hk hf hc _ => absurd ⟨hk, c, hf, hc⟩ hno, fun _ => rfl⟩
  · obtain ⟨i1, i2, i3⟩ := hinv
    have hcn : c < sc.1.nchassis := (find_guid_some hfind).1
    obtain ⟨n1, n2, n3, n4, n5, n6⟩ := number_chassis_spec sc c
    obtain ⟨hn1, hn2⟩ := HeadsFound.number c i3
    by_cases hf : (sc.1.node n).ch_found = true
    · -- the node is processed already: only the chassis number may be set
      have hfn : ((number_chassis sc c).1.node n).ch_found = true := by rw [n1]; exact hf
      rw [join_chassis_found hfn]
      refine ⟨⟨by rw [n2, i1],
        fun d => ⟨by rw [(n3 d).1, (i2 d).1], by rw [(n3 d).2.1, (i2 d).2]⟩, hn1⟩,
        fun x _ => by rw [n1], fun x _ => by rw [n1], ?_, fun d _ a ha => hn2 d a ha, ?_,
        fun _ _ _ _ hf0 => absurd hf (by rw [hf0]; simp),
        fun hno => absurd ⟨hk, c, hfind, hcnt⟩ hno⟩
      · intro d hd
        rw [n5 d hd]; exact hd
      · intro d hd
        have : d ≠ c := by intro hdc; subst hdc; omega
        exact n6 d this
    · have hf0 : (sc.1.node n).ch_found = false := by simpa using hf
      have hfn : ((number_chassis sc c).1.node n).ch_found = false := by rw [n1]; exact hf0
      obtain ⟨j1, j2, j3, j4, j5, j6, j7, j8⟩ := join_chassis_spec (c := c) hfn
      obtain ⟨l1, l2, l3⟩ := join_chassis_lists (c := c) hfn (by rw [n2]; exact hcn) hn1
      refine ⟨⟨by rw [j1, n2, i1], fun d => ⟨by rw [(j2 d).1, (n3 d).1, (i2 d).1],
        by rw [(j2 d).2.1, (n3 d).2.1, (i2 d).2]⟩, l1⟩, ?_, ?_, ?_, ?_, ?_, ?_,
        fun hno => absurd ⟨hk, c, hfind, hcnt⟩ hno⟩
      · intro x hx; rw [j3 x hx, n1]
      · intro x hx
        have : x ≠ n := by intro hxn; subst hxn; rw [hf0] at hx; exact absurd hx (by simp)
        rw [j3 x this, n1]
      · intro d hd
        rw [(j2 d).2.2, n5 d hd]; exact hd
      · intro d hd a ha
        exact l2 d (by rw [n2]; exact hd) a (hn2 d a ha)
      · intro d hd
        have : d ≠ c := by intro hdc; subst hdc; omega
        rw [j8 d this, n6 d this]
      · intro c2 _ hf2 _ _
        have : c2 = c := by rw [hfind] at hf2; exact (Option.some.inj hf2).symm
        subst this
        exact ⟨j4, j5, l3, by rw [(j2 c2).2.2]; exact n4⟩

theorem countP_eq_one (p : NodeId → Bool) (n : NodeId) (hpn : p n = true) :
    ∀ (l : List NodeId), l.Nodup → n ∈ l → (∀ m, m ∈ l → m ≠ n → p m = false) →
      l.countP p = 1 := by
  intro l
  induction l with
  | nil => intro _ hn; exact absurd hn (by simp)
  | cons m l ih =>
    intro hnd hn hm
    rw [List.countP_cons]
    rw [List.nodup_cons] at hnd
    by_cases hmn : m = n
    · subst hmn
      have : l.countP p = 0 := by
        rw [List.countP_eq_zero]
        intro x hx
        have hxm : x ≠ m := by intro h; subst h; exact hnd.1 hx
        rw [hm x (List.mem_cons_of_mem _ hx) hxm]
        simp
      simp only [hpn, if_true, this]
    · have hnl : n ∈ l := by
        rcases List.mem_cons.mp hn with h | h
        · exact absurd h.symm hmn
        · exact h
      have := ih hnd.2 hnl fun x hx hxn => hm x (List.mem_cons_of_mem _ hx) hxn
      rw [this, hm m (List.mem_cons_self _ _) hmn]
      simp

theorem OnList.not_none {s : St} {n : NodeId} (h : OnList s none n) : False := by
  cases h

/-- The parts of a run of `group_nodes` that returns. -/
theorem group_nodes_parts {K : Config} {g : Graph} {fuel : Nat} {s0 sf : St}
    (h : group_nodes K g fuel s0 = .ok sf) :
    ∃ (sc2 : St × Nat) (s3 : St) (k : Nat) (l : List NodeId),
      voltaire_passes K g s0 = .ok sc2 ∧
      loopE (count_step K g) (counted_nodes g) sc2.1 = .ok s3 ∧
      loopE (promote_step K g) (counted_nodes g ++ l) (s3, sc2.2) = .ok (sf, k) := by
  unfold group_nodes at h
  split at h
  · exact absurd h (by simp)
  · rename_i sc2 h2
    unfold guid_passes at h
    split at h
    · exact absurd h (by simp)
    · rename_i s3 h3
      split at h
      · exact absurd h (by simp)
      · rename_i sc4 h4
        simp only [Except.ok.injEq] at h
        have hm := (voltaire_passes_eff h2).2
        obtain ⟨l, hl⟩ := promote_loop_visits K g hm fuel 0 _ _ (Nat.zero_le _) h4
        refine ⟨sc2, s3, sc4.2, l, h2, (for_nodes_flat h3).1, ?_⟩
        rw [← h]
        exact hl

/-- After the Voltaire passes the membership lists of all chassis are empty. -/
theorem voltaire_passes_heads {K : Config} {g : Graph} {s0 : St} {sc2 : St × Nat}
    (h : voltaire_passes K g s0 = .ok sc2) :
    ∀ c, c < sc2.1.nchassis → (sc2.1.chassis c).nodes = none := by
  intro c hc
  exact ((voltaire_passes_eff h).1.2.2.1 c (Nat.zero_le _) hc).1

/-- The state after the counting pass. -/
theorem count_pass_state {K : Config} {g : Graph} {s2 s3 : St} (x : Nat)
    (h2 : ∀ c, c < s2.nchassis → (s2.chassis c).nodes = none)
    (h3 : loopE (count_step K g) (counted_nodes g) s2 = .ok s3) :
    s3.node = s2.node ∧ PromInv s3 s3 ∧
    (∀ c : Nat, find_guid s2 x = some c →
      find_guid s3 x = some c ∧
      (s3.chassis c).nodecount = (s2.chassis c).nodecount + counted_for K g x (counted_nodes g)) ∧
    (find_guid s2 x = none → counted_for K g x (counted_nodes g) ≠ 0 →
      ∃ c : Nat, find_guid s3 x = some c ∧
        (s3.chassis c).nodecount = counted_for K g x (counted_nodes g) ∧
        (s3.chassis c).nodes = none ∧ (s3.chassis c).chassisnum = 0) := by
  obtain ⟨t, b0, b1, b2, b3, b4, b5, b6⟩ := count_pass_spec K g x (counted_nodes g) s2
  rw [h3] at b0
  simp only [Except.ok.injEq] at b0
  subst b0
  have hheads : ∀ c, c < s3.nchassis → (s3.chassis c).nodes = none := by
    intro c hc
    by_cases hc2 : c < s2.nchassis
    · rw [(b3 c hc2).1]; exact h2 c hc2
    · exact (b4 c (by omega) hc).1
  refine ⟨b1, ⟨rfl, fun _ => ⟨rfl, rfl⟩, ?_⟩, b5, ?_⟩
  · intro c hc m hm
    rw [hheads c hc] at hm
    exact absurd hm.not_none id
  · intro hx hne
    have := b6 hx
    rw [if_neg hne] at this
    obtain ⟨c, c1, c2, c3⟩ := this
    have hc := (find_guid_some c1).1
    exact ⟨c, c1, c3, (b4 c c2 hc).1, (b4 c c2 hc).2⟩


/-- C2 (as amended). Lone node is never promoted: on every fabric on which `group_nodes`
returns, if a non-Voltaire node with non-zero system image guid lies in the buckets
`0..maxhops_discovered` (in which no node occurs twice), is the only counted node of these
buckets with its chassis guid, has no chassis reference at the start, is left unprocessed
by the Voltaire passes, and no chassis built by the Voltaire passes carries its chassis
guid, then the chassis list holds a record with that guid (the one the search finds),
with node count 1, chassis number 0 and an empty membership list, and the node has no
chassis reference and is not marked processed. -/
theorem group_nodes_lone_node (K : Config) (g : Graph) (fuel : Nat) (s0 sf : St) (n : NodeId)
    (hrun : group_nodes K g fuel s0 = .ok sf)
    (hn : n ∈ counted_nodes g) (hnodup : (counted_nodes g).Nodup)
    (hv : (g.node n).vendid ≠ K.VTR_VENDOR_ID) (hz : (g.node n).sysimgguid ≠ 0)
    (hlone : ∀ m, m ∈ counted_nodes g → m ≠ n → (g.node m).vendid ≠ K.VTR_VENDOR_ID →
      (g.node m).sysimgguid ≠ 0 → get_chassisguid K g m ≠ get_chassisguid K g n)
    (hc0 : (s0.node n).chassis = none)
    (hvp : ∀ sc, voltaire_passes K g s0 = .ok sc →
      (sc.1.node n).ch_found = false ∧ find_guid sc.1 (get_chassisguid K g n) = none) :
    ∃ c, c < sf.nchassis ∧ find_guid sf (get_chassisguid K g n) = some c ∧
      (sf.chassis c).chassisguid = get_chassisguid K g n ∧
      (sf.chassis c).nodecount = 1 ∧ (sf.chassis c).chassisnum = 0 ∧
      (sf.chassis c).nodes = none ∧
      (sf.node n).chassis = none ∧ (sf.node n).ch_found = false := by
  obtain ⟨sc2, s3, k, l, h2, h3, h4⟩ := group_nodes_parts hrun
  obtain ⟨hf2, hnone2⟩ := hvp sc2 h2
  have hk : keyed K g n = true := by simp [keyed, hv, hz]
  obtain ⟨c1, c2, _, c4⟩ :=
    count_pass_state (get_chassisguid K g n) (voltaire_passes_heads h2) h3
  have hcount : counted_for K g (get_chassisguid K g n) (counted_nodes g) = 1 := by
    refine countP_eq_one _ n (by simp [hk]) _ hnodup hn fun m hm hmn => ?_
    by_cases hkm : keyed K g m = true
    · have hkm2 := hkm
      simp only [keyed, Bool.and_eq_true, decide_eq_true_eq] at hkm2
      simp [hlone m hm hmn hkm2.1 hkm2.2]
    · simp [hkm]
  obtain ⟨c, d1, d2, d3, d4⟩ := c4 hnone2 (by omega)
  rw [hcount] at d2
  have hcn := (find_guid_some d1).1
  -- the node and its chassis are not touched by the promotion pass
  have hkeep : PromInv s3 sf ∧ sf.chassis c = s3.chassis c ∧ sf.node n = s3.node n := by
    refine loopE_inv
      (fun u : St × Nat =>
        PromInv s3 u.1 ∧ u.1.chassis c = s3.chassis c ∧ u.1.node n = s3.node n)
      (promote_step K g) _ ?_ (s3, sc2.2) (sf, k) ⟨c2, rfl, rfl⟩ h4
    intro u m v _ hu hstep
    obtain ⟨p1, p2, _, _, _, p6, _, p8⟩ := promote_step_inv hstep hu.1
    refine ⟨p1, ?_, ?_⟩
    · rw [p6 c (by rw [(hu.1.2.1 c).2, d2]), hu.2.1]
    · by_cases hmn : n = m
      · subst hmn
        have : v = u := by
          apply p8
          rintro ⟨_, c', e1, e2⟩
          rw [find_guid_congr s3 u.1 _ hu.1.1 fun d _ => (hu.1.2.1 d).1, d1] at e1
          have : c = c' := Option.some.inj e1
          subst this
          rw [(hu.1.2.1 c).2, d2] at e2
          omega
        rw [this]; exact hu.2.2
      · rw [p2 n hmn]; exact hu.2.2
  obtain ⟨hinv, hch, hnode⟩ := hkeep
  have hchassis : (sc2.1.node n).chassis = none := by
    rw [(voltaire_passes_eff h2).1.2.2.2.2.1 n hf2]; exact hc0
  refine ⟨c, by rw [hinv.1]; exact hcn, ?_, ?_, ?_, ?_, ?_, ?_, ?_⟩
  · rw [find_guid_congr s3 sf _ hinv.1 fun d _ => (hinv.2.1 d).1]; exact d1
  · rw [hch]; exact (find_guid_some d1).2
  · rw [hch]; exact d2
  · rw [hch]; exact d4
  · rw [hch]; exact d3
  · rw [hnode, c1]; exact hchassis
  · rw [hnode, c1]; exact hf2

theorem group_nodes_lone_node_witness :
    group_nodes stdConfig distinct_pair 2 St.init =
      .ok (grouped distinct_pair) ∧
    ∃ c, c < (grouped distinct_pair).nchassis ∧
      find_guid (grouped distinct_pair)
        (get_chassisguid stdConfig distinct_pair 0) = some c ∧
      ((grouped distinct_pair).chassis c).chassisguid =
        get_chassisguid stdConfig distinct_pair 0 ∧
      ((grouped distinct_pair).chassis c).nodecount = 1 ∧
      ((grouped distinct_pair).chassis c).chassisnum = 0 ∧
      ((grouped distinct_pair).chassis c).nodes = none ∧
      ((grouped distinct_pair).node 0).chassis = none ∧
      ((grouped distinct_pair).node 0).ch_found = false :=
  have hrun : group_nodes stdConfig distinct_pair 2 St.init =
      .ok (grouped distinct_pair) := by rfl
  have hvol : voltaire_passes stdConfig distinct_pair St.init = .ok (St.init, 0) := by
    rfl
  ⟨hrun,
    group_nodes_lone_node stdConfig distinct_pair 2 St.init _ 0 hrun (by decide)
      (by decide) (by decide) (by decide) (by decide) rfl
      (fun sc h => by
        rw [hvol] at h
        simp only [Except.ok.injEq] at h
        subst h
        exact ⟨rfl, rfl⟩)⟩

/-- C2 as stated fails.  A lone node in bucket `MAXHOPS` gets no chassis record at all:
`group_nodes` returns with an empty chassis list.  In `clash_fabric` the lone
switch 11 has the chassis guid 999 of the Voltaire chassis 0: the record with that guid
has node count 1 but the chassis number 1, not 0.  And in `lone_adapter_fabric` the lone
node 10 was processed by the Voltaire passes as a neighbour of spine 0: its record
(chassis 1, guid 5) has node count 1 and chassis number 0, but the node is marked
processed and refers to the Voltaire chassis 0. -/
theorem group_nodes_lone_node_fails :
    (group_nodes stdConfig lone_adapters 2 St.init = .ok (grouped lone_adapters) ∧
      (lone_adapters.node 0).vendid ≠ stdConfig.VTR_VENDOR_ID ∧
      (lone_adapters.node 0).sysimgguid ≠ 0 ∧
      get_chassisguid stdConfig lone_adapters 0 ≠ get_chassisguid stdConfig lone_adapters 1 ∧
      (grouped lone_adapters).nchassis = 0) ∧
    (group_nodes stdConfig clash_fabric 2 St.init = .ok (grouped clash_fabric) ∧
      (clash_fabric.node 11).vendid ≠ stdConfig.VTR_VENDOR_ID ∧
      11 ∈ counted_nodes clash_fabric ∧
      get_chassisguid stdConfig clash_fabric 11 = 999 ∧
      (grouped clash_fabric).nchassis = 1 ∧
      ((grouped clash_fabric).chassis 0).chassisguid = 999 ∧
      ((grouped clash_fabric).chassis 0).nodecount = 1 ∧
      ((grouped clash_fabric).chassis 0).chassisnum = 1) ∧
    (group_nodes stdConfig lone_adapter_fabric 2 St.init = .ok (grouped lone_adapter_fabric) ∧
      (lone_adapter_fabric.node 10).vendid ≠ stdConfig.VTR_VENDOR_ID ∧
      10 ∈ counted_nodes lone_adapter_fabric ∧
      get_chassisguid stdConfig lone_adapter_fabric 10 = 5 ∧
      (grouped lone_adapter_fabric).nchassis = 2 ∧
      ((grouped lone_adapter_fabric).chassis 1).chassisguid = 5 ∧
      ((grouped lone_adapter_fabric).chassis 1).nodecount = 1 ∧
      ((grouped lone_adapter_fabric).chassis 1).chassisnum = 0 ∧
      ((grouped lone_adapter_fabric).node 10).ch_found = true ∧
      ((grouped lone_adapter_fabric).node 10).chassis = some 0) :=
  ⟨⟨by rfl, by decide, by decide, by decide, by decide⟩,
    ⟨by rfl, by decide, by decide, by decide, by decide, by decide, by decide, by decide⟩,
    ⟨by rfl, by decide, by decide, by decide, by decide, by decide, by decide, by decide,
      by decide, by decide⟩⟩

/-! ## Vendor-family predicates (C18) -/

/-- Masking with `w` one-bits that start at bit `k` keeps the digits `k .. k+w-1`. -/
theorem and_field_mask (g k w : Nat) :
    g &&& ((2 ^ w - 1) <<< k) = (g >>> k % 2 ^ w) <<< k := by
  apply Nat.eq_of_testBit_eq
  intro i
  simp only [Nat.testBit_land, Nat.testBit_shiftLeft, Nat.testBit_mod_two_pow,
    Nat.testBit_shiftRight, Nat.testBit_two_pow_sub_one]
  by_cases h : k ≤ i
  · have e : k + (i - k) = i := by omega
    by_cases h2 : i - k < w <;> simp [h, h2, e]
  · simp [h]

theorem xsigo_mask24 (g : Nat) (hg : g < 2 ^ 64) (v : Nat) (hv : v < 2 ^ 24) :
    g &&& 0xffffff0000000000 = v * 2 ^ 40 ↔ g / 2 ^ 40 = v := by
  have h := and_field_mask g 40 24
  have e : ((2 ^ 24 - 1) <<< 40 : Nat) = 0xffffff0000000000 := by decide
  rw [e] at h
  rw [h, Nat.shiftLeft_eq, Nat.shiftRight_eq_div_pow]
  norm_num at hg hv ⊢
  omega

theorem xsigo_mask32 (g : Nat) (hg : g < 2 ^ 64) (v : Nat) (hv : v < 2 ^ 32) :
    g &&& 0xffffffff00000000 = v * 2 ^ 32 ↔ g / 2 ^ 32 = v := by
  have h := and_field_mask g 32 32
  have e : ((2 ^ 32 - 1) <<< 32 : Nat) = 0xffffffff00000000 := by decide
  rw [e] at h
  rw [h, Nat.shiftLeft_eq, Nat.shiftRight_eq_div_pow]
  norm_num at hg hv ⊢
  omega

theorem xsigo_mask40 (g : Nat) (hg : g < 2 ^ 64) (v : Nat) (hv : v < 2 ^ 40) :
    g &&& 0xffffffffff000000 = v * 2 ^ 24 ↔ g / 2 ^ 24 = v := by
  have h := and_field_mask g 24 40
  have e : ((2 ^ 40 - 1) <<< 24 : Nat) = 0xffffffffff000000 := by decide
  rw [e] at h
  rw [h, Nat.shiftLeft_eq, Nat.shiftRight_eq_div_pow]
  norm_num at hg hv ⊢
  omega

/-- C18. Vendor-family predicates: for every 64-bit `g`, `ibnd_is_xsigo_guid g` holds
iff the top 24 bits of `g` are `0x001397`; each of `is_xsigo_switch`,
`ibnd_is_xsigo_hca`, `ibnd_is_xsigo_tca` holds iff `ibnd_is_xsigo_guid g` holds and
the next byte (bits 32-39) is 1, 2, 3 respectively, so no two of the three hold
together; and `is_xsigo_leafone g` implies `is_xsigo_switch g`. -/
theorem xsigo_predicates (g : Nat) (hg : g < 2 ^ 64) :
    (ibnd_is_xsigo_guid g = true ↔ g / 2 ^ 40 = 0x001397) ∧
    (is_xsigo_switch g = true ↔ ibnd_is_xsigo_guid g = true ∧ g / 2 ^ 32 % 2 ^ 8 = 1) ∧
    (ibnd_is_xsigo_hca g = true ↔ ibnd_is_xsigo_guid g = true ∧ g / 2 ^ 32 % 2 ^ 8 = 2) ∧
    (ibnd_is_xsigo_tca g = true ↔ ibnd_is_xsigo_guid g = true ∧ g / 2 ^ 32 % 2 ^ 8 = 3) ∧
    ¬ (is_xsigo_switch g = true ∧ ibnd_is_xsigo_hca g = true) ∧
    ¬ (is_xsigo_switch g = true ∧ ibnd_is_xsigo_tca g = true) ∧
    ¬ (ibnd_is_xsigo_hca g = true ∧ ibnd_is_xsigo_tca g = true) ∧
    (is_xsigo_leafone g = true → is_xsigo_switch g = true) := by
  have h24 := xsigo_mask24 g hg 0x001397 (by norm_num)
  have hs := xsigo_mask32 g hg 0x00139701 (by norm_num)
  have hh := xsigo_mask32 g hg 0x00139702 (by norm_num)
  have ht := xsigo_mask32 g hg 0x00139703 (by norm_num)
  have hl := xsigo_mask40 g hg 0x0013970102 (by norm_num)
  simp only [ibnd_is_xsigo_guid, is_xsigo_switch, ibnd_is_xsigo_hca, ibnd_is_xsigo_tca,
    is_xsigo_leafone, beq_iff_eq]
  norm_num at h24 hs hh ht hl hg ⊢
  rw [h24, hs, hh, ht, hl]
  omega

theorem xsigo_predicates_witness :
    (0x0013970102000009 : Nat) < 2 ^ 64 ∧
    (ibnd_is_xsigo_guid 0x0013970102000009 = true ↔ 0x0013970102000009 / 2 ^ 40 = 0x001397) ∧
    (is_xsigo_switch 0x0013970102000009 = true ↔
      ibnd_is_xsigo_guid 0x0013970102000009 = true ∧ 0x0013970102000009 / 2 ^ 32 % 2 ^ 8 = 1) ∧
    (ibnd_is_xsigo_hca 0x0013970102000009 = true ↔
      ibnd_is_xsigo_guid 0x0013970102000009 = true ∧ 0x0013970102000009 / 2 ^ 32 % 2 ^ 8 = 2) ∧
    (ibnd_is_xsigo_tca 0x0013970102000009 = true ↔
      ibnd_is_xsigo_guid 0x0013970102000009 = true ∧ 0x0013970102000009 / 2 ^ 32 % 2 ^ 8 = 3) ∧
    ¬ (is_xsigo_switch 0x0013970102000009 = true ∧ ibnd_is_xsigo_hca 0x0013970102000009 = true) ∧
    ¬ (is_xsigo_switch 0x0013970102000009 = true ∧ ibnd_is_xsigo_tca 0x0013970102000009 = true) ∧
    ¬ (ibnd_is_xsigo_hca 0x0013970102000009 = true ∧ ibnd_is_xsigo_tca 0x0013970102000009 = true) ∧
    (is_xsigo_leafone 0x0013970102000009 = true → is_xsigo_switch 0x0013970102000009 = true) :=
  ⟨by decide, xsigo_predicates 0x0013970102000009 (by decide)⟩

/-! ## Flat indices of tagged nodes (C19, C20) -/

theorem tbl_ok {t : List Nat} {i v : Nat} (h : tbl t i = .ok v) :
    i < t.length ∧ t[i]? = some v := by
  unfold tbl at h
  split at h
  · rename_i w hw
    simp only [Except.ok.injEq] at h
    subst h
    exact ⟨(List.getElem?_eq_some_iff.mp hw).1, hw⟩
  · exact absurd h (by simp)

theorem tbl_total {t : List Nat} {i : Nat} (h : i < t.length) : ∃ v, tbl t i = .ok v := by
  unfold tbl
  rw [List.getElem?_eq_getElem h]
  exact ⟨_, rfl⟩

/-- The pairs of the two spine tables: zero outside the ports 1..12. -/
theorem spine4_pair {p sl an : Nat} (h1 : tbl spine4_slot_2_slb p = .ok sl)
    (h2 : tbl anafa_spine4_slot_2_slb p = .ok an) :
    (1 ≤ p ∧ p ≤ 12 → 1 ≤ sl ∧ sl ≤ 4 ∧ an = 1) ∧ (sl = 0 → an = 0) ∧ sl ≤ 4 ∧ an ≤ 1 ∧
      (1 ≤ sl → 1 ≤ an) := by
  obtain ⟨hp, e1⟩ := tbl_ok h1
  obtain ⟨-, e2⟩ := tbl_ok h2
  have hp : p < 25 := hp
  interval_cases p <;>
    simp only [spine4_slot_2_slb, anafa_spine4_slot_2_slb, List.getElem?_cons_succ,
      List.getElem?_cons_zero, Option.some.injEq] at e1 e2 <;> omega

theorem spine12_pair {p sl an : Nat} (h1 : tbl spine12_slot_2_slb p = .ok sl)
    (h2 : tbl anafa_spine12_slot_2_slb p = .ok an) :
    (1 ≤ p ∧ p ≤ 12 → 3 * (sl - 1) + an = p ∧ 1 ≤ sl ∧ 1 ≤ an) ∧ (sl = 0 → an = 0) ∧
      sl ≤ 4 ∧ an ≤ 3 ∧ (1 ≤ sl → 1 ≤ an) := by
  obtain ⟨hp, e1⟩ := tbl_ok h1
  obtain ⟨-, e2⟩ := tbl_ok h2
  have hp : p < 25 := hp
  interval_cases p <;>
    simp only [spine12_slot_2_slb, anafa_spine12_slot_2_slb, List.getElem?_cons_succ,
      List.getElem?_cons_zero, Option.some.injEq] at e1 e2 <;> omega

theorem line4_pair {p sl an : Nat} (h1 : tbl line_slot_2_sfb4 p = .ok sl)
    (h2 : tbl anafa_line_slot_2_sfb4 p = .ok an) :
    (1 ≤ p → 1 ≤ sl ∧ 1 ≤ an) ∧ (p = 0 → sl = 0 ∧ an = 0) ∧ sl ≤ 4 ∧ an ≤ 2 ∧ p ≤ 24 := by
  obtain ⟨hp, e1⟩ := tbl_ok h1
  obtain ⟨-, e2⟩ := tbl_ok h2
  have hp : p < 25 := hp
  interval_cases p <;>
    simp only [line_slot_2_sfb4, anafa_line_slot_2_sfb4, List.getElem?_cons_succ,
      List.getElem?_cons_zero, Option.some.injEq] at e1 e2 <;> omega

theorem line12_pair {p sl an : Nat} (h1 : tbl line_slot_2_sfb12 p = .ok sl)
    (h2 : tbl anafa_line_slot_2_sfb12 p = .ok an) :
    (1 ≤ p → 1 ≤ sl ∧ 1 ≤ an) ∧ (p = 0 → sl = 0 ∧ an = 0) ∧ sl ≤ 12 ∧ an ≤ 2 ∧ p ≤ 24 := by
  obtain ⟨hp, e1⟩ := tbl_ok h1
  obtain ⟨-, e2⟩ := tbl_ok h2
  have hp : p < 25 := hp
  interval_cases p <;>
    simp only [line_slot_2_sfb12, anafa_line_slot_2_sfb12, List.cons_append, List.nil_append,
      List.getElem?_cons_succ, List.getElem?_cons_zero, Option.some.injEq] at e1 e2 <;> omega

theorem line12_slot {p sl : Nat} (h1 : tbl line_slot_2_sfb12 p = .ok sl) :
    (1 ≤ p → 1 ≤ sl) ∧ (p = 0 → sl = 0) ∧ sl ≤ 12 ∧ p ≤ 24 := by
  obtain ⟨hp, e1⟩ := tbl_ok h1
  have hp : p < 25 := hp
  interval_cases p <;>
    simp only [line_slot_2_sfb12, List.cons_append, List.nil_append,
      List.getElem?_cons_succ, List.getElem?_cons_zero, Option.some.injEq] at e1 <;> omega

theorem ipr_pair {p sl an : Nat} (h1 : tbl line_slot_2_sfb4 p = .ok sl)
    (h2 : tbl ipr_slot_2_sfb4_port p = .ok an) :
    (1 ≤ p → 1 ≤ sl ∧ 1 ≤ an) ∧ (p = 0 → sl = 0 ∧ an = 0) ∧ sl ≤ 4 ∧ an ≤ 3 ∧ p ≤ 24 := by
  obtain ⟨hp, e1⟩ := tbl_ok h1
  obtain ⟨-, e2⟩ := tbl_ok h2
  have hp : p < 25 := hp
  interval_cases p <;>
    simp only [line_slot_2_sfb4, ipr_slot_2_sfb4_port, List.getElem?_cons_succ,
      List.getElem?_cons_zero, Option.some.injEq] at e1 e2 <;> omega

theorem guess_anafa_range (guid : Nat) : 1 ≤ guess_anafa guid ∧ guess_anafa guid ≤ 3 := by
  unfold guess_anafa
  simp only []
  split_ifs <;> omega

/-- What `get_sfb_slot` writes: the spine kind and a pair of one of the two spine
tables, chosen by the generation of the node. -/
theorem get_sfb_slot_vals {K : Config} {g : Graph} {s t : St} {node : NodeId} {lp : PortId}
    (h : get_sfb_slot K g s node lp = .ok t) :
    ∃ ty sl an, t = s.tag node SPINE_CS ty sl an ∧
      (((is_spine_9096 K g node = true ∨
          (is_spine_9288 K g node = false ∧ is_spine_2012 K g node = false ∧
            is_spine_2004 K g node = true)) ∧
        tbl spine4_slot_2_slb (g.port lp).portnum = .ok sl ∧
        tbl anafa_spine4_slot_2_slb (g.port lp).portnum = .ok an) ∨
       (is_spine_9096 K g node = false ∧
        (is_spine_9288 K g node = true ∨ is_spine_2012 K g node = true) ∧
        tbl spine12_slot_2_slb (g.port lp).portnum = .ok sl ∧
        tbl anafa_spine12_slot_2_slb (g.port lp).portnum = .ok an)) := by
  unfold get_sfb_slot at h
  simp only [] at h
  split_ifs at h with h1 h2 h3 h4 <;> split at h <;>
    first
    | (simp only [Except.ok.injEq] at h
       rename_i sl an e1 e2
       refine ⟨_, sl, an, h.symm, ?_⟩
       simp_all)
    | exact absurd h (by simp)

theorem get_slb_slot_vals {K : Config} {g : Graph} {s t : St} {n : NodeId} {sp : PortId}
    (h : get_slb_slot K g s n sp = .ok t) :
    ∃ ty sl an, t = s.tag n LINE_CS ty sl an ∧
      ((tbl line_slot_2_sfb4 (g.port sp).portnum = .ok sl ∧
        tbl anafa_line_slot_2_sfb4 (g.port sp).portnum = .ok an) ∨
       (tbl line_slot_2_sfb12 (g.port sp).portnum = .ok sl ∧
        tbl anafa_line_slot_2_sfb12 (g.port sp).portnum = .ok an)) := by
  unfold get_slb_slot at h
  simp only [] at h
  split_ifs at h with h1 h2 h3 h4 <;> split at h <;>
    first
    | (simp only [Except.ok.injEq] at h
       rename_i sl an e1 e2
       refine ⟨_, sl, an, h.symm, ?_⟩
       simp_all)
    | exact absurd h (by simp)

theorem get_router_slot_vals {K : Config} {g : Graph} {s t : St} {node : NodeId} {sp : PortId}
    (h : get_router_slot K g s node sp = .ok t) :
    ∃ ty sl an,
      t = (s.modNode node fun r => { r with ch_found := true }).tag node SRBD_CS ty sl an ∧
      ((tbl line_slot_2_sfb4 (g.port sp).portnum = .ok sl ∧
        tbl ipr_slot_2_sfb4_port (g.port sp).portnum = .ok an) ∨
       (tbl line_slot_2_sfb12 (g.port sp).portnum = .ok sl ∧
        an = guess_anafa (g.node (g.port sp).node).guid)) := by
  unfold get_router_slot at h
  simp only [] at h
  split_ifs at h with h1 h2 h3 h4 <;> split at h <;>
    first
    | (simp only [Except.ok.injEq] at h
       refine ⟨_, _, _, h.symm, ?_⟩
       simp_all)
    | exact absurd h (by simp)

@[simp] theorem tag_node_same (s : St) (n : NodeId) (a b c d : Nat) :
    (s.tag n a b c d).node n =
      { s.node n with ch_slot := a, ch_type := b, ch_slotnum := c, ch_anafanum := d } := by
  simp [St.tag, St.modNode]

theorem tag_node_other (s : St) (n x : NodeId) (a b c d : Nat) (h : x ≠ n) :
    (s.tag n a b c d).node x = s.node x := by
  simp [St.tag, St.modNode, h]

theorem small_not_big {K : Config} (hK : spines_apart K) (g : Graph) (node : NodeId)
    (h : is_spine_9096 K g node = true ∨ is_spine_2004 K g node = true) :
    is_spine_9288 K g node = false ∧ is_spine_2012 K g node = false := by
  obtain ⟨⟨a1, a2, a3⟩, ⟨b1, b2, b3⟩, c1, c2, c3⟩ := hK
  simp only [is_spine_9096, is_spine_2004, is_spine_9288, is_spine_2012, Bool.or_eq_true,
    beq_iff_eq, Bool.or_eq_false_iff, beq_eq_false_iff_ne, ne_eq] at h ⊢
  rcases h with (h | h) | h <;> rw [h] <;> exact ⟨⟨‹_›, ‹_›⟩, ‹_›⟩

/-- C19. Spine flat index: `get_spine_index` computes `ch_slotnum` for a node of the
9096 or 2004 generation and `3 * (ch_slotnum - 1) + ch_anafanum` for one of the 9288 or
2012 generation; it returns that value iff the value lies in `[1, SPINES_MAX_NUM]`, and
when it does not return it takes the fatal path `internalError`; and `get_sfb_slot`
called for a spine with a line-board port whose number is in `1..12` returns and leaves
a value in `[1, 4]` (9096, 2004) or in `[1, 12]` (9288, 2012).  The device ids of the two
groups of generations are taken to be different. -/
theorem get_spine_index_spec (K : Config) (hK : spines_apart K) (g : Graph) (s : St)
    (node : NodeId) :
    ((is_spine_9096 K g node = true ∨ is_spine_2004 K g node = true) →
      ∀ i : Nat, get_spine_index K g s node = .ok i ↔
        i = (s.node node).ch_slotnum ∧ 1 ≤ i ∧ i ≤ K.SPINES_MAX_NUM) ∧
    ((is_spine_9288 K g node = true ∨ is_spine_2012 K g node = true) →
      ∀ i : Nat, get_spine_index K g s node = .ok i ↔
        (i : Int) = 3 * (((s.node node).ch_slotnum : Int) - 1) + (s.node node).ch_anafanum ∧
          1 ≤ i ∧ i ≤ K.SPINES_MAX_NUM) ∧
    ((∀ i, get_spine_index K g s node ≠ .ok i) →
      get_spine_index K g s node = .error .internalError) ∧
    (∀ lp, 1 ≤ (g.port lp).portnum → (g.port lp).portnum ≤ 12 →
      (is_spine K g node = true → ∃ t, get_sfb_slot K g s node lp = .ok t) ∧
      ∀ t, get_sfb_slot K g s node lp = .ok t →
        ((is_spine_9096 K g node = true ∨ is_spine_2004 K g node = true) →
          1 ≤ (t.node node).ch_slotnum ∧ (t.node node).ch_slotnum ≤ 4) ∧
        ((is_spine_9288 K g node = true ∨ is_spine_2012 K g node = true) →
          1 ≤ 3 * (((t.node node).ch_slotnum : Int) - 1) + (t.node node).ch_anafanum ∧
          3 * (((t.node node).ch_slotnum : Int) - 1) + (t.node node).ch_anafanum ≤ 12)) := by
  refine ⟨?_, ?_, ?_, ?_⟩
  · intro h i
    obtain ⟨h1, h2⟩ := small_not_big hK g node h
    unfold get_spine_index
    simp only [h1, h2, Bool.or_self, Bool.false_eq_true, if_false]
    split_ifs with hc
    · constructor
      · intro e; exact absurd e (by simp)
      · intro e; omega
    · simp only [Except.ok.injEq]
      omega
  · intro h i
    have hb : (is_spine_9288 K g node || is_spine_2012 K g node) = true := by
      rcases h with h | h <;> simp [h]
    unfold get_spine_index
    simp only [hb, if_true]
    split_ifs with hc
    · constructor
      · intro e; exact absurd e (by simp)
      · intro e; omega
    · simp only [Except.ok.injEq]
      omega
  · intro h
    unfold get_spine_index at h ⊢
    simp only [] at h ⊢
    split_ifs at h ⊢ <;> first | rfl | exact absurd rfl (h _)
  · intro lp hp1 hp2
    have t1 := tbl_total (show (g.port lp).portnum < spine4_slot_2_slb.length by
      simp only [spine4_slot_2_slb, List.length_cons, List.length_nil]; omega)
    have t2 := tbl_total (show (g.port lp).portnum < anafa_spine4_slot_2_slb.length by
      simp only [anafa_spine4_slot_2_slb, List.length_cons, List.length_nil]; omega)
    have t3 := tbl_total (show (g.port lp).portnum < spine12_slot_2_slb.length by
      simp only [spine12_slot_2_slb, List.length_cons, List.length_nil]; omega)
    have t4 := tbl_total (show (g.port lp).portnum < anafa_spine12_slot_2_slb.length by
      simp only [anafa_spine12_slot_2_slb, List.length_cons, List.length_nil]; omega)
    obtain ⟨v1, t1⟩ := t1
    obtain ⟨v2, t2⟩ := t2
    obtain ⟨v3, t3⟩ := t3
    obtain ⟨v4, t4⟩ := t4
    constructor
    · intro hs
      unfold get_sfb_slot
      simp only [t1, t2, t3, t4]
      simp only [is_spine, Bool.or_eq_true] at hs
      split_ifs with a b c d
      · exact ⟨_, rfl⟩
      · exact ⟨_, rfl⟩
      · exact ⟨_, rfl⟩
      · exact ⟨_, rfl⟩
      · simp_all
    · intro t ht
      obtain ⟨ty, sl, an, rfl, hv⟩ := get_sfb_slot_vals ht
      simp only [tag_node_same]
      constructor
      · intro h
        obtain ⟨h1, h2⟩ := small_not_big hK g node h
        rcases hv with ⟨-, e1, e2⟩ | ⟨-, hb, -, -⟩
        · have := (spine4_pair e1 e2).1 ⟨hp1, hp2⟩
          omega
        · simp [h1, h2] at hb
      · intro h
        rcases hv with ⟨hs, -, -⟩ | ⟨-, -, e1, e2⟩
        · have hn : is_spine_9288 K g node = false ∧ is_spine_2012 K g node = false := by
            rcases hs with hs | ⟨a, b, -⟩
            · exact small_not_big hK g node (Or.inl hs)
            · exact ⟨a, b⟩
          simp [hn.1, hn.2] at h
        · have := (spine12_pair e1 e2).1 ⟨hp1, hp2⟩
          omega

theorem get_spine_index_spec_witness :
    spines_apart stdConfig ∧
    ((is_spine_9096 stdConfig (spine_node 0x5a40) 0 = true ∨ is_spine_2004 stdConfig (spine_node 0x5a40) 0 = true) →
      ∀ i : Nat, get_spine_index stdConfig (spine_node 0x5a40) St.init 0 = .ok i ↔
        i = (St.init.node 0).ch_slotnum ∧ 1 ≤ i ∧ i ≤ stdConfig.SPINES_MAX_NUM) ∧
    ((is_spine_9288 stdConfig (spine_node 0x5a40) 0 = true ∨ is_spine_2012 stdConfig (spine_node 0x5a40) 0 = true) →
      ∀ i : Nat, get_spine_index stdConfig (spine_node 0x5a40) St.init 0 = .ok i ↔
        (i : Int) = 3 * (((St.init.node 0).ch_slotnum : Int) - 1) + (St.init.node 0).ch_anafanum ∧
          1 ≤ i ∧ i ≤ stdConfig.SPINES_MAX_NUM) ∧
    ((∀ i, get_spine_index stdConfig (spine_node 0x5a40) St.init 0 ≠ .ok i) →
      get_spine_index stdConfig (spine_node 0x5a40) St.init 0 = .error .internalError) ∧
    (∀ lp, 1 ≤ ((spine_node 0x5a40).port lp).portnum → ((spine_node 0x5a40).port lp).portnum ≤ 12 →
      (is_spine stdConfig (spine_node 0x5a40) 0 = true → ∃ t, get_sfb_slot stdConfig (spine_node 0x5a40) St.init 0 lp = .ok t) ∧
      ∀ t, get_sfb_slot stdConfig (spine_node 0x5a40) St.init 0 lp = .ok t →
        ((is_spine_9096 stdConfig (spine_node 0x5a40) 0 = true ∨ is_spine_2004 stdConfig (spine_node 0x5a40) 0 = true) →
          1 ≤ (t.node 0).ch_slotnum ∧ (t.node 0).ch_slotnum ≤ 4) ∧
        ((is_spine_9288 stdConfig (spine_node 0x5a40) 0 = true ∨ is_spine_2012 stdConfig (spine_node 0x5a40) 0 = true) →
          1 ≤ 3 * (((t.node 0).ch_slotnum : Int) - 1) + (t.node 0).ch_anafanum ∧
          3 * (((t.node 0).ch_slotnum : Int) - 1) + (t.node 0).ch_anafanum ≤ 12)) :=
  ⟨by decide, get_spine_index_spec stdConfig (by decide) (spine_node 0x5a40) St.init 0⟩

/-- C20. Line and router flat index in range: for a port of a spine of any of the four
generations whose port number `p` is in `1..24`, `get_slb_slot` and `get_router_slot`
called with that port both return, and the node they tag has a slot number of at least
1, a sub-chip number in `{1, 2, 3}` and `3 * (ch_slotnum - 1) + ch_anafanum` in
`[1, 36]`; so `get_line_index` returns that value for the node when
`LINES_MAX_NUM` is at least 36. -/
theorem line_router_index_in_range (K : Config) (g : Graph) (s : St) (n : NodeId)
    (sp : PortId) (hs : is_spine K g (g.port sp).node = true)
    (hp1 : 1 ≤ (g.port sp).portnum) (hp2 : (g.port sp).portnum ≤ 24) :
    (∃ t, get_slb_slot K g s n sp = .ok t) ∧ (∃ t, get_router_slot K g s n sp = .ok t) ∧
    ∀ t, get_slb_slot K g s n sp = .ok t ∨ get_router_slot K g s n sp = .ok t →
      1 ≤ (t.node n).ch_slotnum ∧ 1 ≤ (t.node n).ch_anafanum ∧ (t.node n).ch_anafanum ≤ 3 ∧
      1 ≤ 3 * ((t.node n).ch_slotnum - 1) + (t.node n).ch_anafanum ∧
      3 * ((t.node n).ch_slotnum - 1) + (t.node n).ch_anafanum ≤ 36 ∧
      (36 ≤ K.LINES_MAX_NUM →
        get_line_index K t n =
          .ok (3 * ((t.node n).ch_slotnum - 1) + (t.node n).ch_anafanum)) := by
  have len : ∀ T : List Nat, T.length = 25 → ∃ v, tbl T (g.port sp).portnum = .ok v :=
    fun T hT => tbl_total (by omega)
  obtain ⟨v1, t1⟩ := len line_slot_2_sfb4 rfl
  obtain ⟨v2, t2⟩ := len anafa_line_slot_2_sfb4 rfl
  obtain ⟨v3, t3⟩ := len line_slot_2_sfb12 rfl
  obtain ⟨v4, t4⟩ := len anafa_line_slot_2_sfb12 rfl
  obtain ⟨v5, t5⟩ := len ipr_slot_2_sfb4_port rfl
  simp only [is_spine, Bool.or_eq_true] at hs
  refine ⟨?_, ?_, ?_⟩
  · unfold get_slb_slot
    simp only [t1, t2, t3, t4]
    split_ifs
    · exact ⟨_, rfl⟩
    · exact ⟨_, rfl⟩
    · exact ⟨_, rfl⟩
    · exact ⟨_, rfl⟩
    · simp_all
  · unfold get_router_slot
    simp only [t1, t3, t5]
    split_ifs
    · exact ⟨_, rfl⟩
    · exact ⟨_, rfl⟩
    · exact ⟨_, rfl⟩
    · exact ⟨_, rfl⟩
    · simp_all
  · intro t ht
    have key : ∃ sl an : Nat, ((t.node n).ch_slotnum = sl ∧ (t.node n).ch_anafanum = an) ∧
        1 ≤ sl ∧ sl ≤ 12 ∧ 1 ≤ an ∧ an ≤ 3 := by
      rcases ht with ht | ht
      · obtain ⟨ty, sl, an, rfl, hv⟩ := get_slb_slot_vals ht
        refine ⟨sl, an, by rw [tag_node_same]; exact ⟨rfl, rfl⟩, ?_⟩
        rcases hv with ⟨e1, e2⟩ | ⟨e1, e2⟩
        · have := line4_pair e1 e2; omega
        · have := line12_pair e1 e2; omega
      · obtain ⟨ty, sl, an, rfl, hv⟩ := get_router_slot_vals ht
        refine ⟨sl, an, by rw [tag_node_same]; exact ⟨rfl, rfl⟩, ?_⟩
        rcases hv with ⟨e1, e2⟩ | ⟨e1, e2⟩
        · have := ipr_pair e1 e2; omega
        · have := line12_slot e1
          have := guess_anafa_range (g.node (g.port sp).node).guid
          omega
    obtain ⟨sl, an, ⟨es, ea⟩, b1, b2, b3, b4⟩ := key
    refine ⟨by omega, by omega, by omega, by omega, by omega, ?_⟩
    intro hK
    unfold get_line_index
    simp only [es, ea]
    rw [if_neg (by omega)]
    congr 1
    omega

theorem line_router_index_in_range_witness :
    is_spine stdConfig (spine_node 0x5a40) ((spine_node 0x5a40).port 24).node = true ∧
    1 ≤ ((spine_node 0x5a40).port 24).portnum ∧ ((spine_node 0x5a40).port 24).portnum ≤ 24 ∧
    (∃ t, get_slb_slot stdConfig (spine_node 0x5a40) St.init 5 24 = .ok t) ∧
    (∃ t, get_router_slot stdConfig (spine_node 0x5a40) St.init 5 24 = .ok t) ∧
    ∀ t, get_slb_slot stdConfig (spine_node 0x5a40) St.init 5 24 = .ok t ∨
        get_router_slot stdConfig (spine_node 0x5a40) St.init 5 24 = .ok t →
      1 ≤ (t.node 5).ch_slotnum ∧ 1 ≤ (t.node 5).ch_anafanum ∧ (t.node 5).ch_anafanum ≤ 3 ∧
      1 ≤ 3 * ((t.node 5).ch_slotnum - 1) + (t.node 5).ch_anafanum ∧
      3 * ((t.node 5).ch_slotnum - 1) + (t.node 5).ch_anafanum ≤ 36 ∧
      (36 ≤ stdConfig.LINES_MAX_NUM →
        get_line_index stdConfig t 5 =
          .ok (3 * ((t.node 5).ch_slotnum - 1) + (t.node 5).ch_anafanum)) :=
  ⟨by decide, by decide, by decide,
    line_router_index_in_range stdConfig (spine_node 0x5a40) St.init 5 24 (by decide)
      (by decide) (by decide)⟩

/-! ## Termination of the fourth loop (C16) -/

theorem returns_ok {α : Type} {x : Except Err α} (h : returns x = true) : ∃ a, x = .ok a := by
  cases x with
  | ok a => exact ⟨a, rfl⟩
  | error e => exact absurd h (by simp [returns])

/-- When `maxhops_discovered` is at most `MAXHOPS`, the loop nest of the first three
passes is the loop over the flattened node list. -/
theorem for_buckets_eq {σ : Type} (K : Config) (g : Graph) (f : σ → NodeId → Except Err σ)
    (n : Nat) : ∀ (d : Nat) (s : σ), d + n ≤ K.MAXHOPS + 1 →
      loopE (fun s dist =>
          match bucket K g dist with
          | .error e => .error e
          | .ok b => loopE f b s) (List.range' d n) s = loopE f (nodes_from g d n) s := by
  induction n with
  | zero => intro d s _; rfl
  | succ n ih =>
    intro d s hd
    have hb : bucket K g d = .ok (g.nodesdist d) := by
      unfold bucket
      rw [if_pos (by omega)]
    rw [List.range'_succ, nodes_from, loopE_append]
    simp only [loopE, hb]
    cases h1 : loopE f (g.nodesdist d) s with
    | error e => rfl
    | ok s1 => exact ih (d + 1) s1 (by omega)

theorem for_nodes_eq {σ : Type} (K : Config) (g : Graph) (f : σ → NodeId → Except Err σ)
    (s : σ) (h : g.maxhops_discovered ≤ K.MAXHOPS) :
    for_nodes K g f s = loopE f (counted_nodes g) s :=
  for_buckets_eq K g f _ 0 s (by omega)

/-- The body of the fourth pass has no failing path. -/
theorem promote_step_total (K : Config) (g : Graph) (sc : St × Nat) (n : NodeId) :
    ∃ tc, promote_step K g sc n = .ok tc := by
  unfold promote_step
  split_ifs
  · exact ⟨_, rfl⟩
  · split
    · exact ⟨_, rfl⟩
    · split_ifs
      · exact ⟨_, rfl⟩
      · exact ⟨_, rfl⟩
  · exact ⟨_, rfl⟩

theorem promote_list_total (K : Config) (g : Graph) (l : List NodeId) :
    ∀ sc, ∃ tc, loopE (promote_step K g) l sc = .ok tc := by
  induction l with
  | nil => intro sc; exact ⟨sc, rfl⟩
  | cons a as ih =>
    intro sc
    obtain ⟨s1, h1⟩ := promote_step_total K g sc a
    obtain ⟨tc, h2⟩ := ih s1
    exact ⟨tc, by simp only [loopE, h1]; exact h2⟩

/-- With `maxhops_discovered = MAXHOPS` the fourth loop uses up every step budget:
the jump `dist = MAXHOPS` lands on the value `dist` already has. -/
theorem promote_loop_stuck (K : Config) (g : Graph) (h : g.maxhops_discovered = K.MAXHOPS)
    (fuel : Nat) : ∀ (dist : Nat) (sc : St × Nat), dist ≤ K.MAXHOPS →
      promote_loop K g fuel dist sc = .error .outOfFuel := by
  induction fuel with
  | zero =>
    intro dist sc hd
    unfold promote_loop
    rw [if_pos hd]
  | succ fuel ih =>
    intro dist sc hd
    unfold promote_loop
    rw [if_pos hd]
    obtain ⟨sc1, h1⟩ := promote_list_total K g (g.nodesdist dist) sc
    simp only [h1]
    split_ifs with he
    · exact ih _ _ (le_refl _)
    · exact ih _ _ (by omega)

theorem promote_loop_past (K : Config) (g : Graph) (fuel dist : Nat) (sc : St × Nat)
    (h : K.MAXHOPS < dist) : promote_loop K g fuel dist sc = .ok sc := by
  cases fuel with
  | zero => unfold promote_loop; rw [if_neg (by omega)]
  | succ fuel => unfold promote_loop; rw [if_neg (by omega)]

/-- With `maxhops_discovered < MAXHOPS` and a step budget of at least
`maxhops_discovered - dist + 2` the fourth loop returns: it is the loop over the
nodes of the buckets `dist, ..., maxhops_discovered` followed by those of the
bucket `MAXHOPS`. -/
theorem promote_loop_eq (K : Config) (g : Graph) (hm : g.maxhops_discovered < K.MAXHOPS)
    (fuel : Nat) : ∀ (dist : Nat) (sc : St × Nat), dist ≤ g.maxhops_discovered →
      g.maxhops_discovered - dist + 2 ≤ fuel →
      promote_loop K g fuel dist sc =
        loopE (promote_step K g)
          (nodes_from g dist (g.maxhops_discovered + 1 - dist) ++ g.nodesdist K.MAXHOPS) sc := by
  induction fuel with
  | zero => intro dist sc _ hf; omega
  | succ fuel ih =>
    intro dist sc hd hf
    unfold promote_loop
    rw [if_pos (by omega)]
    by_cases heq : dist = g.maxhops_discovered
    · have h2 : g.maxhops_discovered + 1 - dist = 1 := by omega
      rw [h2, nodes_from, nodes_from, List.append_nil, loopE_append]
      cases h1 : loopE (promote_step K g) (g.nodesdist dist) sc with
      | error e => rfl
      | ok sc1 =>
        simp only [if_pos heq]
        obtain ⟨f, rfl⟩ : ∃ f, fuel = f + 1 := ⟨fuel - 1, by omega⟩
        unfold promote_loop
        rw [if_pos (le_refl _)]
        cases h3 : loopE (promote_step K g) (g.nodesdist K.MAXHOPS) sc1 with
        | error e => rfl
        | ok sc2 =>
          simp only [if_neg (show ¬ K.MAXHOPS = g.maxhops_discovered by omega)]
          exact promote_loop_past K g f _ sc2 (by omega)
    · have h2 : g.maxhops_discovered + 1 - dist =
          (g.maxhops_discovered + 1 - (dist + 1)) + 1 := by omega
      rw [h2, nodes_from, List.append_assoc, loopE_append]
      cases h1 : loopE (promote_step K g) (g.nodesdist dist) sc with
      | error e => rfl
      | ok sc1 =>
        simp only [if_neg heq]
        exact ih (dist + 1) sc1 (by omega) (by omega)

/-- The last two passes on a fabric with `maxhops_discovered = MAXHOPS`. -/
theorem guid_passes_stuck (K : Config) (g : Graph) (h : g.maxhops_discovered = K.MAXHOPS)
    (fuel : Nat) (sc : St × Nat) : guid_passes K g fuel sc = .error .outOfFuel := by
  unfold guid_passes
  rw [for_nodes_eq K g _ _ (by omega)]
  obtain ⟨s3, h3, -⟩ := count_pass_spec K g 0 (counted_nodes g) sc.1
  simp only [h3]
  rw [promote_loop_stuck K g h fuel 0 _ (by omega)]

/-- C16 fails on the code at `maxhops_discovered = MAXHOPS`: on the chain of 64
switches, whose last switch is at distance 63, the first three passes return and
the fourth loop of `group_nodes` uses up every step budget, so `group_nodes` does
not terminate there. -/
theorem group_nodes_deep_chain_diverges :
    deep_chain.maxhops_discovered = stdConfig.MAXHOPS ∧
    ∀ fuel, group_nodes stdConfig deep_chain fuel St.init = .error .outOfFuel := by
  refine ⟨rfl, fun fuel => ?_⟩
  unfold group_nodes
  obtain ⟨sc, hsc⟩ := returns_ok (show returns (voltaire_passes stdConfig deep_chain St.init)
    = true by decide)
  simp only [hsc]
  exact guid_passes_stuck stdConfig deep_chain rfl fuel sc

/-! ## Ports without a link (C15) -/

/-- A port without a link is skipped by the spine branch and the line branch of
`fill_voltaire_chassis_record`, by the loop of `build_chassis` and by the two
propagation passes; the router branch reads through the absent reference. -/
theorem absent_link_steps (K : Config) (g : Graph) (node : NodeId) (c : ChassisId) (s : St)
    (p : Nat) (ps : List Nat) (port : PortId) (hp : port_at g node p = .ok (some port))
    (hr : (g.port port).remoteport = none) :
    fill_spine_step K g node s p = .ok s ∧
    fill_line_loop K g node s (p :: ps) = fill_line_loop K g node s ps ∧
    spines_port_step K g c node s p = .ok s ∧
    lines_port_step K g c node s p = .ok s ∧
    fill_router_step K g node s p = .error .nullDeref := by
  refine ⟨?_, ?_, ?_, ?_, ?_⟩
  · simp only [fill_spine_step, hp, hr]
  · simp only [fill_line_loop, hp, hr]
  · simp only [spines_port_step, hp, hr]
  · simp only [lines_port_step, hp, hr]
  · simp only [fill_router_step, hp, hr]

/-- C15 fails on the code for a router: on the fabric of one Voltaire router blade
whose port 1 has no link, the router branch of `fill_voltaire_chassis_record` reads
`port->remoteport->node` through the absent reference, so the tagging of the node
and with it `group_nodes` fail; the same port on a spine or on a line board is
skipped and the tagging returns. -/
theorem fill_router_reads_absent_link :
    ((unlinked_node 1 stdConfig.VTR_DEVID_IB_FC_ROUTER).port 1).remoteport = none ∧
    is_router stdConfig (unlinked_node 1 stdConfig.VTR_DEVID_IB_FC_ROUTER) 0 = true ∧
    fill_voltaire_chassis_record stdConfig
      (unlinked_node 1 stdConfig.VTR_DEVID_IB_FC_ROUTER) St.init 0 = .error .nullDeref ∧
    group_nodes stdConfig (unlinked_node 1 stdConfig.VTR_DEVID_IB_FC_ROUTER) 2 St.init =
      .error .nullDeref ∧
    returns (fill_voltaire_chassis_record stdConfig
      (unlinked_node 2 stdConfig.VTR_DEVID_SFB12) St.init 0) = true ∧
    returns (fill_voltaire_chassis_record stdConfig
      (unlinked_node 2 stdConfig.VTR_DEVID_SLB24) St.init 0) = true := by
  exact ⟨rfl, by decide, rfl, rfl, by decide, by decide⟩

/-! ## Properties kept by the tagging pass -/

theorem get_sfb_slot_tagvals {K : Config} {g : Graph} {s t : St} {node : NodeId} {lp : PortId}
    (h : get_sfb_slot K g s node lp = .ok t) :
    ∃ ty sl an, t = s.tag node SPINE_CS ty sl an ∧ TagVals SPINE_CS ty sl an := by
  unfold get_sfb_slot at h
  simp only [] at h
  split_ifs at h with h1 h2 h3 h4
  · split at h
    · rename_i sl an e1 e2
      simp only [Except.ok.injEq] at h
      have := spine4_pair e1 e2
      exact ⟨_, sl, an, h.symm,
        Or.inl ⟨Or.inl rfl, Or.inr (Or.inl ⟨rfl, by omega, by omega⟩)⟩, by omega⟩
    · exact absurd h (by simp)
  · split at h
    · rename_i sl an e1 e2
      simp only [Except.ok.injEq] at h
      have := spine12_pair e1 e2
      exact ⟨_, sl, an, h.symm,
        Or.inr ⟨Or.inl rfl, Or.inr (Or.inl ⟨rfl, by omega, by omega⟩)⟩, by omega⟩
    · exact absurd h (by simp)
  · split at h
    · rename_i sl an e1 e2
      simp only [Except.ok.injEq] at h
      have := spine12_pair e1 e2
      exact ⟨_, sl, an, h.symm,
        Or.inr ⟨Or.inr rfl, Or.inr (Or.inl ⟨rfl, by omega, by omega⟩)⟩, by omega⟩
    · exact absurd h (by simp)
  · split at h
    · rename_i sl an e1 e2
      simp only [Except.ok.injEq] at h
      have := spine4_pair e1 e2
      exact ⟨_, sl, an, h.symm,
        Or.inl ⟨Or.inr rfl, Or.inr (Or.inl ⟨rfl, by omega, by omega⟩)⟩, by omega⟩
    · exact absurd h (by simp)

theorem get_slb_slot_tagvals {K : Config} {g : Graph} {s t : St} {n : NodeId} {sp : PortId}
    (h : get_slb_slot K g s n sp = .ok t) :
    ∃ ty sl an, t = s.tag n LINE_CS ty sl an ∧ TagVals LINE_CS ty sl an := by
  unfold get_slb_slot at h
  simp only [] at h
  split_ifs at h with h1 h2 h3 h4
  · split at h
    · rename_i sl an e1 e2
      simp only [Except.ok.injEq] at h
      have := line4_pair e1 e2
      exact ⟨_, sl, an, h.symm, Or.inl ⟨Or.inl rfl, Or.inl ⟨rfl, by omega, by omega⟩⟩, by omega⟩
    · exact absurd h (by simp)
  · split at h
    · rename_i sl an e1 e2
      simp only [Except.ok.injEq] at h
      have := line12_pair e1 e2
      exact ⟨_, sl, an, h.symm, Or.inr ⟨Or.inl rfl, Or.inl ⟨rfl, by omega, by omega⟩⟩, by omega⟩
    · exact absurd h (by simp)
  · split at h
    · rename_i sl an e1 e2
      simp only [Except.ok.injEq] at h
      have := line12_pair e1 e2
      exact ⟨_, sl, an, h.symm, Or.inr ⟨Or.inr rfl, Or.inl ⟨rfl, by omega, by omega⟩⟩, by omega⟩
    · exact absurd h (by simp)
  · split at h
    · rename_i sl an e1 e2
      simp only [Except.ok.injEq] at h
      have := line4_pair e1 e2
      exact ⟨_, sl, an, h.symm, Or.inl ⟨Or.inr rfl, Or.inl ⟨rfl, by omega, by omega⟩⟩, by omega⟩
    · exact absurd h (by simp)

theorem get_router_slot_tagvals {K : Config} {g : Graph} {s t : St} {node : NodeId}
    {sp : PortId} (h : get_router_slot K g s node sp = .ok t) :
    ∃ ty sl an,
      t = (s.modNode node fun r => { r with ch_found := true }).tag node SRBD_CS ty sl an ∧
      TagVals SRBD_CS ty sl an := by
  unfold get_router_slot at h
  simp only [] at h
  have hg := guess_anafa_range (g.node (g.port sp).node).guid
  split_ifs at h with h1 h2 h3 h4
  · split at h
    · rename_i sl an e1 e2
      simp only [Except.ok.injEq] at h
      have := ipr_pair e1 e2
      exact ⟨_, sl, an, h.symm,
        Or.inl ⟨Or.inl rfl, Or.inr (Or.inr ⟨rfl, by omega, by omega⟩)⟩, by omega⟩
    · exact absurd h (by simp)
  · split at h
    · rename_i sl e1
      simp only [Except.ok.injEq] at h
      have := line12_slot e1
      exact ⟨_, sl, _, h.symm,
        Or.inr ⟨Or.inl rfl, Or.inr (Or.inr ⟨rfl, by omega, by omega⟩)⟩, by omega⟩
    · exact absurd h (by simp)
  · split at h
    · rename_i sl e1
      simp only [Except.ok.injEq] at h
      have := line12_slot e1
      exact ⟨_, sl, _, h.symm,
        Or.inr ⟨Or.inr rfl, Or.inr (Or.inr ⟨rfl, by omega, by omega⟩)⟩, by omega⟩
    · exact absurd h (by simp)
  · split at h
    · rename_i sl an e1 e2
      simp only [Except.ok.injEq] at h
      have := ipr_pair e1 e2
      exact ⟨_, sl, an, h.symm,
        Or.inl ⟨Or.inr rfl, Or.inr (Or.inr ⟨rfl, by omega, by omega⟩)⟩, by omega⟩
    · exact absurd h (by simp)

theorem tag_found (s : St) (n x : NodeId) (a b c d : Nat) :
    ((s.tag n a b c d).node x).ch_found = (s.node x).ch_found := by
  by_cases h : x = n
  · subst h; rw [tag_node_same]
  · rw [tag_node_other _ _ _ _ _ _ _ h]

theorem modNode_found_same (s : St) (n : NodeId) :
    ((s.modNode n fun r => { r with ch_found := true }).node n).ch_found = true := by
  simp [St.modNode]

theorem modNode_found_mono (s : St) (n x : NodeId) (h : (s.node x).ch_found = true) :
    ((s.modNode n fun r => { r with ch_found := true }).node x).ch_found = true := by
  by_cases hx : x = n
  · subst hx; exact modNode_found_same s x
  · simpa [St.modNode, hx] using h

theorem get_router_slot_closed {P : St → Prop} (hP : TagClosed P) {K : Config} {g : Graph}
    {s t : St} {node : NodeId} {sp : PortId} (x : NodeId)
    (h : get_router_slot K g s node sp = .ok t) (hs : P s)
    (hx : (s.node x).ch_found = true) : P t ∧ (t.node x).ch_found = true := by
  obtain ⟨ty, sl, an, rfl, hv⟩ := get_router_slot_tagvals h
  refine ⟨hP.2.1 _ _ _ _ _ _ (hP.1 _ _ hs) (modNode_found_same s node) hv, ?_⟩
  rw [tag_found]
  exact modNode_found_mono s node x hx

theorem fill_voltaire_closed {P : St → Prop} (hP : TagClosed P) {K : Config} {g : Graph}
    {s t : St} {node : NodeId} (h : fill_voltaire_chassis_record K g s node = .ok t)
    (hs : P s) : P t := by
  unfold fill_voltaire_chassis_record at h
  split at h
  · simp only [Except.ok.injEq] at h; exact h ▸ hs
  · simp only [] at h
    split at h
    · exact absurd h (by simp)
    · rename_i s1 htag
      have h0 : P (s.modNode node fun r => { r with ch_found := true }) ∧
          ((s.modNode node fun r => { r with ch_found := true }).node node).ch_found = true :=
        ⟨hP.1 _ _ hs, modNode_found_same s node⟩
      have h1 : P s1 := by
        split at htag
        · refine (loopE_inv (fun u => P u ∧ (u.node node).ch_found = true) _ _
            (fun u p v _ hu hv => ?_) _ _ h0 htag).1
          unfold fill_router_step at hv
          split at hv
          · exact absurd hv (by simp)
          · simp only [Except.ok.injEq] at hv; exact hv ▸ hu
          · split at hv
            · exact absurd hv (by simp)
            · split at hv
              · exact get_router_slot_closed hP node hv hu.1 hu.2
              · simp only [Except.ok.injEq] at hv; exact hv ▸ hu
        · split at htag
          · refine (loopE_inv (fun u => P u ∧ (u.node node).ch_found = true) _ _
              (fun u p v _ hu hv => ?_) _ _ h0 htag).1
            unfold fill_spine_step at hv
            split at hv
            · exact absurd hv (by simp)
            · simp only [Except.ok.injEq] at hv; exact hv ▸ hu
            · split at hv
              · simp only [Except.ok.injEq] at hv; exact hv ▸ hu
              · simp only [] at hv
                split at hv
                · split at hv
                  · exact get_router_slot_closed hP node hv hu.1 hu.2
                  · simp only [Except.ok.injEq] at hv; exact hv ▸ hu
                · split at hv
                  · obtain ⟨ty, sl, an, rfl, hvals⟩ := get_sfb_slot_tagvals hv
                    exact ⟨hP.2.1 _ _ _ _ _ _ hu.1 hu.2 hvals, by rw [tag_found]; exact hu.2⟩
                  · simp only [Except.ok.injEq] at hv; exact hv ▸ hu
          · split at htag
            · have : ∀ ps : List Nat, ∀ u, fill_line_loop K g node u ps = .ok s1 →
                  P u → (u.node node).ch_found = true → P s1 := by
                intro ps
                induction ps with
                | nil =>
                  intro u hu hp _
                  simp only [fill_line_loop, Except.ok.injEq] at hu
                  exact hu ▸ hp
                | cons p ps ih =>
                  intro u hu hp hf
                  unfold fill_line_loop at hu
                  split at hu
                  · exact absurd hu (by simp)
                  · exact ih u hu hp hf
                  · split at hu
                    · exact ih u hu hp hf
                    · split at hu
                      · exact ih u hu hp hf
                      · obtain ⟨ty, sl, an, rfl, hvals⟩ := get_slb_slot_tagvals hu
                        exact hP.2.1 _ _ _ _ _ _ hp hf hvals
              exact this _ _ htag h0.1 h0.2
            · simp only [Except.ok.injEq] at htag; exact htag ▸ h0.1
      refine loopE_inv P _ _ (fun u p v _ hu hv => ?_) _ _ h1 h
      unfold fill_portmap_step at hv
      split at hv
      · exact absurd hv (by simp)
      · simp only [Except.ok.injEq] at hv; exact hv ▸ hu
      · simp only [Except.ok.injEq] at hv
        obtain ⟨w, hw⟩ := voltaire_portmap_shape K g u _
        rw [hw] at hv
        exact hv ▸ hP.2.2 _ _ _ hu

/-- A property kept by the three kinds of writes of the first pass is kept by the
first pass. -/
theorem tag_pass_closed {P : St → Prop} (hP : TagClosed P) {K : Config} {g : Graph}
    {s t : St} (h : for_nodes K g (tag_step K g) s = .ok t) (hs : P s) : P t := by
  refine loopE_inv P _ _ (fun u n v _ hu hv => ?_) _ _ hs (for_nodes_flat h).1
  unfold tag_step at hv
  split at hv
  · exact fill_voltaire_closed hP hv hu
  · simp only [Except.ok.injEq] at hv; exact hv ▸ hu

/-! ## Properties kept by the building pass -/

theorem insert_line_router_closed {K : Config} {g : Graph} {P : St × Nat → Prop}
    (hP : BuildClosed K g P) {k : Nat} {c : ChassisId} {s t : St} {node : NodeId}
    (h : insert_line_router K s node c = .ok t) (hs : P (s, k) ∧ c + 1 = s.nchassis)
    (hf : (s.node node).ch_found = true) : P (t, k) ∧ c + 1 = t.nchassis := by
  unfold insert_line_router at h
  split at h
  · exact absurd h (by simp)
  · rename_i i hi
    split at h
    · simp only [Except.ok.injEq] at h; exact h ▸ hs
    · rename_i ho
      simp only [Except.ok.injEq] at h
      subst h
      have hn : (s.chassis c).linenode i = none := by
        cases hl : (s.chassis c).linenode i with
        | none => rfl
        | some v => simp [hl] at ho
      exact ⟨hP.2.1 s k c node i hs.1 hs.2 hf hi hn, hs.2⟩

theorem insert_spine_closed {K : Config} {g : Graph} {P : St × Nat → Prop}
    (hP : BuildClosed K g P) {k : Nat} {c : ChassisId} {s t : St} {node : NodeId}
    (h : insert_spine K g s node c = .ok t) (hs : P (s, k) ∧ c + 1 = s.nchassis)
    (hf : (s.node node).ch_found = true) : P (t, k) ∧ c + 1 = t.nchassis := by
  unfold insert_spine at h
  split at h
  · exact absurd h (by simp)
  · rename_i i hi
    split at h
    · simp only [Except.ok.injEq] at h; exact h ▸ hs
    · rename_i ho
      simp only [Except.ok.injEq] at h
      subst h
      have hn : (s.chassis c).spinenode i = none := by
        cases hl : (s.chassis c).spinenode i with
        | none => rfl
        | some v => simp [hl] at ho
      exact ⟨hP.2.2.1 s k c node i hs.1 hs.2 hf hi hn, hs.2⟩

theorem spines_port_step_closed {K : Config} {g : Graph} {P : St × Nat → Prop}
    (hP : BuildClosed K g P) {k : Nat} {c : ChassisId} {node : NodeId} {s t : St} {p : Nat}
    (h : spines_port_step K g c node s p = .ok t) (hs : P (s, k) ∧ c + 1 = s.nchassis) :
    P (t, k) ∧ c + 1 = t.nchassis := by
  unfold spines_port_step at h
  split at h
  · exact absurd h (by simp)
  · simp only [Except.ok.injEq] at h; exact h ▸ hs
  · split at h
    · simp only [Except.ok.injEq] at h; exact h ▸ hs
    · simp only [] at h
      split at h
      · simp only [Except.ok.injEq] at h; exact h ▸ hs
      · rename_i hf
        exact insert_line_router_closed hP h hs (by simpa using hf)

theorem lines_port_step_closed {K : Config} {g : Graph} {P : St × Nat → Prop}
    (hP : BuildClosed K g P) {k : Nat} {c : ChassisId} {node : NodeId} {s t : St} {p : Nat}
    (h : lines_port_step K g c node s p = .ok t) (hs : P (s, k) ∧ c + 1 = s.nchassis) :
    P (t, k) ∧ c + 1 = t.nchassis := by
  unfold lines_port_step at h
  split at h
  · exact absurd h (by simp)
  · simp only [Except.ok.injEq] at h; exact h ▸ hs
  · split at h
    · simp only [Except.ok.injEq] at h; exact h ▸ hs
    · split at h
      · simp only [Except.ok.injEq] at h; exact h ▸ hs
      · simp only [] at h
        split at h
        · simp only [Except.ok.injEq] at h; exact h ▸ hs
        · rename_i hf
          exact insert_spine_closed hP h hs (by simpa using hf)

theorem propagate_closed {K : Config} {g : Graph} {P : St × Nat → Prop}
    (hP : BuildClosed K g P) {k : Nat} {c : ChassisId} {s t : St}
    (h : propagate K g s c = .ok t) (hs : P (s, k) ∧ c + 1 = s.nchassis) :
    P (t, k) ∧ c + 1 = t.nchassis := by
  unfold propagate at h
  split at h
  · exact absurd h (by simp)
  · rename_i s1 h1
    have hs1 : P (s1, k) ∧ c + 1 = s1.nchassis := by
      refine loopE_inv (fun u => P (u, k) ∧ c + 1 = u.nchassis) _ _ (fun u i v _ hu hv => ?_)
        _ _ hs h1
      unfold lines_slot_step at hv
      split at hv
      · simp only [Except.ok.injEq] at hv; exact hv ▸ hu
      · split at hv
        · simp only [Except.ok.injEq] at hv; exact hv ▸ hu
        · exact loopE_inv (fun u => P (u, k) ∧ c + 1 = u.nchassis) _ _
            (fun _ _ _ _ hw hx => lines_port_step_closed hP hx hw) _ _ hu hv
    refine loopE_inv (fun u => P (u, k) ∧ c + 1 = u.nchassis) _ _ (fun u i v _ hu hv => ?_)
      _ _ hs1 h
    unfold spines_slot_step at hv
    split at hv
    · simp only [Except.ok.injEq] at hv; exact hv ▸ hu
    · exact loopE_inv (fun u => P (u, k) ∧ c + 1 = u.nchassis) _ _
        (fun _ _ _ _ hw hx => spines_port_step_closed hP hx hw) _ _ hu hv

theorem build_chassis_closed {K : Config} {g : Graph} {P : St × Nat → Prop}
    (hP : BuildClosed K g P) {k : Nat} {c : ChassisId} {s t : St} {node : NodeId}
    (h : build_chassis K g s node c = .ok t) (hs : P (s, k) ∧ c + 1 = s.nchassis)
    (hf : (s.node node).ch_found = true) : P (t, k) := by
  unfold build_chassis at h
  split at h
  · exact absurd h (by simp)
  · rename_i s1 h1
    split at h
    · exact absurd h (by simp)
    · rename_i s2 h2
      split at h
      · exact absurd h (by simp)
      · rename_i s3 h3
        split at h
        · exact absurd h (by simp)
        · rename_i s4 h4
          simp only [Except.ok.injEq] at h
          subst h
          have a1 := insert_spine_closed hP h1 hs hf
          have a2 := loopE_inv (fun u => P (u, k) ∧ c + 1 = u.nchassis) _ _
            (fun _ _ _ _ hw hx => spines_port_step_closed hP hx hw) _ _ a1 h2
          have a3 := propagate_closed hP h3 a2
          have a4 := propagate_closed hP h4 a3
          rcases interpolate_loop_range g s4 c K.SPINES_MAX_NUM 1 with
            ⟨_, e⟩ | ⟨i, n, _, _, _, _, e⟩
          · rw [pass_on_spines_interpolate_chguid, upto, e]; exact a4.1
          · rw [pass_on_spines_interpolate_chguid, upto, e]
            exact hP.2.2.2 _ _ _ _ a4.1 a4.2

theorem build_step_closed {K : Config} {g : Graph} {P : St × Nat → Prop}
    (hP : BuildClosed K g P) {sc tc : St × Nat} {node : NodeId}
    (h : build_step K g sc node = .ok tc) (hs : P sc) : P tc := by
  unfold build_step at h
  split at h
  · simp only [Except.ok.injEq] at h; exact h ▸ hs
  · split at h
    · simp only [Except.ok.injEq] at h; exact h ▸ hs
    · rename_i hg
      simp only [] at h
      split at h
      · exact absurd h (by simp)
      · rename_i s3 hb
        simp only [Except.ok.injEq] at h
        subst h
        have hfound : (sc.1.node node).ch_found = true := by
          cases hcf : (sc.1.node node).ch_found with
          | true => rfl
          | false => simp [hcf] at hg
        refine build_chassis_closed hP hb ⟨hP.1 sc.1 sc.2 hs, ?_⟩ ?_
        · simp [current_chassis, add_chassis, St.modChassis]
        · simpa [add_chassis, St.modChassis] using hfound

/-- A property kept by the four kinds of writes of the second pass is kept by the
second pass. -/
theorem build_pass_closed {K : Config} {g : Graph} {P : St × Nat → Prop}
    (hP : BuildClosed K g P) {sc tc : St × Nat}
    (h : for_nodes K g (build_step K g) sc = .ok tc) (hs : P sc) : P tc :=
  loopE_inv P _ _ (fun _ _ _ _ hu hv => build_step_closed hP hv hu) _ _ hs (for_nodes_flat h).1

/-! ## Properties kept by the counting and the promotion pass -/

theorem keyed_iff (K : Config) (g : Graph) (n : NodeId) :
    keyed K g n = true ↔ (g.node n).vendid ≠ K.VTR_VENDOR_ID ∧ (g.node n).sysimgguid ≠ 0 := by
  simp [keyed]

theorem count_step_closed {K : Config} {g : Graph} {P : St → Prop} (hP : CountClosed K g P)
    {s t : St} {n : NodeId} (h : count_step K g s n = .ok t) (hs : P s) : P t := by
  unfold count_step at h
  split at h
  · simp only [Except.ok.injEq] at h; exact h ▸ hs
  · rename_i hv
    split at h
    · rename_i hg
      have hk : keyed K g n = true := (keyed_iff K g n).mpr ⟨hv, hg⟩
      split at h
      · rename_i c hc
        simp only [Except.ok.injEq] at h
        exact h ▸ hP.1 s c n hs hk hc
      · rename_i hc
        simp only [Except.ok.injEq] at h
        exact h ▸ hP.2 s n hs hk hc
    · simp only [Except.ok.injEq] at h; exact h ▸ hs

theorem count_list_closed {K : Config} {g : Graph} {P : St → Prop} (hP : CountClosed K g P)
    (l : List NodeId) {s t : St} (h : loopE (count_step K g) l s = .ok t) (hs : P s) : P t :=
  loopE_inv P _ _ (fun _ _ _ _ hu hv => count_step_closed hP hv hu) _ _ hs h

theorem promote_step_closed {K : Config} {g : Graph} {P : St × Nat → Prop}
    (hP : PromoteClosed K g P) {sc tc : St × Nat} {n : NodeId}
    (h : promote_step K g sc n = .ok tc) (hs : P sc) : P tc := by
  rcases promote_step_shape h with ⟨-, e⟩ | ⟨c, hk, hf, hc, e⟩
  · exact e ▸ hs
  · subst e
    obtain ⟨hc1, hc2⟩ := find_guid_some hf
    have hnum : P (number_chassis sc c) ∧
        find_guid (number_chassis sc c).1 (get_chassisguid K g n) = some c ∧
        1 < ((number_chassis sc c).1.chassis c).nodecount ∧
        1 ≤ ((number_chassis sc c).1.chassis c).chassisnum := by
      obtain ⟨n1, n2, n3, n4, -, -⟩ := number_chassis_spec sc c
      refine ⟨?_, ?_, ?_, n4⟩
      · unfold number_chassis
        split_ifs with h0
        · exact hP.1 sc.1 sc.2 c n hs hk hf hc h0
        · exact hs
      · rw [find_guid_congr sc.1 _ _ n2 (fun d _ => (n3 d).1)]
        exact hf
      · rw [(n3 c).2.1]; exact hc
    unfold join_chassis
    split_ifs with hfound
    · exact hP.2 _ _ c n hnum.1 hk hnum.2.1 hnum.2.2.1 hnum.2.2.2 (by simpa using hfound)
    · exact hnum.1

theorem promote_list_closed {K : Config} {g : Graph} {P : St × Nat → Prop}
    (hP : PromoteClosed K g P) (l : List NodeId) {sc tc : St × Nat}
    (h : loopE (promote_step K g) l sc = .ok tc) (hs : P sc) : P tc :=
  loopE_inv P _ _ (fun _ _ _ _ hu hv => promote_step_closed hP hv hu) _ _ hs h

/-- The four passes of a run of `group_nodes` that returns. -/
theorem group_nodes_passes {K : Config} {g : Graph} {fuel : Nat} {s0 sf : St}
    (h : group_nodes K g fuel s0 = .ok sf) :
    ∃ (s1 : St) (sc2 : St × Nat) (s3 : St) (k : Nat) (l : List NodeId),
      for_nodes K g (tag_step K g) { s0 with nchassis := 0 } = .ok s1 ∧
      for_nodes K g (build_step K g) (s1, 0) = .ok sc2 ∧
      loopE (count_step K g) (counted_nodes g) sc2.1 = .ok s3 ∧
      loopE (promote_step K g) (counted_nodes g ++ l) (s3, sc2.2) = .ok (sf, k) := by
  obtain ⟨sc2, s3, k, l, hv, h3, h4⟩ := group_nodes_parts h
  unfold voltaire_passes at hv
  split at hv
  · exact absurd hv (by simp)
  · rename_i s1 h1
    exact ⟨s1, sc2, s3, k, l, h1, hv, h3, h4⟩

/-! ## Occupied slots and flat indices (C14) -/

theorem get_line_index_congr (K : Config) (s t : St) (x : NodeId)
    (h1 : (t.node x).ch_slotnum = (s.node x).ch_slotnum)
    (h2 : (t.node x).ch_anafanum = (s.node x).ch_anafanum) :
    get_line_index K t x = get_line_index K s x := by
  unfold get_line_index
  rw [h1, h2]

theorem get_spine_index_congr (K : Config) (g : Graph) (s t : St) (x : NodeId)
    (h1 : (t.node x).ch_slotnum = (s.node x).ch_slotnum)
    (h2 : (t.node x).ch_anafanum = (s.node x).ch_anafanum) :
    get_spine_index K g t x = get_spine_index K g s x := by
  unfold get_spine_index
  rw [h1, h2]

/-- `SlotsOK` passes to a state with the same slot numbers and sub-chip numbers
in which every chassis of the list either is an old one with an old or rightly
filled slot in each place, or has two empty arrays. -/
theorem SlotsOK.step {K : Config} {g : Graph} {s t : St} (hs : SlotsOK K g s)
    (hn : ∀ x, (t.node x).ch_slotnum = (s.node x).ch_slotnum ∧
      (t.node x).ch_anafanum = (s.node x).ch_anafanum)
    (hc : ∀ c, c < t.nchassis →
      (c < s.nchassis ∧
        (∀ i x, (t.chassis c).linenode i = some x →
          (s.chassis c).linenode i = some x ∨ get_line_index K s x = .ok i) ∧
        (∀ j x, (t.chassis c).spinenode j = some x →
          (s.chassis c).spinenode j = some x ∨ get_spine_index K g s x = .ok j)) ∨
      ((∀ i, (t.chassis c).linenode i = none) ∧ (∀ j, (t.chassis c).spinenode j = none))) :
    SlotsOK K g t := by
  intro c hct
  rcases hc c hct with ⟨hcs, hl, hsp⟩ | ⟨hl, hsp⟩
  · refine ⟨fun i x hx => ?_, fun j x hx => ?_⟩
    · rw [get_line_index_congr K s t x (hn x).1 (hn x).2]
      rcases hl i x hx with h | h
      · exact (hs c hcs).1 i x h
      · exact h
    · rw [get_spine_index_congr K g s t x (hn x).1 (hn x).2]
      rcases hsp j x hx with h | h
      · exact (hs c hcs).2 j x h
      · exact h
  · exact ⟨fun i x hx => absurd hx (by rw [hl i]; simp),
      fun j x hx => absurd hx (by rw [hsp j]; simp)⟩

theorem slotsOK_build (K : Config) (g : Graph) :
    BuildClosed K g (fun sc => SlotsOK K g sc.1) := by
  refine ⟨?_, ?_, ?_, ?_⟩
  · intro s k hs
    refine hs.step (fun x => ⟨rfl, rfl⟩) (fun c hc => ?_)
    by_cases h : c = s.nchassis
    · right
      subst h
      simp [St.modChassis, add_chassis, current_chassis, Chassis.zero]
    · left
      have hc2 : c < s.nchassis := by
        simp [St.modChassis, add_chassis] at hc; omega
      simp only [St.modChassis, add_chassis, current_chassis, Nat.add_sub_cancel, upd_other _ _ _ _ h]
      exact ⟨hc2, fun _ _ hx => Or.inl hx, fun _ _ hx => Or.inl hx⟩
  · intro s k c node i hs hc hf hi ho
    refine hs.step (fun x => ?_) (fun d hd => Or.inl ⟨hd, ?_, ?_⟩)
    · by_cases hx : x = node <;> simp [St.modNode, St.modChassis, hx]
    · intro i2 x hx
      by_cases h : d = c ∧ i2 = i
      · obtain ⟨rfl, rfl⟩ := h
        simp [St.modNode, St.modChassis] at hx
        exact Or.inr (hx ▸ hi)
      · left
        by_cases hd2 : d = c
        · subst hd2
          have : i2 ≠ i := fun e => h ⟨rfl, e⟩
          simpa [St.modNode, St.modChassis, this] using hx
        · simpa [St.modNode, St.modChassis, hd2] using hx
    · intro j x hx
      left
      by_cases hd2 : d = c
      · subst hd2; simpa [St.modNode, St.modChassis] using hx
      · simpa [St.modNode, St.modChassis, hd2] using hx
  · intro s k c node i hs hc hf hi ho
    refine hs.step (fun x => ?_) (fun d hd => Or.inl ⟨hd, ?_, ?_⟩)
    · by_cases hx : x = node <;> simp [St.modNode, St.modChassis, hx]
    · intro j x hx
      left
      by_cases hd2 : d = c
      · subst hd2; simpa [St.modNode, St.modChassis] using hx
      · simpa [St.modNode, St.modChassis, hd2] using hx
    · intro i2 x hx
      by_cases h : d = c ∧ i2 = i
      · obtain ⟨rfl, rfl⟩ := h
        simp [St.modNode, St.modChassis] at hx
        exact Or.inr (hx ▸ hi)
      · left
        by_cases hd2 : d = c
        · subst hd2
          have : i2 ≠ i := fun e => h ⟨rfl, e⟩
          simpa [St.modNode, St.modChassis, this] using hx
        · simpa [St.modNode, St.modChassis, hd2] using hx
  · intro s k c v hs hc
    refine hs.step (fun x => ⟨rfl, rfl⟩) (fun d hd => Or.inl ⟨hd, ?_, ?_⟩)
    · intro i x hx
      left
      by_cases hd2 : d = c
      · subst hd2; simpa [St.modChassis] using hx
      · simpa [St.modChassis, hd2] using hx
    · intro i x hx
      left
      by_cases hd2 : d = c
      · subst hd2; simpa [St.modChassis] using hx
      · simpa [St.modChassis, hd2] using hx

theorem slotsOK_count (K : Config) (g : Graph) : CountClosed K g (SlotsOK K g) := by
  refine ⟨?_, ?_⟩
  · intro s c n hs _ _
    refine hs.step (fun x => ⟨rfl, rfl⟩) (fun d hd => Or.inl ⟨hd, ?_, ?_⟩)
    · intro i x hx
      left
      by_cases hd2 : d = c
      · subst hd2; simpa [St.modChassis] using hx
      · simpa [St.modChassis, hd2] using hx
    · intro i x hx
      left
      by_cases hd2 : d = c
      · subst hd2; simpa [St.modChassis] using hx
      · simpa [St.modChassis, hd2] using hx
  · intro s n hs _ _
    refine hs.step (fun x => ⟨rfl, rfl⟩) (fun c hc => ?_)
    by_cases h : c = s.nchassis
    · right
      subst h
      simp [St.modChassis, add_chassis, current_chassis, Chassis.zero]
    · left
      have hc2 : c < s.nchassis := by
        simp [St.modChassis, add_chassis] at hc; omega
      simp only [St.modChassis, add_chassis, current_chassis, Nat.add_sub_cancel,
        upd_other _ _ _ _ h]
      exact ⟨hc2, fun _ _ hx => Or.inl hx, fun _ _ hx => Or.inl hx⟩

theorem slotsOK_promote (K : Config) (g : Graph) :
    PromoteClosed K g (fun sc => SlotsOK K g sc.1) := by
  refine ⟨?_, ?_⟩
  · intro s k c n hs _ _ _ _
    refine hs.step (fun x => ⟨rfl, rfl⟩) (fun d hd => Or.inl ⟨hd, ?_, ?_⟩)
    · intro i x hx
      left
      by_cases hd2 : d = c
      · subst hd2; simpa [St.modChassis] using hx
      · simpa [St.modChassis, hd2] using hx
    · intro i x hx
      left
      by_cases hd2 : d = c
      · subst hd2; simpa [St.modChassis] using hx
      · simpa [St.modChassis, hd2] using hx
  · intro s k c n hs _ _ _ _ _
    refine hs.step (fun x => ?_) (fun d hd => Or.inl ⟨hd, ?_, ?_⟩)
    · by_cases hx : x = n <;> simp [add_node_to_chassis, St.modNode, St.modChassis, hx]
    · intro i x hx
      left
      by_cases hd2 : d = c
      · subst hd2; simpa [add_node_to_chassis, St.modNode, St.modChassis] using hx
      · simpa [add_node_to_chassis, St.modNode, St.modChassis, hd2] using hx
    · intro i x hx
      left
      by_cases hd2 : d = c
      · subst hd2; simpa [add_node_to_chassis, St.modNode, St.modChassis] using hx
      · simpa [add_node_to_chassis, St.modNode, St.modChassis, hd2] using hx

theorem no_chassis_tag : TagClosed (fun s => s.nchassis = 0) :=
  ⟨fun _ _ h => h, fun _ _ _ _ _ _ h _ _ => h, fun _ _ _ h => h⟩

/-- After `group_nodes` every occupied slot holds a node with the index of the slot. -/
theorem group_nodes_slotsOK {K : Config} {g : Graph} {fuel : Nat} {s0 sf : St}
    (h : group_nodes K g fuel s0 = .ok sf) : SlotsOK K g sf := by
  obtain ⟨s1, sc2, s3, k, l, h1, h2, h3, h4⟩ := group_nodes_passes h
  have a1 : s1.nchassis = 0 := tag_pass_closed no_chassis_tag h1 rfl
  have a2 : SlotsOK K g sc2.1 :=
    build_pass_closed (slotsOK_build K g) h2 (fun c hc => absurd hc (by rw [a1]; omega))
  have a3 : SlotsOK K g s3 := count_list_closed (slotsOK_count K g) _ h3 a2
  exact promote_list_closed (slotsOK_promote K g) _ h4 a3

/-- C14. Occupied slots are consistent and injective: when `group_nodes` returns, in
every chassis of the list each occupied slot `i` of the line array holds a node `x`
for which `get_line_index` returns `i`, that is `3 * (ch_slotnum - 1) + ch_anafanum = i`,
and each occupied slot `j` of the spine array holds a node for which
`get_spine_index` returns `j`; hence no node occupies two indices of the same array
of one chassis, and no two distinct nodes share one index. -/
theorem occupied_slots_consistent (K : Config) (g : Graph) (fuel : Nat) (s0 sf : St)
    (h : group_nodes K g fuel s0 = .ok sf) (c : ChassisId) (hc : c < sf.nchassis) :
    (∀ i x, (sf.chassis c).linenode i = some x →
      get_line_index K sf x = .ok i ∧
      (i : Int) = 3 * (((sf.node x).ch_slotnum : Int) - 1) + (sf.node x).ch_anafanum) ∧
    (∀ j x, (sf.chassis c).spinenode j = some x → get_spine_index K g sf x = .ok j) ∧
    (∀ i1 i2 x, (sf.chassis c).linenode i1 = some x → (sf.chassis c).linenode i2 = some x →
      i1 = i2) ∧
    (∀ j1 j2 x, (sf.chassis c).spinenode j1 = some x → (sf.chassis c).spinenode j2 = some x →
      j1 = j2) ∧
    (∀ i x y, (sf.chassis c).linenode i = some x → (sf.chassis c).linenode i = some y →
      x = y) ∧
    (∀ j x y, (sf.chassis c).spinenode j = some x → (sf.chassis c).spinenode j = some y →
      x = y) := by
  obtain ⟨hl, hsp⟩ := group_nodes_slotsOK h c hc
  refine ⟨fun i x hx => ⟨hl i x hx, ?_⟩, hsp, fun i1 i2 x h1 h2 => ?_, fun j1 j2 x h1 h2 => ?_,
    fun i x y h1 h2 => ?_, fun j x y h1 h2 => ?_⟩
  · have := hl i x hx
    unfold get_line_index at this
    simp only [] at this
    split_ifs at this
    simp only [Except.ok.injEq] at this
    omega
  · have a := hl i1 x h1
    rw [hl i2 x h2] at a
    exact (Except.ok.inj a).symm
  · have a := hsp j1 x h1
    rw [hsp j2 x h2] at a
    exact (Except.ok.inj a).symm
  · rw [h1] at h2; exact Option.some.inj h2
  · rw [h1] at h2; exact Option.some.inj h2

theorem occupied_slots_consistent_witness :
    group_nodes stdConfig short_fabric 2 St.init = .ok (grouped short_fabric) ∧
    0 < (grouped short_fabric).nchassis ∧
    (∀ i x, ((grouped short_fabric).chassis 0).linenode i = some x →
      get_line_index stdConfig (grouped short_fabric) x = .ok i ∧
      (i : Int) = 3 * ((((grouped short_fabric).node x).ch_slotnum : Int) - 1) +
        ((grouped short_fabric).node x).ch_anafanum) ∧
    (∀ j x, ((grouped short_fabric).chassis 0).spinenode j = some x →
      get_spine_index stdConfig short_fabric (grouped short_fabric) x = .ok j) ∧
    (∀ i1 i2 x, ((grouped short_fabric).chassis 0).linenode i1 = some x →
      ((grouped short_fabric).chassis 0).linenode i2 = some x → i1 = i2) ∧
    (∀ j1 j2 x, ((grouped short_fabric).chassis 0).spinenode j1 = some x →
      ((grouped short_fabric).chassis 0).spinenode j2 = some x → j1 = j2) ∧
    (∀ i x y, ((grouped short_fabric).chassis 0).linenode i = some x →
      ((grouped short_fabric).chassis 0).linenode i = some y → x = y) ∧
    (∀ j x y, ((grouped short_fabric).chassis 0).spinenode j = some x →
      ((grouped short_fabric).chassis 0).spinenode j = some y → x = y) :=
  ⟨rfl, by decide,
    occupied_slots_consistent stdConfig short_fabric 2 St.init (grouped short_fabric) rfl 0
      (by decide)⟩

/-! ## Classification of the nodes of a chassis (C13) -/

theorem tagInv_closed : TagClosed TagInv := by
  refine ⟨?_, ?_, ?_⟩
  · intro s n hs x
    by_cases hx : x = n
    · subst hx
      have := hs x
      simp only [St.modNode, upd_same]
      exact ⟨this.1, this.2.1, fun h => absurd h (by simp)⟩
    · simpa [St.modNode, hx] using hs x
  · intro s n k ty sl an hs hf hv x
    by_cases hx : x = n
    · subst hx
      rw [tag_node_same]
      exact ⟨(hs x).1, Or.inr hv, fun h => absurd h (by simp [hf])⟩
    · rw [tag_node_other _ _ _ _ _ _ _ hx]; exact hs x
  · intro s p v hs x
    exact hs x

/-- The values of a tagged node stay within the tables of its kind and type. -/
theorem tagVals_le {k ty sl an : Nat} (h : InTables k ty sl an) : sl ≤ 12 ∧ an ≤ 3 := by
  rcases h with ⟨-, ⟨-, a, b⟩ | ⟨-, a, b⟩ | ⟨-, a, b⟩⟩ | ⟨-, ⟨-, a, b⟩ | ⟨-, a, b⟩ | ⟨-, a, b⟩⟩ <;>
    omega

theorem classified_of_line_index {K : Config} {s : St} {x : NodeId} {i : Nat}
    (ht : Untagged (s.node x) ∨
      TagVals (s.node x).ch_slot (s.node x).ch_type (s.node x).ch_slotnum
        (s.node x).ch_anafanum)
    (hi : get_line_index K s x = .ok i) : Classified (s.node x) := by
  unfold get_line_index at hi
  simp only [] at hi
  split_ifs at hi with hc
  rcases ht with ⟨-, h1, h2⟩ | ⟨hk, hp⟩
  · rw [h1, h2] at hc; omega
  · have h12 := tagVals_le hk
    have h1 : 1 ≤ (s.node x).ch_slotnum := by omega
    exact ⟨hk, h1, hp h1⟩

theorem classified_of_spine_index {K : Config} {g : Graph} {s : St} {x : NodeId} {i : Nat}
    (ht : Untagged (s.node x) ∨
      TagVals (s.node x).ch_slot (s.node x).ch_type (s.node x).ch_slotnum
        (s.node x).ch_anafanum)
    (hi : get_spine_index K g s x = .ok i) : Classified (s.node x) := by
  unfold get_spine_index at hi
  simp only [] at hi
  rcases ht with ⟨-, h1, h2⟩ | ⟨hk, hp⟩
  · rw [h1, h2] at hi
    split_ifs at hi <;> omega
  · have h12 := tagVals_le hk
    have h1 : 1 ≤ (s.node x).ch_slotnum := by
      split_ifs at hi <;> omega
    exact ⟨hk, h1, hp h1⟩

theorem buildInv_closed (K : Config) (g : Graph) :
    BuildClosed K g (fun sc => BuildInv sc.1) := by
  refine ⟨fun s k hs x => hs x, ?_, ?_, fun s k c v hs _ x => hs x⟩
  · intro s k c node i hs _ hf hi _ x
    by_cases hx : x = node
    · subst hx
      have := hs x
      simp only [St.modNode, St.modChassis, upd_same]
      exact ⟨this.1, fun h => absurd h (by simp [hf]),
        fun _ => classified_of_line_index this.1 hi⟩
    · simpa [St.modNode, St.modChassis, hx] using hs x
  · intro s k c node i hs _ hf hi _ x
    by_cases hx : x = node
    · subst hx
      have := hs x
      simp only [St.modNode, St.modChassis, upd_same]
      exact ⟨this.1, fun h => absurd h (by simp [hf]),
        fun _ => classified_of_spine_index this.1 hi⟩
    · simpa [St.modNode, St.modChassis, hx] using hs x

theorem buildInv_count (K : Config) (g : Graph) : CountClosed K g BuildInv :=
  ⟨fun _ _ _ hs _ _ x => hs x, fun _ _ hs _ _ x => hs x⟩

theorem promoteInv_closed (K : Config) (g : Graph) :
    PromoteClosed K g (fun sc => PromoteInv K g sc.1) := by
  refine ⟨fun s k c n hs _ _ _ _ x => hs x, ?_⟩
  intro s k c n hs hk _ _ _ hf x
  by_cases hx : x = n
  · subst hx
    have := (hs x).1 hf
    obtain ⟨hv, hg⟩ := (keyed_iff K g x).mp hk
    simp only [add_node_to_chassis, St.modNode, St.modChassis, upd_same]
    exact ⟨fun h => absurd h (by simp), fun _ => Or.inr ⟨hv, hg, this.1⟩⟩
  · simpa [add_node_to_chassis, St.modNode, St.modChassis, hx] using hs x

/-- After `group_nodes` on a fabric whose nodes had zeroed chassis fields. -/
theorem group_nodes_promoteInv {K : Config} {g : Graph} {fuel : Nat} {s0 sf : St}
    (hfresh : ∀ x, s0.node x = NodeSt.zero) (h : group_nodes K g fuel s0 = .ok sf) :
    PromoteInv K g sf := by
  obtain ⟨s1, sc2, s3, k, l, h1, h2, h3, h4⟩ := group_nodes_passes h
  have a1 : TagInv s1 := by
    refine tag_pass_closed tagInv_closed h1 (fun x => ?_)
    simp only [hfresh x]
    exact ⟨rfl, Or.inl ⟨rfl, rfl, rfl⟩, fun _ => ⟨rfl, rfl, rfl⟩⟩
  have a2 : BuildInv sc2.1 :=
    build_pass_closed (buildInv_closed K g) h2
      (fun x => ⟨(a1 x).2.1, fun hf => ⟨(a1 x).2.2 hf, (a1 x).1⟩,
        fun hc => absurd (a1 x).1 hc⟩)
  have a3 : BuildInv s3 := count_list_closed (buildInv_count K g) _ h3 a2
  exact promote_list_closed (promoteInv_closed K g) _ h4
    (fun x => ⟨(a3 x).2.1, fun hc => Or.inl ((a3 x).2.2 hc)⟩)

/-- C13 (as amended). Classification of the members of a chassis: when `group_nodes`
returns on a fabric whose nodes had zeroed chassis fields, every node with a non-null
chassis reference is marked processed, and it either is classified, with slot kind
`LINE_CS`, `SPINE_CS` or `SRBD_CS` (never `UNRESOLVED_CS`) and a slot number and a
sub-chip number that are at least 1 and within the ranges of the tables of its
hardware model, the chassis type in `ch_type` (`InTables`), or it is a node of
another vendor than Voltaire with a non-zero system image guid, grouped by that guid,
whose slot kind is `UNRESOLVED_CS` with slot number and sub-chip number 0.  In
particular every Voltaire node with a chassis reference is classified. -/
theorem classified_members (K : Config) (g : Graph) (fuel : Nat) (s0 sf : St)
    (hfresh : ∀ x, s0.node x = NodeSt.zero) (h : group_nodes K g fuel s0 = .ok sf)
    (x : NodeId) (hc : (sf.node x).chassis ≠ none) :
    (sf.node x).ch_found = true ∧
    (Classified (sf.node x) ∨
      ((g.node x).vendid ≠ K.VTR_VENDOR_ID ∧ (g.node x).sysimgguid ≠ 0 ∧
        Untagged (sf.node x))) ∧
    ((g.node x).vendid = K.VTR_VENDOR_ID → Classified (sf.node x)) := by
  have hp := group_nodes_promoteInv hfresh h x
  refine ⟨?_, hp.2 hc, fun hv => ?_⟩
  · cases hf : (sf.node x).ch_found with
    | true => rfl
    | false => exact absurd (hp.1 hf).2 hc
  · rcases hp.2 hc with h1 | ⟨h1, -, -⟩
    · exact h1
    · exact absurd hv h1

theorem classified_members_witness :
    (∀ x, St.init.node x = NodeSt.zero) ∧
    group_nodes stdConfig short_fabric 2 St.init = .ok (grouped short_fabric) ∧
    ((grouped short_fabric).node 1).chassis ≠ none ∧
    ((grouped short_fabric).node 1).ch_found = true ∧
    (Classified ((grouped short_fabric).node 1) ∨
      ((short_fabric.node 1).vendid ≠ stdConfig.VTR_VENDOR_ID ∧
        (short_fabric.node 1).sysimgguid ≠ 0 ∧ Untagged ((grouped short_fabric).node 1))) ∧
    ((short_fabric.node 1).vendid = stdConfig.VTR_VENDOR_ID →
      Classified ((grouped short_fabric).node 1)) :=
  ⟨fun _ => rfl, rfl, by decide,
    classified_members stdConfig short_fabric 2 St.init (grouped short_fabric) (fun _ => rfl)
      rfl 1 (by decide)⟩

/-- C13 as stated fails: on the fabric of two switches of vendor `0x5ad` with the same
masked system image guid `group_nodes` returns, and node 0 is marked processed and
refers to chassis 0, but its slot kind is `UNRESOLVED_CS` and its slot number and
sub-chip number are 0. -/
theorem promoted_node_unresolved :
    group_nodes stdConfig masked_pair 2 St.init = .ok (grouped masked_pair) ∧
    ((grouped masked_pair).node 0).ch_found = true ∧
    ((grouped masked_pair).node 0).chassis = some 0 ∧
    ((grouped masked_pair).node 0).ch_slot = UNRESOLVED_CS ∧
    ((grouped masked_pair).node 0).ch_slotnum = 0 ∧
    ((grouped masked_pair).node 0).ch_anafanum = 0 ∧
    ¬ Classified ((grouped masked_pair).node 0) := by
  refine ⟨rfl, by decide, by decide, by decide, by decide, by decide, ?_⟩
  intro h
  have : ((grouped masked_pair).node 0).ch_slotnum = 0 := by decide
  have := h.2.1
  omega

/-! ## Order of the chassis appended by the counting pass -/

theorem count_step_cases (K : Config) (g : Graph) (s : St) (n : NodeId) :
    (keyed K g n = false ∧ count_step K g s n = .ok s) ∨
    (keyed K g n = true ∧ ∃ c : Nat, find_guid s (get_chassisguid K g n) = some c ∧
      count_step K g s n =
        .ok (s.modChassis c fun r => { r with nodecount := r.nodecount + 1 })) ∨
    (keyed K g n = true ∧ find_guid s (get_chassisguid K g n) = none ∧
      count_step K g s n =
        .ok ((add_chassis s).modChassis (current_chassis (add_chassis s)) fun r =>
          { r with chassisguid := get_chassisguid K g n, nodecount := 1 })) := by
  unfold count_step
  by_cases hv : (g.node n).vendid = K.VTR_VENDOR_ID
  · left
    simp [keyed, hv]
  · by_cases hg : (g.node n).sysimgguid = 0
    · left
      simp [keyed, hv, hg]
    · right
      have hk : keyed K g n = true := (keyed_iff K g n).mpr ⟨hv, hg⟩
      rw [if_neg hv, if_pos hg, find_chassisguid_eq]
      cases hf : find_guid s (get_chassisguid K g n) with
      | none => exact Or.inr ⟨hk, rfl, rfl⟩
      | some c => exact Or.inl ⟨hk, c, rfl, rfl⟩

theorem SeenIn.cons_of {K : Config} {g : Graph} {A : List NodeId} {x : Nat} (n : NodeId)
    (h : SeenIn K g A x) : SeenIn K g (n :: A) x := by
  obtain ⟨a, ha, hk⟩ := h
  exact ⟨a, List.mem_cons_of_mem _ ha, hk⟩

theorem SeenIn.cons_inv {K : Config} {g : Graph} {A : List NodeId} {x : Nat} {n : NodeId}
    (h : SeenIn K g (n :: A) x) :
    (keyed K g n = true ∧ get_chassisguid K g n = x) ∨ SeenIn K g A x := by
  obtain ⟨a, ha, hk⟩ := h
  rcases List.mem_cons.mp ha with rfl | ha
  · exact Or.inl hk
  · exact Or.inr ⟨a, ha, hk⟩

theorem SeenIn.append_left {K : Config} {g : Graph} {A : List NodeId} {x : Nat}
    (B : List NodeId) (h : SeenIn K g A x) : SeenIn K g (A ++ B) x := by
  obtain ⟨a, ha, hk⟩ := h
  exact ⟨a, List.mem_append_left _ ha, hk⟩

theorem not_seenIn_nil (K : Config) (g : Graph) (x : Nat) : ¬ SeenIn K g [] x := by
  rintro ⟨a, ha, -⟩
  exact absurd ha (List.not_mem_nil a)

/-- What the counting pass keeps: the chassis list only grows, the old chassis keep
guid and number, and a search by guid that finds a chassis keeps finding it. -/
theorem count_list_keeps {K : Config} {g : Graph} {L : List NodeId} {s t : St}
    (h : loopE (count_step K g) L s = .ok t) :
    s.nchassis ≤ t.nchassis ∧
    (∀ c, c < s.nchassis →
      (t.chassis c).chassisnum = (s.chassis c).chassisnum ∧
      (t.chassis c).chassisguid = (s.chassis c).chassisguid) ∧
    (∀ x (c : Nat), find_guid s x = some c → find_guid t x = some c) := by
  obtain ⟨t1, h1, -, hn, hold, -, -, -⟩ := count_pass_spec K g 0 L s
  rw [h1] at h
  have e : t1 = t := Except.ok.inj h
  subst e
  refine ⟨hn, fun c hc => ⟨(hold c hc).2.1, (hold c hc).2.2⟩, fun x c hx => ?_⟩
  obtain ⟨t2, h2, -, -, -, -, hfind, -⟩ := count_pass_spec K g x L s
  rw [h1] at h2
  have e : t1 = t2 := Except.ok.inj h2
  subst e
  exact (hfind c hx).1

theorem count_list_ord (K : Config) (g : Graph) :
    ∀ (L : List NodeId) (s t : St), loopE (count_step K g) L s = .ok t →
      CountOrd K g s.nchassis t L := by
  intro L
  induction L with
  | nil =>
    intro s t h
    simp only [loopE, Except.ok.injEq] at h
    subst h
    exact ⟨fun c h1 h2 => absurd h1 (by omega), fun c d h1 h2 h3 => absurd h3 (by omega)⟩
  | cons n L ih =>
    intro s t h
    simp only [loopE] at h
    rcases count_step_cases K g s n with ⟨hk, e⟩ | ⟨hk, c0, hf, e⟩ | ⟨hk, hf, e⟩
    · rw [e] at h
      obtain ⟨i1, i2⟩ := ih s t h
      refine ⟨fun c h1 h2 => ⟨(i1 c h1 h2).1.cons_of n, (i1 c h1 h2).2⟩, ?_⟩
      intro c d h1 h2 h3 A B hAB hs
      cases A with
      | nil => exact absurd hs (not_seenIn_nil K g _)
      | cons a A =>
        simp only [List.cons_append, List.cons.injEq] at hAB
        obtain ⟨rfl, hL⟩ := hAB
        rcases hs.cons_inv with ⟨hk2, -⟩ | hs2
        · rw [hk] at hk2; exact absurd hk2 (by simp)
        · exact (i2 c d h1 h2 h3 A B hL hs2).cons_of _
    · rw [e] at h
      have hn1 : (s.modChassis c0 fun r => { r with nodecount := r.nodecount + 1 }).nchassis =
          s.nchassis := rfl
      obtain ⟨i1, i2⟩ := ih _ t h
      rw [hn1] at i1 i2
      obtain ⟨-, -, kfind⟩ := count_list_keeps h
      have hf1 : find_guid (s.modChassis c0 fun r => { r with nodecount := r.nodecount + 1 })
          (get_chassisguid K g n) = some c0 := by
        rw [find_guid_congr s _ _ hn1 (fun c _ => by
          by_cases hc : c = c0 <;> simp [St.modChassis, hc])]
        exact hf
      have hft := kfind _ _ hf1
      have hc0 : c0 < s.nchassis := (find_guid_some hf).1
      refine ⟨fun c h1 h2 => ⟨(i1 c h1 h2).1.cons_of n, (i1 c h1 h2).2⟩, ?_⟩
      intro c d h1 h2 h3 A B hAB hs
      cases A with
      | nil => exact absurd hs (not_seenIn_nil K g _)
      | cons a A =>
        simp only [List.cons_append, List.cons.injEq] at hAB
        obtain ⟨rfl, hL⟩ := hAB
        rcases hs.cons_inv with ⟨-, hg⟩ | hs2
        · have hd := (i1 d (by omega) h3).2.1
          rw [← hg, hft] at hd
          have : c0 = d := Option.some.inj hd
          omega
        · exact (i2 c d h1 h2 h3 A B hL hs2).cons_of _
    · rw [e] at h
      have hn1 : ((add_chassis s).modChassis (current_chassis (add_chassis s)) fun r =>
          { r with chassisguid := get_chassisguid K g n, nodecount := 1 }).nchassis =
          s.nchassis + 1 := rfl
      obtain ⟨i1, i2⟩ := ih _ t h
      rw [hn1] at i1 i2
      obtain ⟨-, kold, kfind⟩ := count_list_keeps h
      rw [hn1] at kold
      have hnew : (((add_chassis s).modChassis (current_chassis (add_chassis s)) fun r =>
          { r with chassisguid := get_chassisguid K g n, nodecount := 1 }).chassis s.nchassis)
          = { Chassis.zero with chassisguid := get_chassisguid K g n, nodecount := 1 } := by
        simp [St.modChassis, add_chassis, current_chassis]
      have hf1 : find_guid ((add_chassis s).modChassis (current_chassis (add_chassis s))
          fun r => { r with chassisguid := get_chassisguid K g n, nodecount := 1 })
          (get_chassisguid K g n) = some s.nchassis := by
        rw [find_guid_add s _ _ hn1 (fun c hc => by
          have : c ≠ s.nchassis := by omega
          simp [St.modChassis, add_chassis, current_chassis, this]), hf, hnew]
        simp
      have hft := kfind _ _ hf1
      have hm := kold s.nchassis (by omega)
      rw [hnew] at hm
      simp only [] at hm
      have hseen : SeenIn K g (n :: L) (t.chassis s.nchassis).chassisguid := by
        rw [hm.2]; exact ⟨n, List.mem_cons_self _ _, hk, rfl⟩
      refine ⟨fun c h1 h2 => ?_, ?_⟩
      · by_cases hc : c = s.nchassis
        · subst hc
          refine ⟨hseen, ?_, ?_⟩
          · rw [hm.2]; exact hft
          · rw [hm.1]; rfl
        · exact ⟨(i1 c (by omega) h2).1.cons_of n, (i1 c (by omega) h2).2⟩
      · intro c d h1 h2 h3 A B hAB hs
        cases A with
        | nil => exact absurd hs (not_seenIn_nil K g _)
        | cons a A =>
          simp only [List.cons_append, List.cons.injEq] at hAB
          obtain ⟨rfl, hL⟩ := hAB
          by_cases hc : c = s.nchassis
          · subst hc
            rw [hm.2]; exact ⟨n, List.mem_cons_self _ _, hk, rfl⟩
          · rcases hs.cons_inv with ⟨-, hg⟩ | hs2
            · have hd := (i1 d (by omega) h3).2.1
              rw [← hg, hft] at hd
              have : s.nchassis = d := Option.some.inj hd
              omega
            · exact (i2 c d (by omega) h2 h3 A B hL hs2).cons_of _

/-- The order of the appended chassis also holds along a longer list of nodes. -/
theorem CountOrd.append {K : Config} {g : Graph} {m : Nat} {t : St} {L : List NodeId}
    (h : CountOrd K g m t L) (l : List NodeId) : CountOrd K g m t (L ++ l) := by
  refine ⟨fun c h1 h2 => ⟨(h.1 c h1 h2).1.append_left l, (h.1 c h1 h2).2⟩, ?_⟩
  intro c d h1 h2 h3 A B hAB hs
  rcases List.append_eq_append_iff.mp hAB with ⟨a, rfl, -⟩ | ⟨b, hL, -⟩
  · exact (h.1 c h1 (by omega)).1.append_left a
  · exact h.2 c d h1 h2 h3 A b hL hs

/-! ## Chassis numbers (C11, C17) -/

theorem join_chassis_nums (sc : St × Nat) (c : ChassisId) (n : NodeId) :
    (join_chassis sc c n).2 = sc.2 ∧
    (join_chassis sc c n).1.nchassis = sc.1.nchassis ∧
    ∀ d, ((join_chassis sc c n).1.chassis d).chassisguid = (sc.1.chassis d).chassisguid ∧
      ((join_chassis sc c n).1.chassis d).nodecount = (sc.1.chassis d).nodecount ∧
      ((join_chassis sc c n).1.chassis d).chassisnum = (sc.1.chassis d).chassisnum := by
  unfold join_chassis
  split_ifs with h
  · refine ⟨rfl, rfl, fun d => ?_⟩
    by_cases hd : d = c <;> simp [add_node_to_chassis, St.modNode, St.modChassis, hd]
  · exact ⟨rfl, rfl, fun d => ⟨rfl, rfl, rfl⟩⟩

theorem number_chassis_cases (sc : St × Nat) (c : ChassisId) :
    (number_chassis sc c).1.nchassis = sc.1.nchassis ∧
    (∀ d, ((number_chassis sc c).1.chassis d).chassisguid = (sc.1.chassis d).chassisguid ∧
      ((number_chassis sc c).1.chassis d).nodecount = (sc.1.chassis d).nodecount) ∧
    (((sc.1.chassis c).chassisnum = 0 ∧ (number_chassis sc c).2 = sc.2 + 1 ∧
        ((number_chassis sc c).1.chassis c).chassisnum = sc.2 + 1 ∧
        ∀ d, d ≠ c →
          ((number_chassis sc c).1.chassis d).chassisnum = (sc.1.chassis d).chassisnum) ∨
      ((sc.1.chassis c).chassisnum ≠ 0 ∧ number_chassis sc c = sc)) := by
  unfold number_chassis
  split_ifs with h
  · refine ⟨rfl, fun d => ?_, Or.inl ⟨h, rfl, by simp [St.modChassis], fun d hd => ?_⟩⟩
    · by_cases hd : d = c <;> simp [St.modChassis, hd]
    · simp [St.modChassis, hd]
  · exact ⟨rfl, fun d => ⟨rfl, rfl⟩, Or.inr ⟨h, rfl⟩⟩

theorem SeenIn.snoc {K : Config} {g : Graph} {A : List NodeId} {x : Nat} {n : NodeId}
    (h : SeenIn K g (A ++ [n]) x) :
    SeenIn K g A x ∨ (keyed K g n = true ∧ get_chassisguid K g n = x) := by
  obtain ⟨a, ha, hk⟩ := h
  rcases List.mem_append.mp ha with ha | ha
  · exact Or.inl ⟨a, ha, hk⟩
  · rw [List.mem_singleton] at ha
    subst ha
    exact Or.inr hk

theorem promote_step_numbering {K : Config} {g : Graph} {m : Nat} {s3 : St}
    {A B : List NodeId} {n : NodeId} {sc tc : St × Nat}
    (ho : CountOrd K g m s3 (A ++ n :: B)) (h : promote_step K g sc n = .ok tc)
    (hi : NumInv K g m s3 A sc) : NumInv K g m s3 (A ++ [n]) tc := by
  obtain ⟨i1, i2, ia, ib, ic, id, ie, if_⟩ := hi
  have hfind : ∀ x, find_guid sc.1 x = find_guid s3 x :=
    fun x => find_guid_congr s3 sc.1 x i1 (fun c _ => (i2 c).1)
  have uniq : ∀ c' : Nat, m ≤ c' → c' < s3.nchassis →
      get_chassisguid K g n = (s3.chassis c').chassisguid →
      find_guid sc.1 (get_chassisguid K g n) = some c' := by
    intro c' h1 h2 e
    rw [hfind, e]
    exact (ho.1 c' h1 h2).2.1
  rcases promote_step_shape h with ⟨hno, e⟩ | ⟨c, hk, hf, hc, e⟩
  · subst e
    refine ⟨i1, i2, ia, ib, ic, fun c h1 h2 h3 => (id c h1 h2 h3).append_left _, ?_, if_⟩
    intro c h1 h2 hs hcnt
    rcases hs.snoc with hs | ⟨hk, hg⟩
    · exact ie c h1 h2 hs hcnt
    · exact absurd ⟨hk, c, uniq c h1 h2 hg, by rw [(i2 c).2]; exact hcnt⟩ hno
  · obtain ⟨hcn, hcg⟩ := find_guid_some hf
    rw [i1] at hcn
    rw [(i2 c).1] at hcg
    have hseen : SeenIn K g (A ++ [n]) (s3.chassis c).chassisguid :=
      ⟨n, List.mem_append_right _ (List.mem_singleton_self n), hk, hcg.symm⟩
    obtain ⟨j1, j2, j3⟩ := join_chassis_nums (number_chassis sc c) c n
    obtain ⟨n1, n2, n3⟩ := number_chassis_cases sc c
    subst e
    have same : ∀ c' : Nat, m ≤ c' → c' < s3.nchassis →
        (keyed K g n = true ∧ get_chassisguid K g n = (s3.chassis c').chassisguid) →
        c' = c := by
      intro c' h1 h2 hkg
      have := uniq c' h1 h2 hkg.2
      rw [hf] at this
      exact (Option.some.inj this).symm
    rcases n3 with ⟨z, k1, k2, k3⟩ | ⟨nz, e⟩
    · have hcm : m ≤ c := by
        by_contra hlt
        exact if_ c (by omega) z
      have hnum : ∀ d, d ≠ c →
          ((join_chassis (number_chassis sc c) c n).1.chassis d).chassisnum =
            (sc.1.chassis d).chassisnum := fun d hd => by rw [(j3 d).2.2, k3 d hd]
      have hnumc : ((join_chassis (number_chassis sc c) c n).1.chassis c).chassisnum =
          sc.2 + 1 := by rw [(j3 c).2.2, k2]
      refine ⟨by rw [j2, n1, i1], fun d => ?_, ?_, ?_, ?_, ?_, ?_, ?_⟩
      · rw [(j3 d).1, (j3 d).2.1, (n2 d).1, (n2 d).2]; exact i2 d
      · intro d hd
        rw [j1, k1]
        by_cases hdc : d = c
        · subst hdc; rw [hnumc]
        · rw [hnum d hdc]; have := ia d hd; omega
      · intro j hj1 hj2
        rw [j1, k1] at hj2
        by_cases hj : j = sc.2 + 1
        · exact ⟨c, hcn, by rw [hnumc, hj]⟩
        · obtain ⟨d, hd1, hd2⟩ := ib j hj1 (by omega)
          have hdc : d ≠ c := fun e => by subst e; omega
          exact ⟨d, hd1, by rw [hnum d hdc]; exact hd2⟩
      · intro c1 d1 hlt hd1 hz1 hz2
        by_cases e1 : c1 = c
        · subst e1
          have hd1c : d1 ≠ c1 := by omega
          rw [hnum d1 hd1c] at hz2
          have s1 := id d1 (by omega) hd1 hz2
          have s2 := ho.2 c1 d1 hcm hlt hd1 A (n :: B) rfl s1
          exact absurd z (ie c1 hcm hcn s2 (by rw [← (i2 c1).2]; exact hc))
        · by_cases e2 : d1 = c
          · subst e2
            rw [hnumc, hnum c1 e1]
            have := ia c1 (by omega)
            omega
          · rw [hnum c1 e1, hnum d1 e2]
            rw [hnum c1 e1] at hz1
            rw [hnum d1 e2] at hz2
            exact ic c1 d1 hlt hd1 hz1 hz2
      · intro c' h1 h2 h3
        by_cases e1 : c' = c
        · subst e1; exact hseen
        · rw [hnum c' e1] at h3
          exact (id c' h1 h2 h3).append_left _
      · intro c' h1 h2 hs hcnt
        by_cases e1 : c' = c
        · subst e1; rw [hnumc]; omega
        · rw [hnum c' e1]
          rcases hs.snoc with hs | hkg
          · exact ie c' h1 h2 hs hcnt
          · exact absurd (same c' h1 h2 hkg) e1
      · intro c' hc'
        have : c' ≠ c := by omega
        rw [hnum c' this]
        exact if_ c' hc'
    · rw [e] at j1 j2 j3 ⊢
      have hnum : ∀ d, ((join_chassis sc c n).1.chassis d).chassisnum =
          (sc.1.chassis d).chassisnum := fun d => (j3 d).2.2
      refine ⟨by rw [j2, i1], fun d => ?_, ?_, ?_, ?_, ?_, ?_, ?_⟩
      · rw [(j3 d).1, (j3 d).2.1]; exact i2 d
      · intro d hd; rw [j1, hnum]; exact ia d hd
      · intro j hj1 hj2
        rw [j1] at hj2
        obtain ⟨d, hd1, hd2⟩ := ib j hj1 hj2
        exact ⟨d, hd1, by rw [hnum]; exact hd2⟩
      · intro c1 d1 hlt hd1 hz1 hz2
        rw [hnum] at hz1 hz2 ⊢
        rw [hnum]
        exact ic c1 d1 hlt hd1 hz1 hz2
      · intro c' h1 h2 h3
        rw [hnum] at h3
        exact (id c' h1 h2 h3).append_left _
      · intro c' h1 h2 hs hcnt
        rw [hnum]
        rcases hs.snoc with hs | hkg
        · exact ie c' h1 h2 hs hcnt
        · rw [same c' h1 h2 hkg]; exact nz
      · intro c' hc'
        rw [hnum]
        exact if_ c' hc'

theorem promote_list_numbering {K : Config} {g : Graph} {m : Nat} {s3 : St} :
    ∀ (B A : List NodeId) (sc tc : St × Nat), CountOrd K g m s3 (A ++ B) →
      loopE (promote_step K g) B sc = .ok tc → NumInv K g m s3 A sc →
      NumInv K g m s3 (A ++ B) tc := by
  intro B
  induction B with
  | nil =>
    intro A sc tc _ h hi
    simp only [loopE, Except.ok.injEq] at h
    subst h
    rw [List.append_nil]
    exact hi
  | cons n B ih =>
    intro A sc tc ho h hi
    simp only [loopE] at h
    cases h1 : promote_step K g sc n with
    | error e => rw [h1] at h; exact absurd h (by simp)
    | ok sc1 =>
      rw [h1] at h
      have := ih (A ++ [n]) sc1 tc (by simpa using ho) h (promote_step_numbering ho h1 hi)
      simpa using this

theorem built_numbers (K : Config) (g : Graph) :
    BuildClosed K g (fun sc => sc.1.nchassis = sc.2 ∧
      ∀ c, c < sc.2 → (sc.1.chassis c).chassisnum = c + 1) := by
  refine ⟨?_, ?_, ?_, ?_⟩
  · intro s k hs
    simp only [] at hs
    refine ⟨by simp [St.modChassis, add_chassis, hs.1], fun c hc => ?_⟩
    by_cases h : c = s.nchassis
    · subst h
      simp [St.modChassis, add_chassis, current_chassis, hs.1]
    · have := hs.2 c (by simp only [] at hc; omega)
      simpa [St.modChassis, add_chassis, current_chassis, h] using this
  · intro s k c node i hs _ _ _ _
    refine ⟨hs.1, fun d hd => ?_⟩
    have := hs.2 d hd
    by_cases h : d = c
    · subst h; simpa [St.modChassis, St.modNode] using this
    · simpa [St.modChassis, St.modNode, h] using this
  · intro s k c node i hs _ _ _ _
    refine ⟨hs.1, fun d hd => ?_⟩
    have := hs.2 d hd
    by_cases h : d = c
    · subst h; simpa [St.modChassis, St.modNode] using this
    · simpa [St.modChassis, St.modNode, h] using this
  · intro s k c v hs _
    refine ⟨hs.1, fun d hd => ?_⟩
    have := hs.2 d hd
    by_cases h : d = c
    · subst h; simpa [St.modChassis] using this
    · simpa [St.modChassis, h] using this

/-- When `group_nodes` returns, the chassis numbers are sequential. -/
theorem group_nodes_numbering {K : Config} {g : Graph} {fuel : Nat} {s0 sf : St}
    (h : group_nodes K g fuel s0 = .ok sf) : ∃ k, Sequential sf k := by
  obtain ⟨s1, sc2, s3, k, l, h1, h2, h3, h4⟩ := group_nodes_passes h
  have a1 : s1.nchassis = 0 := tag_pass_closed no_chassis_tag h1 rfl
  have a2 := build_pass_closed (built_numbers K g) h2
    ⟨a1, fun c hc => absurd hc (by simp)⟩
  simp only [] at a2
  obtain ⟨a2n, a2c⟩ := a2
  have ho := (count_list_ord K g _ _ _ h3).append l
  obtain ⟨kn, kold, -⟩ := count_list_keeps h3
  have num3 : ∀ c, c < sc2.2 → (s3.chassis c).chassisnum = c + 1 := fun c hc => by
    rw [(kold c (by omega)).1]; exact a2c c hc
  have zero3 : ∀ c, sc2.1.nchassis ≤ c → c < s3.nchassis → (s3.chassis c).chassisnum = 0 :=
    fun c hc1 hc2 => (ho.1 c hc1 hc2).2.2
  have init : NumInv K g sc2.1.nchassis s3 [] (s3, sc2.2) := by
    refine ⟨rfl, fun c => ⟨rfl, rfl⟩, ?_, ?_, ?_, ?_, ?_, ?_⟩
    · intro c hc
      by_cases hm : c < sc2.2
      · simp only []; rw [num3 c hm]; omega
      · simp only []; rw [zero3 c (by omega) hc]; omega
    · intro j hj1 hj2
      exact ⟨j - 1, by simp only [] at hj2; omega,
        by simp only [] at hj2 ⊢; rw [num3 (j - 1) (by omega)]; omega⟩
    · intro c d hlt hd hz1 hz2
      simp only [] at hz1 hz2 ⊢
      have hdm : d < sc2.2 := by
        by_contra hge
        exact hz2 (zero3 d (by omega) hd)
      rw [num3 c (by omega), num3 d hdm]
      omega
    · intro c hc1 hc2 hz
      exact absurd (zero3 c hc1 hc2) hz
    · intro c _ _ hs
      exact absurd hs (not_seenIn_nil K g _)
    · intro c hc
      simp only []
      rw [num3 c (by omega)]
      omega
  have fin := promote_list_numbering _ [] _ _ (by simpa using ho) h4 init
  obtain ⟨f1, -, fa, fb, fc, -, -, -⟩ := fin
  simp only [] at f1 fa fb fc
  refine ⟨k, ?_, ?_, ?_⟩
  · intro c hc; exact fa c (by omega)
  · intro j hj1 hj2
    obtain ⟨c, hc, e⟩ := fb j hj1 hj2
    exact ⟨c, by omega, e⟩
  · intro c d hlt hd; exact fc c d hlt (by omega)

/-- C17. Sequential chassis numbering: when `group_nodes` returns, the non-zero
chassis numbers of the returned list are pairwise distinct, they are exactly the
numbers `1, ..., k` for some `k`, and they increase strictly along the list.  (The
chassis number is a counter without storage width here, so the statement covers the
runs with fewer than 256 numbered chassis, in which no number can wrap.) -/
theorem chassis_numbers_sequential (K : Config) (g : Graph) (fuel : Nat) (s0 sf : St)
    (h : group_nodes K g fuel s0 = .ok sf) :
    ∃ k,
      (∀ c, c < sf.nchassis → (sf.chassis c).chassisnum ≤ k) ∧
      (∀ j, 1 ≤ j → j ≤ k → ∃ c, c < sf.nchassis ∧ (sf.chassis c).chassisnum = j) ∧
      (∀ c d, c < d → d < sf.nchassis → (sf.chassis c).chassisnum ≠ 0 →
        (sf.chassis d).chassisnum ≠ 0 →
        (sf.chassis c).chassisnum < (sf.chassis d).chassisnum) ∧
      (∀ c d, c < sf.nchassis → d < sf.nchassis → (sf.chassis c).chassisnum ≠ 0 →
        (sf.chassis c).chassisnum = (sf.chassis d).chassisnum → c = d) := by
  obtain ⟨k, ha, hb, hc⟩ := group_nodes_numbering h
  refine ⟨k, ha, hb, hc, fun c d h1 h2 hz e => ?_⟩
  have hz2 : (sf.chassis d).chassisnum ≠ 0 := by rw [← e]; exact hz
  rcases Nat.lt_trichotomy c d with hlt | heq | hgt
  · have := hc c d hlt h2 hz hz2; omega
  · exact heq
  · have := hc d c hgt h1 hz2 hz; omega

theorem chassis_numbers_sequential_witness :
    group_nodes stdConfig adapter_fabric 2 St.init = .ok (grouped adapter_fabric) ∧
    ∃ k,
      (∀ c, c < (grouped adapter_fabric).nchassis →
        ((grouped adapter_fabric).chassis c).chassisnum ≤ k) ∧
      (∀ j, 1 ≤ j → j ≤ k →
        ∃ c, c < (grouped adapter_fabric).nchassis ∧
          ((grouped adapter_fabric).chassis c).chassisnum = j) ∧
      (∀ c d, c < d → d < (grouped adapter_fabric).nchassis →
        ((grouped adapter_fabric).chassis c).chassisnum ≠ 0 →
        ((grouped adapter_fabric).chassis d).chassisnum ≠ 0 →
        ((grouped adapter_fabric).chassis c).chassisnum <
          ((grouped adapter_fabric).chassis d).chassisnum) ∧
      (∀ c d, c < (grouped adapter_fabric).nchassis → d < (grouped adapter_fabric).nchassis →
        ((grouped adapter_fabric).chassis c).chassisnum ≠ 0 →
        ((grouped adapter_fabric).chassis c).chassisnum =
          ((grouped adapter_fabric).chassis d).chassisnum → c = d) :=
  ⟨rfl, chassis_numbers_sequential stdConfig adapter_fabric 2 St.init (grouped adapter_fabric)
    rfl⟩

/-- The search of `find_chassisnum` returns the first chassis of the list with the
number it looks for. -/
theorem find_chassisnum_first (s : St) (c : Nat) :
    ∀ (n d : Nat), d < n → (s.chassis d).chassisnum = c →
      (∀ d1 : Nat, d1 < d → (s.chassis d1).chassisnum ≠ c) →
      (List.range n).find? (fun c1 => (s.chassis c1).chassisnum == c) = some d := by
  intro n
  induction n with
  | zero => intro d hd; omega
  | succ n ih =>
    intro d hd hc hfirst
    rw [List.range_succ, List.find?_append]
    by_cases hdn : d < n
    · rw [ih d hdn hc hfirst]; rfl
    · have hd2 : d = n := by omega
      subst hd2
      have hnone : (List.range d).find? (fun c1 => (s.chassis c1).chassisnum == c) = none := by
        rw [List.find?_eq_none]
        intro x hx
        simpa using hfirst x (List.mem_range.mp hx)
      rw [hnone]
      simp [hc]

/-- C11 (as amended). Chassis-identifier query: when `group_nodes` returns, for every
chassis number `c` that is at least 1, `ibnd_get_chassis_guid` returns the guid of the
chassis of the list that was given the number `c`; for every `c` that is the number
of no chassis of the list it returns 0; and for every `c`, also for 0, the value of
the number field of a chassis that grouping left unnumbered, it returns the guid of
the first chassis of the list whose number field is `c`. -/
theorem chassis_guid_query (K : Config) (g : Graph) (fuel : Nat) (s0 sf : St)
    (h : group_nodes K g fuel s0 = .ok sf) (c : Nat) :
    (1 ≤ c → ∀ d, d < sf.nchassis → (sf.chassis d).chassisnum = c →
      ibnd_get_chassis_guid sf c = (sf.chassis d).chassisguid) ∧
    ((∀ d, d < sf.nchassis → (sf.chassis d).chassisnum ≠ c) →
      ibnd_get_chassis_guid sf c = 0) ∧
    (∀ d, d < sf.nchassis → (sf.chassis d).chassisnum = c →
      (∀ d1, d1 < d → (sf.chassis d1).chassisnum ≠ c) →
      ibnd_get_chassis_guid sf c = (sf.chassis d).chassisguid) := by
  obtain ⟨k, -, -, hinc⟩ := group_nodes_numbering h
  have first : ∀ d, d < sf.nchassis → (sf.chassis d).chassisnum = c →
      (∀ d1, d1 < d → (sf.chassis d1).chassisnum ≠ c) →
      ibnd_get_chassis_guid sf c = (sf.chassis d).chassisguid := by
    intro d hd hn hfirst
    unfold ibnd_get_chassis_guid find_chassisnum
    rw [find_chassisnum_first sf c sf.nchassis d hd hn hfirst]
  refine ⟨fun hc d hd hn => first d hd hn (fun d1 hd1 e => ?_), fun hno => ?_, first⟩
  · have := hinc d1 d hd1 hd (by omega) (by omega)
    omega
  · unfold ibnd_get_chassis_guid find_chassisnum
    have : (List.range sf.nchassis).find? (fun c1 => (sf.chassis c1).chassisnum == c) =
        none := by
      rw [List.find?_eq_none]
      intro d hd
      simpa using hno d (List.mem_range.mp hd)
    rw [this]

theorem chassis_guid_query_witness :
    group_nodes stdConfig adapter_fabric 2 St.init = .ok (grouped adapter_fabric) ∧
    (1 ≤ 2 → ∀ d, d < (grouped adapter_fabric).nchassis →
      ((grouped adapter_fabric).chassis d).chassisnum = 2 →
      ibnd_get_chassis_guid (grouped adapter_fabric) 2 =
        ((grouped adapter_fabric).chassis d).chassisguid) ∧
    ((∀ d, d < (grouped adapter_fabric).nchassis →
        ((grouped adapter_fabric).chassis d).chassisnum ≠ 2) →
      ibnd_get_chassis_guid (grouped adapter_fabric) 2 = 0) ∧
    (∀ d, d < (grouped adapter_fabric).nchassis →
      ((grouped adapter_fabric).chassis d).chassisnum = 2 →
      (∀ d1, d1 < d → ((grouped adapter_fabric).chassis d1).chassisnum ≠ 2) →
      ibnd_get_chassis_guid (grouped adapter_fabric) 2 =
        ((grouped adapter_fabric).chassis d).chassisguid) :=
  ⟨rfl,
    chassis_guid_query stdConfig adapter_fabric 2 St.init (grouped adapter_fabric) rfl 2⟩

/-- C11 as stated fails for the number 0, which grouping gives to no chassis: on the
fabric of two switches with the system image guids 7 and 8 `group_nodes` returns a
list of two chassis, neither of which was given a number, and
`ibnd_get_chassis_guid` returns for the number 0 the guid 7 of the first of them,
not 0. -/
theorem chassis_guid_query_zero :
    group_nodes stdConfig distinct_pair 2 St.init = .ok (grouped distinct_pair) ∧
    (grouped distinct_pair).nchassis = 2 ∧
    ((grouped distinct_pair).chassis 0).chassisnum = 0 ∧
    ((grouped distinct_pair).chassis 1).chassisnum = 0 ∧
    ibnd_get_chassis_guid (grouped distinct_pair) 0 = 7 :=
  ⟨rfl, by decide, by decide, by decide, by decide⟩

/-! ## The generation-D scenario (C12) -/

/-- A loop whose every turn returns, keeps `I`, establishes `Q` for its own element
and keeps `Q` for the others, returns with `I` and with `Q` for every element. -/
theorem loopE_total {σ α : Type} (f : σ → α → Except Err σ) (I : σ → Prop)
    (Q : α → σ → Prop) :
    ∀ (l : List α),
      (∀ s a, a ∈ l → I s → ∃ t, f s a = .ok t ∧ I t ∧ Q a t ∧ ∀ b, Q b s → Q b t) →
      ∀ (done : List α) s, I s → (∀ b, b ∈ done → Q b s) →
        ∃ t, loopE f l s = .ok t ∧ I t ∧ (∀ b, b ∈ done → Q b t) ∧ ∀ a, a ∈ l → Q a t := by
  intro l
  induction l with
  | nil =>
    intro _ done s hs hd
    exact ⟨s, rfl, hs, hd, fun a ha => absurd ha (List.not_mem_nil a)⟩
  | cons a as ih =>
    intro hstep done s hs hd
    obtain ⟨s1, h1, i1, q1, k1⟩ := hstep s a (List.mem_cons_self _ _) hs
    obtain ⟨t, e, it, dt, qt⟩ :=
      ih (fun u b hb hu => hstep u b (List.mem_cons_of_mem _ hb) hu) (a :: done) s1 i1
        (fun b hb => by
          rcases List.mem_cons.mp hb with rfl | hb
          · exact q1
          · exact k1 b (hd b hb))
    refine ⟨t, by simp only [loopE, h1]; exact e, it,
      fun b hb => dt b (List.mem_cons_of_mem _ hb), fun b hb => ?_⟩
    rcases List.mem_cons.mp hb with rfl | hb
    · exact dt _ (List.mem_cons_self _ _)
    · exact qt b hb


theorem loopE_cons_ok {σ α : Type} {f : σ → α → Except Err σ} {a : α} {s s1 : σ}
    (as : List α) (h : f s a = .ok s1) : loopE f (a :: as) s = loopE f as s1 := by
  simp only [loopE, h]

theorem build_chassis_eq {K : Config} {g : Graph} {s s1 s2 s3 s4 : St} {node : NodeId}
    {c : ChassisId} {n : Nat} (hn : (g.node node).numports = n)
    (h1 : insert_spine K g s node c = .ok s1)
    (h2 : loopE (spines_port_step K g c node) (upto n) s1 = .ok s2)
    (h3 : propagate K g s2 c = .ok s3) (h4 : propagate K g s3 c = .ok s4) :
    build_chassis K g s node c = .ok (pass_on_spines_interpolate_chguid K g s4 c) := by
  subst hn
  unfold build_chassis
  simp only [h1, h2, h3, h4]

theorem group_nodes_eq {K : Config} {g : Graph} {fuel : Nat} {s0 s1 sf : St} {sc : St × Nat}
    (h1 : for_nodes K g (tag_step K g) { s0 with nchassis := 0 } = .ok s1)
    (h2 : for_nodes K g (build_step K g) (s1, 0) = .ok sc)
    (h3 : guid_passes K g fuel sc = .ok sf) : group_nodes K g fuel s0 = .ok sf := by
  unfold group_nodes voltaire_passes
  simp only [h1, h2, h3]

theorem build_step_eq {K : Config} {g : Graph} {s t : St} {k : Nat} {node : NodeId}
    (hv : (g.node node).vendid = K.VTR_VENDOR_ID) (hf : (s.node node).ch_found = true)
    (hc : (s.node node).chassis = none) (hs : is_spine K g node = true)
    (hn : s.nchassis = 0)
    (hb : build_chassis K g ((add_chassis s).modChassis (current_chassis (add_chassis s))
      fun c => { c with chassisnum := k + 1 }) node 0 = .ok t) :
    build_step K g (s, k) node = .ok (t, k + 1) := by
  have hcur : current_chassis ((add_chassis s).modChassis (current_chassis (add_chassis s))
      fun c => { c with chassisnum := k + 1 }) = 0 := by
    simp [St.modChassis, add_chassis, current_chassis, hn]
  have hnum : has_numbered_chassis s node = false := by
    unfold has_numbered_chassis; rw [hc]
  unfold build_step
  simp only [hv, ne_eq, not_true_eq_false, if_false, hf, hnum, hs, Bool.not_true, Bool.or_self,
    Bool.false_eq_true, hcur, hb]

theorem build_step_skip {K : Config} {g : Graph} (sc : St × Nat) {node : NodeId}
    (hs : is_spine K g node = false) : build_step K g sc node = .ok sc := by
  unfold build_step
  split_ifs with h1 h2
  · rfl
  · rfl
  · simp [hs] at h2

theorem insert_spine_new {K : Config} {g : Graph} {s : St} {node : NodeId} {c : ChassisId}
    {i : Nat} (hi : get_spine_index K g s node = .ok i)
    (ho : (s.chassis c).spinenode i = none) :
    insert_spine K g s node c =
      .ok ((s.modChassis c fun r => { r with spinenode := upd r.spinenode i (some node) }).modNode
        node fun r => { r with chassis := some c }) := by
  unfold insert_spine
  simp only [hi, ho, Option.isSome_none, Bool.false_eq_true, if_false]

theorem genD_spine_port (p q : Nat → Nat) (a : Nat) :
    port_at (genD p q) 0 a = .ok (if a = p 1 ∨ a = p 2 ∨ a = p 3 then some a else none) := by
  simp [port_at, genD]

theorem genD_line_port (p q : Nat → Nat) (x a : Nat) (hx : x ≠ 0) :
    port_at (genD p q) x a = .ok (if a = q x then some (100 * x + a) else none) := by
  simp [port_at, genD, hx]

theorem genD_wired_distinct {p q : Nat → Nat} (hw : genD_wired p q) :
    p 1 ≠ p 2 ∧ p 1 ≠ p 3 ∧ p 2 ≠ p 3 := by
  obtain ⟨-, -, h1, h2, h3⟩ := hw
  exact ⟨fun e => h1 (by rw [e]), fun e => h2 (by rw [e]), fun e => h3 (by rw [e])⟩

theorem genD_spine_link {p q : Nat → Nat} (hw : genD_wired p q) (i : Nat)
    (hi : i = 1 ∨ i = 2 ∨ i = 3) :
    ((genD p q).port (p i)).remoteport = some (100 * i + q i) ∧
    ((genD p q).port (p i)).node = 0 ∧ ((genD p q).port (p i)).portnum = p i := by
  obtain ⟨d1, d2, d3⟩ := genD_wired_distinct hw
  obtain ⟨⟨a1, a2, a3, a4, a5, a6⟩, -, -⟩ := hw
  have hlt : p i < 100 := by rcases hi with rfl | rfl | rfl <;> omega
  simp only [genD, hlt, if_true]
  refine ⟨?_, trivial, trivial⟩
  rcases hi with rfl | rfl | rfl
  · simp
  · simp [Ne.symm d1]
  · simp [Ne.symm d2, Ne.symm d3]

theorem genD_line_link {p q : Nat → Nat} (hw : genD_wired p q) (i : Nat)
    (hi : i = 1 ∨ i = 2 ∨ i = 3) :
    ((genD p q).port (100 * i + q i)).remoteport = some (p i) ∧
    ((genD p q).port (100 * i + q i)).node = i ∧
    ((genD p q).port (100 * i + q i)).portnum = q i := by
  obtain ⟨-, ⟨a1, a2, a3, a4, a5, a6⟩, -⟩ := hw
  have hge : ¬ 100 * i + q i < 100 := by rcases hi with rfl | rfl | rfl <;> omega
  have hn : (100 * i + q i) / 100 = i := by rcases hi with rfl | rfl | rfl <;> omega
  have hm : (100 * i + q i) % 100 = q i := by rcases hi with rfl | rfl | rfl <;> omega
  simp only [genD, hge, if_false, hn, hm]
  refine ⟨?_, trivial, trivial⟩
  rcases hi with rfl | rfl | rfl
  · rw [if_pos (show 100 * 1 + q 1 = 100 + q 1 by omega)]
  · rw [if_neg (show ¬ 100 * 2 + q 2 = 100 + q 1 by omega),
      if_pos (show 100 * 2 + q 2 = 200 + q 2 by omega)]
  · rw [if_neg (show ¬ 100 * 3 + q 3 = 100 + q 1 by omega),
      if_neg (show ¬ 100 * 3 + q 3 = 200 + q 2 by omega),
      if_pos (show 100 * 3 + q 3 = 300 + q 3 by omega)]

theorem genD_kinds (p q : Nat → Nat) (x : Nat) :
    ((genD p q).node x).vendid = stdConfig.VTR_VENDOR_ID ∧
    ((genD p q).node x).type = stdConfig.IB_NODE_SWITCH ∧
    ((genD p q).node x).numports = 24 ∧
    is_router stdConfig (genD p q) x = false ∧
    is_spine_9096 stdConfig (genD p q) x = false ∧
    is_spine_9288 stdConfig (genD p q) x = false ∧
    is_spine_2012 stdConfig (genD p q) x = false ∧
    is_spine_2004 stdConfig (genD p q) x = decide (x = 0) ∧
    is_spine stdConfig (genD p q) x = decide (x = 0) ∧
    is_line stdConfig (genD p q) x = decide (x ≠ 0) := by
  by_cases hx : x = 0
  · subst hx
    have hd : ((genD p q).node 0).devid = stdConfig.VTR_DEVID_SFB2004 := rfl
    have e0 : decide ((0 : Nat) = 0) = true := rfl
    have e1 : decide ((0 : Nat) ≠ 0) = false := rfl
    rw [e0, e1]
    refine ⟨rfl, rfl, rfl, ?_, ?_, ?_, ?_, ?_, ?_, ?_⟩
    · unfold is_router; rw [hd]; rfl
    · unfold is_spine_9096; rw [hd]; rfl
    · unfold is_spine_9288; rw [hd]; rfl
    · unfold is_spine_2012; rw [hd]; rfl
    · unfold is_spine_2004; rw [hd]; rfl
    · unfold is_spine is_spine_9096 is_spine_9288 is_spine_2012 is_spine_2004; rw [hd]; rfl
    · unfold is_line is_line_24 is_line_8 is_line_2024; rw [hd]; rfl
  · have hd : ((genD p q).node x).devid = stdConfig.VTR_DEVID_SLB2024 := by
      unfold genD; simp only [hx, if_false]
    have hv : ((genD p q).node x).vendid = stdConfig.VTR_VENDOR_ID := by
      unfold genD; simp only [hx, if_false]
    have ht : ((genD p q).node x).type = stdConfig.IB_NODE_SWITCH := by
      unfold genD; simp only [hx, if_false]
    have hn : ((genD p q).node x).numports = 24 := by
      unfold genD; simp only [hx, if_false]
    have e0 : decide (x = 0) = false := decide_eq_false hx
    have e1 : decide (x ≠ 0) = true := decide_eq_true hx
    rw [e0, e1]
    refine ⟨hv, ht, hn, ?_, ?_, ?_, ?_, ?_, ?_, ?_⟩
    · unfold is_router; rw [hd]; rfl
    · unfold is_spine_9096; rw [hd]; rfl
    · unfold is_spine_9288; rw [hd]; rfl
    · unfold is_spine_2012; rw [hd]; rfl
    · unfold is_spine_2004; rw [hd]; rfl
    · unfold is_spine is_spine_9096 is_spine_9288 is_spine_2012 is_spine_2004; rw [hd]; rfl
    · unfold is_line is_line_24 is_line_8 is_line_2024; rw [hd]; rfl

/-- The entries of the two line tables for a spine port in `1..24`. -/
theorem line_flat_range {a : Nat} (h1 : 1 ≤ a) (h2 : a ≤ 24) :
    tbl line_slot_2_sfb4 a = .ok (line_slot_2_sfb4.getD a 0) ∧
    tbl anafa_line_slot_2_sfb4 a = .ok (anafa_line_slot_2_sfb4.getD a 0) ∧
    1 ≤ line_slot_2_sfb4.getD a 0 ∧ line_slot_2_sfb4.getD a 0 ≤ 4 ∧
    1 ≤ anafa_line_slot_2_sfb4.getD a 0 ∧ anafa_line_slot_2_sfb4.getD a 0 ≤ 2 := by
  interval_cases a <;> decide

/-- The entries of the two spine tables for a line-board port in `1..12`. -/
theorem spine_flat_range {a : Nat} (h1 : 1 ≤ a) (h2 : a ≤ 12) :
    tbl spine4_slot_2_slb a = .ok (spine4_slot_2_slb.getD a 0) ∧
    tbl anafa_spine4_slot_2_slb a = .ok 1 ∧
    1 ≤ spine4_slot_2_slb.getD a 0 ∧ spine4_slot_2_slb.getD a 0 ≤ 4 := by
  interval_cases a <;> decide

theorem portmap_loop_total (K : Config) (g : Graph) (node : NodeId)
    (hp : ∃ ps, (g.node node).ports = some ps) (l : List Nat) (s : St) :
    ∃ t, loopE (fill_portmap_step K g node) l s = .ok t ∧ t.node = s.node ∧
      t.nchassis = s.nchassis ∧ t.chassis = s.chassis := by
  obtain ⟨ps, hps⟩ := hp
  obtain ⟨t, h, hi, -, -⟩ := loopE_total (fill_portmap_step K g node)
    (fun u => u.node = s.node ∧ u.nchassis = s.nchassis ∧ u.chassis = s.chassis)
    (fun _ _ => True) l
    (fun u a _ hu => by
      have hpa : port_at g node a = .ok (ps a) := by unfold port_at; rw [hps]
      unfold fill_portmap_step
      rw [hpa]
      cases ps a with
      | none => exact ⟨u, rfl, hu, trivial, fun _ _ => trivial⟩
      | some port =>
        obtain ⟨f1, f2, f3, -⟩ := voltaire_portmap_frame K g u port
        exact ⟨_, rfl, ⟨by rw [f1, hu.1], by rw [f3, hu.2.1], by rw [f2, hu.2.2]⟩, trivial,
          fun _ _ => trivial⟩)
    [] s ⟨rfl, rfl, rfl⟩ (fun _ hb => absurd hb (List.not_mem_nil _))
  exact ⟨t, h, hi⟩

theorem genD_ports (p q : Nat → Nat) (x : Nat) : ∃ ps, ((genD p q).node x).ports = some ps := by
  by_cases hx : x = 0
  · subst hx; exact ⟨_, rfl⟩
  · unfold genD
    simp only [hx, if_false]
    exact ⟨_, rfl⟩

/-- The tagging of the spine of the scenario: it gets the slot number that the
table `spine4_slot_2_slb` has for the line-board port at the far end of one of its
links. -/
theorem fill_spine_genD {p q : Nat → Nat} (hw : genD_wired p q) (s : St)
    (hf : (s.node 0).ch_found = false) (ht : (s.node 0).ch_type = 0) :
    ∃ t i, fill_voltaire_chassis_record stdConfig (genD p q) s 0 = .ok t ∧
      (i = 1 ∨ i = 2 ∨ i = 3) ∧
      (t.node 0).ch_slotnum = spine4_slot_2_slb.getD (q i) 0 ∧
      (t.node 0).ch_found = true ∧ (t.node 0).chassis = (s.node 0).chassis ∧
      (∀ x, x ≠ 0 → t.node x = s.node x) ∧ t.nchassis = s.nchassis := by
  obtain ⟨k1, k2, k3, k4, k5, k6, k7, k8, k9, k10⟩ := genD_kinds p q 0
  have hw2 := hw
  obtain ⟨⟨a1, a2, a3, a4, a5, a6⟩, ⟨b1, b2, b3, b4, b5, b6⟩, -⟩ := hw2
  obtain ⟨t1, h1, i1, -, q1⟩ := loopE_total (fill_spine_step stdConfig (genD p q) 0)
    (fun u => (u.node 0).ch_found = true ∧ (u.node 0).chassis = (s.node 0).chassis ∧
      (∀ x, x ≠ 0 → u.node x = s.node x) ∧ u.nchassis = s.nchassis ∧
      ((u.node 0).ch_type = 0 ∨
        ∃ i, (i = 1 ∨ i = 2 ∨ i = 3) ∧ (u.node 0).ch_slotnum = spine4_slot_2_slb.getD (q i) 0))
    (fun a u => (a = p 1 ∨ a = p 2 ∨ a = p 3) → (u.node 0).ch_type ≠ 0) (upto 24)
    (fun u a _ hu => by
      unfold fill_spine_step
      rw [genD_spine_port]
      by_cases ha : a = p 1 ∨ a = p 2 ∨ a = p 3
      · rw [if_pos ha]
        have hi : ∃ i, (i = 1 ∨ i = 2 ∨ i = 3) ∧ a = p i := by
          rcases ha with h | h | h
          · exact ⟨1, Or.inl rfl, h⟩
          · exact ⟨2, Or.inr (Or.inl rfl), h⟩
          · exact ⟨3, Or.inr (Or.inr rfl), h⟩
        obtain ⟨i, hi, rfl⟩ := hi
        obtain ⟨l1, l2, l3⟩ := genD_spine_link hw i hi
        obtain ⟨m1, m2, m3⟩ := genD_line_link hw i hi
        have hty := (genD_kinds p q i).2.1
        simp only [l1, m2, hty, ne_eq, not_true_eq_false, if_false]
        by_cases hz : (u.node 0).ch_type = 0
        · rw [if_pos hz]
          have hq : 1 ≤ q i ∧ q i ≤ 12 := by rcases hi with rfl | rfl | rfl <;> omega
          obtain ⟨t1, t2, t3, t4⟩ := spine_flat_range hq.1 hq.2
          unfold get_sfb_slot
          simp only [k5, k6, k7, k8, m3, t1, t2, Bool.false_eq_true, if_false, decide_True,
            if_true]
          refine ⟨_, rfl, ⟨?_, ?_, ?_, ?_, Or.inr ⟨i, hi, ?_⟩⟩, ?_, ?_⟩
          · rw [tag_found]; exact hu.1
          · rw [tag_node_same]; exact hu.2.1
          · intro x hx; rw [tag_node_other _ _ _ _ _ _ _ hx]; exact hu.2.2.1 x hx
          · exact hu.2.2.2.1
          · rw [tag_node_same]
          · intro _; rw [tag_node_same]; simp [ISR2004_CT]
          · intro b hb hpb; rw [tag_node_same]; simp [ISR2004_CT]
        · rw [if_neg hz]
          exact ⟨u, rfl, hu, fun _ => hz, fun b hb => hb⟩
      · rw [if_neg ha]
        exact ⟨u, rfl, hu, fun h => absurd h ha, fun b hb => hb⟩)
    [] (s.modNode 0 fun r => { r with ch_found := true })
    ⟨modNode_found_same s 0, by simp [St.modNode], fun x hx => by simp [St.modNode, hx], rfl,
      Or.inl (by simpa [St.modNode] using ht)⟩
    (fun _ hb => absurd hb (List.not_mem_nil _))
  obtain ⟨t2, h2, n2, c2, -⟩ := portmap_loop_total stdConfig (genD p q) 0 (genD_ports p q 0)
    (upto 24) t1
  have htag := q1 (p 1) (mem_upto.mpr ⟨a1, a2⟩) (Or.inl rfl)
  obtain ⟨i, hi, hsl⟩ : ∃ i, (i = 1 ∨ i = 2 ∨ i = 3) ∧
      (t1.node 0).ch_slotnum = spine4_slot_2_slb.getD (q i) 0 := by
    rcases i1.2.2.2.2 with h | h
    · exact absurd h htag
    · exact h
  refine ⟨t2, i, ?_, hi, by rw [n2]; exact hsl, by rw [n2]; exact i1.1, by rw [n2]; exact i1.2.1,
    fun x hx => by rw [n2]; exact i1.2.2.1 x hx, by rw [c2]; exact i1.2.2.2.1⟩
  unfold fill_voltaire_chassis_record
  simp only [hf, Bool.false_eq_true, if_false, k3, k4, k9, decide_True, if_true, h1, h2]

/-- The line loop of the tagging of line board `x` of the scenario ends at the port
`q x`, with the call of `get_slb_slot` for the spine port `p x`. -/
theorem fill_line_loop_genD {p q : Nat → Nat} (hw : genD_wired p q) (x : Nat)
    (hx : x = 1 ∨ x = 2 ∨ x = 3) (s : St) :
    ∀ l : List Nat, q x ∈ l →
      fill_line_loop stdConfig (genD p q) x s l = get_slb_slot stdConfig (genD p q) s x (p x) := by
  have hx0 : x ≠ 0 := by rcases hx with rfl | rfl | rfl <;> omega
  obtain ⟨m1, m2, m3⟩ := genD_line_link hw x hx
  have hq : q x ≤ 12 := by
    obtain ⟨-, ⟨b1, b2, b3, b4, b5, b6⟩, -⟩ := hw
    rcases hx with rfl | rfl | rfl <;> omega
  intro l
  induction l with
  | nil => intro h; exact absurd h (List.not_mem_nil _)
  | cons a as ih =>
    intro h
    unfold fill_line_loop
    rw [genD_line_port p q x a hx0]
    by_cases ha : a = q x
    · subst ha
      rw [if_pos rfl]
      simp only [m1, m3]
      rw [if_neg (by omega)]
    · rw [if_neg ha]
      simp only []
      exact ih (by
        rcases List.mem_cons.mp h with h | h
        · exact absurd h.symm ha
        · exact h)

/-- The tagging of line board `x` of the scenario: it gets the slot number and the
sub-chip number that the line tables have for the spine port `p x`. -/
theorem fill_line_genD {p q : Nat → Nat} (hw : genD_wired p q) (x : Nat)
    (hx : x = 1 ∨ x = 2 ∨ x = 3) (s : St) (hf : (s.node x).ch_found = false) :
    ∃ t, fill_voltaire_chassis_record stdConfig (genD p q) s x = .ok t ∧
      (t.node x).ch_slotnum = line_slot_2_sfb4.getD (p x) 0 ∧
      (t.node x).ch_anafanum = anafa_line_slot_2_sfb4.getD (p x) 0 ∧
      (t.node x).ch_found = true ∧ (t.node x).chassis = (s.node x).chassis ∧
      (∀ y, y ≠ x → t.node y = s.node y) ∧ t.nchassis = s.nchassis := by
  have hx0 : x ≠ 0 := by rcases hx with rfl | rfl | rfl <;> omega
  obtain ⟨k1, k2, k3, k4, k5, k6, k7, k8, k9, k10⟩ := genD_kinds p q x
  obtain ⟨-, -, -, -, z5, z6, z7, z8, -, -⟩ := genD_kinds p q 0
  obtain ⟨l1, l2, l3⟩ := genD_spine_link hw x hx
  have hpq : (1 ≤ p x ∧ p x ≤ 24) ∧ 1 ≤ q x ∧ q x ≤ 12 := by
    obtain ⟨⟨a1, a2, a3, a4, a5, a6⟩, ⟨b1, b2, b3, b4, b5, b6⟩, -⟩ := hw
    rcases hx with rfl | rfl | rfl <;> omega
  obtain ⟨t1, t2, -⟩ := line_flat_range hpq.1.1 hpq.1.2
  have hloop := fill_line_loop_genD hw x hx (s.modNode x fun r => { r with ch_found := true })
    (upto 24) (mem_upto.mpr ⟨hpq.2.1, by omega⟩)
  have hslb : get_slb_slot stdConfig (genD p q)
      (s.modNode x fun r => { r with ch_found := true }) x (p x) =
      .ok ((s.modNode x fun r => { r with ch_found := true }).tag x LINE_CS ISR2004_CT
        (line_slot_2_sfb4.getD (p x) 0) (anafa_line_slot_2_sfb4.getD (p x) 0)) := by
    unfold get_slb_slot
    simp only [l2, l3, z5, z6, z7, z8, t1, t2, Bool.false_eq_true, if_false, decide_True,
      if_true]
  obtain ⟨t2, h2, n2, c2, -⟩ := portmap_loop_total stdConfig (genD p q) x (genD_ports p q x)
    (upto 24) ((s.modNode x fun r => { r with ch_found := true }).tag x LINE_CS ISR2004_CT
        (line_slot_2_sfb4.getD (p x) 0) (anafa_line_slot_2_sfb4.getD (p x) 0))
  refine ⟨t2, ?_, ?_, ?_, ?_, ?_, ?_, ?_⟩
  · unfold fill_voltaire_chassis_record
    simp only [hf, Bool.false_eq_true, if_false, k3, k4, k9, k10, hx0, decide_False,
      ne_eq, not_false_eq_true, decide_True, if_true, hloop, hslb, h2]
  · rw [n2, tag_node_same]
  · rw [n2, tag_node_same]
  · rw [n2, tag_found]; exact modNode_found_same s x
  · rw [n2, tag_node_same]; simp [St.modNode]
  · intro y hy; rw [n2, tag_node_other _ _ _ _ _ _ _ hy]; simp [St.modNode, hy]
  · rw [c2]; rfl

theorem genD_flat_inj {p q : Nat → Nat} (hw : genD_wired p q) {x y : Nat}
    (hx : x = 1 ∨ x = 2 ∨ x = 3) (hy : y = 1 ∨ y = 2 ∨ y = 3)
    (h : line_flat (p x) = line_flat (p y)) : x = y := by
  obtain ⟨-, -, d1, d2, d3⟩ := hw
  rcases hx with rfl | rfl | rfl <;> rcases hy with rfl | rfl | rfl <;>
    first | rfl | exact absurd h d1 | exact absurd h d2 | exact absurd h d3 |
      exact absurd h.symm d1 | exact absurd h.symm d2 | exact absurd h.symm d3

theorem get_line_index_genD {p q : Nat → Nat} (hw : genD_wired p q) {sl : Nat} {s : St}
    (hs : GenDState p sl s) (i : Nat) (hi : i = 1 ∨ i = 2 ∨ i = 3) :
    get_line_index stdConfig s i = .ok (line_flat (p i)) := by
  obtain ⟨e1, e2, -⟩ := hs.2.2.2.2.2.1 i hi
  have hp : 1 ≤ p i ∧ p i ≤ 24 := by
    obtain ⟨⟨a1, a2, a3, a4, a5, a6⟩, -, -⟩ := hw
    rcases hi with rfl | rfl | rfl <;> omega
  obtain ⟨-, -, r1, r2, r3, r4⟩ := line_flat_range hp.1 hp.2
  unfold get_line_index line_flat
  simp only [e1, e2]
  rw [if_neg (by simp only [stdConfig]; omega)]
  congr 1
  omega

theorem get_spine_index_genD {p q : Nat → Nat} {sl : Nat} {s : St}
    (hs : GenDState p sl s) (h1 : 1 ≤ sl) (h2 : sl ≤ 4) :
    get_spine_index stdConfig (genD p q) s 0 = .ok sl := by
  obtain ⟨-, -, -, -, -, k6, k7, -, -, -⟩ := genD_kinds p q 0
  unfold get_spine_index
  simp only [k6, k7, Bool.or_self, Bool.false_eq_true, if_false, hs.2.2.2.1]
  rw [if_neg (by simp only [stdConfig]; omega)]
  simp

/-- One turn of the loop over the ports of the spine: it returns, keeps the state
of the scenario, and puts the line board at the far end of port `a` into the line
array. -/
theorem spines_port_step_genD {p q : Nat → Nat} (hw : genD_wired p q) {sl : Nat} (s : St)
    (a : Nat) (hs : GenDState p sl s) :
    ∃ t, spines_port_step stdConfig (genD p q) 0 0 s a = .ok t ∧ GenDState p sl t ∧
      (∀ i, (i = 1 ∨ i = 2 ∨ i = 3) → a = p i →
        (t.chassis 0).linenode (line_flat (p i)) = some i) ∧
      (∀ j y, (s.chassis 0).linenode j = some y → (t.chassis 0).linenode j = some y) ∧
      (GenDFull p s → t = s) := by
  unfold spines_port_step
  rw [genD_spine_port]
  by_cases ha : a = p 1 ∨ a = p 2 ∨ a = p 3
  · rw [if_pos ha]
    have hi : ∃ i, (i = 1 ∨ i = 2 ∨ i = 3) ∧ a = p i := by
      rcases ha with h | h | h
      · exact ⟨1, Or.inl rfl, h⟩
      · exact ⟨2, Or.inr (Or.inl rfl), h⟩
      · exact ⟨3, Or.inr (Or.inr rfl), h⟩
    obtain ⟨i, hi, rfl⟩ := hi
    obtain ⟨l1, l2, l3⟩ := genD_spine_link hw i hi
    obtain ⟨m1, m2, m3⟩ := genD_line_link hw i hi
    have hfound := (hs.2.2.2.2.2.1 i hi).2.2
    have hidx := get_line_index_genD hw hs i hi
    have hi0 : i ≠ 0 := by rcases hi with rfl | rfl | rfl <;> omega
    have same : ∀ i2, (i2 = 1 ∨ i2 = 2 ∨ i2 = 3) → p i = p i2 → i2 = i := by
      intro i2 hi2 e
      exact genD_flat_inj hw hi2 hi (by rw [e])
    simp only [l1, m2, hfound, Bool.not_true, Bool.false_eq_true, if_false]
    unfold insert_line_router
    simp only [hidx]
    cases ho : (s.chassis 0).linenode (line_flat (p i)) with
    | some y =>
      have hy := hs.2.2.2.2.2.2 _ y ho
      have : y = i := genD_flat_inj hw hy.1 hi hy.2.symm
      subst this
      simp only [Option.isSome_some, if_true]
      exact ⟨s, rfl, hs, fun i2 hi2 e => by rw [same i2 hi2 e]; exact ho, fun _ _ h => h,
        fun _ => rfl⟩
    | none =>
      simp only [Option.isSome_none, Bool.false_eq_true, if_false]
      refine ⟨_, rfl, ?_, ?_, ?_, ?_⟩
      · obtain ⟨s1, s2, s3, s4, s5, s6, s7⟩ := hs
        refine ⟨s1, by simpa [St.modNode, St.modChassis] using s2,
          fun j => by simpa [St.modNode, St.modChassis] using s3 j,
          by simpa [St.modNode, St.modChassis, Ne.symm hi0] using s4,
          by simpa [St.modNode, St.modChassis, Ne.symm hi0] using s5, fun x hx => ?_,
          fun j y hjy => ?_⟩
        · by_cases hxi : x = i
          · subst hxi; simpa [St.modNode, St.modChassis] using s6 x hx
          · simpa [St.modNode, St.modChassis, hxi] using s6 x hx
        · by_cases hj : j = line_flat (p i)
          · subst hj
            simp [St.modNode, St.modChassis] at hjy
            subst hjy
            exact ⟨hi, rfl⟩
          · exact s7 j y (by simpa [St.modNode, St.modChassis, hj] using hjy)
      · intro i2 hi2 e
        rw [same i2 hi2 e]
        simp [St.modNode, St.modChassis]
      · intro j y hjy
        have hj : j ≠ line_flat (p i) := fun e => by rw [e, ho] at hjy; exact absurd hjy (by simp)
        simpa [St.modNode, St.modChassis, hj] using hjy
      · intro hfull
        rw [hfull i hi] at ho
        exact absurd ho (by simp)
  · rw [if_neg ha]
    exact ⟨s, rfl, hs, fun i hi e => absurd (by
      rcases hi with rfl | rfl | rfl
      · exact Or.inl e
      · exact Or.inr (Or.inl e)
      · exact Or.inr (Or.inr e)) ha, fun _ _ h => h, fun _ => rfl⟩

/-- The loop over the ports of the spine puts the three line boards into the line
array. -/
theorem spines_loop_genD {p q : Nat → Nat} (hw : genD_wired p q) {sl : Nat} (s : St)
    (hs : GenDState p sl s) :
    ∃ t, loopE (spines_port_step stdConfig (genD p q) 0 0) (upto 24) s = .ok t ∧
      GenDState p sl t ∧ GenDFull p t := by
  obtain ⟨t, h, it, -, qt⟩ := loopE_total (spines_port_step stdConfig (genD p q) 0 0)
    (GenDState p sl)
    (fun a u => ∀ i, (i = 1 ∨ i = 2 ∨ i = 3) → a = p i →
      (u.chassis 0).linenode (line_flat (p i)) = some i) (upto 24)
    (fun u a _ hu => by
      obtain ⟨t, e, h1, h2, h3, -⟩ := spines_port_step_genD hw u a hu
      exact ⟨t, e, h1, h2, fun b hb i hi hbi => h3 _ _ (hb i hi hbi)⟩)
    [] s hs (fun _ hb => absurd hb (List.not_mem_nil _))
  refine ⟨t, h, it, fun i hi => qt (p i) (mem_upto.mpr ?_) i hi rfl⟩
  obtain ⟨⟨a1, a2, a3, a4, a5, a6⟩, -, -⟩ := hw
  rcases hi with rfl | rfl | rfl <;> omega

/-- One round of propagation changes nothing once the three line boards are in the
line array. -/
theorem propagate_genD {p q : Nat → Nat} (hw : genD_wired p q) {sl : Nat} (s : St)
    (hs : GenDState p sl s) (hf : GenDFull p s) (h1 : 1 ≤ sl) (h2 : sl ≤ 4) :
    propagate stdConfig (genD p q) s 0 = .ok s := by
  have hl : pass_on_lines_catch_spines stdConfig (genD p q) s 0 = .ok s := by
    apply loopE_fix
    intro j _
    unfold lines_slot_step
    cases hn : (s.chassis 0).linenode j with
    | none => rfl
    | some y =>
      obtain ⟨hy, -⟩ := hs.2.2.2.2.2.2 j y hn
      have hy0 : y ≠ 0 := by rcases hy with rfl | rfl | rfl <;> decide
      have hline := (genD_kinds p q y).2.2.2.2.2.2.2.2.2
      simp only [hline, hy0, ne_eq, not_false_eq_true, decide_True, Bool.not_true,
        Bool.false_eq_true, if_false]
      apply loopE_fix
      intro a _
      unfold lines_port_step
      rw [genD_line_port p q y a hy0]
      by_cases ha : a = q y
      · subst ha
        rw [if_pos rfl]
        obtain ⟨m1, m2, m3⟩ := genD_line_link hw y hy
        obtain ⟨l1, l2, l3⟩ := genD_spine_link hw y hy
        have hq : q y ≤ 12 := by
          obtain ⟨-, ⟨b1, b2, b3, b4, b5, b6⟩, -⟩ := hw
          rcases hy with rfl | rfl | rfl <;> omega
        simp only [m1, m3, l2, hs.2.2.2.2.1, Bool.not_true, Bool.false_eq_true, if_false]
        rw [if_neg (show ¬ q y > 12 by omega)]
        exact insert_spine_occupied stdConfig (genD p q) s 0 0 sl
          (get_spine_index_genD hs h1 h2) (by rw [hs.2.2.1 sl]; simp)
      · rw [if_neg ha]
  have hsp : pass_on_spines_catch_lines stdConfig (genD p q) s 0 = .ok s := by
    apply loopE_fix
    intro j _
    unfold spines_slot_step
    rw [hs.2.2.1 j]
    by_cases hj : j = sl
    · rw [if_pos hj]
      simp only []
      have hnp := (genD_kinds p q 0).2.2.1
      rw [hnp]
      apply loopE_fix
      intro a _
      obtain ⟨t, e, -, -, -, hfix⟩ := spines_port_step_genD hw s a hs
      rw [e, hfix hf]
    · rw [if_neg hj]
  unfold propagate
  rw [hl]
  exact hsp

/-- The building of the chassis of the scenario around its spine. -/
theorem build_chassis_genD {p q : Nat → Nat} (hw : genD_wired p q) {sl : Nat} (s : St)
    (h1 : 1 ≤ sl) (h2 : sl ≤ 4) (hn : s.nchassis = 1) (hnum : (s.chassis 0).chassisnum = 1)
    (hsp : ∀ j, (s.chassis 0).spinenode j = none) (hln : ∀ j, (s.chassis 0).linenode j = none)
    (h0 : (s.node 0).ch_slotnum = sl ∧ (s.node 0).ch_found = true)
    (hx : ∀ x, (x = 1 ∨ x = 2 ∨ x = 3) →
      (s.node x).ch_slotnum = line_slot_2_sfb4.getD (p x) 0 ∧
      (s.node x).ch_anafanum = anafa_line_slot_2_sfb4.getD (p x) 0 ∧
      (s.node x).ch_found = true) :
    ∃ t, build_chassis stdConfig (genD p q) s 0 0 = .ok t ∧ GenDState p sl t ∧
      GenDFull p t := by
  obtain ⟨-, -, hnp, -, -, k6, k7, -, -, -⟩ := genD_kinds p q 0
  have hidx : get_spine_index stdConfig (genD p q) s 0 = .ok sl := by
    unfold get_spine_index
    simp only [k6, k7, Bool.or_self, Bool.false_eq_true, if_false, h0.1]
    split_ifs with hc
    · simp only [stdConfig] at hc; omega
    · simp
  have hins : insert_spine stdConfig (genD p q) s 0 0 =
      .ok ((s.modChassis 0 fun c => { c with spinenode := upd c.spinenode sl (some 0) }).modNode
        0 fun r => { r with chassis := some 0 }) := insert_spine_new hidx (hsp sl)
  have hs1 : GenDState p sl
      ((s.modChassis 0 fun c => { c with spinenode := upd c.spinenode sl (some 0) }).modNode
        0 fun r => { r with chassis := some 0 }) := by
    refine ⟨hn, by simpa [St.modNode, St.modChassis] using hnum, fun j => ?_,
      by simpa [St.modNode, St.modChassis] using h0.1,
      by simpa [St.modNode, St.modChassis] using h0.2, fun x hx1 => ?_, fun j y hjy => ?_⟩
    · by_cases hj : j = sl
      · subst hj; simp [St.modNode, St.modChassis]
      · simp [St.modNode, St.modChassis, hj, hsp j]
    · have hx0 : x ≠ 0 := by rcases hx1 with rfl | rfl | rfl <;> decide
      simpa [St.modNode, St.modChassis, hx0] using hx x hx1
    · simp [St.modNode, St.modChassis, hln j] at hjy
  obtain ⟨s2, e2, g2, f2⟩ := spines_loop_genD hw _ hs1
  have e3 := propagate_genD hw s2 g2 f2 h1 h2
  refine ⟨pass_on_spines_interpolate_chguid stdConfig (genD p q) s2 0, ?_, ?_, ?_⟩
  · exact build_chassis_eq hnp hins e2 e3 e3
  · rcases interpolate_loop_range (genD p q) s2 0 stdConfig.SPINES_MAX_NUM 1 with
      ⟨_, e⟩ | ⟨i, n, _, _, _, _, e⟩
    · rw [pass_on_spines_interpolate_chguid, upto, e]; exact g2
    · rw [pass_on_spines_interpolate_chguid, upto, e]
      obtain ⟨s1, s2', s3, s4, s5, s6, s7⟩ := g2
      exact ⟨s1, by simpa [St.modChassis] using s2', fun j => by
        simpa [St.modChassis] using s3 j, s4, s5, s6, fun j y hjy =>
        s7 j y (by simpa [St.modChassis] using hjy)⟩
  · rcases interpolate_loop_range (genD p q) s2 0 stdConfig.SPINES_MAX_NUM 1 with
      ⟨_, e⟩ | ⟨i, n, _, _, _, _, e⟩
    · rw [pass_on_spines_interpolate_chguid, upto, e]; exact f2
    · rw [pass_on_spines_interpolate_chguid, upto, e]
      intro i hi
      simpa [St.modChassis] using f2 i hi

theorem tag_step_genD (p q : Nat → Nat) (s : St) (x : Nat) :
    tag_step stdConfig (genD p q) s x =
      fill_voltaire_chassis_record stdConfig (genD p q) s x := by
  unfold tag_step
  rw [if_pos (genD_kinds p q x).1]

/-- The first pass on the scenario. -/
theorem tag_pass_genD {p q : Nat → Nat} (hw : genD_wired p q) :
    ∃ s1 i, for_nodes stdConfig (genD p q) (tag_step stdConfig (genD p q))
        { St.init with nchassis := 0 } = .ok s1 ∧
      (i = 1 ∨ i = 2 ∨ i = 3) ∧ s1.nchassis = 0 ∧
      (s1.node 0).ch_slotnum = spine4_slot_2_slb.getD (q i) 0 ∧
      (s1.node 0).ch_found = true ∧ (s1.node 0).chassis = none ∧
      (∀ x, (x = 1 ∨ x = 2 ∨ x = 3) →
        (s1.node x).ch_slotnum = line_slot_2_sfb4.getD (p x) 0 ∧
        (s1.node x).ch_anafanum = anafa_line_slot_2_sfb4.getD (p x) 0 ∧
        (s1.node x).ch_found = true) := by
  obtain ⟨t0, i, e0, hi, a1, a2, a3, a4, a5⟩ :=
    fill_spine_genD hw { St.init with nchassis := 0 } rfl rfl
  obtain ⟨t1, e1, b1, b2, b3, b4, b5, b6⟩ := fill_line_genD hw 1 (Or.inl rfl) t0
    (by rw [a4 1 (by decide)]; rfl)
  obtain ⟨t2, e2, c1, c2, c3, c4, c5, c6⟩ := fill_line_genD hw 2 (Or.inr (Or.inl rfl)) t1
    (by rw [b5 2 (by decide), a4 2 (by decide)]; rfl)
  obtain ⟨t3, e3, d1, d2, d3, d4, d5, d6⟩ := fill_line_genD hw 3 (Or.inr (Or.inr rfl)) t2
    (by rw [c5 3 (by decide), b5 3 (by decide), a4 3 (by decide)]; rfl)
  refine ⟨t3, i, ?_, hi, by rw [d6, c6, b6, a5], ?_, ?_, ?_, ?_⟩
  · rw [for_nodes_eq _ _ _ _ (show (genD p q).maxhops_discovered ≤ stdConfig.MAXHOPS by
    show 0 ≤ 63; omega)]
    have hl : counted_nodes (genD p q) = [0, 1, 2, 3] := rfl
    rw [hl]
    exact (loopE_cons_ok _ ((tag_step_genD p q _ 0).trans e0)).trans
      ((loopE_cons_ok _ ((tag_step_genD p q _ 1).trans e1)).trans
        ((loopE_cons_ok _ ((tag_step_genD p q _ 2).trans e2)).trans
          (loopE_cons_ok _ ((tag_step_genD p q _ 3).trans e3))))
  · rw [d5 0 (by decide), c5 0 (by decide), b5 0 (by decide)]; exact a1
  · rw [d5 0 (by decide), c5 0 (by decide), b5 0 (by decide)]; exact a2
  · rw [d5 0 (by decide), c5 0 (by decide), b5 0 (by decide), a3]; rfl
  · intro x hx
    rcases hx with rfl | rfl | rfl
    · rw [d5 1 (by decide), c5 1 (by decide)]; exact ⟨b1, b2, b3⟩
    · rw [d5 2 (by decide)]; exact ⟨c1, c2, c3⟩
    · exact ⟨d1, d2, d3⟩

/-- The second pass on the scenario. -/
theorem build_pass_genD {p q : Nat → Nat} (hw : genD_wired p q) (s1 : St) (sl : Nat)
    (h1 : 1 ≤ sl) (h2 : sl ≤ 4) (hn : s1.nchassis = 0)
    (h0 : (s1.node 0).ch_slotnum = sl ∧ (s1.node 0).ch_found = true ∧
      (s1.node 0).chassis = none)
    (hx : ∀ x, (x = 1 ∨ x = 2 ∨ x = 3) →
      (s1.node x).ch_slotnum = line_slot_2_sfb4.getD (p x) 0 ∧
      (s1.node x).ch_anafanum = anafa_line_slot_2_sfb4.getD (p x) 0 ∧
      (s1.node x).ch_found = true) :
    ∃ t, for_nodes stdConfig (genD p q) (build_step stdConfig (genD p q)) (s1, 0) =
        .ok (t, 1) ∧ GenDState p sl t ∧ GenDFull p t := by
  obtain ⟨t, e, g, f⟩ := build_chassis_genD hw
    ((add_chassis s1).modChassis (current_chassis (add_chassis s1))
      fun c => { c with chassisnum := 0 + 1 }) h1 h2
    (by simp [St.modChassis, add_chassis, hn])
    (by simp [St.modChassis, add_chassis, current_chassis, hn, Chassis.zero])
    (fun j => by simp [St.modChassis, add_chassis, current_chassis, hn, Chassis.zero])
    (fun j => by simp [St.modChassis, add_chassis, current_chassis, hn, Chassis.zero])
    ⟨h0.1, h0.2.1⟩ hx
  have step0 : build_step stdConfig (genD p q) (s1, 0) 0 = .ok (t, 0 + 1) :=
    build_step_eq (genD_kinds p q 0).1 h0.2.1 h0.2.2
      ((genD_kinds p q 0).2.2.2.2.2.2.2.2.1.trans (decide_eq_true rfl)) hn e
  have stepx : ∀ (sc : St × Nat) (x : Nat), x ≠ 0 →
      build_step stdConfig (genD p q) sc x = .ok sc := fun sc x hx0 =>
    build_step_skip sc ((genD_kinds p q x).2.2.2.2.2.2.2.2.1.trans (decide_eq_false hx0))
  refine ⟨t, ?_, g, f⟩
  rw [for_nodes_eq _ _ _ _ (show (genD p q).maxhops_discovered ≤ stdConfig.MAXHOPS by
    show 0 ≤ 63; omega)]
  have hl : counted_nodes (genD p q) = [0, 1, 2, 3] := rfl
  rw [hl]
  exact (loopE_cons_ok _ step0).trans
    ((loopE_cons_ok _ (stepx _ 1 (by decide))).trans
      ((loopE_cons_ok _ (stepx _ 2 (by decide))).trans
        (loopE_cons_ok _ (stepx _ 3 (by decide)))))

/-- The last two passes change nothing on the scenario and return on a step budget
of 2. -/
theorem guid_passes_genD (p q : Nat → Nat) (sc : St × Nat) :
    guid_passes stdConfig (genD p q) 2 sc = .ok sc.1 := by
  have hc : loopE (count_step stdConfig (genD p q)) (counted_nodes (genD p q)) sc.1 =
      .ok sc.1 := by
    apply loopE_fix
    intro x _
    unfold count_step
    rw [if_pos (genD_kinds p q x).1]
  have hp : ∀ l, loopE (promote_step stdConfig (genD p q)) l (sc.1, sc.2) = .ok (sc.1, sc.2) := by
    intro l
    apply loopE_fix
    intro x _
    unfold promote_step
    rw [if_pos (genD_kinds p q x).1]
  unfold guid_passes
  rw [for_nodes_eq _ _ _ _ (show (genD p q).maxhops_discovered ≤ stdConfig.MAXHOPS by
    show 0 ≤ 63; omega), hc]
  simp only []
  rw [promote_loop_eq stdConfig (genD p q) (show (0 : Nat) < 63 by omega) 2 0 _
    (show (0 : Nat) ≤ 0 by omega) (show 0 - 0 + 2 ≤ 2 by omega), hp]

/-- The generation-D scenario with its four nodes in bucket 0, in the order spine,
line boards: `group_nodes` returns a list of exactly one chassis, with chassis number
1, in which exactly one spine slot is occupied, by the spine, and exactly three line
slots are occupied, by the three line boards, each at the index
`3 * (slot - 1) + subchip` of its slot number and sub-chip number. -/
theorem group_nodes_genD (p q : Nat → Nat) (hw : genD_wired p q) :
    ∃ sf i, group_nodes stdConfig (genD p q) 2 St.init = .ok sf ∧ (i = 1 ∨ i = 2 ∨ i = 3) ∧
      sf.nchassis = 1 ∧ (sf.chassis 0).chassisnum = 1 ∧
      (∀ j, (sf.chassis 0).spinenode j =
        if j = spine4_slot_2_slb.getD (q i) 0 then some 0 else none) ∧
      (∀ j, (sf.chassis 0).linenode j =
        if j = line_flat (p 1) then some 1 else if j = line_flat (p 2) then some 2
        else if j = line_flat (p 3) then some 3 else none) ∧
      (∀ x, (x = 1 ∨ x = 2 ∨ x = 3) →
        line_flat (p x) = 3 * ((sf.node x).ch_slotnum - 1) + (sf.node x).ch_anafanum) := by
  obtain ⟨s1, i, e1, hi, n1, a1, a2, a3, a4⟩ := tag_pass_genD hw
  have hq : 1 ≤ q i ∧ q i ≤ 12 := by
    obtain ⟨-, ⟨b1, b2, b3, b4, b5, b6⟩, -⟩ := hw
    rcases hi with rfl | rfl | rfl <;> omega
  obtain ⟨-, -, r1, r2⟩ := spine_flat_range hq.1 hq.2
  obtain ⟨t, e2, g2, f2⟩ := build_pass_genD hw s1 _ r1 r2 n1 ⟨a1, a2, a3⟩ a4
  refine ⟨t, i, ?_, hi, g2.1, g2.2.1, g2.2.2.1, fun j => ?_, fun x hx => ?_⟩
  · exact group_nodes_eq e1 e2 (guid_passes_genD p q (t, 1))
  · by_cases h1 : j = line_flat (p 1)
    · rw [if_pos h1, h1]; exact f2 1 (Or.inl rfl)
    · by_cases h2 : j = line_flat (p 2)
      · rw [if_neg h1, if_pos h2, h2]; exact f2 2 (Or.inr (Or.inl rfl))
      · by_cases h3 : j = line_flat (p 3)
        · rw [if_neg h1, if_neg h2, if_pos h3, h3]; exact f2 3 (Or.inr (Or.inr rfl))
        · rw [if_neg h1, if_neg h2, if_neg h3]
          cases hl : (t.chassis 0).linenode j with
          | none => rfl
          | some y =>
            obtain ⟨hy, e⟩ := g2.2.2.2.2.2.2 j y hl
            rcases hy with rfl | rfl | rfl
            · exact absurd e h1
            · exact absurd e h2
            · exact absurd e h3
  · obtain ⟨b1, b2, -⟩ := g2.2.2.2.2.2.1 x hx
    rw [b1, b2]
    rfl

theorem group_nodes_genD_witness :
    genD_wired (fun i => 3 * i - 2) (fun _ => 1) ∧
    (line_flat 1 = 1 ∧ line_flat 4 = 2 ∧ line_flat 7 = 4 ∧ spine4_slot_2_slb.getD 1 0 = 1) ∧
    ∃ sf i, group_nodes stdConfig (genD (fun i => 3 * i - 2) (fun _ => 1)) 2 St.init = .ok sf ∧
      (i = 1 ∨ i = 2 ∨ i = 3) ∧
      sf.nchassis = 1 ∧ (sf.chassis 0).chassisnum = 1 ∧
      (∀ j, (sf.chassis 0).spinenode j =
        if j = spine4_slot_2_slb.getD ((fun _ => 1) i) 0 then some 0 else none) ∧
      (∀ j, (sf.chassis 0).linenode j =
        if j = line_flat ((fun i => 3 * i - 2) 1) then some 1
        else if j = line_flat ((fun i => 3 * i - 2) 2) then some 2
        else if j = line_flat ((fun i => 3 * i - 2) 3) then some 3 else none) ∧
      (∀ x, (x = 1 ∨ x = 2 ∨ x = 3) →
        line_flat ((fun i => 3 * i - 2) x) =
          3 * ((sf.node x).ch_slotnum - 1) + (sf.node x).ch_anafanum) :=
  ⟨by decide, by decide, group_nodes_genD (fun i => 3 * i - 2) (fun _ => 1) (by decide)⟩

/-! ## The port-map tables (C21, C22) -/

/-- C21. Port-map tables agree with their documentation: each of the three tables
has two rows of 25 entries; for every triple (sub-chip, internal port, external port)
that the comment lists for the modules sLB-24, sLB-8 (the reduced table with the
external ports 1..8) and sLB-2024, the entry of the table of the module in row
`sub-chip - 1` at the internal port is the external port; in the table of sLB-2024
the first row maps the internal ports 13..24 to themselves and the second row maps
them to 1..12; and every entry for the internal ports 0..12 is 0. -/
theorem portmap_tables_documented :
    (∀ t ∈ [int2ext_map_slb24, int2ext_map_slb8, int2ext_map_slb2024],
      t.length = 2 ∧ ∀ r ∈ t, r.length = 25) ∧
    (∀ d ∈ doc_slb24, tbl2 int2ext_map_slb24 (d.1 - 1) d.2.1 = d.2.2) ∧
    (∀ d ∈ doc_slb8, tbl2 int2ext_map_slb8 (d.1 - 1) d.2.1 = d.2.2) ∧
    (∀ d ∈ doc_slb2024, tbl2 int2ext_map_slb2024 (d.1 - 1) d.2.1 = d.2.2) ∧
    (∀ i ∈ List.range' 13 12,
      tbl2 int2ext_map_slb2024 0 i = i ∧ tbl2 int2ext_map_slb2024 1 i + 12 = i) ∧
    (∀ t ∈ [int2ext_map_slb24, int2ext_map_slb8, int2ext_map_slb2024],
      ∀ c ∈ List.range 2, ∀ i ∈ List.range 13, tbl2 t c i = 0) := by
  refine ⟨by decide, by decide, by decide, by decide, by decide, by decide⟩

theorem portmap_tables_documented_witness :
    (1, 22, 13) ∈ doc_slb24 ∧ tbl2 int2ext_map_slb24 (1 - 1) 22 = 13 ∧
    (2, 13, 4) ∈ doc_slb8 ∧ tbl2 int2ext_map_slb8 (2 - 1) 13 = 4 ∧
    (2, 24, 12) ∈ doc_slb2024 ∧ tbl2 int2ext_map_slb2024 (2 - 1) 24 = 12 :=
  ⟨by decide, portmap_tables_documented.2.1 (1, 22, 13) (by decide),
    by decide, portmap_tables_documented.2.2.1 (2, 13, 4) (by decide),
    by decide, portmap_tables_documented.2.2.2.1 (2, 24, 12) (by decide)⟩

theorem mem_chip_ports {c p : Nat} : (c, p) ∈ chip_ports ↔ c < 2 ∧ 13 ≤ p ∧ p ≤ 24 := by
  simp only [chip_ports, List.mem_flatMap, List.mem_range, List.mem_map, List.mem_range'_1,
    Prod.mk.injEq]
  constructor
  · rintro ⟨c1, hc, p1, hp, rfl, rfl⟩
    omega
  · rintro ⟨hc, hp⟩
    exact ⟨c, hc, p, by omega, rfl, rfl⟩

/-- C22. Front-panel labels are unique on 24-port line boards: for
`int2ext_map_slb24` and for `int2ext_map_slb2024` the map from the pairs (chip `c` in
`0..1`, internal port `p` in `13..24`) to the entry `table[c][p]` takes its values in
`1..24`, is injective and reaches each of `1, ..., 24`; for `int2ext_map_slb8` it
takes its values in `1..8` and each of `1, ..., 8` is the entry of exactly three of
the 24 pairs. -/
theorem front_panel_labels :
    (∀ t, t = int2ext_map_slb24 ∨ t = int2ext_map_slb2024 →
      (∀ c p, c < 2 → 13 ≤ p → p ≤ 24 → 1 ≤ tbl2 t c p ∧ tbl2 t c p ≤ 24) ∧
      (∀ c p c1 p1, c < 2 → 13 ≤ p → p ≤ 24 → c1 < 2 → 13 ≤ p1 → p1 ≤ 24 →
        tbl2 t c p = tbl2 t c1 p1 → c = c1 ∧ p = p1) ∧
      (∀ e, 1 ≤ e → e ≤ 24 → ∃ c p, c < 2 ∧ 13 ≤ p ∧ p ≤ 24 ∧ tbl2 t c p = e)) ∧
    (∀ c p, c < 2 → 13 ≤ p → p ≤ 24 →
      1 ≤ tbl2 int2ext_map_slb8 c p ∧ tbl2 int2ext_map_slb8 c p ≤ 8) ∧
    (∀ e, 1 ≤ e → e ≤ 8 → ∃ c p, c < 2 ∧ 13 ≤ p ∧ p ≤ 24 ∧ tbl2 int2ext_map_slb8 c p = e) ∧
    (chip_ports.Nodup ∧ chip_ports.length = 24 ∧
      ∀ c p, (c, p) ∈ chip_ports ↔ c < 2 ∧ 13 ≤ p ∧ p ≤ 24) ∧
    (∀ e, 1 ≤ e → e ≤ 8 →
      (chip_ports.filter fun cp => tbl2 int2ext_map_slb8 cp.1 cp.2 = e).length = 3) := by
  have range : ∀ t, t = int2ext_map_slb24 ∨ t = int2ext_map_slb2024 ∨ t = int2ext_map_slb8 →
      ∀ (m : Nat), (∀ cp ∈ chip_ports, 1 ≤ tbl2 t cp.1 cp.2 ∧ tbl2 t cp.1 cp.2 ≤ m) →
      ∀ c p, c < 2 → 13 ≤ p → p ≤ 24 → 1 ≤ tbl2 t c p ∧ tbl2 t c p ≤ m :=
    fun t _ m h c p hc h1 h2 => h (c, p) (mem_chip_ports.mpr ⟨hc, h1, h2⟩)
  have onto : ∀ (t : List (List Nat)) (m : Nat),
      (∀ e ∈ List.range' 1 m, ∃ cp ∈ chip_ports, tbl2 t cp.1 cp.2 = e) →
      ∀ e, 1 ≤ e → e ≤ m → ∃ c p, c < 2 ∧ 13 ≤ p ∧ p ≤ 24 ∧ tbl2 t c p = e := by
    intro t m h e h1 h2
    obtain ⟨⟨c, p⟩, hm, he⟩ := h e (List.mem_range'_1.mpr ⟨h1, by omega⟩)
    obtain ⟨a, b, d⟩ := mem_chip_ports.mp hm
    exact ⟨c, p, a, b, d, he⟩
  have inj : ∀ (t : List (List Nat)), (chip_ports.map fun cp => tbl2 t cp.1 cp.2).Nodup →
      ∀ c p c1 p1, c < 2 → 13 ≤ p → p ≤ 24 → c1 < 2 → 13 ≤ p1 → p1 ≤ 24 →
        tbl2 t c p = tbl2 t c1 p1 → c = c1 ∧ p = p1 := by
    intro t h c p c1 p1 a1 a2 a3 b1 b2 b3 e
    have := List.inj_on_of_nodup_map h (mem_chip_ports.mpr ⟨a1, a2, a3⟩)
      (mem_chip_ports.mpr ⟨b1, b2, b3⟩) e
    exact Prod.mk.inj this
  refine ⟨?_, range _ (Or.inr (Or.inr rfl)) 8 (by decide), onto _ 8 (by decide),
    ⟨by decide, by decide, fun c p => mem_chip_ports⟩, ?_⟩
  · rintro t (rfl | rfl)
    · exact ⟨range _ (Or.inl rfl) 24 (by decide), inj _ (by decide), onto _ 24 (by decide)⟩
    · exact ⟨range _ (Or.inr (Or.inl rfl)) 24 (by decide), inj _ (by decide),
        onto _ 24 (by decide)⟩
  · intro e h1 h2
    interval_cases e <;> decide

theorem front_panel_labels_witness :
    (1 ≤ tbl2 int2ext_map_slb24 1 13 ∧ tbl2 int2ext_map_slb24 1 13 ≤ 24) ∧
    (∃ c p, c < 2 ∧ 13 ≤ p ∧ p ≤ 24 ∧ tbl2 int2ext_map_slb2024 c p = 7) ∧
    (chip_ports.filter fun cp => tbl2 int2ext_map_slb8 cp.1 cp.2 = 5).length = 3 :=
  ⟨(front_panel_labels.1 int2ext_map_slb24 (Or.inl rfl)).1 1 13 (by decide) (by decide)
      (by decide),
    (front_panel_labels.1 int2ext_map_slb2024 (Or.inr rfl)).2.2 7 (by decide) (by decide),
    front_panel_labels.2.2.2.2 5 (by decide) (by decide)⟩

/-! ## Spine slots of the twelve-slot generations (C23) -/

/-- A node of the 9288 or 2012 generation is not of the 9096 generation. -/
theorem big_not_9096 {K : Config} (hK : spines_apart K) (g : Graph) (node : NodeId)
    (h : is_spine_9288 K g node = true ∨ is_spine_2012 K g node = true) :
    is_spine_9096 K g node = false := by
  cases h9 : is_spine_9096 K g node with
  | false => rfl
  | true =>
    obtain ⟨a, b⟩ := small_not_big hK g node (Or.inl h9)
    rcases h with h | h
    · rw [a] at h; exact absurd h (by simp)
    · rw [b] at h; exact absurd h (by simp)

/-- The tagging of a spine of the 9288 or 2012 generation through a line-board port
with a number in `1..12`: `get_sfb_slot` returns, and `get_spine_index` then returns
the port number. -/
theorem get_sfb_slot_index12 {K : Config} (hK : spines_apart K) (hmax : 12 ≤ K.SPINES_MAX_NUM)
    (g : Graph) (s : St) (node : NodeId) (lp : PortId)
    (hn : is_spine_9288 K g node = true ∨ is_spine_2012 K g node = true)
    (h1 : 1 ≤ (g.port lp).portnum) (h2 : (g.port lp).portnum ≤ 12) :
    ∃ t, get_sfb_slot K g s node lp = .ok t ∧
      get_spine_index K g t node = .ok (g.port lp).portnum := by
  have h9 := big_not_9096 hK g node hn
  obtain ⟨sl, t3⟩ := tbl_total (show (g.port lp).portnum < spine12_slot_2_slb.length by
    simp only [spine12_slot_2_slb, List.length_cons, List.length_nil]; omega)
  obtain ⟨an, t4⟩ := tbl_total (show (g.port lp).portnum < anafa_spine12_slot_2_slb.length by
    simp only [anafa_spine12_slot_2_slb, List.length_cons, List.length_nil]; omega)
  obtain ⟨e, a1, a2⟩ := (spine12_pair t3 t4).1 ⟨h1, h2⟩
  have hb : (is_spine_9288 K g node || is_spine_2012 K g node) = true := by
    rcases hn with h | h <;> simp [h]
  have idx : ∀ ty, get_spine_index K g (s.tag node SPINE_CS ty sl an) node =
      .ok (g.port lp).portnum := by
    intro ty
    unfold get_spine_index
    simp only [hb, if_true, tag_node_same]
    rw [if_neg (by omega)]
    congr 1
    omega
  unfold get_sfb_slot
  simp only [h9, Bool.false_eq_true, if_false, t3, t4]
  split_ifs with a b c
  · exact ⟨_, rfl, idx _⟩
  · exact ⟨_, rfl, idx _⟩
  · rcases hn with h | h
    · exact absurd h a
    · exact absurd h b
  · rcases hn with h | h
    · exact absurd h a
    · exact absurd h b

/-- C23. For a spine of the 9288 or 2012 generation that `get_sfb_slot` tags through
a line-board port with a number `p` in `1..12`, `get_spine_index` returns exactly `p`,
and `insert_spine` puts the spine into slot `p` of the spine array when that slot is
empty; so two such spines tagged through line-board ports with different numbers get
different indices.  And the map from the spine port `p` in `1..24` to the flat line
index `3 * (line_slot_2_sfb12[p] - 1) + anafa_line_slot_2_sfb12[p]` is injective.
The device ids of the 9096 and 2004 generations are taken to be different from those
of the 9288 and 2012 generations, and `SPINES_MAX_NUM` to be at least 12. -/
theorem spine12_index_is_port (K : Config) (hK : spines_apart K)
    (hmax : 12 ≤ K.SPINES_MAX_NUM) (g : Graph) (s : St) (node : NodeId) (lp : PortId)
    (hn : is_spine_9288 K g node = true ∨ is_spine_2012 K g node = true)
    (h1 : 1 ≤ (g.port lp).portnum) (h2 : (g.port lp).portnum ≤ 12) :
    (∃ t, get_sfb_slot K g s node lp = .ok t ∧
      get_spine_index K g t node = .ok (g.port lp).portnum ∧
      ∀ c, (t.chassis c).spinenode (g.port lp).portnum = none →
        ∃ u, insert_spine K g t node c = .ok u ∧
          (u.chassis c).spinenode (g.port lp).portnum = some node) ∧
    (∀ (s1 : St) (node1 : NodeId) (lp1 : PortId) (t t1 : St) (i i1 : Nat),
      (is_spine_9288 K g node1 = true ∨ is_spine_2012 K g node1 = true) →
      1 ≤ (g.port lp1).portnum → (g.port lp1).portnum ≤ 12 →
      (g.port lp).portnum ≠ (g.port lp1).portnum →
      get_sfb_slot K g s node lp = .ok t → get_sfb_slot K g s1 node1 lp1 = .ok t1 →
      get_spine_index K g t node = .ok i → get_spine_index K g t1 node1 = .ok i1 → i ≠ i1) ∧
    (∀ p p1 : Nat, 1 ≤ p → p ≤ 24 → 1 ≤ p1 → p1 ≤ 24 →
      3 * ((line_slot_2_sfb12.getD p 0 : Int) - 1) + (anafa_line_slot_2_sfb12.getD p 0 : Int) =
        3 * ((line_slot_2_sfb12.getD p1 0 : Int) - 1) +
          (anafa_line_slot_2_sfb12.getD p1 0 : Int) →
      p = p1) := by
  obtain ⟨t, e, hi⟩ := get_sfb_slot_index12 hK hmax g s node lp hn h1 h2
  refine ⟨⟨t, e, hi, fun c hc => ⟨_, insert_spine_new hi hc, ?_⟩⟩, ?_, ?_⟩
  · simp [St.modNode, St.modChassis, upd]
  · intro s1 node1 lp1 u u1 i i1 hn1 b1 b2 hne e1 e2 hi1 hi2 heq
    obtain ⟨v, f, hv⟩ := get_sfb_slot_index12 hK hmax g s1 node1 lp1 hn1 b1 b2
    rw [e] at e1
    rw [f] at e2
    simp only [Except.ok.injEq] at e1 e2
    subst e1 e2
    rw [hi] at hi1
    rw [hv] at hi2
    simp only [Except.ok.injEq] at hi1 hi2
    omega
  · intro p p1 a1 a2 b1 b2 heq
    have nd : ((List.range' 1 24).map fun a : Nat =>
        3 * ((line_slot_2_sfb12.getD a 0 : Int) - 1) +
          (anafa_line_slot_2_sfb12.getD a 0 : Int)).Nodup := by decide
    exact List.inj_on_of_nodup_map nd (List.mem_range'_1.mpr ⟨a1, by omega⟩)
      (List.mem_range'_1.mpr ⟨b1, by omega⟩) heq

theorem spine12_index_is_port_witness :
    spines_apart stdConfig ∧ 12 ≤ stdConfig.SPINES_MAX_NUM ∧
    is_spine_9288 stdConfig (spine_node stdConfig.VTR_DEVID_SFB12) 0 = true ∧
    ((spine_node stdConfig.VTR_DEVID_SFB12).port 5).portnum = 5 ∧
    ∃ t, get_sfb_slot stdConfig (spine_node stdConfig.VTR_DEVID_SFB12) St.init 0 5 = .ok t ∧
      get_spine_index stdConfig (spine_node stdConfig.VTR_DEVID_SFB12) t 0 =
        .ok ((spine_node stdConfig.VTR_DEVID_SFB12).port 5).portnum ∧
      ∀ c, (t.chassis c).spinenode ((spine_node stdConfig.VTR_DEVID_SFB12).port 5).portnum =
          none →
        ∃ u, insert_spine stdConfig (spine_node stdConfig.VTR_DEVID_SFB12) t 0 c = .ok u ∧
          (u.chassis c).spinenode ((spine_node stdConfig.VTR_DEVID_SFB12).port 5).portnum =
            some 0 :=
  ⟨by decide, by decide, by decide, rfl,
    (spine12_index_is_port stdConfig (by decide) (by decide)
      (spine_node stdConfig.VTR_DEVID_SFB12) St.init 0 5 (Or.inl (by decide)) (by decide)
      (by decide)).1⟩

/-! ## A spine without a link to a switch (C24) -/

/-- A loop that returns and visits `a` ends in a state with `Q` when every turn that
returns keeps `I` and, once it holds, `Q`, and the turn for `a` establishes `Q`. -/
theorem loopE_reach {σ α : Type} (f : σ → α → Except Err σ) (I Q : σ → Prop) (a : α)
    (hI : ∀ s b t, I s → f s b = .ok t → I t ∧ (Q s → Q t))
    (hQ : ∀ s t, I s → f s a = .ok t → Q t) :
    ∀ (l : List α) (s t : σ), I s → (a ∈ l ∨ Q s) → loopE f l s = .ok t → I t ∧ Q t := by
  intro l
  induction l with
  | nil =>
    intro s t hs ha h
    simp only [loopE, Except.ok.injEq] at h
    subst h
    rcases ha with ha | ha
    · exact absurd ha (List.not_mem_nil _)
    · exact ⟨hs, ha⟩
  | cons b bs ih =>
    intro s t hs ha h
    simp only [loopE] at h
    cases hb : f s b with
    | error e => rw [hb] at h; exact absurd h (by simp)
    | ok s1 =>
      rw [hb] at h
      obtain ⟨i1, q1⟩ := hI s b s1 hs hb
      refine ih s1 t i1 ?_ h
      rcases ha with ha | ha
      · rcases List.mem_cons.mp ha with rfl | ha
        · exact Or.inr (hQ s s1 hs hb)
        · exact Or.inl ha
      · exact Or.inr (q1 ha)

/-- A call of `get_router_slot` changes the record of the node it is called for
only. -/
theorem get_router_slot_other {K : Config} {g : Graph} {s t : St} {node : NodeId}
    {sp : PortId} (h : get_router_slot K g s node sp = .ok t) (u : NodeId) (hne : u ≠ node) :
    t.node u = s.node u := by
  obtain ⟨ty, sl, an, rfl, -⟩ := get_router_slot_vals h
  rw [tag_node_other _ _ _ _ _ _ _ hne]
  simp [St.modNode, upd, hne]

/-- The tagging of a node `n` leaves the record of a spine `u` without a link to a
switch as it is, but for the processed flag, which it sets when `n` is `u`. -/
theorem fill_voltaire_spine_record {K : Config} {g : Graph} {u : NodeId}
    (hu : untagged_spine K g u) {s t : St} {n : NodeId}
    (h : fill_voltaire_chassis_record K g s n = .ok t) :
    (t.node u = s.node u ∧ (n = u → (s.node u).ch_found = true)) ∨
    (n = u ∧ t.node u = { s.node u with ch_found := true }) := by
  obtain ⟨-, hty, hr, hsp, hl⟩ := hu
  unfold fill_voltaire_chassis_record at h
  split at h
  · rename_i hf
    simp only [Except.ok.injEq] at h
    subst h
    exact Or.inl ⟨rfl, fun e => e ▸ hf⟩
  · simp only [] at h
    split at h
    · exact absurd h (by simp)
    · rename_i s1 htag
      have h1 : s1.node u = (s.modNode n fun r => { r with ch_found := true }).node u := by
        split at htag
        · rename_i hrn
          have hne : u ≠ n := fun e => by rw [← e, hr] at hrn; exact absurd hrn (by simp)
          refine loopE_inv
            (fun w => w.node u = (s.modNode n fun r => { r with ch_found := true }).node u) _ _
            (fun w p v _ hw hv => ?_) _ _ rfl htag
          unfold fill_router_step at hv
          split at hv
          · exact absurd hv (by simp)
          · simp only [Except.ok.injEq] at hv; exact hv ▸ hw
          · split at hv
            · exact absurd hv (by simp)
            · split at hv
              · rw [get_router_slot_other hv u hne]; exact hw
              · simp only [Except.ok.injEq] at hv; exact hv ▸ hw
        · split at htag
          · refine loopE_inv
              (fun w => w.node u = (s.modNode n fun r => { r with ch_found := true }).node u) _ _
              (fun w p v hp hw hv => ?_) _ _ rfl htag
            unfold fill_spine_step at hv
            split at hv
            · exact absurd hv (by simp)
            · simp only [Except.ok.injEq] at hv; exact hv ▸ hw
            · rename_i port hport
              split at hv
              · simp only [Except.ok.injEq] at hv; exact hv ▸ hw
              · rename_i rp hrp
                simp only [] at hv
                split at hv
                · rename_i hrt
                  split at hv
                  · have hne : u ≠ (g.port rp).node := fun e => hrt (e ▸ hty)
                    rw [get_router_slot_other hv u hne]; exact hw
                  · simp only [Except.ok.injEq] at hv; exact hv ▸ hw
                · rename_i hrt
                  have hne : u ≠ n := fun e => by
                    subst e
                    exact hl p port rp (mem_upto.mp hp).1 (mem_upto.mp hp).2 hport hrp
                      (by simpa using hrt)
                  split at hv
                  · obtain ⟨ty, sl, an, rfl, -⟩ := get_sfb_slot_vals hv
                    rw [tag_node_other _ _ _ _ _ _ _ hne]; exact hw
                  · simp only [Except.ok.injEq] at hv; exact hv ▸ hw
          · rename_i hsn
            split at htag
            · have hne : u ≠ n := fun e => by rw [← e, hsp] at hsn; exact absurd rfl hsn
              have : ∀ ps : List Nat, ∀ w, fill_line_loop K g n w ps = .ok s1 →
                  s1.node u = w.node u := by
                intro ps
                induction ps with
                | nil =>
                  intro w hw
                  simp only [fill_line_loop, Except.ok.injEq] at hw
                  rw [hw]
                | cons p ps ih =>
                  intro w hw
                  unfold fill_line_loop at hw
                  split at hw
                  · exact absurd hw (by simp)
                  · exact ih w hw
                  · split at hw
                    · exact ih w hw
                    · split at hw
                      · exact ih w hw
                      · obtain ⟨ty, sl, an, rfl, -⟩ := get_slb_slot_vals hw
                        rw [tag_node_other _ _ _ _ _ _ _ hne]
              exact this _ _ htag
            · simp only [Except.ok.injEq] at htag; rw [htag]
      have h2 : t.node u = s1.node u := by
        refine loopE_inv (fun w => w.node u = s1.node u) _ _ (fun w p v _ hw hv => ?_) _ _ rfl h
        unfold fill_portmap_step at hv
        split at hv
        · exact absurd hv (by simp)
        · simp only [Except.ok.injEq] at hv; exact hv ▸ hw
        · simp only [Except.ok.injEq] at hv
          rw [← hv, (voltaire_portmap_frame K g w _).1]; exact hw
      by_cases hnu : n = u
      · subst hnu
        refine Or.inr ⟨rfl, ?_⟩
        rw [h2, h1]
        simp [St.modNode, upd]
      · refine Or.inl ⟨?_, fun e => absurd e hnu⟩
        rw [h2, h1]
        simp [St.modNode, upd, Ne.symm hnu]

/-- Both index functions take the fatal path for a node with the slot number 0 and
the sub-chip number 0. -/
theorem get_index_blank (K : Config) (g : Graph) {s : St} {u : NodeId} (hb : Blank s u) :
    get_line_index K s u = .error .internalError ∧
    get_spine_index K g s u = .error .internalError := by
  obtain ⟨h1, h2, -⟩ := hb
  constructor
  · unfold get_line_index
    simp only [h1, h2]
    rw [if_pos (Or.inr (by norm_num))]
  · unfold get_spine_index
    simp only [h1, h2]
    split_ifs with a b b
    · rfl
    · exact absurd (Or.inr (by norm_num)) b
    · rfl
    · exact absurd (Or.inr (by norm_num)) b

theorem seeded_blank {s : St} {u : NodeId} (k : Nat) (hb : Blank s u) : Blank (seeded s k) u :=
  hb

/-- The turn of the second pass for a processed spine with the slot number 0 and
without a chassis: it appends a chassis, and the call of `build_chassis` for the
spine and that chassis takes the fatal path of `get_spine_index`. -/
theorem build_step_blank {K : Config} {g : Graph} {s : St} {u : NodeId} (k : Nat)
    (hv : (g.node u).vendid = K.VTR_VENDOR_ID) (hsp : is_spine K g u = true)
    (hb : Blank s u) (hf : (s.node u).ch_found = true) :
    get_spine_index K g (seeded s k) u = .error .internalError ∧
    insert_spine K g (seeded s k) u (current_chassis (seeded s k)) = .error .internalError ∧
    build_chassis K g (seeded s k) u (current_chassis (seeded s k)) = .error .internalError ∧
    build_step K g (s, k) u = .error .internalError := by
  have e1 := (get_index_blank K g (seeded_blank k hb)).2
  have e2 : insert_spine K g (seeded s k) u (current_chassis (seeded s k)) =
      .error .internalError := by
    unfold insert_spine; rw [e1]
  have e3 : build_chassis K g (seeded s k) u (current_chassis (seeded s k)) =
      .error .internalError := by
    unfold build_chassis; rw [e2]
  refine ⟨e1, e2, e3, ?_⟩
  have hnum : has_numbered_chassis s u = false := by
    unfold has_numbered_chassis; rw [hb.2.2]
  unfold build_step
  rw [if_neg (not_not.mpr hv)]
  simp only [hf, hnum, hsp, Bool.not_true, Bool.or_self, Bool.false_eq_true, if_false]
  unfold seeded at e3
  rw [e3]

/-- The writes of the second pass keep a processed node with the slot number 0 and
the sub-chip number 0 as it is: no chassis takes it. -/
theorem blank_buildClosed (K : Config) (g : Graph) (u : NodeId) :
    BuildClosed K g fun sc => Blank sc.1 u ∧ (sc.1.node u).ch_found = true := by
  refine ⟨fun s k h => h, fun s k c node i h _ _ hi _ => ?_, fun s k c node i h _ _ hi _ => ?_,
    fun s k c v h _ => h⟩
  · have hne : u ≠ node := fun e => by
      subst e
      rw [(get_index_blank K g h.1).1] at hi
      exact absurd hi (by simp)
    simpa [Blank, St.modNode, St.modChassis, upd, hne] using h
  · have hne : u ≠ node := fun e => by
      subst e
      rw [(get_index_blank K g h.1).2] at hi
      exact absurd hi (by simp)
    simpa [Blank, St.modNode, St.modChassis, upd, hne] using h

/-- The first pass, when it returns, leaves a visited spine without a link to a
switch processed, with the slot number 0, the sub-chip number 0 and no chassis. -/
theorem tag_pass_blank {K : Config} {g : Graph} {u : NodeId} (hu : untagged_spine K g u)
    {l : List NodeId} (hv : u ∈ l) {s s1 : St} (hb : Blank s u)
    (h : loopE (tag_step K g) l s = .ok s1) : Blank s1 u ∧ (s1.node u).ch_found = true := by
  have step : ∀ (w : St) (n : NodeId) (v : St), tag_step K g w n = .ok v →
      (v.node u = w.node u ∧ (n = u → (w.node u).ch_found = true)) ∨
      (n = u ∧ v.node u = { w.node u with ch_found := true }) := by
    intro w n v hwv
    unfold tag_step at hwv
    split at hwv
    · exact fill_voltaire_spine_record hu hwv
    · rename_i hnv
      simp only [Except.ok.injEq] at hwv
      subst hwv
      exact Or.inl ⟨rfl, fun e => absurd (e ▸ hu.1) hnv⟩
  refine loopE_reach (tag_step K g) (fun w => Blank w u) (fun w => (w.node u).ch_found = true) u
    (fun w n v hw hwv => ?_) (fun w v hw hwv => ?_) l s s1 hb (Or.inl hv) h
  · show Blank v u ∧ ((w.node u).ch_found = true → (v.node u).ch_found = true)
    rcases step w n v hwv with ⟨e, -⟩ | ⟨-, e⟩
    · unfold Blank; rw [e]; exact ⟨hw, fun q => q⟩
    · unfold Blank; rw [e]; exact ⟨hw, fun _ => rfl⟩
  · show (v.node u).ch_found = true
    rcases step w u v hwv with ⟨e, q⟩ | ⟨-, e⟩
    · rw [e]; exact q rfl
    · rw [e]

/-- The second pass does not return when it visits a processed spine with the slot
number 0, the sub-chip number 0 and no chassis. -/
theorem build_pass_blank {K : Config} {g : Graph} {u : NodeId}
    (hv : (g.node u).vendid = K.VTR_VENDOR_ID) (hsp : is_spine K g u = true)
    {l : List NodeId} (hl : u ∈ l) {sc tc : St × Nat} (hb : Blank sc.1 u)
    (hf : (sc.1.node u).ch_found = true) (h : loopE (build_step K g) l sc = .ok tc) : False := by
  refine (loopE_reach (build_step K g) (fun w => Blank w.1 u ∧ (w.1.node u).ch_found = true)
    (fun _ => False) u (fun w n v hw hwv => ⟨build_step_closed (blank_buildClosed K g u) hwv hw,
      fun q => q⟩) (fun w v hw hwv => ?_) l sc tc ⟨hb, hf⟩ (Or.inl hl) h).2
  rw [(build_step_blank w.2 hv hsp hw.1 hw.2).2.2.2] at hwv
  exact absurd hwv (by simp)

/-- The spine of `unlinked_node`, whose one port has no link, is a spine without a
link to a switch. -/
theorem unlinked_spine_untagged :
    untagged_spine stdConfig (unlinked_node 2 stdConfig.VTR_DEVID_SFB4) 0 :=
  ⟨rfl, rfl, by decide, by decide, fun _ _ _ _ _ _ h => by simp [unlinked_node] at h⟩

/-- The spine of `stray_line_fabric`, which has no port, is a spine without a link to
a switch. -/
theorem stray_spine_untagged : untagged_spine stdConfig stray_line_fabric 0 := by
  refine ⟨rfl, rfl, by decide, by decide, fun a port rp h1 h2 h3 _ => ?_⟩
  have h2 : a ≤ 4 := h2
  interval_cases a <;> simp [port_at, stray_line_fabric, voltaire_fabric] at h3

/-- C24 (as amended). Untagged spine is fatal: for every fabric whose buckets
`0..maxhops_discovered` hold a Voltaire switch `u` of a spine model, not of a router
model, that has no link to a switch-type node, and every state in which `u` has the
slot number 0, the sub-chip number 0 and no chassis: the first pass, when it returns,
leaves `u` processed with the slot number 0; the turn of the second pass for `u` in
such a state appends a chassis and calls `build_chassis` for `u`, which ends on the
fatal path of `get_spine_index`; `group_nodes` does not return, whatever the step
budget; and it ends on that fatal path when the first pass and the turns of the
second pass for the nodes before `u` return. -/
theorem untagged_spine_fatal (K : Config) (g : Graph) (u : NodeId) (s0 : St)
    (hu : untagged_spine K g u) (hv : u ∈ counted_nodes g) (hb : Blank s0 u) :
    (∀ s1, for_nodes K g (tag_step K g) { s0 with nchassis := 0 } = .ok s1 →
      (s1.node u).ch_slotnum = 0 ∧ (s1.node u).ch_anafanum = 0 ∧
      (s1.node u).chassis = none ∧ (s1.node u).ch_found = true) ∧
    (∀ s k, Blank s u → (s.node u).ch_found = true →
      (seeded s k).nchassis = s.nchassis + 1 ∧
      get_spine_index K g (seeded s k) u = .error .internalError ∧
      build_chassis K g (seeded s k) u (current_chassis (seeded s k)) =
        .error .internalError ∧
      build_step K g (s, k) u = .error .internalError) ∧
    (∀ fuel, ∃ e, group_nodes K g fuel s0 = .error e) ∧
    (∀ A B s1 sa, counted_nodes g = A ++ u :: B →
      for_nodes K g (tag_step K g) { s0 with nchassis := 0 } = .ok s1 →
      loopE (build_step K g) A (s1, 0) = .ok sa →
      ∀ fuel, group_nodes K g fuel s0 = .error .internalError) := by
  have p1 : ∀ s1, for_nodes K g (tag_step K g) { s0 with nchassis := 0 } = .ok s1 →
      Blank s1 u ∧ (s1.node u).ch_found = true := fun s1 h1 =>
    tag_pass_blank hu hv (show Blank { s0 with nchassis := 0 } u from hb) (for_nodes_flat h1).1
  refine ⟨fun s1 h1 => ?_, fun s k hs hf => ?_, fun fuel => ?_, fun A B s1 sa hsplit h1 hA fuel => ?_⟩
  · obtain ⟨⟨a, b, c⟩, d⟩ := p1 s1 h1
    exact ⟨a, b, c, d⟩
  · obtain ⟨a, -, c, d⟩ := build_step_blank k hu.1 hu.2.2.2.1 hs hf
    exact ⟨rfl, a, c, d⟩
  · cases hgn : group_nodes K g fuel s0 with
    | error e => exact ⟨e, rfl⟩
    | ok sf =>
      obtain ⟨s1, sc2, -, -, -, h1, h2, -, -⟩ := group_nodes_passes hgn
      obtain ⟨b1, f1⟩ := p1 s1 h1
      exact (build_pass_blank hu.1 hu.2.2.2.1 hv (show Blank (s1, 0).1 u from b1) f1
        (for_nodes_flat h2).1).elim
  · obtain ⟨b1, f1⟩ := p1 s1 h1
    have ha : Blank sa.1 u ∧ (sa.1.node u).ch_found = true :=
      loopE_inv (fun w : St × Nat => Blank w.1 u ∧ (w.1.node u).ch_found = true) _ _
        (fun w n v _ hw hwv => build_step_closed (blank_buildClosed K g u) hwv hw) _ _
        ⟨b1, f1⟩ hA
    have hstep := (build_step_blank sa.2 hu.1 hu.2.2.2.1 ha.1 ha.2).2.2.2
    have h2 : for_nodes K g (build_step K g) (s1, 0) = .error .internalError := by
      rw [for_nodes_eq K g _ _ (for_nodes_flat h1).2, hsplit, loopE_append, hA]
      simp only [loopE, hstep]
    unfold group_nodes voltaire_passes
    simp only [h1, h2]

theorem untagged_spine_fatal_witness :
    untagged_spine stdConfig (unlinked_node 2 stdConfig.VTR_DEVID_SFB4) 0 ∧
    0 ∈ counted_nodes (unlinked_node 2 stdConfig.VTR_DEVID_SFB4) ∧ Blank St.init 0 ∧
    group_nodes stdConfig (unlinked_node 2 stdConfig.VTR_DEVID_SFB4) 2 St.init =
      .error .internalError :=
  ⟨unlinked_spine_untagged, by decide, ⟨rfl, rfl, rfl⟩,
    (untagged_spine_fatal stdConfig (unlinked_node 2 stdConfig.VTR_DEVID_SFB4) 0 St.init
      unlinked_spine_untagged (by decide) ⟨rfl, rfl, rfl⟩).2.2.2 [] []
      (run (for_nodes stdConfig (unlinked_node 2 stdConfig.VTR_DEVID_SFB4)
        (tag_step stdConfig (unlinked_node 2 stdConfig.VTR_DEVID_SFB4)) St.init))
      (run (for_nodes stdConfig (unlinked_node 2 stdConfig.VTR_DEVID_SFB4)
        (tag_step stdConfig (unlinked_node 2 stdConfig.VTR_DEVID_SFB4)) St.init), 0)
      rfl rfl rfl 2⟩

/-- C24 as stated fails on a fabric in which another fatal path comes first: in
`stray_line_fabric` node 0 is a spine without any link, yet `group_nodes` ends in the
first pass on the fatal path "Unexpected node found" of `get_slb_slot`, which the
tagging of the line board reaches through its link to a switch of another vendor; it
does not reach `get_spine_index`. -/
theorem untagged_spine_other_exit :
    untagged_spine stdConfig stray_line_fabric 0 ∧ 0 ∈ counted_nodes stray_line_fabric ∧
    Blank St.init 0 ∧
    fill_voltaire_chassis_record stdConfig stray_line_fabric
      (run (fill_voltaire_chassis_record stdConfig stray_line_fabric St.init 0)) 1 =
        .error .unexpectedNode ∧
    group_nodes stdConfig stray_line_fabric 2 St.init = .error .unexpectedNode :=
  ⟨stray_spine_untagged, by decide, ⟨rfl, rfl, rfl⟩, rfl, rfl⟩

/-! ## The generation-D scenario in any bucket layout (C12) -/

/-- The line loop of the tagging reads the nodes and the ports of the fabric only,
not its buckets. -/
theorem fill_line_loop_laid (K : Config) (g : Graph) (nd : Nat → List NodeId) (mh : Nat)
    (node : NodeId) : ∀ (ps : List Nat) (s : St),
      fill_line_loop K { g with nodesdist := nd, maxhops_discovered := mh } node s ps =
        fill_line_loop K g node s ps := by
  intro ps
  induction ps with
  | nil => intro s; rfl
  | cons p ps ih =>
    intro s
    unfold fill_line_loop
    simp only [ih]
    rfl

/-- The body of the first pass reads the nodes and the ports of the fabric only. -/
theorem tag_step_laid (K : Config) (g : Graph) (nd : Nat → List NodeId) (mh : Nat) :
    tag_step K { g with nodesdist := nd, maxhops_discovered := mh } = tag_step K g := by
  funext s x
  unfold tag_step fill_voltaire_chassis_record
  simp only [fill_line_loop_laid]
  rfl

theorem interpolate_loop_laid (g : Graph) (nd : Nat → List NodeId) (mh : Nat) (c : ChassisId) :
    ∀ (l : List Nat) (s : St),
      interpolate_loop { g with nodesdist := nd, maxhops_discovered := mh } s c l =
        interpolate_loop g s c l := by
  intro l
  induction l with
  | nil => intro s; rfl
  | cons i l ih =>
    intro s
    unfold interpolate_loop
    simp only [ih]

/-- The body of the second pass reads the nodes and the ports of the fabric only. -/
theorem build_step_laid (K : Config) (g : Graph) (nd : Nat → List NodeId) (mh : Nat) :
    build_step K { g with nodesdist := nd, maxhops_discovered := mh } = build_step K g := by
  funext sc x
  unfold build_step build_chassis pass_on_spines_interpolate_chguid
  simp only [interpolate_loop_laid]
  rfl

/-- The first pass on the scenario, with the four nodes visited in any order. -/
theorem tag_list_genD {p q : Nat → Nat} (hw : genD_wired p q) (l : List NodeId)
    (hl : ∀ x, x ∈ l ↔ x ≤ 3) :
    ∃ s1 i, loopE (tag_step stdConfig (genD p q)) l { St.init with nchassis := 0 } = .ok s1 ∧
      (i = 1 ∨ i = 2 ∨ i = 3) ∧ s1.nchassis = 0 ∧
      (s1.node 0).ch_slotnum = spine4_slot_2_slb.getD (q i) 0 ∧
      (s1.node 0).ch_found = true ∧ (s1.node 0).chassis = none ∧
      (∀ x, (x = 1 ∨ x = 2 ∨ x = 3) →
        (s1.node x).ch_slotnum = line_slot_2_sfb4.getD (p x) 0 ∧
        (s1.node x).ch_anafanum = anafa_line_slot_2_sfb4.getD (p x) 0 ∧
        (s1.node x).ch_found = true) := by
  obtain ⟨t, h, ⟨i1, i2, i3, i4, i5⟩, -, qt⟩ := loopE_total (tag_step stdConfig (genD p q))
    (fun u => u.nchassis = 0 ∧ (∀ x, (u.node x).chassis = none) ∧
      (∀ x, (u.node x).ch_found = false → (u.node x).ch_type = 0) ∧
      ((u.node 0).ch_found = true → ∃ i, (i = 1 ∨ i = 2 ∨ i = 3) ∧
        (u.node 0).ch_slotnum = spine4_slot_2_slb.getD (q i) 0) ∧
      (∀ x, (x = 1 ∨ x = 2 ∨ x = 3) → (u.node x).ch_found = true →
        (u.node x).ch_slotnum = line_slot_2_sfb4.getD (p x) 0 ∧
        (u.node x).ch_anafanum = anafa_line_slot_2_sfb4.getD (p x) 0))
    (fun a u => (u.node a).ch_found = true) l
    (fun u (a : Nat) ha hu => by
      obtain ⟨u1, u2, u3, u4, u5⟩ := hu
      rw [tag_step_genD]
      cases hfa : (u.node a).ch_found with
      | true =>
        refine ⟨u, ?_, ⟨u1, u2, u3, u4, u5⟩, hfa, fun b hb => hb⟩
        unfold fill_voltaire_chassis_record
        rw [if_pos hfa]
      | false =>
        have ha3 : a ≤ 3 := (hl a).mp ha
        by_cases ha0 : a = 0
        · subst ha0
          obtain ⟨t, i, e, hi, a1, a2, a3, a4, a5⟩ := fill_spine_genD hw u hfa (u3 0 hfa)
          refine ⟨t, e, ⟨by rw [a5]; exact u1, fun x => ?_, fun x hx => ?_, fun _ => ⟨i, hi, a1⟩,
            fun x hx hf => ?_⟩, a2, fun b hb => ?_⟩
          · by_cases hx0 : x = 0
            · subst hx0; rw [a3]; exact u2 0
            · rw [a4 x hx0]; exact u2 x
          · have hx0 : x ≠ 0 := fun e0 => by rw [e0, a2] at hx; exact absurd hx (by simp)
            rw [a4 x hx0] at hx ⊢
            exact u3 x hx
          · have hx0 : x ≠ 0 := by rcases hx with rfl | rfl | rfl <;> decide
            rw [a4 x hx0] at hf ⊢
            exact u5 x hx hf
          · show (t.node b).ch_found = true
            by_cases hb0 : b = 0
            · subst hb0; exact a2
            · rw [a4 b hb0]; exact hb
        · have hx : a = 1 ∨ a = 2 ∨ a = 3 := by omega
          obtain ⟨t, e, a1, a2, a3, a4, a5, a6⟩ := fill_line_genD hw a hx u hfa
          refine ⟨t, e, ⟨by rw [a6]; exact u1, fun x => ?_, fun x hx1 => ?_, fun hf => ?_,
            fun x hx1 hf => ?_⟩, a3, fun b hb => ?_⟩
          · by_cases hxa : x = a
            · subst hxa; rw [a4]; exact u2 x
            · rw [a5 x hxa]; exact u2 x
          · have hxa : x ≠ a := fun e0 => by rw [e0, a3] at hx1; exact absurd hx1 (by simp)
            rw [a5 x hxa] at hx1 ⊢
            exact u3 x hx1
          · rw [a5 0 (Ne.symm ha0)] at hf ⊢
            exact u4 hf
          · by_cases hxa : x = a
            · subst hxa; exact ⟨a1, a2⟩
            · rw [a5 x hxa] at hf ⊢
              exact u5 x hx1 hf
          · show (t.node b).ch_found = true
            by_cases hba : b = a
            · subst hba; exact a3
            · rw [a5 b hba]; exact hb)
    [] { St.init with nchassis := 0 }
    ⟨rfl, fun _ => rfl, fun _ _ => rfl, fun h => absurd h (by simp [St.init, NodeSt.zero]),
      fun x _ h => absurd h (by simp [St.init, NodeSt.zero])⟩
    (fun _ hb => absurd hb (List.not_mem_nil _))
  have f0 := qt 0 ((hl 0).mpr (by decide))
  obtain ⟨i, hi, hsl⟩ := i4 f0
  refine ⟨t, i, h, hi, i1, hsl, f0, i2 0, fun x hx => ?_⟩
  have fx := qt x ((hl x).mpr (by rcases hx with rfl | rfl | rfl <;> decide))
  exact ⟨(i5 x hx fx).1, (i5 x hx fx).2, fx⟩

/-- The second pass on the scenario, with the nodes visited in any order in which the
spine occurs once. -/
theorem build_list_genD {p q : Nat → Nat} (hw : genD_wired p q) (l : List NodeId)
    (hl0 : 0 ∈ l) (hnd : l.Nodup) (s1 : St) (sl : Nat)
    (h1 : 1 ≤ sl) (h2 : sl ≤ 4) (hn : s1.nchassis = 0)
    (h0 : (s1.node 0).ch_slotnum = sl ∧ (s1.node 0).ch_found = true ∧
      (s1.node 0).chassis = none)
    (hx : ∀ x, (x = 1 ∨ x = 2 ∨ x = 3) →
      (s1.node x).ch_slotnum = line_slot_2_sfb4.getD (p x) 0 ∧
      (s1.node x).ch_anafanum = anafa_line_slot_2_sfb4.getD (p x) 0 ∧
      (s1.node x).ch_found = true) :
    ∃ t, loopE (build_step stdConfig (genD p q)) l (s1, 0) = .ok (t, 1) ∧ GenDState p sl t ∧
      GenDFull p t := by
  obtain ⟨t, e, g, f⟩ := build_chassis_genD hw
    ((add_chassis s1).modChassis (current_chassis (add_chassis s1))
      fun c => { c with chassisnum := 0 + 1 }) h1 h2
    (by simp [St.modChassis, add_chassis, hn])
    (by simp [St.modChassis, add_chassis, current_chassis, hn, Chassis.zero])
    (fun j => by simp [St.modChassis, add_chassis, current_chassis, hn, Chassis.zero])
    (fun j => by simp [St.modChassis, add_chassis, current_chassis, hn, Chassis.zero])
    ⟨h0.1, h0.2.1⟩ hx
  have step0 : build_step stdConfig (genD p q) (s1, 0) 0 = .ok (t, 0 + 1) :=
    build_step_eq (genD_kinds p q 0).1 h0.2.1 h0.2.2
      ((genD_kinds p q 0).2.2.2.2.2.2.2.2.1.trans (decide_eq_true rfl)) hn e
  have stepx : ∀ (sc : St × Nat) (x : Nat), x ≠ 0 →
      build_step stdConfig (genD p q) sc x = .ok sc := fun sc x hx0 =>
    build_step_skip sc ((genD_kinds p q x).2.2.2.2.2.2.2.2.1.trans (decide_eq_false hx0))
  obtain ⟨A, B, rfl⟩ := List.append_of_mem hl0
  have hA : ∀ x, x ∈ A → x ≠ 0 := fun x hxA e0 =>
    (List.disjoint_of_nodup_append hnd) (e0 ▸ hxA) (List.mem_cons_self _ _)
  have hB : ∀ x, x ∈ B → x ≠ 0 := fun x hxB e0 =>
    (List.nodup_cons.mp (List.nodup_append.mp hnd).2.1).1 (e0 ▸ hxB)
  refine ⟨t, ?_, g, f⟩
  rw [loopE_append, loopE_fix _ _ A (fun x hxA => stepx _ x (hA x hxA))]
  exact (loopE_cons_ok B step0).trans (loopE_fix _ _ B (fun x hxB => stepx _ x (hB x hxB)))

/-- The last two passes change nothing on the scenario in any layout and return on
a step budget of `maxhops_discovered + 2`. -/
theorem guid_passes_laid (p q : Nat → Nat) (nd : Nat → List NodeId) (mh : Nat)
    (hm : mh < 63) (sc : St × Nat) :
    guid_passes stdConfig (genD_laid p q nd mh) (mh + 2) sc = .ok sc.1 := by
  have hv : ∀ x, ((genD_laid p q nd mh).node x).vendid = stdConfig.VTR_VENDOR_ID :=
    fun x => (genD_kinds p q x).1
  have hc : loopE (count_step stdConfig (genD_laid p q nd mh))
      (counted_nodes (genD_laid p q nd mh)) sc.1 = .ok sc.1 := by
    apply loopE_fix
    intro x _
    unfold count_step
    rw [if_pos (hv x)]
  have hp : ∀ l, loopE (promote_step stdConfig (genD_laid p q nd mh)) l (sc.1, sc.2) =
      .ok (sc.1, sc.2) := by
    intro l
    apply loopE_fix
    intro x _
    unfold promote_step
    rw [if_pos (hv x)]
  unfold guid_passes
  rw [for_nodes_eq _ _ _ _ (show (genD_laid p q nd mh).maxhops_discovered ≤ stdConfig.MAXHOPS by
    show mh ≤ 63; omega), hc]
  simp only []
  rw [promote_loop_eq stdConfig (genD_laid p q nd mh) (show mh < 63 from hm) (mh + 2) 0 _
    (Nat.zero_le _) (show mh - 0 + 2 ≤ mh + 2 by omega), hp]

/-- C12. Generation-D scenario: on the fabric of four Voltaire nodes in which the
ports `p 1`, `p 2`, `p 3` of an sFB-2004 spine, with pairwise distinct flat line
indices under `line_slot_2_sfb4` and `anafa_line_slot_2_sfb4`, are linked in both
directions with the ports `q 1`, `q 2`, `q 3` (in `1..12`) of three line boards, the
four nodes standing in the buckets `0..maxhops_discovered` in any order,
`group_nodes` returns a list of exactly one chassis, with chassis number 1, in which
exactly one spine slot is occupied, by the spine, and exactly three line slots are
occupied, by the three line boards, each at the index `3 * (slot - 1) + subchip` of
its slot number and sub-chip number. -/
theorem group_nodes_scenarioD (p q : Nat → Nat) (nd : Nat → List NodeId) (mh : Nat)
    (hw : genD_wired p q) (hl : genD_layout (genD_laid p q nd mh)) :
    ∃ sf i, group_nodes stdConfig (genD_laid p q nd mh) (mh + 2) St.init = .ok sf ∧
      (i = 1 ∨ i = 2 ∨ i = 3) ∧
      sf.nchassis = 1 ∧ (sf.chassis 0).chassisnum = 1 ∧
      (∀ j, (sf.chassis 0).spinenode j =
        if j = spine4_slot_2_slb.getD (q i) 0 then some 0 else none) ∧
      (∀ j, (sf.chassis 0).linenode j =
        if j = line_flat (p 1) then some 1 else if j = line_flat (p 2) then some 2
        else if j = line_flat (p 3) then some 3 else none) ∧
      (∀ x, (x = 1 ∨ x = 2 ∨ x = 3) →
        line_flat (p x) = 3 * ((sf.node x).ch_slotnum - 1) + (sf.node x).ch_anafanum) := by
  obtain ⟨hm, hperm⟩ := hl
  have hm : mh < 63 := hm
  have hmem : ∀ x : Nat, x ∈ counted_nodes (genD_laid p q nd mh) ↔ x ≤ 3 := by
    intro x
    rw [hperm.mem_iff]
    constructor
    · intro h
      simp only [List.mem_cons, List.mem_singleton, List.not_mem_nil, or_false] at h
      rcases h with rfl | rfl | rfl | rfl <;> decide
    · intro h
      interval_cases x <;> decide
  have hnd : (counted_nodes (genD_laid p q nd mh)).Nodup := hperm.nodup_iff.mpr (by decide)
  have hle : (genD_laid p q nd mh).maxhops_discovered ≤ stdConfig.MAXHOPS := by
    show mh ≤ 63; omega
  have ht : tag_step stdConfig (genD_laid p q nd mh) = tag_step stdConfig (genD p q) :=
    tag_step_laid stdConfig (genD p q) nd mh
  have hb : build_step stdConfig (genD_laid p q nd mh) = build_step stdConfig (genD p q) :=
    build_step_laid stdConfig (genD p q) nd mh
  obtain ⟨s1, i, e1, hi, n1, a1, a2, a3, a4⟩ := tag_list_genD hw _ hmem
  have hq : 1 ≤ q i ∧ q i ≤ 12 := by
    obtain ⟨-, ⟨b1, b2, b3, b4, b5, b6⟩, -⟩ := hw
    rcases hi with rfl | rfl | rfl <;> omega
  obtain ⟨-, -, r1, r2⟩ := spine_flat_range hq.1 hq.2
  obtain ⟨t, e2, g2, f2⟩ := build_list_genD hw _ ((hmem 0).mpr (by omega)) hnd s1 _ r1 r2 n1
    ⟨a1, a2, a3⟩ a4
  refine ⟨t, i, ?_, hi, g2.1, g2.2.1, g2.2.2.1, fun j => ?_, fun x hx => ?_⟩
  · have p1 : for_nodes stdConfig (genD_laid p q nd mh) (tag_step stdConfig (genD_laid p q nd mh))
        { St.init with nchassis := 0 } = .ok s1 := by
      rw [for_nodes_eq _ _ _ _ hle, ht]; exact e1
    have p2 : for_nodes stdConfig (genD_laid p q nd mh)
        (build_step stdConfig (genD_laid p q nd mh)) (s1, 0) = .ok (t, 1) := by
      rw [for_nodes_eq _ _ _ _ hle, hb]; exact e2
    exact group_nodes_eq p1 p2 (guid_passes_laid p q nd mh hm (t, 1))
  · by_cases h1 : j = line_flat (p 1)
    · rw [if_pos h1, h1]; exact f2 1 (Or.inl rfl)
    · by_cases h2 : j = line_flat (p 2)
      · rw [if_neg h1, if_pos h2, h2]; exact f2 2 (Or.inr (Or.inl rfl))
      · by_cases h3 : j = line_flat (p 3)
        · rw [if_neg h1, if_neg h2, if_pos h3, h3]; exact f2 3 (Or.inr (Or.inr rfl))
        · rw [if_neg h1, if_neg h2, if_neg h3]
          cases hl : (t.chassis 0).linenode j with
          | none => rfl
          | some y =>
            obtain ⟨hy, e⟩ := g2.2.2.2.2.2.2 j y hl
            rcases hy with rfl | rfl | rfl
            · exact absurd e h1
            · exact absurd e h2
            · exact absurd e h3
  · obtain ⟨b1, b2, -⟩ := g2.2.2.2.2.2.1 x hx
    rw [b1, b2]
    rfl

theorem group_nodes_scenarioD_witness :
    genD_wired (fun i => 3 * i - 2) (fun _ => 1) ∧
    genD_layout (genD_laid (fun i => 3 * i - 2) (fun _ => 1)
      (fun d => if d = 0 then [0] else if d = 1 then [3, 2, 1] else []) 1) ∧
    (line_flat 1 = 1 ∧ line_flat 4 = 2 ∧ line_flat 7 = 4 ∧ spine4_slot_2_slb.getD 1 0 = 1) ∧
    ∃ sf i, group_nodes stdConfig (genD_laid (fun i => 3 * i - 2) (fun _ => 1)
        (fun d => if d = 0 then [0] else if d = 1 then [3, 2, 1] else []) 1) (1 + 2) St.init =
          .ok sf ∧
      (i = 1 ∨ i = 2 ∨ i = 3) ∧
      sf.nchassis = 1 ∧ (sf.chassis 0).chassisnum = 1 ∧
      (∀ j, (sf.chassis 0).spinenode j =
        if j = spine4_slot_2_slb.getD ((fun _ => 1) i) 0 then some 0 else none) ∧
      (∀ j, (sf.chassis 0).linenode j =
        if j = line_flat ((fun i => 3 * i - 2) 1) then some 1
        else if j = line_flat ((fun i => 3 * i - 2) 2) then some 2
        else if j = line_flat ((fun i => 3 * i - 2) 3) then some 3 else none) ∧
      (∀ x, (x = 1 ∨ x = 2 ∨ x = 3) →
        line_flat ((fun i => 3 * i - 2) x) =
          3 * ((sf.node x).ch_slotnum - 1) + (sf.node x).ch_anafanum) :=
  ⟨by decide, by decide, by decide,
    group_nodes_scenarioD (fun i => 3 * i - 2) (fun _ => 1)
      (fun d => if d = 0 then [0] else if d = 1 then [3, 2, 1] else []) 1 (by decide)
      (by decide)⟩

end Ibnd
